import Mathlib

/-!
# QPU: memory-layout planner, stager, linker and task orchestrator

A shallow embedding of `gpu.c` (with the parts of `types.h`, `mbox.h`, `mem.c`
and `main.c` it relies on) and theorems about it.

Conventions of the embedding.

* `u32` values are natural numbers; every C operation on `u32`/`uaddr` that can
  wrap is followed by `u32`, reduction modulo `2^32`.
* The process-wide struct `G` is an explicit value passed to and returned from
  every operation.
* The mapped region is a function from byte offsets (relative to `G.mem.virt`)
  to byte values; 32-bit words are little-endian.
* The firmware channel, the mapping primitive and the file system are an
  oracle `World`; every request is appended to a log and the oracle may answer
  depending on the log so far.
* `assert` is checked: a failing assertion ends the run with `Run.abort`.
-/

namespace QPU

/-! ## Machine integers and results (`types.h`) -/

/-- Reduction of a natural number to the range of a C `u32`. -/
def u32 (n : Nat) : Nat := n % 4294967296

/-- The `result` enumeration of `types.h`. -/
inductive result where
  | SUCCESS
  | FAILURE
  | ABORT
deriving DecidableEq

/-- The option block `opt` of `types.h`. -/
structure opt where
  dry : Bool := false
  dump0 : Bool := false
  dump1 : Bool := false
  executing : Bool := false
  isatty : Bool := false
  mctr0 : Bool := false
  mctr1 : Bool := false
  mdebug : Bool := false
  mtime : Bool := false
  verbose : Bool := false
  timeout_s : Nat := 0
deriving DecidableEq

/-! ## Data model (`gpu.c`, lines 34-101) -/

/-- The constant `MAX_TASKS`. -/
def MAX_TASKS : Nat := 12

/-- The value of `sizeof(control)`: `MAX_TASKS` entries of two `uaddr`. -/
def sizeof_control : Nat := 96

/-- The struct `gpu_file`. -/
structure gpu_file where
  active : Bool := false
  fd : Nat := 0
  size : Nat := 0
  offset : Nat := 0
deriving DecidableEq, Inhabited

/-- The struct `gpu_buf`. -/
structure gpu_buf where
  active : Bool := false
  size : Nat := 0
  offset : Nat := 0
deriving DecidableEq, Inhabited

/-- The member `flags` of `gpu_mem`. -/
structure mem_flags where
  alloc : Bool := false
  lock : Bool := false
  map : Bool := false
deriving DecidableEq, Inhabited

/-- The struct `gpu_mem`. -/
structure gpu_mem where
  flags : mem_flags := {}
  bus : Nat := 0
  virt : Nat := 0
  refct : Int := 0
  handle : Nat := 0
  alloc_sz : Nat := 0
  data_sz : Nat := 0
  used_sz : Nat := 0
deriving DecidableEq, Inhabited

/-- The member `glob` of the globals: the shared resource set. -/
structure glob_set where
  unif : gpu_file := {}
  rbuf : gpu_file := {}
  wbuf : gpu_buf := {}
deriving DecidableEq, Inhabited

/-- One element of the array `task` of the globals. -/
structure task_slot where
  inst : gpu_file := {}
  unif : gpu_file := {}
  rbuf : gpu_file := {}
  wbuf : gpu_buf := {}
deriving DecidableEq, Inhabited

/-- The globals `G` of `gpu.c`. The array `task[MAX_TASKS]` is a list; a state
of the program has `task.length = MAX_TASKS`. -/
structure G where
  page_sz : Nat := 0
  timeout_ms : Nat := 0
  ntasks : Nat := 0
  mem : gpu_mem := {}
  glob : glob_set := {}
  task : List task_slot := List.replicate 12 {}
deriving DecidableEq, Inhabited

/-- Read of `G.task[i]`. -/
def G.slot (g : G) (i : Nat) : task_slot := g.task.getD i default

/-- Write of `G.task[i]`. -/
def G.setSlot (g : G) (i : Nat) (t : task_slot) : G := { g with task := g.task.set i t }

/-- The constant `C.addr_mask`, that is `~0xc0000000`. -/
def C_addr_mask : Nat := 0x3fffffff

/-- The constant `C.timeout_ms`. -/
def C_timeout_ms : Nat := 10 * 1000

/-! ## Planner: `mem_size` (`gpu.c`, lines 222-254) -/

/-- One `if (x.active) total += x.size;` statement. -/
def add_if (active : Bool) (size : Nat) (total : Nat) : Nat :=
  if active then u32 (total + size) else total

/-- Body of the loop over tasks in `mem_size`. -/
def mem_size_task (g : G) (total : Nat) (i : Nat) : Nat :=
  let total := add_if (g.slot i).inst.active (g.slot i).inst.size total
  let total := add_if (g.slot i).unif.active (g.slot i).unif.size total
  let total := add_if (g.slot i).rbuf.active (g.slot i).rbuf.size total
  add_if (g.slot i).wbuf.active (g.slot i).wbuf.size total

/-- The function `mem_size`. -/
def mem_size (g : G) : Nat :=
  let total := 0
  let total := u32 (total + sizeof_control)
  let total := add_if g.glob.unif.active g.glob.unif.size total
  let total := add_if g.glob.rbuf.active g.glob.rbuf.size total
  let total := add_if g.glob.wbuf.active g.glob.wbuf.size total
  (List.range g.ntasks).foldl (mem_size_task g) total

/-- Declared size of a resource when active, else zero. -/
def act (active : Bool) (size : Nat) : Nat := if active then size else 0

/-- Sum over the task slots `i < n` of the declared sizes of the active
instructions, uniforms, read buffer and write buffer. -/
def tasks_total (g : G) : Nat → Nat
  | 0 => 0
  | n + 1 => tasks_total g n
      + (act (g.slot n).inst.active (g.slot n).inst.size
        + act (g.slot n).unif.active (g.slot n).unif.size
        + act (g.slot n).rbuf.active (g.slot n).rbuf.size
        + act (g.slot n).wbuf.active (g.slot n).wbuf.size)

/-- The region size as the specification words it: the size of the control
block plus the declared size of every active resource, as a natural number. -/
def plan_total (g : G) : Nat :=
  sizeof_control
    + act g.glob.unif.active g.glob.unif.size
    + act g.glob.rbuf.active g.glob.rbuf.size
    + act g.glob.wbuf.active g.glob.wbuf.size
    + tasks_total g g.ntasks

/-! ## Outcomes, requests and the environment -/

/-- Outcome of running a function of `gpu.c`: it returns a value, or an
`assert` fails and the process is aborted, or the iteration budget given to a
loop is used up before the loop condition becomes false. -/
inductive Run (α : Type) where
  | done (a : α)
  | abort
  | spin

/-- The value a run returned, if it returned. -/
def Run.get? {α : Type} : Run α → Option α
  | Run.done a => some a
  | Run.abort => none
  | Run.spin => none

/-- A request made to a collaborator of `gpu.c`: the firmware channel
(`mbox.h`), the mapping primitive (`mem.c`), the file system, the register
diagnostics (`reg.h`) and the standard output. Addresses inside the region are
recorded as offsets from `G.mem.virt`. -/
inductive Call where
  | mbox_alloc (size align : Nat)
  | mbox_lock (handle : Nat)
  | mem_map (phys size : Nat)
  | mem_unmap (virt size : Nat)
  | mbox_unlock (handle : Nat)
  | mbox_free (handle : Nat)
  | lseek (fd : Nat)
  | read (fd dst size : Nat)
  | dup (fd : Nat)
  | close (fd : Nat)
  | mbox_enable
  | mbox_exec_qpu (ntasks control : Nat) (noflush : Bool) (timeout_ms : Nat)
  | mbox_disable
  | print_mem (off size : Nat)
  | reg_debug_before
  | reg_init_pctr
  | reg_perf_before
  | clock_gettime
  | reg_perf_after
  | reg_debug_after
  | reg_debug_print
  | reg_perf_print
  | print_time
deriving DecidableEq

/-- The environment. Every oracle is asked with the log of all requests made so
far, the current one last, so its answer may depend on the arguments and on
the history. `none`/`false` is the failure answer of the collaborator. -/
structure World where
  mbox_alloc : List Call → Option Nat
  mbox_lock : List Call → Option Nat
  mem_map : List Call → Option Nat
  mem_unmap : List Call → Bool
  mbox_unlock : List Call → Bool
  mbox_free : List Call → Bool
  lseek : List Call → Bool
  read : List Call → Option (List Nat)
  dup : List Call → Option Nat
  close : List Call → Bool
  mbox_enable : List Call → Bool
  mbox_exec_qpu : List Call → Bool
  gpu_ram : List Call → (Nat → Nat) → (Nat → Nat)
  mbox_disable : List Call → Bool

/-- The state the functions of `gpu.c` act on: the globals, the bytes of the
mapped region and the log of requests. -/
structure St where
  g : G
  ram : Nat → Nat
  log : List Call

/-! ## Region memory -/

/-- Little-endian read of the 32-bit word at byte offset `a`. -/
def load32 (m : Nat → Nat) (a : Nat) : Nat :=
  m a % 256 + 256 * (m (a + 1) % 256) + 65536 * (m (a + 2) % 256)
    + 16777216 * (m (a + 3) % 256)

/-- Little-endian write of the 32-bit word `v` at byte offset `a`. -/
def store32 (m : Nat → Nat) (a v : Nat) : Nat → Nat := fun x =>
  if x = a then v % 256
  else if x = a + 1 then v / 256 % 256
  else if x = a + 2 then v / 65536 % 256
  else if x = a + 3 then v / 16777216 % 256
  else m x

/-- Write of the bytes `bs` at consecutive offsets from `a`. -/
def write_bytes (m : Nat → Nat) (a : Nat) (bs : List Nat) : Nat → Nat := fun x =>
  if a ≤ x ∧ x < a + bs.length then bs.getD (x - a) 0 % 256 else m x

/-! ## Resource handle: `mem_free`, `mem_alloc` (`gpu.c`, lines 34, 142-220) -/

/-- The macro `ROUNDUP(from, to)`, evaluated in `u32`. -/
def ROUNDUP (from_ to_ : Nat) : Nat :=
  u32 (u32 (u32 (to_ + from_) + 4294967295) / to_ * to_)

/-- The block `if (mem->flags.map) { ... }` of `mem_free`. -/
def mem_free_map (w : World) (mem : gpu_mem) (log : List Call) :
    result × gpu_mem × List Call :=
  if mem.flags.map then
    let log := log ++ [Call.mem_unmap mem.virt mem.alloc_sz]
    if w.mem_unmap log then
      (result.SUCCESS, { mem with flags := { mem.flags with map := false } }, log)
    else (result.FAILURE, mem, log)
  else (result.SUCCESS, mem, log)

/-- The block `if (mem->flags.lock) { ... }` of `mem_free`. -/
def mem_free_lock (w : World) (mem : gpu_mem) (log : List Call) :
    result × gpu_mem × List Call :=
  if mem.flags.lock then
    let log := log ++ [Call.mbox_unlock mem.handle]
    if w.mbox_unlock log then
      (result.SUCCESS, { mem with flags := { mem.flags with lock := false } }, log)
    else (result.FAILURE, mem, log)
  else (result.SUCCESS, mem, log)

/-- The block `if (mem->flags.alloc) { ... }` of `mem_free`. -/
def mem_free_alloc (w : World) (mem : gpu_mem) (log : List Call) :
    result × gpu_mem × List Call :=
  if mem.flags.alloc then
    let log := log ++ [Call.mbox_free mem.handle]
    if w.mbox_free log then
      (result.SUCCESS, { mem with flags := { mem.flags with alloc := false } }, log)
    else (result.FAILURE, mem, log)
  else (result.SUCCESS, mem, log)

/-- The function `mem_free`. -/
def mem_free (w : World) (mem : gpu_mem) (log : List Call) :
    Run (result × gpu_mem × List Call) :=
  if mem.refct ≤ 0 then Run.abort
  else
    let mem := { mem with refct := mem.refct - 1 }
    if mem.refct > 0 then Run.done (result.SUCCESS, mem, log)
    else
      let a := mem_free_map w mem log
      if a.1 = result.SUCCESS then
        let b := mem_free_lock w a.2.1 a.2.2
        if b.1 = result.SUCCESS then Run.done (mem_free_alloc w b.2.1 b.2.2)
        else Run.done (result.FAILURE, b.2)
      else Run.done (result.FAILURE, a.2)

/-- The label `error:` of `mem_alloc`: release what was acquired, return
`FAILURE` whatever the release returned. -/
def mem_alloc_error (w : World) (mem : gpu_mem) (log : List Call) :
    Run (result × gpu_mem × List Call) :=
  match mem_free w mem log with
  | Run.done (_, mem, log) => Run.done (result.FAILURE, mem, log)
  | Run.abort => Run.abort
  | Run.spin => Run.spin

/-- The function `mem_alloc`; `page_sz` is `G.page_sz`. -/
def mem_alloc (w : World) (page_sz : Nat) (mem : gpu_mem) (size : Nat) (log : List Call) :
    Run (result × gpu_mem × List Call) :=
  if mem.flags.alloc ∨ mem.flags.lock ∨ mem.flags.map then Run.abort
  else
    let mem : gpu_mem := { refct := 1, alloc_sz := ROUNDUP size page_sz, data_sz := size }
    let log := log ++ [Call.mbox_alloc mem.alloc_sz page_sz]
    match w.mbox_alloc log with
    | none => mem_alloc_error w mem log
    | some handle =>
      let mem := { mem with handle := u32 handle, flags := { mem.flags with alloc := true } }
      let log := log ++ [Call.mbox_lock mem.handle]
      match w.mbox_lock log with
      | none => mem_alloc_error w mem log
      | some bus =>
        let mem := { mem with bus := u32 bus, flags := { mem.flags with lock := true } }
        let log := log ++ [Call.mem_map (mem.bus &&& C_addr_mask) mem.alloc_sz]
        match w.mem_map log with
        | none => mem_alloc_error w mem log
        | some virt =>
          Run.done (result.SUCCESS,
            { mem with virt := u32 virt, flags := { mem.flags with map := true } }, log)

/-! ## Sequencing -/

/-- Append a request to the log. -/
def St.emit (s : St) (c : Call) : St := { s with log := s.log ++ [c] }

/-- The idiom `r = f(); if (r != SUCCESS) { return FAILURE; }` followed by the
rest `k` of the function. -/
def Run.andThen {σ : Type} (x : Run (result × σ)) (k : σ → Run (result × σ)) :
    Run (result × σ) :=
  match x with
  | Run.done (result.SUCCESS, s) => k s
  | Run.done (_, s) => Run.done (result.FAILURE, s)
  | Run.abort => Run.abort
  | Run.spin => Run.spin

/-- A loop over task indices whose body returns `FAILURE` from the enclosing
function as soon as one step does not succeed. -/
def for_tasks (body : Nat → St → Run (result × St)) : List Nat → St → Run (result × St)
  | [], s => Run.done (result.SUCCESS, s)
  | i :: rest, s => (body i s).andThen (for_tasks body rest)

/-! ## Stager: `init_file`, `init_buf`, `init_mem` (`gpu.c`, lines 327-461) -/

/-- The function `init_file`. The bytes the file system delivers are written at
the cursor; a short read is accepted, as in the source. -/
def init_file (w : World) (mem : gpu_mem) (file : gpu_file) (ram : Nat → Nat)
    (log : List Call) : Run (result × gpu_mem × gpu_file × (Nat → Nat) × List Call) :=
  if u32 (mem.data_sz + 4294967296 - mem.used_sz) < file.size then Run.abort
  else
    let log := log ++ [Call.lseek file.fd]
    if w.lseek log then
      let log := log ++ [Call.read file.fd mem.used_sz file.size]
      match w.read log with
      | none => Run.done (result.FAILURE, mem, file, ram, log)
      | some bytes =>
        Run.done (result.SUCCESS,
          { mem with used_sz := u32 (mem.used_sz + file.size) },
          { file with offset := mem.used_sz },
          write_bytes ram mem.used_sz (bytes.take file.size), log)
    else Run.done (result.FAILURE, mem, file, ram, log)

/-- The function `init_buf`. -/
def init_buf (mem : gpu_mem) (buf : gpu_buf) : Run (result × gpu_mem × gpu_buf) :=
  if u32 (mem.data_sz + 4294967296 - mem.used_sz) < buf.size then Run.abort
  else
    Run.done (result.SUCCESS,
      { mem with used_sz := u32 (mem.used_sz + buf.size) },
      { buf with offset := mem.used_sz })

/-- The statement `if (G.task[i].inst.active) { r = init_file(&G.mem, &G.task[i].inst); }`. -/
def stage_task_inst (w : World) (i : Nat) (s : St) : Run (result × St) :=
  if (s.g.slot i).inst.active then
    match init_file w s.g.mem (s.g.slot i).inst s.ram s.log with
    | Run.done (r, mem, file, ram, log) =>
      Run.done (r, { g := ({ s.g with mem := mem }).setSlot i { s.g.slot i with inst := file },
                     ram := ram, log := log })
    | Run.abort => Run.abort
    | Run.spin => Run.spin
  else Run.done (result.SUCCESS, s)

/-- The statement `if (G.task[i].unif.active) { r = init_file(&G.mem, &G.task[i].unif); }`. -/
def stage_task_unif (w : World) (i : Nat) (s : St) : Run (result × St) :=
  if (s.g.slot i).unif.active then
    match init_file w s.g.mem (s.g.slot i).unif s.ram s.log with
    | Run.done (r, mem, file, ram, log) =>
      Run.done (r, { g := ({ s.g with mem := mem }).setSlot i { s.g.slot i with unif := file },
                     ram := ram, log := log })
    | Run.abort => Run.abort
    | Run.spin => Run.spin
  else Run.done (result.SUCCESS, s)

/-- The statement `if (G.task[i].rbuf.active) { r = init_file(&G.mem, &G.task[i].rbuf); }`. -/
def stage_task_rbuf (w : World) (i : Nat) (s : St) : Run (result × St) :=
  if (s.g.slot i).rbuf.active then
    match init_file w s.g.mem (s.g.slot i).rbuf s.ram s.log with
    | Run.done (r, mem, file, ram, log) =>
      Run.done (r, { g := ({ s.g with mem := mem }).setSlot i { s.g.slot i with rbuf := file },
                     ram := ram, log := log })
    | Run.abort => Run.abort
    | Run.spin => Run.spin
  else Run.done (result.SUCCESS, s)

/-- The statement `if (G.task[i].wbuf.active) { r = init_buf(&G.mem, &G.task[i].wbuf); }`. -/
def stage_task_wbuf (i : Nat) (s : St) : Run (result × St) :=
  if (s.g.slot i).wbuf.active then
    match init_buf s.g.mem (s.g.slot i).wbuf with
    | Run.done (r, mem, buf) =>
      Run.done (r, { s with g := ({ s.g with mem := mem }).setSlot i { s.g.slot i with wbuf := buf } })
    | Run.abort => Run.abort
    | Run.spin => Run.spin
  else Run.done (result.SUCCESS, s)

/-- The statement `if (G.glob.unif.active) { r = init_file(&G.mem, &G.glob.unif); }`. -/
def stage_glob_unif (w : World) (s : St) : Run (result × St) :=
  if s.g.glob.unif.active then
    match init_file w s.g.mem s.g.glob.unif s.ram s.log with
    | Run.done (r, mem, file, ram, log) =>
      Run.done (r, { g := { s.g with mem := mem, glob := { s.g.glob with unif := file } },
                     ram := ram, log := log })
    | Run.abort => Run.abort
    | Run.spin => Run.spin
  else Run.done (result.SUCCESS, s)

/-- The statement `if (G.glob.rbuf.active) { r = init_file(&G.mem, &G.glob.rbuf); }`. -/
def stage_glob_rbuf (w : World) (s : St) : Run (result × St) :=
  if s.g.glob.rbuf.active then
    match init_file w s.g.mem s.g.glob.rbuf s.ram s.log with
    | Run.done (r, mem, file, ram, log) =>
      Run.done (r, { g := { s.g with mem := mem, glob := { s.g.glob with rbuf := file } },
                     ram := ram, log := log })
    | Run.abort => Run.abort
    | Run.spin => Run.spin
  else Run.done (result.SUCCESS, s)

/-- The statement `if (G.glob.wbuf.active) { r = init_buf(&G.mem, &G.glob.wbuf); }`. -/
def stage_glob_wbuf (s : St) : Run (result × St) :=
  if s.g.glob.wbuf.active then
    match init_buf s.g.mem s.g.glob.wbuf with
    | Run.done (r, mem, buf) =>
      Run.done (r, { s with g := { s.g with mem := mem, glob := { s.g.glob with wbuf := buf } } })
    | Run.abort => Run.abort
    | Run.spin => Run.spin
  else Run.done (result.SUCCESS, s)

/-- The staging part of `init_mem` (lines 375-438): instructions, uniforms,
read buffers, write buffers, each group global first, then in task order. -/
def stage_all (w : World) (s : St) : Run (result × St) :=
  let tasks := List.range s.g.ntasks
  (((((((for_tasks (stage_task_inst w) tasks s).andThen
    (stage_glob_unif w)).andThen
    (for_tasks (stage_task_unif w) tasks)).andThen
    (stage_glob_rbuf w)).andThen
    (for_tasks (stage_task_rbuf w) tasks)).andThen
    stage_glob_wbuf).andThen
    (for_tasks stage_task_wbuf tasks))

/-- The values the control loop of `init_mem` (lines 442-451) gives entry `i`
of the zero-initialised `cntl`: the pair `(unif, inst)`. -/
def control_entry (g : G) (i : Nat) : Nat × Nat :=
  (if (g.slot i).unif.active then u32 (g.mem.bus + (g.slot i).unif.offset)
   else if g.glob.unif.active then u32 (g.mem.bus + g.glob.unif.offset)
   else 0,
   if (g.slot i).inst.active then u32 (g.mem.bus + (g.slot i).inst.offset) else 0)

/-- The local `cntl` of `init_mem` after the control loop. -/
def control_block (g : G) : List (Nat × Nat) :=
  (List.range g.ntasks).foldl (fun cntl i => cntl.set i (control_entry g i))
    (List.replicate 12 (0, 0))

/-- The statement `memcpy((void *)G.mem.virt, (void *)&cntl, sizeof(cntl))`. -/
def memcpy_control (ram : Nat → Nat) (cntl : List (Nat × Nat)) : Nat → Nat :=
  (List.range 12).foldl
    (fun m i => store32 (store32 m (8 * i) (cntl.getD i (0, 0)).1) (8 * i + 4)
      (cntl.getD i (0, 0)).2)
    ram

/-- The function `init_mem`. -/
def init_mem (w : World) (s : St) : Run (result × St) :=
  let size := mem_size s.g
  match mem_alloc w s.g.page_sz s.g.mem size s.log with
  | Run.abort => Run.abort
  | Run.spin => Run.spin
  | Run.done (result.SUCCESS, mem, log) =>
    let s : St :=
      { s with g := { s.g with mem := { mem with used_sz := u32 (mem.used_sz + sizeof_control) } },
               log := log }
    match stage_all w s with
    | Run.done (result.SUCCESS, s) =>
      let s := { s with ram := memcpy_control s.ram (control_block s.g) }
      if s.g.mem.used_sz ≠ s.g.mem.data_sz then Run.done (result.FAILURE, s)
      else Run.done (result.SUCCESS, s)
    | r => r
  | Run.done (_, mem, log) =>
    Run.done (result.FAILURE, { s with g := { s.g with mem := mem }, log := log })

/-! ## Linker: `is_link_inst`, `link_mem` (`gpu.c`, lines 463-564) -/

/-- The function `is_link_inst`. -/
def is_link_inst (w : Nat) : Bool :=
  w = 0xe0020827 || w = 0xe0020867 || w = 0xe00208a7 || w = 0xe00208e7
    || w = 0xe0020ca7 || w = 0xe0021ca7 || w = 0xe0020e27 || w = 0xe0020f27

/-- The placeholder constant `GLOB_RBUF`. -/
def GLOB_RBUF : Nat := 0xfffffff1

/-- The placeholder constant `GLOB_WBUF`. -/
def GLOB_WBUF : Nat := 0xfffffff2

/-- The placeholder constant `TASK_RBUF`. -/
def TASK_RBUF : Nat := 0xfffffffa

/-- The placeholder constant `TASK_WBUF`. -/
def TASK_WBUF : Nat := 0xfffffffb

/-- The four locals `glob_rbuf`, `glob_wbuf`, `task_rbuf`, `task_wbuf` of the
loop body of `link_mem`. -/
structure link_flags where
  glob_rbuf : Bool := false
  glob_wbuf : Bool := false
  task_rbuf : Bool := false
  task_wbuf : Bool := false
deriving DecidableEq

/-- Body of the scan loop of `link_mem` for task `i` at word index `j`; `p` is
the offset of the instructions of the task in the region. -/
def link_pair (g : G) (i : Nat) (p : Nat) (j : Nat) (st : (Nat → Nat) × link_flags) :
    (Nat → Nat) × link_flags :=
  if is_link_inst (load32 st.1 (p + 4 * (j + 1))) then
    if load32 st.1 (p + 4 * j) = GLOB_RBUF then
      (store32 st.1 (p + 4 * j) (u32 (g.mem.bus + g.glob.rbuf.offset)),
        { st.2 with glob_rbuf := true })
    else if load32 st.1 (p + 4 * j) = GLOB_WBUF then
      (store32 st.1 (p + 4 * j) (u32 (g.mem.bus + g.glob.wbuf.offset)),
        { st.2 with glob_wbuf := true })
    else if load32 st.1 (p + 4 * j) = TASK_RBUF then
      (store32 st.1 (p + 4 * j) (u32 (g.mem.bus + (g.slot i).rbuf.offset)),
        { st.2 with task_rbuf := true })
    else if load32 st.1 (p + 4 * j) = TASK_WBUF then
      (store32 st.1 (p + 4 * j) (u32 (g.mem.bus + (g.slot i).wbuf.offset)),
        { st.2 with task_wbuf := true })
    else st
  else st

/-- The scan loop `for (u32 j = 0; j < (nwords - 1); j += 2)` of `link_mem`,
entered at `j`, with an iteration budget. Both `nwords - 1` and `j += 2` are
`u32` operations. -/
def link_scan (g : G) (i : Nat) (p nwords : Nat) :
    Nat → Nat → (Nat → Nat) × link_flags → Run ((Nat → Nat) × link_flags)
  | 0, _, _ => Run.spin
  | fuel + 1, j, st =>
    if j < u32 (nwords + 4294967295) then
      link_scan g i p nwords fuel (u32 (j + 2)) (link_pair g i p j st)
    else Run.done st

/-- The four checks that follow the scan loop (lines 536-560): whether task `i`
sets `error`. -/
def link_check (g : G) (i : Nat) (f : link_flags) : Bool :=
  (f.glob_rbuf && !g.glob.rbuf.active)
    || (f.glob_wbuf && !g.glob.wbuf.active)
    || (if f.task_rbuf && !(g.slot i).rbuf.active then true
        else !f.task_rbuf && (g.slot i).rbuf.active)
    || (if f.task_wbuf && !(g.slot i).wbuf.active then true
        else !f.task_wbuf && (g.slot i).wbuf.active)

/-- The loop over tasks of `link_mem`, carrying the region and `error`. -/
def link_tasks (fuel : Nat) (g : G) :
    List Nat → (Nat → Nat) × Bool → Run ((Nat → Nat) × Bool)
  | [], st => Run.done st
  | i :: rest, st =>
    if (g.slot i).inst.active then
      match link_scan g i (g.slot i).inst.offset ((g.slot i).inst.size / 4) fuel 0
          (st.1, {}) with
      | Run.done (ram, f) => link_tasks fuel g rest (ram, st.2 || link_check g i f)
      | Run.abort => Run.abort
      | Run.spin => Run.spin
    else Run.abort

/-- The function `link_mem`; `fuel` is the iteration budget of each scan loop. -/
def link_mem (fuel : Nat) (s : St) : Run (result × St) :=
  match link_tasks fuel s.g (List.range s.g.ntasks) (s.ram, false) with
  | Run.done (ram, error) =>
    Run.done (if error then result.FAILURE else result.SUCCESS, { s with ram := ram })
  | Run.abort => Run.abort
  | Run.spin => Run.spin

/-! ## Dispatch: `gpu_exec_via_mbox` (`gpu.c`, lines 123-140, 566-662) -/

/-- The function `dump_all`. -/
def dump_all (s : St) : St := s.emit (Call.print_mem 0 s.g.mem.data_sz)

/-- The function `dump_wbufs`. -/
def dump_wbufs (s : St) : St :=
  let s :=
    if s.g.glob.wbuf.active then s.emit (Call.print_mem s.g.glob.wbuf.offset s.g.glob.wbuf.size)
    else s
  (List.range s.g.ntasks).foldl
    (fun s i =>
      if (s.g.slot i).wbuf.active then
        s.emit (Call.print_mem (s.g.slot i).wbuf.offset (s.g.slot i).wbuf.size)
      else s)
    s

/-- Emit a request when a condition holds. -/
def St.emitIf (s : St) (b : Bool) (c : Call) : St := if b then s.emit c else s

/-- The diagnostics of `gpu_exec_via_mbox` between `mbox_enable` and
`mbox_exec_qpu` (lines 602-616). -/
def exec_before (o : opt) (s : St) : St :=
  let s := s.emitIf o.mdebug Call.reg_debug_before
  let s := s.emitIf o.mctr0 Call.reg_init_pctr
  let s := s.emitIf (o.mctr0 || o.mctr1) Call.reg_perf_before
  s.emitIf o.mtime Call.clock_gettime

/-- The diagnostics and dumps of `gpu_exec_via_mbox` between `mbox_exec_qpu`
and `mbox_disable` (lines 624-654). -/
def exec_after (o : opt) (s : St) : St :=
  let s := s.emitIf o.mtime Call.clock_gettime
  let s := s.emitIf (o.mctr0 || o.mctr1) Call.reg_perf_after
  let s := s.emitIf o.mdebug Call.reg_debug_after
  let s := if !o.isatty && o.dump1 then dump_all s else s
  let s := if !o.isatty && !o.dump0 && !o.dump1 then dump_wbufs s else s
  let s := s.emitIf o.mdebug Call.reg_debug_print
  let s := s.emitIf (o.mctr0 || o.mctr1) Call.reg_perf_print
  s.emitIf o.mtime Call.print_time

/-- The part of `gpu_exec_via_mbox` after a successful `mbox_enable`
(lines 602-661). The GPU may have written the region when `mbox_exec_qpu`
returns. -/
def exec_enabled (w : World) (o : opt) (timeout : Nat) (s : St) : result × St :=
  let s := exec_before o s
  let s := s.emit (Call.mbox_exec_qpu s.g.ntasks s.g.mem.bus false timeout)
  let error := !w.mbox_exec_qpu s.log
  let s := { s with ram := w.gpu_ram s.log s.ram }
  let s := exec_after o s
  let s := s.emit Call.mbox_disable
  let error := error || !w.mbox_disable s.log
  (if error then result.FAILURE else result.SUCCESS, s)

/-- The part of `gpu_exec_via_mbox` after a successful `link_mem`
(lines 589-661). -/
def exec_linked (w : World) (o : opt) (timeout : Nat) (s : St) : result × St :=
  let s := if !o.isatty && o.dump0 then dump_all s else s
  if o.dry then (result.SUCCESS, s)
  else
    let s := s.emit Call.mbox_enable
    if w.mbox_enable s.log then exec_enabled w o timeout s
    else (result.FAILURE, s)

/-- The function `gpu_exec_via_mbox`. -/
def gpu_exec_via_mbox (w : World) (fuel : Nat) (o : opt) (s : St) : Run (result × St) :=
  let timeout := if s.g.timeout_ms > 0 then s.g.timeout_ms else C_timeout_ms
  if s.g.ntasks = 0 then Run.done (result.SUCCESS, s)
  else
    (init_mem w s).andThen fun s =>
    (link_mem fuel s).andThen fun s =>
    Run.done (exec_linked w o timeout s)

/-! ## Replication: `dup_file`, `dup_buf`, `gpu_replicate` (`gpu.c`, lines 302-325, 664-713) -/

/-- The function `dup_file`. -/
def dup_file (w : World) (dst src : gpu_file) (log : List Call) :
    Run (result × gpu_file × List Call) :=
  if src.active ∧ ¬ dst.active then
    let log := log ++ [Call.dup src.fd]
    match w.dup log with
    | none => Run.done (result.FAILURE, dst, log)
    | some fd => Run.done (result.SUCCESS, { src with fd := u32 fd }, log)
  else Run.abort

/-- The function `dup_buf`. -/
def dup_buf (dst src : gpu_buf) : Run (result × gpu_buf) :=
  if src.active ∧ ¬ dst.active then Run.done (result.SUCCESS, src) else Run.abort

/-- The statement `if (G.task[src].inst.active) { r = dup_file(&G.task[dst].inst, ...); }`. -/
def replicate_inst (w : World) (src dst : Nat) (s : St) : Run (result × St) :=
  if (s.g.slot src).inst.active then
    match dup_file w (s.g.slot dst).inst (s.g.slot src).inst s.log with
    | Run.done (r, file, log) =>
      Run.done (r, { s with g := s.g.setSlot dst { s.g.slot dst with inst := file }, log := log })
    | Run.abort => Run.abort
    | Run.spin => Run.spin
  else Run.done (result.SUCCESS, s)

/-- The statement `if (G.task[src].unif.active) { r = dup_file(&G.task[dst].unif, ...); }`. -/
def replicate_unif (w : World) (src dst : Nat) (s : St) : Run (result × St) :=
  if (s.g.slot src).unif.active then
    match dup_file w (s.g.slot dst).unif (s.g.slot src).unif s.log with
    | Run.done (r, file, log) =>
      Run.done (r, { s with g := s.g.setSlot dst { s.g.slot dst with unif := file }, log := log })
    | Run.abort => Run.abort
    | Run.spin => Run.spin
  else Run.done (result.SUCCESS, s)

/-- The statement `if (G.task[src].rbuf.active) { r = dup_file(&G.task[dst].rbuf, ...); }`. -/
def replicate_rbuf (w : World) (src dst : Nat) (s : St) : Run (result × St) :=
  if (s.g.slot src).rbuf.active then
    match dup_file w (s.g.slot dst).rbuf (s.g.slot src).rbuf s.log with
    | Run.done (r, file, log) =>
      Run.done (r, { s with g := s.g.setSlot dst { s.g.slot dst with rbuf := file }, log := log })
    | Run.abort => Run.abort
    | Run.spin => Run.spin
  else Run.done (result.SUCCESS, s)

/-- The statement `if (G.task[src].wbuf.active) { r = dup_buf(&G.task[dst].wbuf, ...); }`. -/
def replicate_wbuf (src dst : Nat) (s : St) : Run (result × St) :=
  if (s.g.slot src).wbuf.active then
    match dup_buf (s.g.slot dst).wbuf (s.g.slot src).wbuf with
    | Run.done (r, buf) =>
      Run.done (r, { s with g := s.g.setSlot dst { s.g.slot dst with wbuf := buf } })
    | Run.abort => Run.abort
    | Run.spin => Run.spin
  else Run.done (result.SUCCESS, s)

/-- Body of the loop of `gpu_replicate` for the slot `dst`; `ntasks` is
`G.ntasks`, which the loop does not change. -/
def replicate_task (w : World) (ntasks : Nat) (dst : Nat) (s : St) : Run (result × St) :=
  let src := dst % ntasks
  (((replicate_inst w src dst s).andThen
    (replicate_unif w src dst)).andThen
    (replicate_rbuf w src dst)).andThen
    (replicate_wbuf src dst)

/-- The function `gpu_replicate`. The products are `u32` products. -/
def gpu_replicate (w : World) (mult : Nat) (s : St) : Run (result × St) :=
  if mult ≤ 1 ∨ s.g.ntasks = 0 then Run.done (result.FAILURE, s)
  else if u32 (mult * s.g.ntasks) > MAX_TASKS then Run.done (result.FAILURE, s)
  else
    match for_tasks (replicate_task w s.g.ntasks)
        (List.range' s.g.ntasks (u32 (mult * s.g.ntasks) - s.g.ntasks)) s with
    | Run.done (result.SUCCESS, s) =>
      Run.done (result.SUCCESS, { s with g := { s.g with ntasks := u32 (s.g.ntasks * mult) } })
    | r => r

/-! ## Timeout and teardown (`gpu.c`, lines 882-954; `main.c`, lines 128-147, 581-591) -/

/-- The function `parse_timeout` of `main.c` on the number `nsec` that
`parse_num` read; it is the whole effect of the option `-g` in
`parse_options`, whose target is `G.opt.timeout_s` of `main.c`. -/
def parse_timeout (o : opt) (nsec : Int) : result × opt :=
  if nsec ≤ 0 then (result.FAILURE, o)
  else (result.SUCCESS, { o with timeout_s := (nsec % 4294967296).toNat })

/-- One block `if (file.active) { ret = close(file.fd); ...; file.active = false; }`
of `gpu_cleanup`. -/
def cleanup_file (w : World) (file : gpu_file) (error : Bool) (log : List Call) :
    gpu_file × Bool × List Call :=
  if file.active then
    let log := log ++ [Call.close file.fd]
    ({ file with active := false }, error || !w.close log, log)
  else (file, error, log)

/-- Body of the loop over all `MAX_TASKS` slots in `gpu_cleanup`. -/
def cleanup_task (w : World) (st : St × Bool) (i : Nat) : St × Bool :=
  let s := st.1
  let a := cleanup_file w (s.g.slot i).inst st.2 s.log
  let s : St := { s with g := s.g.setSlot i { s.g.slot i with inst := a.1 }, log := a.2.2 }
  let b := cleanup_file w (s.g.slot i).unif a.2.1 s.log
  let s : St := { s with g := s.g.setSlot i { s.g.slot i with unif := b.1 }, log := b.2.2 }
  let c := cleanup_file w (s.g.slot i).rbuf b.2.1 s.log
  ({ s with g := s.g.setSlot i { s.g.slot i with rbuf := c.1 }, log := c.2.2 }, c.2.1)

/-- The first part of `gpu_cleanup` (lines 898-943): every active file-backed
resource, global or of any of the `MAX_TASKS` slots, is closed and marked
inactive. The state and the local `error`. -/
def cleanup_files (w : World) (s : St) : St × Bool :=
  let a := cleanup_file w s.g.glob.unif false s.log
  let s : St := { s with g := { s.g with glob := { s.g.glob with unif := a.1 } }, log := a.2.2 }
  let b := cleanup_file w s.g.glob.rbuf a.2.1 s.log
  let s : St := { s with g := { s.g with glob := { s.g.glob with rbuf := b.1 } }, log := b.2.2 }
  (List.range MAX_TASKS).foldl (cleanup_task w) (s, b.2.1)

/-- The function `gpu_cleanup`. -/
def gpu_cleanup (w : World) (s : St) : Run (result × St) :=
  let st := cleanup_files w s
  if st.1.g.mem.refct > 0 then
    match mem_free w st.1.g.mem st.1.log with
    | Run.done (r, mem, log) =>
      Run.done (if st.2 || r != result.SUCCESS then result.FAILURE else result.SUCCESS,
        { st.1 with g := { st.1.g with mem := mem }, log := log })
    | Run.abort => Run.abort
    | Run.spin => Run.spin
  else Run.done (if st.2 then result.FAILURE else result.SUCCESS, st.1)

/-- The tail of `main` (lines 581-591): `gpu_exec_via_mbox(G.opt)` and, whatever
it returned, `gpu_cleanup()`. The pair of results and the final state. -/
def main_dispatch (w : World) (fuel : Nat) (o : opt) (s : St) : Run ((result × result) × St) :=
  match gpu_exec_via_mbox w fuel o s with
  | Run.done (r, s) =>
    match gpu_cleanup w s with
    | Run.done (r', s) => Run.done ((r, r'), s)
    | Run.abort => Run.abort
    | Run.spin => Run.spin
  | Run.abort => Run.abort
  | Run.spin => Run.spin

/-! ## Declarations (`gpu.c`, lines 256-300, 715-890) and command `execute` (`main.c`, lines 32-40, 149-302) -/

/-- What the file system answers when `open_file` opens a path and asks for its
status: the descriptor `open` returns (`none` for `-1`), whether `fstat`
succeeded, whether the mode is that of a regular file, and the field
`st_size`. -/
structure file_stat where
  open_fd : Option Nat := none
  fstat_ok : Bool := true
  is_reg : Bool := true
  st_size : Int := 0

/-- Conversion of a signed value to `u32`, as an assignment to a `u32` object
or the passing of an `i64` to a `u32` parameter performs it. -/
def u32_of_int (x : Int) : Nat := (x % 4294967296).toNat

/-- The function `open_file`: the outputs `(fd, size)` when it returns
`SUCCESS`, `none` when it returns `FAILURE`; and the log, which on the path
through the label `error` receives the close of the descriptor. -/
def open_file (f : file_stat) (factor : Nat) (log : List Call) :
    Option (Nat × Nat) × List Call :=
  match f.open_fd with
  | none => (none, log)
  | some fd0 =>
    if !f.fstat_ok then (none, log ++ [Call.close fd0])
    else if !f.is_reg then (none, log ++ [Call.close fd0])
    else if f.st_size ≤ 0 then (none, log ++ [Call.close fd0])
    else if f.st_size % (factor : Int) ≠ 0 then (none, log ++ [Call.close fd0])
    else (some (u32 fd0, u32_of_int f.st_size), log)

/-- The index `G.ntasks - 1`, a `u32` difference, of the slot the per-task
declarations access. -/
def task_index (g : G) : Nat := u32 (g.ntasks + 4294967295)

/-- The function `gpu_task_wbuf`. The result is `none` when `G.task[G.ntasks - 1]`
lies outside the array of `MAX_TASKS` slots. -/
def gpu_task_wbuf (size : Nat) (s : St) : Option (result × St) :=
  if s.g.ntasks > MAX_TASKS then some (result.FAILURE, s)
  else if task_index s.g < MAX_TASKS then
    if (s.g.slot (task_index s.g)).wbuf.active then some (result.FAILURE, s)
    else
      some (result.SUCCESS,
        { s with
            g := s.g.setSlot (task_index s.g)
                  { s.g.slot (task_index s.g) with
              wbuf := { (s.g.slot (task_index s.g)).wbuf with size := size, active := true } } })
  else none

/-- The function `gpu_task_rbuf`; `none` as for `gpu_task_wbuf`. -/
def gpu_task_rbuf (f : file_stat) (s : St) : Option (result × St) :=
  if s.g.ntasks > MAX_TASKS then some (result.FAILURE, s)
  else if task_index s.g < MAX_TASKS then
    if (s.g.slot (task_index s.g)).rbuf.active then some (result.FAILURE, s)
    else
      match open_file f 4 s.log with
      | (none, log) => some (result.FAILURE, { s with log := log })
      | (some (fd, size), log) =>
        some (result.SUCCESS,
          { s with
            g := s.g.setSlot (task_index s.g)
                  { s.g.slot (task_index s.g) with
                rbuf := { (s.g.slot (task_index s.g)).rbuf with
                          fd := fd, size := size, active := true } },
                   log := log })
  else none

/-- The function `gpu_task_unif`; `none` as for `gpu_task_wbuf`. -/
def gpu_task_unif (f : file_stat) (s : St) : Option (result × St) :=
  if s.g.ntasks > MAX_TASKS then some (result.FAILURE, s)
  else if task_index s.g < MAX_TASKS then
    if (s.g.slot (task_index s.g)).unif.active then some (result.FAILURE, s)
    else
      match open_file f 4 s.log with
      | (none, log) => some (result.FAILURE, { s with log := log })
      | (some (fd, size), log) =>
        some (result.SUCCESS,
          { s with
            g := s.g.setSlot (task_index s.g)
                  { s.g.slot (task_index s.g) with
                unif := { (s.g.slot (task_index s.g)).unif with
                          fd := fd, size := size, active := true } },
                   log := log })
  else none

/-- The function `gpu_task_inst`; `none` as for `gpu_task_wbuf`. -/
def gpu_task_inst (f : file_stat) (s : St) : Option (result × St) :=
  if s.g.ntasks > MAX_TASKS then some (result.FAILURE, s)
  else if task_index s.g < MAX_TASKS then
    if (s.g.slot (task_index s.g)).inst.active then some (result.FAILURE, s)
    else
      match open_file f 8 s.log with
      | (none, log) => some (result.FAILURE, { s with log := log })
      | (some (fd, size), log) =>
        some (result.SUCCESS,
          { s with
            g := s.g.setSlot (task_index s.g)
                  { s.g.slot (task_index s.g) with
                inst := { (s.g.slot (task_index s.g)).inst with
                          fd := fd, size := size, active := true } },
                   log := log })
  else none

/-- The function `gpu_next_task`. -/
def gpu_next_task (s : St) : result × St :=
  if s.g.ntasks ≥ MAX_TASKS then (result.FAILURE, s)
  else (result.SUCCESS, { s with g := { s.g with ntasks := u32 (s.g.ntasks + 1) } })

/-- The function `gpu_glob_wbuf`. -/
def gpu_glob_wbuf (size : Nat) (s : St) : result × St :=
  if s.g.glob.wbuf.active then (result.FAILURE, s)
  else
    (result.SUCCESS,
      { s with g := { s.g with
          glob := { s.g.glob with wbuf := { s.g.glob.wbuf with size := size, active := true } } } })

/-- The function `gpu_glob_rbuf`. -/
def gpu_glob_rbuf (f : file_stat) (s : St) : result × St :=
  if s.g.glob.rbuf.active then (result.FAILURE, s)
  else
    match open_file f 4 s.log with
    | (none, log) => (result.FAILURE, { s with log := log })
    | (some (fd, size), log) =>
      (result.SUCCESS,
        { s with g := { s.g with
            glob := { s.g.glob with
              rbuf := { s.g.glob.rbuf with fd := fd, size := size, active := true } } },
                 log := log })

/-- The function `gpu_glob_unif`. -/
def gpu_glob_unif (f : file_stat) (s : St) : result × St :=
  if s.g.glob.unif.active then (result.FAILURE, s)
  else
    match open_file f 4 s.log with
    | (none, log) => (result.FAILURE, { s with log := log })
    | (some (fd, size), log) =>
      (result.SUCCESS,
        { s with g := { s.g with
            glob := { s.g.glob with
              unif := { s.g.glob.unif with fd := fd, size := size, active := true } } },
                 log := log })

/-- The function `gpu_has_task`. -/
def gpu_has_task (g : G) : Bool := decide (g.ntasks > 0)

/-- The idiom `if (r != SUCCESS) { return FAILURE; } return SUCCESS;` that ends
the handlers of `main.c`. -/
def handled (x : result × St) : result × St :=
  (if x.1 = result.SUCCESS then result.SUCCESS else result.FAILURE, x.2)

/-- The function `handle_x` of `main.c`. The argument is what `parse_num` made
of the word, `none` when it failed. -/
def handle_x (wd : World) (num : Option Int) (s : St) : Run (result × St) :=
  if !gpu_has_task s.g then Run.done (result.FAILURE, s)
  else
    match num with
    | none => Run.done (result.FAILURE, s)
    | some mult =>
      if mult ≤ 1 then Run.done (result.FAILURE, s)
      else (gpu_replicate wd (u32_of_int mult) s).andThen (fun s => Run.done (result.SUCCESS, s))

/-- The function `handle_w` of `main.c`; `none` as argument when the word is
missing or `parse_num` failed. -/
def handle_w (num : Option Int) (s : St) : Option (result × St) :=
  match num with
  | none => some (result.FAILURE, s)
  | some size =>
    if size ≤ 0 then some (result.FAILURE, s)
    else if gpu_has_task s.g then (gpu_task_wbuf (u32_of_int size) s).map handled
    else some (handled (gpu_glob_wbuf (u32_of_int size) s))

/-- The function `handle_r` of `main.c`; `none` as argument when the file name
is missing. -/
def handle_r (file : Option file_stat) (s : St) : Option (result × St) :=
  match file with
  | none => some (result.FAILURE, s)
  | some f =>
    if gpu_has_task s.g then (gpu_task_rbuf f s).map handled
    else some (handled (gpu_glob_rbuf f s))

/-- The function `handle_u` of `main.c`. -/
def handle_u (file : Option file_stat) (s : St) : Option (result × St) :=
  match file with
  | none => some (result.FAILURE, s)
  | some f =>
    if gpu_has_task s.g then (gpu_task_unif f s).map handled
    else some (handled (gpu_glob_unif f s))

/-- The function `handle_i` of `main.c`. -/
def handle_i (file : Option file_stat) (s : St) : Option (result × St) :=
  match file with
  | none => some (result.FAILURE, s)
  | some f =>
    match gpu_next_task s with
    | (result.SUCCESS, s) => (gpu_task_inst f s).map handled
    | (_, s) => some (result.FAILURE, s)

/-- One word of the command `execute` with the word that follows it: the
letter, and what the file system or `parse_num` makes of the argument. -/
inductive exec_arg where
  | i (file : Option file_stat)
  | u (file : Option file_stat)
  | r (file : Option file_stat)
  | w (num : Option Int)
  | x (num : Option Int)
  | other

/-- One pass through the body of the loop of `command_execute`: the macro
`HANDLE_EXECUTE` for the five letters, `Unsupported argument` otherwise. -/
def HANDLE_EXECUTE (wd : World) (a : exec_arg) (s : St) : Option (Run (result × St)) :=
  match a with
  | exec_arg.i file => (handle_i file s).map Run.done
  | exec_arg.u file => (handle_u file s).map Run.done
  | exec_arg.r file => (handle_r file s).map Run.done
  | exec_arg.w num => (handle_w num s).map Run.done
  | exec_arg.x num => some (handle_x wd num s)
  | exec_arg.other => some (Run.done (result.FAILURE, s))

/-- The loop `while (++optind < argc)` of `command_execute`: it returns
`FAILURE` at the first handler that does not succeed. -/
def execute_loop (wd : World) : List exec_arg → St → Option (Run (result × St))
  | [], s => some (Run.done (result.SUCCESS, s))
  | a :: rest, s =>
    match HANDLE_EXECUTE wd a s with
    | some (Run.done (result.SUCCESS, s)) => execute_loop wd rest s
    | some (Run.done (_, s)) => some (Run.done (result.FAILURE, s))
    | some Run.abort => some Run.abort
    | some Run.spin => some Run.spin
    | none => none

/-- The function `command_execute` of `main.c`. -/
def command_execute (wd : World) (args : List exec_arg) (s : St) :
    Option (Run (result × St)) :=
  match args with
  | [] => some (Run.done (result.FAILURE, s))
  | _ => execute_loop wd args s

/-- Whether a run ended in a failed `assert`. -/
def Run.aborted {α : Type} : Run α → Bool
  | Run.abort => true
  | _ => false

/-- The state in which `command_execute` is entered: the zero-initialised
globals with the page size `gpu_init` stored. -/
def s_init : St := { g := { page_sz := 4096 }, ram := fun _ => 0, log := [] }

/-- A regular file of eight bytes that `open` opens as descriptor 3. -/
def file_eight : file_stat := { open_fd := some 3, st_size := 8 }

/-- A regular file of 4294967296 bytes that `open` opens as descriptor 3. -/
def file_huge : file_stat := { open_fd := some 3, st_size := 4294967296 }

/-- A state in which every resource is declared: the three global resources
and, in each of the twelve slots, instructions, uniforms, read buffer and write
buffer. -/
def s_all : St :=
  { g := { page_sz := 4096, ntasks := 12,
           glob := { unif := { active := true, fd := 3, size := 4 },
                     rbuf := { active := true, fd := 4, size := 4 },
                     wbuf := { active := true, size := 4 } },
           task := List.replicate 12
             { inst := { active := true, fd := 5, size := 8 },
               unif := { active := true, fd := 6, size := 4 },
               rbuf := { active := true, fd := 7, size := 4 },
               wbuf := { active := true, size := 4 } } },
    ram := fun _ => 0, log := [] }

/-! ## Specification-side vocabulary -/

/-- Whether a request is one of the three release requests. -/
def Call.is_release : Call → Bool
  | Call.mem_unmap _ _ => true
  | Call.mbox_unlock _ => true
  | Call.mbox_free _ => true
  | _ => false

/-- Whether a request is an unmap request. -/
def Call.is_unmap : Call → Bool
  | Call.mem_unmap _ _ => true
  | _ => false

/-- Whether a request is an unlock request. -/
def Call.is_unlock : Call → Bool
  | Call.mbox_unlock _ => true
  | _ => false

/-- Whether a request is a free request. -/
def Call.is_free : Call → Bool
  | Call.mbox_free _ => true
  | _ => false

/-- Whether a request is one of the firmware requests of a dispatch: enable,
execute, disable. -/
def Call.is_dispatch : Call → Bool
  | Call.mbox_enable => true
  | Call.mbox_exec_qpu _ _ _ _ => true
  | Call.mbox_disable => true
  | _ => false

/-- One step of a release as the specification words it: the flag that says the
step is due, the request that undoes the acquisition step, the answer of the
environment, and the flag update after a successful request. -/
structure release_step where
  due : mem_flags → Bool
  request : gpu_mem → Call
  answer : World → List Call → Bool
  clear : mem_flags → mem_flags

/-- The release steps in the order map, lock, alloc. -/
def release_steps : List release_step :=
  [ { due := fun f => f.map, request := fun m => Call.mem_unmap m.virt m.alloc_sz,
      answer := fun w => w.mem_unmap, clear := fun f => { f with map := false } },
    { due := fun f => f.lock, request := fun m => Call.mbox_unlock m.handle,
      answer := fun w => w.mbox_unlock, clear := fun f => { f with lock := false } },
    { due := fun f => f.alloc, request := fun m => Call.mbox_free m.handle,
      answer := fun w => w.mbox_free, clear := fun f => { f with alloc := false } } ]

/-- Release as the specification words it: go through the steps in order; a
step that is not due is skipped; a due step issues its request; when the
request succeeds its flag is cleared and the next step follows, when it fails
the release returns `FAILURE` and no later step is attempted. -/
def run_release (w : World) : List release_step → gpu_mem → List Call →
    result × gpu_mem × List Call
  | [], mem, log => (result.SUCCESS, mem, log)
  | st :: rest, mem, log =>
    if st.due mem.flags then
      if st.answer w (log ++ [st.request mem]) then
        run_release w rest { mem with flags := st.clear mem.flags } (log ++ [st.request mem])
      else (result.FAILURE, mem, log ++ [st.request mem])
    else run_release w rest mem log

/-- The log of `mem_alloc` after its allocate request. -/
def log_alloc (page_sz size : Nat) (log : List Call) : List Call :=
  log ++ [Call.mbox_alloc (ROUNDUP size page_sz) page_sz]

/-- The log of `mem_alloc` after the lock request for the handle id `h` the
allocate request returned. -/
def log_lock (page_sz size : Nat) (log : List Call) (h : Nat) : List Call :=
  log_alloc page_sz size log ++ [Call.mbox_lock (u32 h)]

/-- The log of `mem_alloc` after the map request for the bus address `b` the
lock request returned: the address is `b` with its top two bits cleared. -/
def log_map (page_sz size : Nat) (log : List Call) (h b : Nat) : List Call :=
  log_lock page_sz size log h ++ [Call.mem_map (u32 b % 1073741824) (ROUNDUP size page_sz)]

/-! ## Concrete states and environments of the examples -/

/-- The descriptor of the last request when it is a `read`. -/
def last_read_fd (log : List Call) : Nat :=
  match log.getLast? with
  | some (Call.read fd _ _) => fd
  | _ => 0

/-- An environment in which every request succeeds: the firmware hands out
handle 7 and bus address `0xC0001000`, the mapping is at `0x76f00000`, `dup`
returns descriptor 9, a read delivers the whole content `files fd` of the file,
and the GPU leaves the region as it is. -/
def world_ok (files : Nat → List Nat) : World :=
  { mbox_alloc := fun _ => some 7
    mbox_lock := fun _ => some 3221229568
    mem_map := fun _ => some 1995440128
    mem_unmap := fun _ => true
    mbox_unlock := fun _ => true
    mbox_free := fun _ => true
    lseek := fun _ => true
    read := fun log => some (files (last_read_fd log))
    dup := fun _ => some 9
    close := fun _ => true
    mbox_enable := fun _ => true
    mbox_exec_qpu := fun _ => true
    gpu_ram := fun _ m => m
    mbox_disable := fun _ => true }

/-- The environment `world_ok` in which the map request fails and the unlock
request fails as well. -/
def world_stuck : World :=
  { world_ok (fun _ => []) with mem_map := fun _ => none, mbox_unlock := fun _ => false }

/-- The environment `world_ok` in which the allocate request fails. -/
def world_no_alloc : World := { world_ok (fun _ => []) with mbox_alloc := fun _ => none }

/-- The environment `world_ok` in which the lock request fails. -/
def world_no_lock : World := { world_ok (fun _ => []) with mbox_lock := fun _ => none }

/-- The environment `world_ok` in which the map request fails. -/
def world_no_map : World := { world_ok (fun _ => []) with mem_map := fun _ => none }

/-- Files that all hold eight zero bytes. -/
def files_zero (_ : Nat) : List Nat := [0, 0, 0, 0, 0, 0, 0, 0]

/-- A state as `execute w 4294967295 i prog.bin` leaves it: a global write
buffer of `2^32 - 1` bytes and one task with eight bytes of instructions. -/
def g_wide : G :=
  { page_sz := 4096, ntasks := 1,
    glob := { wbuf := { active := true, size := 4294967295 } },
    task := [{ inst := { active := true, fd := 3, size := 8 } }] ++ List.replicate 11 {} }

/-- A state as `execute i a.bin i b.bin` leaves it: two tasks, each with eight
bytes of instructions; the region holds zeros and nothing was requested yet. -/
def s_two : St :=
  { g :=
      { page_sz := 4096, ntasks := 2,
        task := [{ inst := { active := true, fd := 3, size := 8 } },
                 { inst := { active := true, fd := 4, size := 8 } }] ++ List.replicate 10 {} },
    ram := fun _ => 0,
    log := [] }

/-- Every slot from `k` on is unused: none of its four resources is active. -/
def slots_unused (g : G) (k : Nat) : Prop :=
  ∀ d < MAX_TASKS, k ≤ d →
    (g.slot d).inst.active = false ∧ (g.slot d).unif.active = false
      ∧ (g.slot d).rbuf.active = false ∧ (g.slot d).wbuf.active = false

/-- A file-backed resource `a` is a replica of `b`: same active flag and, when
declared, same declared size. -/
def file_replica (a b : gpu_file) : Prop :=
  a.active = b.active ∧ (b.active = true → a.size = b.size)

/-- A write buffer `a` is a replica of `b`: same active flag and, when declared,
same declared size. -/
def buf_replica (a b : gpu_buf) : Prop :=
  a.active = b.active ∧ (b.active = true → a.size = b.size)

/-- The states `s` and `s1` differ at most in slot `d` of the task array and in
the log. -/
def same_but_slot (s s1 : St) (d : Nat) : Prop :=
  s1.g.page_sz = s.g.page_sz ∧ s1.g.timeout_ms = s.g.timeout_ms ∧ s1.g.ntasks = s.g.ntasks
    ∧ s1.g.mem = s.g.mem ∧ s1.g.glob = s.g.glob ∧ s1.g.task.length = s.g.task.length
    ∧ s1.ram = s.ram ∧ ∀ j, j ≠ d → s1.g.slot j = s.g.slot j

/-- A state as `execute i prog.bin u unif.bin r in.bin w 64` leaves it: one task
with all four resources. -/
def s_full : St :=
  { g :=
      { page_sz := 4096, ntasks := 1,
        task := [{ inst := { active := true, fd := 3, size := 8 },
                   unif := { active := true, fd := 4, size := 8 },
                   rbuf := { active := true, fd := 5, size := 8 },
                   wbuf := { active := true, size := 64 } }] ++ List.replicate 11 {} },
    ram := fun _ => 0,
    log := [] }

/-- The state `gpu_replicate(3)` leaves when run in `s_full` with every request
succeeding. -/
def s_full3 : St :=
  match gpu_replicate (world_ok files_zero) 3 s_full with
  | Run.done (_, s) => s
  | _ => s_full

/-- Whether a request is one of the two file requests of the stager. -/
def Call.is_file : Call → Bool
  | Call.lseek _ => true
  | Call.read _ _ _ => true
  | _ => false

/-- Whether a request is a diagnostic or a dump: a request to the register
diagnostics, the clock or the standard output. -/
def Call.is_diag : Call → Bool
  | Call.print_mem _ _ => true
  | Call.reg_debug_before => true
  | Call.reg_init_pctr => true
  | Call.reg_perf_before => true
  | Call.clock_gettime => true
  | Call.reg_perf_after => true
  | Call.reg_debug_after => true
  | Call.reg_debug_print => true
  | Call.reg_perf_print => true
  | Call.print_time => true
  | _ => false

/-- Whether a request is the firmware execute request. -/
def Call.is_exec : Call → Bool
  | Call.mbox_exec_qpu _ _ _ _ => true
  | _ => false

/-- The state `s1` comes from `s` by diagnostics and dumps: the globals are the
same and the log grew by diagnostic requests only. -/
def diag_rel (s s1 : St) : Prop :=
  s1.g = s.g ∧ ∃ ext, s1.log = s.log ++ ext ∧ ∀ c ∈ ext, c.is_diag = true

/-- Whether a request is a `close`. -/
def Call.is_close : Call → Bool
  | Call.close _ => true
  | _ => false

/-- The state `s1` comes from `s` by staging steps: the handle changed at most
in its write cursor, the task count, page size and timeout are the same, and
the log grew by file requests only. -/
def stage_rel (s s1 : St) : Prop :=
  s1.g.page_sz = s.g.page_sz ∧ s1.g.timeout_ms = s.g.timeout_ms ∧ s1.g.ntasks = s.g.ntasks
    ∧ s1.g.mem = { s.g.mem with used_sz := s1.g.mem.used_sz }
    ∧ ∃ ext, s1.log = s.log ++ ext ∧ ∀ c ∈ ext, c.is_file = true

/-- The state of `init_mem` after a successful `mem_alloc` that was answered
with handle id `h`, bus address `b` and mapping address `v`, and after the
cursor was moved past the control block. -/
def acquired (s : St) (h b v : Nat) : St :=
  { s with
    g := { s.g with
      mem := { flags := { alloc := true, lock := true, map := true },
               bus := u32 b, virt := u32 v, refct := 1, handle := u32 h,
               alloc_sz := ROUNDUP (mem_size s.g) s.g.page_sz, data_sz := mem_size s.g,
               used_sz := 96 } },
    log := log_map s.g.page_sz (mem_size s.g) s.log h b }

/-- Whether a request is one the stager or the resource handle makes: an
acquisition request, a release request or a file request. -/
def Call.is_staging : Call → Bool
  | Call.mbox_alloc _ _ => true
  | Call.mbox_lock _ => true
  | Call.mem_map _ _ => true
  | Call.mem_unmap _ _ => true
  | Call.mbox_unlock _ => true
  | Call.mbox_free _ => true
  | Call.lseek _ => true
  | Call.read _ _ _ => true
  | _ => false

/-- The log `l1` is the log `l` followed by requests that all satisfy `P`. -/
def ext_all (P : Call → Prop) (l l1 : List Call) : Prop :=
  ∃ ext, l1 = l ++ ext ∧ ∀ c ∈ ext, P c

/-- The timeout `gpu_exec_via_mbox` computes on entry. -/
def exec_timeout (g : G) : Nat := if g.timeout_ms > 0 then g.timeout_ms else C_timeout_ms

/-- A state as `execute i prog.bin` leaves it: one task with eight bytes of
instructions, no buffer. -/
def s_one : St :=
  { g :=
      { page_sz := 4096, ntasks := 1,
        task := [{ inst := { active := true, fd := 3, size := 8 } }] ++ List.replicate 11 {} },
    ram := fun _ => 0,
    log := [] }

/-- The state `init_mem` returns, when it returns. -/
def staged (w : World) (s : St) : St :=
  match init_mem w s with
  | Run.done (_, s1) => s1
  | _ => s

/-- The state `link_mem` returns, when it returns. -/
def linked (fuel : Nat) (s : St) : St :=
  match link_mem fuel s with
  | Run.done (_, s1) => s1
  | _ => s

/-- The state `s1` comes from `s` by closing descriptors: the handle is the
same and the log grew by `close` requests only. -/
def close_rel (s s1 : St) : Prop :=
  s1.g.mem = s.g.mem ∧ ext_all (fun c => c.is_close = true) s.log s1.log

/-- The environment `world_ok` in which the unmap request fails. -/
def world_no_unmap : World := { world_ok files_zero with mem_unmap := fun _ => false }

/-- The value the linker leaves in the first word of a pair whose words were
`w0`, `w1`, in the code of task `i`: the bus address of the buffer the
placeholder `w0` names when `w1` is a load-immediate opcode, else `w0`. -/
def patched (g : G) (i : Nat) (w0 w1 : Nat) : Nat :=
  if is_link_inst w1 = true then
    if w0 = GLOB_RBUF then u32 (g.mem.bus + g.glob.rbuf.offset)
    else if w0 = GLOB_WBUF then u32 (g.mem.bus + g.glob.wbuf.offset)
    else if w0 = TASK_RBUF then u32 (g.mem.bus + (g.slot i).rbuf.offset)
    else if w0 = TASK_WBUF then u32 (g.mem.bus + (g.slot i).wbuf.offset)
    else w0
  else w0

/-- The code of `size` bytes staged at offset `p` contains a placeholder pair
for the placeholder `ph`: some pair `k < size / 8` has `ph` as its first word
and a load-immediate opcode as its second word. -/
def has_pair (ram : Nat → Nat) (p size ph : Nat) : Prop :=
  ∃ k, k < size / 8 ∧ load32 ram (p + 8 * k) = ph
    ∧ is_link_inst (load32 ram (p + 8 * k + 4)) = true

/-- Task `i` has a mismatch between the placeholder pairs of its staged code
and the declared buffers. -/
def mismatch (g : G) (ram : Nat → Nat) (i : Nat) : Prop :=
  (has_pair ram (g.slot i).inst.offset (g.slot i).inst.size GLOB_RBUF
      ∧ g.glob.rbuf.active = false)
    ∨ (has_pair ram (g.slot i).inst.offset (g.slot i).inst.size GLOB_WBUF
      ∧ g.glob.wbuf.active = false)
    ∨ (has_pair ram (g.slot i).inst.offset (g.slot i).inst.size TASK_RBUF
      ∧ (g.slot i).rbuf.active = false)
    ∨ (¬ has_pair ram (g.slot i).inst.offset (g.slot i).inst.size TASK_RBUF
      ∧ (g.slot i).rbuf.active = true)
    ∨ (has_pair ram (g.slot i).inst.offset (g.slot i).inst.size TASK_WBUF
      ∧ (g.slot i).wbuf.active = false)
    ∨ (¬ has_pair ram (g.slot i).inst.offset (g.slot i).inst.size TASK_WBUF
      ∧ (g.slot i).wbuf.active = true)

/-- The instructions of the tasks `i < ntasks` are well formed for the linker:
declared, at least one word long, of a size that is a `u32`, and staged in
pairwise disjoint byte ranges. -/
def code_ok (g : G) : Prop :=
  (∀ i, i < g.ntasks →
      (g.slot i).inst.active = true ∧ 4 ≤ (g.slot i).inst.size
        ∧ (g.slot i).inst.size < 4294967296)
    ∧ ∀ i, i < g.ntasks → ∀ j, j < g.ntasks → i < j →
        (g.slot i).inst.offset + (g.slot i).inst.size ≤ (g.slot j).inst.offset
          ∨ (g.slot j).inst.offset + (g.slot j).inst.size ≤ (g.slot i).inst.offset

/-- The local of `link_mem` that records the placeholder `ph`. -/
def link_flags.get (f : link_flags) (ph : Nat) : Bool :=
  if ph = GLOB_RBUF then f.glob_rbuf
  else if ph = GLOB_WBUF then f.glob_wbuf
  else if ph = TASK_RBUF then f.task_rbuf
  else if ph = TASK_WBUF then f.task_wbuf
  else false

/-- The four placeholder constants. -/
def placeholders : List Nat := [GLOB_RBUF, GLOB_WBUF, TASK_RBUF, TASK_WBUF]

/-- File contents: descriptor 3 holds one instruction whose first word is the
placeholder `TASK_RBUF` (`0xfffffffa`) and whose second word is the opcode
`0xe0020827`, little-endian; every other file holds eight zero bytes. -/
def files_link (fd : Nat) : List Nat :=
  if fd = 3 then [250, 255, 255, 255, 39, 8, 2, 224] else [0, 0, 0, 0, 0, 0, 0, 0]

/-- A state as `execute i prog.bin r in.bin` leaves it: one task with eight
bytes of instructions and a read buffer of eight bytes. -/
def s_bound : St :=
  { g :=
      { page_sz := 4096, ntasks := 1,
        task := [{ inst := { active := true, fd := 3, size := 8 },
                   rbuf := { active := true, fd := 5, size := 8 } }] ++ List.replicate 11 {} },
    ram := fun _ => 0,
    log := [] }

/-- A state as `execute r in.bin i prog.bin` leaves it: a global read buffer of
eight bytes and one task with eight bytes of instructions. -/
def s_glob : St :=
  { g :=
      { page_sz := 4096, ntasks := 1,
        glob := { rbuf := { active := true, fd := 5, size := 8 } },
        task := [{ inst := { active := true, fd := 3, size := 8 } }] ++ List.replicate 11 {} },
    ram := fun _ => 0,
    log := [] }

/-- The staged code of task `i` contains a placeholder pair whose buffer is not
declared. -/
def unbound (g : G) (ram : Nat → Nat) (i : Nat) : Prop :=
  (has_pair ram (g.slot i).inst.offset (g.slot i).inst.size GLOB_RBUF
      ∧ g.glob.rbuf.active = false)
    ∨ (has_pair ram (g.slot i).inst.offset (g.slot i).inst.size GLOB_WBUF
      ∧ g.glob.wbuf.active = false)
    ∨ (has_pair ram (g.slot i).inst.offset (g.slot i).inst.size TASK_RBUF
      ∧ (g.slot i).rbuf.active = false)
    ∨ (has_pair ram (g.slot i).inst.offset (g.slot i).inst.size TASK_WBUF
      ∧ (g.slot i).wbuf.active = false)

/-- Task `i` has a declared read or write buffer of its own that no placeholder
pair of its staged code references. -/
def unreferenced (g : G) (ram : Nat → Nat) (i : Nat) : Prop :=
  (¬ has_pair ram (g.slot i).inst.offset (g.slot i).inst.size TASK_RBUF
      ∧ (g.slot i).rbuf.active = true)
    ∨ (¬ has_pair ram (g.slot i).inst.offset (g.slot i).inst.size TASK_WBUF
      ∧ (g.slot i).wbuf.active = true)

/-- A state as `execute i prog.bin` leaves it, `prog.bin` being descriptor 3:
one task with eight bytes of instructions and no read buffer. -/
def s_unbound : St :=
  { g :=
      { page_sz := 4096, ntasks := 1,
        task := [{ inst := { active := true, fd := 3, size := 8 } }] ++ List.replicate 11 {} },
    ram := fun _ => 0,
    log := [] }

/-- The file-backed resources `a` and `b` are the same declaration: same active
flag, descriptor and size. -/
def file_decl (a b : gpu_file) : Prop :=
  a.active = b.active ∧ a.fd = b.fd ∧ a.size = b.size

/-- The write buffers `a` and `b` are the same declaration: same active flag
and size. -/
def buf_decl (a b : gpu_buf) : Prop :=
  a.active = b.active ∧ a.size = b.size

/-- The states `s` and `s1` hold the same declarations: every resource, global
or of any slot, has the same active flag, descriptor and size in both; the
offsets may differ. -/
def decl_rel (s s1 : St) : Prop :=
  s1.g.task.length = s.g.task.length
    ∧ file_decl s1.g.glob.unif s.g.glob.unif ∧ file_decl s1.g.glob.rbuf s.g.glob.rbuf
    ∧ buf_decl s1.g.glob.wbuf s.g.glob.wbuf
    ∧ ∀ i, file_decl (s1.g.slot i).inst (s.g.slot i).inst
        ∧ file_decl (s1.g.slot i).unif (s.g.slot i).unif
        ∧ file_decl (s1.g.slot i).rbuf (s.g.slot i).rbuf
        ∧ buf_decl (s1.g.slot i).wbuf (s.g.slot i).wbuf

/-- The globals of the scenario `execute u unif.bin i prog.bin w 64`: global
uniforms of 4 bytes, one task with 16 bytes of instructions and a write buffer
of 64 bytes. -/
def g_scenario : G :=
  { page_sz := 4096, ntasks := 1,
    glob := { unif := { active := true, fd := 4, size := 4 } },
    task := [{ inst := { active := true, fd := 3, size := 16 },
               wbuf := { active := true, size := 64 } }] ++ List.replicate 11 {} }

/-- File contents of the scenario: descriptor 3 holds two instructions of zero
words (no placeholder pair), every other file four bytes. -/
def files_scenario (fd : Nat) : List Nat :=
  if fd = 3 then [0, 0, 0, 0, 0, 0, 0, 0, 0, 0, 0, 0, 0, 0, 0, 0] else [1, 0, 0, 0]

/-- The scenario with a region of zeros and an empty log. -/
def s_scenario : St := { g := g_scenario, ram := fun _ => 0, log := [] }

/-- One operation on the resource handle, with the environment that answers
its requests: `mem_alloc(mem, size)` under page size `page_sz`, or
`mem_free(mem)`. -/
inductive mem_op where
  | alloc (w : World) (page_sz size : Nat)
  | free (w : World)

/-- A sequence of handle operations, each run on the handle and log the one
before left, whatever result it returned. -/
def run_mem_ops : List mem_op → gpu_mem → List Call → Run (gpu_mem × List Call)
  | [], mem, log => Run.done (mem, log)
  | mem_op.alloc w page_sz size :: rest, mem, log =>
    match mem_alloc w page_sz mem size log with
    | Run.done (_, mem, log) => run_mem_ops rest mem log
    | Run.abort => Run.abort
    | Run.spin => Run.spin
  | mem_op.free w :: rest, mem, log =>
    match mem_free w mem log with
    | Run.done (_, mem, log) => run_mem_ops rest mem log
    | Run.abort => Run.abort
    | Run.spin => Run.spin

/-- The lifecycle order of the flags: mapped implies locked, locked implies
allocated. -/
def flags_ordered (f : mem_flags) : Prop :=
  (f.map = true → f.lock = true) ∧ (f.lock = true → f.alloc = true)

/-- The environment `world_ok` in which the map request and the unlock request
fail. -/
def world_no_map_unlock : World :=
  { world_ok (fun _ => []) with mem_map := fun _ => none, mbox_unlock := fun _ => false }

/-- No file-backed resource of the slot is active. -/
def slot_closed (t : task_slot) : Prop :=
  t.inst.active = false ∧ t.unif.active = false ∧ t.rbuf.active = false

/-- A state as `execute u unif.bin i prog.bin` leaves it, the region not
acquired: global uniforms on descriptor 4, one task with instructions on
descriptor 3. -/
def s_declared : St :=
  { g := { page_sz := 4096, ntasks := 1,
           glob := { unif := { active := true, fd := 4, size := 4 } },
           task := [{ inst := { active := true, fd := 3, size := 8 } }]
             ++ List.replicate 11 {} },
    ram := fun _ => 0, log := [] }

/-- The header `for (u32 j = 0; j < (nwords - 1); j += 2)` of the scan loop of
`link_mem` alone, entered at `j`, with an iteration budget: the values of `j`
at which the body is run, in order; `none` when the budget is used up. The body
at `j` reads the words `p[j]` and `p[j + 1]` (`link_pair`). -/
def scan_indices (nwords : Nat) : Nat → Nat → Option (List Nat)
  | 0, _ => none
  | fuel + 1, j =>
    if j < u32 (nwords + 4294967295) then
      (scan_indices nwords fuel (u32 (j + 2))).map (fun js => j :: js)
    else some []

/-- A resource of the plan: the instructions, uniforms, read buffer or write
buffer of a task slot, or one of the three global resources. -/
inductive Res where
  | inst (i : Nat)
  | glob_unif
  | unif (i : Nat)
  | glob_rbuf
  | rbuf (i : Nat)
  | glob_wbuf
  | wbuf (i : Nat)
deriving DecidableEq

/-- The member `active` of the resource. -/
def Res.active (g : G) : Res → Bool
  | Res.inst i => (g.slot i).inst.active
  | Res.glob_unif => g.glob.unif.active
  | Res.unif i => (g.slot i).unif.active
  | Res.glob_rbuf => g.glob.rbuf.active
  | Res.rbuf i => (g.slot i).rbuf.active
  | Res.glob_wbuf => g.glob.wbuf.active
  | Res.wbuf i => (g.slot i).wbuf.active

/-- The member `size` of the resource. -/
def Res.size (g : G) : Res → Nat
  | Res.inst i => (g.slot i).inst.size
  | Res.glob_unif => g.glob.unif.size
  | Res.unif i => (g.slot i).unif.size
  | Res.glob_rbuf => g.glob.rbuf.size
  | Res.rbuf i => (g.slot i).rbuf.size
  | Res.glob_wbuf => g.glob.wbuf.size
  | Res.wbuf i => (g.slot i).wbuf.size

/-- The member `offset` of the resource. -/
def Res.offset (g : G) : Res → Nat
  | Res.inst i => (g.slot i).inst.offset
  | Res.glob_unif => g.glob.unif.offset
  | Res.unif i => (g.slot i).unif.offset
  | Res.glob_rbuf => g.glob.rbuf.offset
  | Res.rbuf i => (g.slot i).rbuf.offset
  | Res.glob_wbuf => g.glob.wbuf.offset
  | Res.wbuf i => (g.slot i).wbuf.offset

/-- The descriptor of a file-backed resource; `none` for a write buffer. -/
def Res.fd (g : G) : Res → Option Nat
  | Res.inst i => some (g.slot i).inst.fd
  | Res.glob_unif => some g.glob.unif.fd
  | Res.unif i => some (g.slot i).unif.fd
  | Res.glob_rbuf => some g.glob.rbuf.fd
  | Res.rbuf i => some (g.slot i).rbuf.fd
  | Res.glob_wbuf => none
  | Res.wbuf _ => none

/-- The resource is global or belongs to a slot inside the task array. -/
def Res.in_table (g : G) : Res → Prop
  | Res.inst i => i < g.task.length
  | Res.glob_unif => True
  | Res.unif i => i < g.task.length
  | Res.glob_rbuf => True
  | Res.rbuf i => i < g.task.length
  | Res.glob_wbuf => True
  | Res.wbuf i => i < g.task.length

/-- The fixed order of the plan as the specification words it: the
instructions of the tasks in task order, the global uniforms, the uniforms of
the tasks, the global read buffer, the read buffers of the tasks, the global
write buffer, the write buffers of the tasks. -/
def stage_order (n : Nat) : List Res :=
  (List.range n).map Res.inst ++ [Res.glob_unif] ++ (List.range n).map Res.unif
    ++ [Res.glob_rbuf] ++ (List.range n).map Res.rbuf
    ++ [Res.glob_wbuf] ++ (List.range n).map Res.wbuf

/-- The sum of the declared sizes of the active resources of a list, as a
natural number. -/
def sizes (g : G) : List Res → Nat
  | [] => 0
  | r :: rest => act (r.active g) (r.size g) + sizes g rest

/-- The staging statement of `init_mem` for one resource. -/
def stage_res (w : World) (r : Res) (s : St) : Run (result × St) :=
  match r with
  | Res.inst i => stage_task_inst w i s
  | Res.glob_unif => stage_glob_unif w s
  | Res.unif i => stage_task_unif w i s
  | Res.glob_rbuf => stage_glob_rbuf w s
  | Res.rbuf i => stage_task_rbuf w i s
  | Res.glob_wbuf => stage_glob_wbuf s
  | Res.wbuf i => stage_task_wbuf i s

/-- The staging statements for a list of resources, in order, leaving at the
first that does not succeed. -/
def stage_list (w : World) : List Res → St → Run (result × St)
  | [], s => Run.done (result.SUCCESS, s)
  | r :: rest, s => (stage_res w r s).andThen (stage_list w rest)

/-- Every seek and every read the environment is asked for succeeds. -/
def reads_ok (w : World) : Prop :=
  ∀ log, w.lseek log = true ∧ ∃ bytes, w.read log = some bytes

/-- A state as `execute w 4294967280 i prog.bin w 4` leaves it: a global write
buffer of 4294967280 bytes, one task with eight bytes of instructions and a
write buffer of four bytes. -/
def s_wrap : St :=
  { g := { page_sz := 4096, ntasks := 1,
           glob := { wbuf := { active := true, size := 4294967280 } },
           task := [{ inst := { active := true, fd := 3, size := 8 },
                      wbuf := { active := true, size := 4 } }] ++ List.replicate 11 {} },
    ram := fun _ => 0, log := [] }

/-- A state as `execute w 4294967280 i prog.bin w 32` leaves it. -/
def s_narrow : St :=
  { g := { page_sz := 4096, ntasks := 1,
           glob := { wbuf := { active := true, size := 4294967280 } },
           task := [{ inst := { active := true, fd := 3, size := 8 },
                      wbuf := { active := true, size := 32 } }] ++ List.replicate 11 {} },
    ram := fun _ => 0, log := [] }

/-- The environment `world_ok` whose reads deliver four bytes only. -/
def world_short : World :=
  { world_ok files_zero with read := fun _ => some [1, 2, 3, 4] }

/-- The state `s_one` with a region that holds the byte 170 everywhere. -/
def s_stale : St := { s_one with ram := fun _ => 170 }


/-- What one staging statement does for an active resource `r`, from `s` to
`s1`: the cursor advances by the declared size (a `u32` sum), the resource
receives the old cursor as offset, no other offset changes; for a file-backed
resource the seek and the read are requested and the bytes of the answer, at
most the declared size, are written at the old cursor; for a write buffer the
region and the log stay as they are. -/
def step_ok (w : World) (r : Res) (s s1 : St) : Prop :=
  s1.g.mem = { s.g.mem with used_sz := u32 (s.g.mem.used_sz + r.size s.g) }
    ∧ r.offset s1.g = s.g.mem.used_sz
    ∧ (∀ r' : Res, r' ≠ r → r'.offset s1.g = r'.offset s.g)
    ∧ match r.fd s.g with
      | some fd =>
        ∃ bytes, w.read (s.log ++ [Call.lseek fd, Call.read fd s.g.mem.used_sz (r.size s.g)])
              = some bytes
          ∧ s1.ram = write_bytes s.ram s.g.mem.used_sz (bytes.take (r.size s.g))
          ∧ s1.log = s.log ++ [Call.lseek fd, Call.read fd s.g.mem.used_sz (r.size s.g)]
      | none => s1.ram = s.ram ∧ s1.log = s.log

/-! # Theorems -/

/-! ## Planner -/

theorem u32_u32_add (a b : Nat) : u32 (u32 a + b) = u32 (a + b) := by
  unfold u32; omega

theorem u32_of_lt {n : Nat} (h : n < 4294967296) : u32 n = n := by
  unfold u32; omega

theorem u32_lt (n : Nat) : u32 n < 4294967296 := by
  unfold u32; omega

theorem add_if_u32 (a : Bool) (s x : Nat) : add_if a s (u32 x) = u32 (x + act a s) := by
  unfold add_if act
  cases a <;> simp [u32_u32_add]

theorem mem_size_task_u32 (g : G) (x i : Nat) :
    mem_size_task g (u32 x) i
      = u32 (x + (act (g.slot i).inst.active (g.slot i).inst.size
        + act (g.slot i).unif.active (g.slot i).unif.size
        + act (g.slot i).rbuf.active (g.slot i).rbuf.size
        + act (g.slot i).wbuf.active (g.slot i).wbuf.size)) := by
  simp only [mem_size_task, add_if_u32]
  congr 1
  omega

theorem mem_size_fold (g : G) (x : Nat) (n : Nat) :
    (List.range n).foldl (mem_size_task g) (u32 x) = u32 (x + tasks_total g n) := by
  induction n with
  | zero => simp [tasks_total]
  | succ n ih =>
    rw [List.range_succ, List.foldl_append, ih]
    simp only [List.foldl_cons, List.foldl_nil, mem_size_task_u32, tasks_total]
    congr 1
    omega

/-- The value `mem_size` returns is the planned total reduced modulo `2^32`. -/
theorem mem_size_eq_mod (g : G) : mem_size g = u32 (plan_total g) := by
  unfold mem_size plan_total
  simp only [Nat.zero_add, add_if_u32, mem_size_fold]

/-- Without wrap-around `mem_size` is the planned total. -/
theorem mem_size_exact (g : G) (h : plan_total g < 4294967296) :
    mem_size g = plan_total g := by
  rw [mem_size_eq_mod, u32_of_lt h]

/-- C1 (divergence): in the state left by `execute w 4294967295 i prog.bin` the
sum of the control block and the declared sizes is 4294967399, and `mem_size`
returns 103. -/
theorem mem_size_wraps : mem_size g_wide = 103 ∧ plan_total g_wide = 4294967399 := by
  decide

/-! ## Resource handle -/

theorem and_addr_mask (x : Nat) : x &&& C_addr_mask = x % 1073741824 := by
  have h := Nat.and_pow_two_sub_one_eq_mod x 30
  simpa [C_addr_mask] using h

theorem release_alloc (w : World) (mem : gpu_mem) (log : List Call) :
    mem_free_alloc w mem log = run_release w (release_steps.drop 2) mem log := by
  simp only [release_steps, List.drop, run_release, mem_free_alloc]

theorem release_lock (w : World) (mem : gpu_mem) (log : List Call) :
    (if (mem_free_lock w mem log).1 = result.SUCCESS then
        mem_free_alloc w (mem_free_lock w mem log).2.1 (mem_free_lock w mem log).2.2
      else (result.FAILURE, (mem_free_lock w mem log).2))
      = run_release w (release_steps.drop 1) mem log := by
  simp only [release_alloc]
  simp only [release_steps, List.drop, run_release, mem_free_lock]
  split_ifs <;> simp_all

theorem release_map (w : World) (mem : gpu_mem) (log : List Call) :
    (if (mem_free_map w mem log).1 = result.SUCCESS then
        run_release w (release_steps.drop 1) (mem_free_map w mem log).2.1
          (mem_free_map w mem log).2.2
      else (result.FAILURE, (mem_free_map w mem log).2))
      = run_release w release_steps mem log := by
  simp only [release_steps, List.drop, run_release, mem_free_map]
  split_ifs <;> simp_all

theorem mem_free_one (w : World) (mem : gpu_mem) (log : List Call) (h : mem.refct = 1) :
    mem_free w mem log
      = Run.done (run_release w release_steps { mem with refct := 0 } log) := by
  have e1 : ¬ ((1 : Int) ≤ 0) := by decide
  have e2 : ¬ ((0 : Int) > 0) := by decide
  have e3 : (1 : Int) - 1 = 0 := by decide
  rw [← release_map]
  simp only [← release_lock]
  simp only [mem_free, h, e1, e2, e3, if_false]
  split_ifs <;> rfl

theorem mem_alloc_no_alloc (w : World) (page_sz size : Nat) (mem : gpu_mem) (log : List Call)
    (hflags : mem.flags.alloc = false ∧ mem.flags.lock = false ∧ mem.flags.map = false)
    (h1 : w.mbox_alloc (log_alloc page_sz size log) = none) :
    mem_alloc w page_sz mem size log
      = Run.done (result.FAILURE,
          { refct := 0, alloc_sz := ROUNDUP size page_sz, data_sz := size },
          log_alloc page_sz size log) := by
  obtain ⟨ha, hl, hm⟩ := hflags
  simp only [log_alloc] at h1
  simp [mem_alloc, mem_alloc_error, mem_free, mem_free_map, mem_free_lock, mem_free_alloc,
    ha, hl, hm, h1, log_alloc]

theorem mem_alloc_no_lock (w : World) (page_sz size : Nat) (mem : gpu_mem) (log : List Call)
    (h : Nat)
    (hflags : mem.flags.alloc = false ∧ mem.flags.lock = false ∧ mem.flags.map = false)
    (h1 : w.mbox_alloc (log_alloc page_sz size log) = some h)
    (h2 : w.mbox_lock (log_lock page_sz size log h) = none) :
    mem_alloc w page_sz mem size log
      = Run.done (result.FAILURE,
          { flags := { alloc := !w.mbox_free (log_lock page_sz size log h ++ [Call.mbox_free (u32 h)]) },
            refct := 0, handle := u32 h, alloc_sz := ROUNDUP size page_sz, data_sz := size },
          log_lock page_sz size log h ++ [Call.mbox_free (u32 h)]) := by
  obtain ⟨ha, hl, hm⟩ := hflags
  simp only [log_alloc, log_lock] at h1 h2 ⊢
  simp only [List.append_assoc, List.singleton_append] at h2 ⊢
  cases h3 : w.mbox_free (log ++ [Call.mbox_alloc (ROUNDUP size page_sz) page_sz,
      Call.mbox_lock (u32 h), Call.mbox_free (u32 h)]) <;>
  simp [mem_alloc, mem_alloc_error, mem_free, mem_free_map, mem_free_lock, mem_free_alloc,
    ha, hl, hm, h1, h2, h3]

theorem mem_alloc_no_map (w : World) (page_sz size : Nat) (mem : gpu_mem) (log : List Call)
    (h b : Nat)
    (hflags : mem.flags.alloc = false ∧ mem.flags.lock = false ∧ mem.flags.map = false)
    (h1 : w.mbox_alloc (log_alloc page_sz size log) = some h)
    (h2 : w.mbox_lock (log_lock page_sz size log h) = some b)
    (h3 : w.mem_map (log_map page_sz size log h b) = none) :
    mem_alloc w page_sz mem size log
      = Run.done (result.FAILURE,
          { flags :=
              { lock := !w.mbox_unlock (log_map page_sz size log h b ++ [Call.mbox_unlock (u32 h)]),
                alloc := !(w.mbox_unlock (log_map page_sz size log h b ++ [Call.mbox_unlock (u32 h)])
                    && w.mbox_free (log_map page_sz size log h b
                        ++ [Call.mbox_unlock (u32 h), Call.mbox_free (u32 h)])) },
            bus := u32 b, refct := 0, handle := u32 h, alloc_sz := ROUNDUP size page_sz,
            data_sz := size },
          log_map page_sz size log h b ++ [Call.mbox_unlock (u32 h)]
            ++ (if w.mbox_unlock (log_map page_sz size log h b ++ [Call.mbox_unlock (u32 h)])
                then [Call.mbox_free (u32 h)] else [])) := by
  obtain ⟨ha, hl, hm⟩ := hflags
  simp only [log_alloc, log_lock, log_map] at h1 h2 h3 ⊢
  simp only [List.append_assoc, List.singleton_append, List.cons_append, List.nil_append]
    at h2 h3 ⊢
  cases h4 : w.mbox_unlock (log ++ [Call.mbox_alloc (ROUNDUP size page_sz) page_sz,
      Call.mbox_lock (u32 h), Call.mem_map (u32 b % 1073741824) (ROUNDUP size page_sz),
      Call.mbox_unlock (u32 h)])
  · simp [mem_alloc, mem_alloc_error, mem_free, mem_free_map, mem_free_lock, mem_free_alloc,
      ha, hl, hm, h1, h2, h3, h4, and_addr_mask]
  · cases h5 : w.mbox_free (log ++ [Call.mbox_alloc (ROUNDUP size page_sz) page_sz,
        Call.mbox_lock (u32 h), Call.mem_map (u32 b % 1073741824) (ROUNDUP size page_sz),
        Call.mbox_unlock (u32 h), Call.mbox_free (u32 h)]) <;>
    simp [mem_alloc, mem_alloc_error, mem_free, mem_free_map, mem_free_lock, mem_free_alloc,
      ha, hl, hm, h1, h2, h3, h4, h5, and_addr_mask]

theorem mem_alloc_ok (w : World) (page_sz size : Nat) (mem : gpu_mem) (log : List Call)
    (h b v : Nat)
    (hflags : mem.flags.alloc = false ∧ mem.flags.lock = false ∧ mem.flags.map = false)
    (h1 : w.mbox_alloc (log_alloc page_sz size log) = some h)
    (h2 : w.mbox_lock (log_lock page_sz size log h) = some b)
    (h3 : w.mem_map (log_map page_sz size log h b) = some v) :
    mem_alloc w page_sz mem size log
      = Run.done (result.SUCCESS,
          { flags := { alloc := true, lock := true, map := true },
            bus := u32 b, virt := u32 v, refct := 1, handle := u32 h,
            alloc_sz := ROUNDUP size page_sz, data_sz := size, used_sz := 0 },
          log_map page_sz size log h b) := by
  obtain ⟨ha, hl, hm⟩ := hflags
  simp only [log_alloc, log_lock, log_map] at h1 h2 h3 ⊢
  simp only [List.append_assoc, List.singleton_append, List.cons_append, List.nil_append]
    at h2 h3 ⊢
  simp [mem_alloc, ha, hl, hm, h1, h2, h3, and_addr_mask]

/-- C12: `mem_alloc(size)`, entered with no flag set, issues the requests
allocate(`alloc_sz`, `page_sz`), lock(handle id returned by allocate) and
map(bus address with its top two bits cleared, `alloc_sz`) in this order and
stops acquiring at the first failing one (whatever follows in the log is a
release request). It returns `FAILURE` when one of the three fails and `SUCCESS`
when all three succeed; then the reference count is 1, the three flags are set,
`data_sz` is the unrounded size, `alloc_sz` the rounded size and `used_sz` is 0. -/
theorem mem_alloc_acquires (w : World) (page_sz size : Nat) (mem : gpu_mem) (log : List Call)
    (hflags : mem.flags.alloc = false ∧ mem.flags.lock = false ∧ mem.flags.map = false) :
    (w.mbox_alloc (log_alloc page_sz size log) = none →
      ∃ mem' t, mem_alloc w page_sz mem size log
          = Run.done (result.FAILURE, mem', log_alloc page_sz size log ++ t)
        ∧ ∀ c ∈ t, c.is_release = true) ∧
    (∀ h, w.mbox_alloc (log_alloc page_sz size log) = some h →
      w.mbox_lock (log_lock page_sz size log h) = none →
      ∃ mem' t, mem_alloc w page_sz mem size log
          = Run.done (result.FAILURE, mem', log_lock page_sz size log h ++ t)
        ∧ ∀ c ∈ t, c.is_release = true) ∧
    (∀ h b, w.mbox_alloc (log_alloc page_sz size log) = some h →
      w.mbox_lock (log_lock page_sz size log h) = some b →
      w.mem_map (log_map page_sz size log h b) = none →
      ∃ mem' t, mem_alloc w page_sz mem size log
          = Run.done (result.FAILURE, mem', log_map page_sz size log h b ++ t)
        ∧ ∀ c ∈ t, c.is_release = true) ∧
    (∀ h b v, w.mbox_alloc (log_alloc page_sz size log) = some h →
      w.mbox_lock (log_lock page_sz size log h) = some b →
      w.mem_map (log_map page_sz size log h b) = some v →
      mem_alloc w page_sz mem size log
        = Run.done (result.SUCCESS,
            { flags := { alloc := true, lock := true, map := true },
              bus := u32 b, virt := u32 v, refct := 1, handle := u32 h,
              alloc_sz := ROUNDUP size page_sz, data_sz := size, used_sz := 0 },
            log_map page_sz size log h b)) := by
  refine ⟨fun h1 => ?_, fun h h1 h2 => ?_, fun h b h1 h2 h3 => ?_, fun h b v h1 h2 h3 => ?_⟩
  · exact ⟨_, [], by
      rw [List.append_nil]; exact mem_alloc_no_alloc w page_sz size mem log hflags h1, by simp⟩
  · exact ⟨_, [Call.mbox_free (u32 h)],
      mem_alloc_no_lock w page_sz size mem log h hflags h1 h2, by simp [Call.is_release]⟩
  · have e := mem_alloc_no_map w page_sz size mem log h b hflags h1 h2 h3
    rw [List.append_assoc] at e
    refine ⟨_, _, e, ?_⟩
    intro c hc
    split_ifs at hc <;>
      simp only [List.mem_append, List.mem_singleton, List.mem_nil_iff, or_false] at hc
    · rcases hc with hc | hc <;> subst hc <;> rfl
    · subst hc; rfl
  · exact mem_alloc_ok w page_sz size mem log h b v hflags h1 h2 h3

/-- C12 (witness): with page size 4096 and every request succeeding,
`mem_alloc(100)` issues allocate(4096, 4096), lock(7), map(0x1000, 4096) and
returns `SUCCESS` with the handle fully acquired. -/
theorem mem_alloc_acquires_witness :
    (({} : gpu_mem).flags.alloc = false ∧ ({} : gpu_mem).flags.lock = false
        ∧ ({} : gpu_mem).flags.map = false) ∧
      mem_alloc (world_ok files_zero) 4096 {} 100 []
        = Run.done (result.SUCCESS,
            { flags := { alloc := true, lock := true, map := true },
              bus := 3221229568, virt := 1995440128, refct := 1, handle := 7,
              alloc_sz := 4096, data_sz := 100, used_sz := 0 },
            [Call.mbox_alloc 4096 4096, Call.mbox_lock 7, Call.mem_map 4096 4096]) :=
  ⟨⟨rfl, rfl, rfl⟩,
    (mem_alloc_acquires (world_ok files_zero) 4096 100 {} [] ⟨rfl, rfl, rfl⟩).2.2.2
      7 3221229568 1995440128 rfl rfl rfl⟩

/-- C13 (counterexample): when the map request fails and the unlock request of
the teardown fails too, no free request is issued, and the handle keeps the
flags `alloc` and `lock` set. -/
theorem mem_alloc_teardown_stops :
    mem_alloc world_stuck 4096 {} 100 []
      = Run.done (result.FAILURE,
          { flags := { alloc := true, lock := true, map := false },
            bus := 3221229568, refct := 0, handle := 7, alloc_sz := 4096, data_sz := 100 },
          [Call.mbox_alloc 4096 4096, Call.mbox_lock 7, Call.mem_map 4096 4096,
            Call.mbox_unlock 7]) := by
  rfl

/-- C13 (amended): when a step of `mem_alloc` fails, `mem_alloc` returns
`FAILURE` whatever the teardown returns and leaves the reference count 0. The
teardown issues the inverses of the completed steps in reverse order but stops
at its first failing request: nothing if allocate failed; free if lock failed;
unlock, and free only when the unlock succeeded, if map failed. A flag is
cleared exactly when its inverse request was issued and succeeded. -/
theorem mem_alloc_teardown (w : World) (page_sz size : Nat) (mem : gpu_mem) (log : List Call)
    (hflags : mem.flags.alloc = false ∧ mem.flags.lock = false ∧ mem.flags.map = false) :
    (w.mbox_alloc (log_alloc page_sz size log) = none →
      mem_alloc w page_sz mem size log
        = Run.done (result.FAILURE,
            { refct := 0, alloc_sz := ROUNDUP size page_sz, data_sz := size },
            log_alloc page_sz size log)) ∧
    (∀ h, w.mbox_alloc (log_alloc page_sz size log) = some h →
      w.mbox_lock (log_lock page_sz size log h) = none →
      mem_alloc w page_sz mem size log
        = Run.done (result.FAILURE,
            { flags :=
                { alloc := !w.mbox_free (log_lock page_sz size log h ++ [Call.mbox_free (u32 h)]) },
              refct := 0, handle := u32 h, alloc_sz := ROUNDUP size page_sz, data_sz := size },
            log_lock page_sz size log h ++ [Call.mbox_free (u32 h)])) ∧
    (∀ h b, w.mbox_alloc (log_alloc page_sz size log) = some h →
      w.mbox_lock (log_lock page_sz size log h) = some b →
      w.mem_map (log_map page_sz size log h b) = none →
      mem_alloc w page_sz mem size log
        = Run.done (result.FAILURE,
            { flags :=
                { lock := !w.mbox_unlock (log_map page_sz size log h b ++ [Call.mbox_unlock (u32 h)]),
                  alloc :=
                    !(w.mbox_unlock (log_map page_sz size log h b ++ [Call.mbox_unlock (u32 h)])
                      && w.mbox_free (log_map page_sz size log h b
                          ++ [Call.mbox_unlock (u32 h), Call.mbox_free (u32 h)])) },
              bus := u32 b, refct := 0, handle := u32 h, alloc_sz := ROUNDUP size page_sz,
              data_sz := size },
            log_map page_sz size log h b ++ [Call.mbox_unlock (u32 h)]
              ++ (if w.mbox_unlock (log_map page_sz size log h b ++ [Call.mbox_unlock (u32 h)])
                  then [Call.mbox_free (u32 h)] else []))) :=
  ⟨mem_alloc_no_alloc w page_sz size mem log hflags,
    fun h => mem_alloc_no_lock w page_sz size mem log h hflags,
    fun h b => mem_alloc_no_map w page_sz size mem log h b hflags⟩

/-- C13 (witness): the lock request fails, the teardown is the single request
free(7), which succeeds: no flag is left set and the reference count is 0. -/
theorem mem_alloc_teardown_witness :
    (({} : gpu_mem).flags.alloc = false ∧ ({} : gpu_mem).flags.lock = false
        ∧ ({} : gpu_mem).flags.map = false) ∧
      mem_alloc world_no_lock 4096 {} 100 []
        = Run.done (result.FAILURE,
            { refct := 0, handle := 7, alloc_sz := 4096, data_sz := 100 },
            [Call.mbox_alloc 4096 4096, Call.mbox_lock 7, Call.mbox_free 7]) :=
  ⟨⟨rfl, rfl, rfl⟩,
    (mem_alloc_teardown world_no_lock 4096 100 {} [] ⟨rfl, rfl, rfl⟩).2.1 7 rfl rfl⟩

/-- C14 (counterexample): an allocation failure, a lock failure and a map
failure give `mem_alloc` the same result, `FAILURE`. -/
theorem mem_alloc_failures_alike :
    ((mem_alloc world_no_alloc 4096 {} 100 []).get?.map Prod.fst,
      (mem_alloc world_no_lock 4096 {} 100 []).get?.map Prod.fst,
      (mem_alloc world_no_map 4096 {} 100 []).get?.map Prod.fst)
      = (some result.FAILURE, some result.FAILURE, some result.FAILURE) := by
  decide

/-- C14 (amended): `mem_alloc`, entered with no flag set, returns `SUCCESS` or
`FAILURE`, and `FAILURE` exactly when one of the three acquisition requests
fails; which of them failed is not part of the result. -/
theorem mem_alloc_result (w : World) (page_sz size : Nat) (mem : gpu_mem) (log : List Call)
    (hflags : mem.flags.alloc = false ∧ mem.flags.lock = false ∧ mem.flags.map = false) :
    ∃ r mem' log', mem_alloc w page_sz mem size log = Run.done (r, mem', log')
      ∧ (r = result.SUCCESS ∨ r = result.FAILURE)
      ∧ (r = result.FAILURE ↔
          ¬ ∃ h b v, w.mbox_alloc (log_alloc page_sz size log) = some h
            ∧ w.mbox_lock (log_lock page_sz size log h) = some b
            ∧ w.mem_map (log_map page_sz size log h b) = some v) := by
  cases h1 : w.mbox_alloc (log_alloc page_sz size log) with
  | none =>
    exact ⟨_, _, _, mem_alloc_no_alloc w page_sz size mem log hflags h1, Or.inr rfl, by simp⟩
  | some h =>
    cases h2 : w.mbox_lock (log_lock page_sz size log h) with
    | none =>
      exact ⟨_, _, _, mem_alloc_no_lock w page_sz size mem log h hflags h1 h2, Or.inr rfl,
        by simp [h2]⟩
    | some b =>
      cases h3 : w.mem_map (log_map page_sz size log h b) with
      | none =>
        exact ⟨_, _, _, mem_alloc_no_map w page_sz size mem log h b hflags h1 h2 h3, Or.inr rfl,
          by simp [h2, h3]⟩
      | some v =>
        exact ⟨_, _, _, mem_alloc_ok w page_sz size mem log h b v hflags h1 h2 h3, Or.inl rfl,
          by simp [h2, h3]⟩

/-- C14 (witness): with the map request failing the result is `FAILURE`. -/
theorem mem_alloc_result_witness :
    (({} : gpu_mem).flags.alloc = false ∧ ({} : gpu_mem).flags.lock = false
        ∧ ({} : gpu_mem).flags.map = false) ∧
      ∃ r mem' log', mem_alloc world_no_map 4096 {} 100 [] = Run.done (r, mem', log')
        ∧ (r = result.SUCCESS ∨ r = result.FAILURE)
        ∧ (r = result.FAILURE ↔
            ¬ ∃ h b v, world_no_map.mbox_alloc (log_alloc 4096 100 []) = some h
              ∧ world_no_map.mbox_lock (log_lock 4096 100 [] h) = some b
              ∧ world_no_map.mem_map (log_map 4096 100 [] h b) = some v) :=
  ⟨⟨rfl, rfl, rfl⟩, mem_alloc_result world_no_map 4096 100 {} [] ⟨rfl, rfl, rfl⟩⟩

/-- With a positive reference count `mem_free` returns: it only decrements a
count above 1 and releases at count 1. -/
theorem mem_free_runs (w : World) (mem : gpu_mem) (log : List Call) (h : 0 < mem.refct) :
    mem_free w mem log
      = Run.done (if 1 < mem.refct then (result.SUCCESS, { mem with refct := mem.refct - 1 }, log)
          else run_release w release_steps { mem with refct := 0 } log) := by
  by_cases h1 : 1 < mem.refct
  · have e1 : ¬ mem.refct ≤ 0 := by omega
    have e2 : mem.refct - 1 > 0 := by omega
    simp [mem_free, e1, e2, h1]
  · have e : mem.refct = 1 := by omega
    rw [mem_free_one w mem log e, if_neg h1]

/-- C15: `mem_free` on a handle with reference count `n > 1` sets the count to
`n - 1`, returns `SUCCESS`, issues no request and leaves the flags unchanged; on
a handle with reference count 1 it sets the count to 0 and releases as the
specification words it (`run_release`): unmap, unlock, free in that order for
the flags that are set, each flag cleared after its request succeeded, `FAILURE`
at the first failing request without attempting the remaining ones. -/
theorem mem_free_release (w : World) (mem : gpu_mem) (log : List Call) (h : 0 < mem.refct) :
    mem_free w mem log
      = Run.done (if 1 < mem.refct then (result.SUCCESS, { mem with refct := mem.refct - 1 }, log)
          else run_release w release_steps { mem with refct := 0 } log) :=
  mem_free_runs w mem log h

/-- C15 (witness): a fully acquired handle with reference count 1 is released
by unmap, unlock, free, in this order, and ends with no flag set. -/
theorem mem_free_release_witness :
    (0 : Int) < 1 ∧
      mem_free (world_ok files_zero)
          { flags := { alloc := true, lock := true, map := true }, virt := 1995440128,
            refct := 1, handle := 7, alloc_sz := 4096 } []
        = Run.done (result.SUCCESS,
            { virt := 1995440128, refct := 0, handle := 7, alloc_sz := 4096 },
            [Call.mem_unmap 1995440128 4096, Call.mbox_unlock 7, Call.mbox_free 7]) :=
  ⟨by decide,
    mem_free_release (world_ok files_zero)
      { flags := { alloc := true, lock := true, map := true }, virt := 1995440128,
        refct := 1, handle := 7, alloc_sz := 4096 } [] (by decide)⟩

theorem andThen_success {σ : Type} (x : Run (result × σ)) (k : σ → Run (result × σ)) (s' : σ)
    (h : x.andThen k = Run.done (result.SUCCESS, s')) :
    ∃ s1, x = Run.done (result.SUCCESS, s1) ∧ k s1 = Run.done (result.SUCCESS, s') := by
  cases x with
  | done a =>
    obtain ⟨r, s1⟩ := a
    cases r <;> simp [Run.andThen] at h
    exact ⟨s1, rfl, h⟩
  | abort => simp [Run.andThen] at h
  | spin => simp [Run.andThen] at h

theorem for_tasks_range' (body : Nat → St → Run (result × St)) (Inv : Nat → St → Prop)
    (n : Nat) :
    ∀ (a : Nat) (s s' : St),
      (∀ m s s1, a ≤ m → m < a + n → Inv m s → body m s = Run.done (result.SUCCESS, s1) →
        Inv (m + 1) s1) →
      Inv a s → for_tasks body (List.range' a n) s = Run.done (result.SUCCESS, s') →
      Inv (a + n) s' := by
  induction n with
  | zero =>
    intro a s s' _ h0 h
    simp [for_tasks] at h
    subst h
    exact h0
  | succ n ih =>
    intro a s s' hstep h0 h
    rw [List.range'_succ, for_tasks] at h
    obtain ⟨s1, h1, h2⟩ := andThen_success _ _ _ h
    have := ih (a + 1) s1 s' (fun m s s1 hm hm' => hstep m s s1 (by omega) (by omega))
      (hstep a s s1 (le_refl a) (by omega) h0 h1) h2
    rwa [show a + (n + 1) = a + 1 + n by omega]

theorem slot_setSlot (g : G) (i j : Nat) (t : task_slot) :
    (g.setSlot i t).slot j = if i = j ∧ i < g.task.length then t else g.slot j := by
  unfold G.setSlot G.slot
  simp only [List.getD_eq_getElem?_getD, List.getElem?_set]
  by_cases h : i = j
  · subst h
    by_cases h2 : i < g.task.length
    · simp [h2]
    · have e : g.task[i]? = none := List.getElem?_eq_none (by omega)
      simp [h2, e]
  · simp [h]

theorem setSlot_page_sz (g : G) (i : Nat) (t : task_slot) : (g.setSlot i t).page_sz = g.page_sz := rfl
theorem setSlot_timeout_ms (g : G) (i : Nat) (t : task_slot) :
    (g.setSlot i t).timeout_ms = g.timeout_ms := rfl
theorem setSlot_ntasks (g : G) (i : Nat) (t : task_slot) : (g.setSlot i t).ntasks = g.ntasks := rfl
theorem setSlot_mem (g : G) (i : Nat) (t : task_slot) : (g.setSlot i t).mem = g.mem := rfl
theorem setSlot_glob (g : G) (i : Nat) (t : task_slot) : (g.setSlot i t).glob = g.glob := rfl
theorem setSlot_length (g : G) (i : Nat) (t : task_slot) :
    (g.setSlot i t).task.length = g.task.length := by
  simp [G.setSlot]

theorem same_but_slot_set (s : St) (d : Nat) (t : task_slot) (log : List Call) :
    same_but_slot s { s with g := s.g.setSlot d t, log := log } d := by
  refine ⟨rfl, rfl, rfl, rfl, rfl, setSlot_length _ _ _, rfl, ?_⟩
  intro j hj
  simp [slot_setSlot, Ne.symm hj]

theorem same_but_slot_refl (s : St) (d : Nat) : same_but_slot s s d :=
  ⟨rfl, rfl, rfl, rfl, rfl, rfl, rfl, fun _ _ => rfl⟩

theorem replicate_inst_spec (w : World) (src dst : Nat) (s s1 : St)
    (hd : dst < s.g.task.length) (hin : (s.g.slot dst).inst.active = false)
    (h : replicate_inst w src dst s = Run.done (result.SUCCESS, s1)) :
    same_but_slot s s1 dst
      ∧ (s1.g.slot dst).unif = (s.g.slot dst).unif
      ∧ (s1.g.slot dst).rbuf = (s.g.slot dst).rbuf
      ∧ (s1.g.slot dst).wbuf = (s.g.slot dst).wbuf
      ∧ file_replica (s1.g.slot dst).inst (s.g.slot src).inst := by
  unfold replicate_inst at h
  by_cases ha : (s.g.slot src).inst.active = true
  · simp only [ha, if_true, dup_file, hin] at h
    cases hdup : w.dup (s.log ++ [Call.dup (s.g.slot src).inst.fd]) with
    | none => simp [hdup] at h
    | some fd =>
      simp [hdup] at h
      subst h
      refine ⟨same_but_slot_set _ _ _ _, ?_⟩
      simp [slot_setSlot, hd, file_replica, ha]
  · simp only [ha] at h
    simp at h
    subst h
    simp at ha
    simp [same_but_slot_refl, file_replica, ha, hin]

theorem replicate_unif_spec (w : World) (src dst : Nat) (s s1 : St)
    (hd : dst < s.g.task.length) (hin : (s.g.slot dst).unif.active = false)
    (h : replicate_unif w src dst s = Run.done (result.SUCCESS, s1)) :
    same_but_slot s s1 dst
      ∧ (s1.g.slot dst).inst = (s.g.slot dst).inst
      ∧ (s1.g.slot dst).rbuf = (s.g.slot dst).rbuf
      ∧ (s1.g.slot dst).wbuf = (s.g.slot dst).wbuf
      ∧ file_replica (s1.g.slot dst).unif (s.g.slot src).unif := by
  unfold replicate_unif at h
  by_cases ha : (s.g.slot src).unif.active = true
  · simp only [ha, if_true, dup_file, hin] at h
    cases hdup : w.dup (s.log ++ [Call.dup (s.g.slot src).unif.fd]) with
    | none => simp [hdup] at h
    | some fd =>
      simp [hdup] at h
      subst h
      refine ⟨same_but_slot_set _ _ _ _, ?_⟩
      simp [slot_setSlot, hd, file_replica, ha]
  · simp only [ha] at h
    simp at h
    subst h
    simp at ha
    simp [same_but_slot_refl, file_replica, ha, hin]

theorem replicate_rbuf_spec (w : World) (src dst : Nat) (s s1 : St)
    (hd : dst < s.g.task.length) (hin : (s.g.slot dst).rbuf.active = false)
    (h : replicate_rbuf w src dst s = Run.done (result.SUCCESS, s1)) :
    same_but_slot s s1 dst
      ∧ (s1.g.slot dst).inst = (s.g.slot dst).inst
      ∧ (s1.g.slot dst).unif = (s.g.slot dst).unif
      ∧ (s1.g.slot dst).wbuf = (s.g.slot dst).wbuf
      ∧ file_replica (s1.g.slot dst).rbuf (s.g.slot src).rbuf := by
  unfold replicate_rbuf at h
  by_cases ha : (s.g.slot src).rbuf.active = true
  · simp only [ha, if_true, dup_file, hin] at h
    cases hdup : w.dup (s.log ++ [Call.dup (s.g.slot src).rbuf.fd]) with
    | none => simp [hdup] at h
    | some fd =>
      simp [hdup] at h
      subst h
      refine ⟨same_but_slot_set _ _ _ _, ?_⟩
      simp [slot_setSlot, hd, file_replica, ha]
  · simp only [ha] at h
    simp at h
    subst h
    simp at ha
    simp [same_but_slot_refl, file_replica, ha, hin]

theorem replicate_wbuf_spec (src dst : Nat) (s s1 : St)
    (hd : dst < s.g.task.length) (hin : (s.g.slot dst).wbuf.active = false)
    (h : replicate_wbuf src dst s = Run.done (result.SUCCESS, s1)) :
    same_but_slot s s1 dst
      ∧ (s1.g.slot dst).inst = (s.g.slot dst).inst
      ∧ (s1.g.slot dst).unif = (s.g.slot dst).unif
      ∧ (s1.g.slot dst).rbuf = (s.g.slot dst).rbuf
      ∧ buf_replica (s1.g.slot dst).wbuf (s.g.slot src).wbuf := by
  unfold replicate_wbuf at h
  by_cases ha : (s.g.slot src).wbuf.active = true
  · simp [ha, dup_buf, hin] at h
    subst h
    have e := same_but_slot_set s dst { s.g.slot dst with wbuf := (s.g.slot src).wbuf } s.log
    refine ⟨e, ?_⟩
    simp [slot_setSlot, hd, buf_replica, ha]
  · simp only [ha] at h
    simp at h
    subst h
    simp at ha
    simp [same_but_slot_refl, buf_replica, ha, hin]

theorem replicate_task_spec (w : World) (K dst : Nat) (s s1 : St)
    (hK : 0 < K) (hKd : K ≤ dst) (hd : dst < s.g.task.length)
    (hin : (s.g.slot dst).inst.active = false ∧ (s.g.slot dst).unif.active = false
      ∧ (s.g.slot dst).rbuf.active = false ∧ (s.g.slot dst).wbuf.active = false)
    (h : replicate_task w K dst s = Run.done (result.SUCCESS, s1)) :
    same_but_slot s s1 dst
      ∧ file_replica (s1.g.slot dst).inst (s.g.slot (dst % K)).inst
      ∧ file_replica (s1.g.slot dst).unif (s.g.slot (dst % K)).unif
      ∧ file_replica (s1.g.slot dst).rbuf (s.g.slot (dst % K)).rbuf
      ∧ buf_replica (s1.g.slot dst).wbuf (s.g.slot (dst % K)).wbuf := by
  have hsrc : dst % K ≠ dst := by
    have := Nat.mod_lt dst hK
    omega
  unfold replicate_task at h
  obtain ⟨sc, h3, h4⟩ := andThen_success _ _ _ h
  obtain ⟨sb, h2, h3'⟩ := andThen_success _ _ _ h3
  obtain ⟨sa, h1, h2'⟩ := andThen_success _ _ _ h2
  obtain ⟨hi, hu, hr, hw⟩ := hin
  obtain ⟨fa, a1, a2, a3, a4⟩ := replicate_inst_spec w _ dst s sa hd hi h1
  obtain ⟨_, _, _, _, _, la, _, sla⟩ := fa
  obtain ⟨fb, b1, b2, b3, b4⟩ := replicate_unif_spec w _ dst sa sb (by omega) (by rw [a1]; exact hu) h2'
  obtain ⟨_, _, _, _, _, lb, _, slb⟩ := fb
  obtain ⟨fc, c1, c2, c3, c4⟩ := replicate_rbuf_spec w _ dst sb sc (by omega)
    (by rw [b2, a2]; exact hr) h3'
  obtain ⟨_, _, _, _, _, lc, _, slc⟩ := fc
  obtain ⟨fd, d1, d2, d3, d4⟩ := replicate_wbuf_spec _ dst sc s1 (by omega)
    (by rw [c3, b3, a3]; exact hw) h4
  obtain ⟨_, _, _, _, _, ld, _, sld⟩ := fd
  refine ⟨⟨by simp_all, by simp_all, by simp_all, by simp_all, by simp_all, by omega,
    by simp_all, ?_⟩, ?_, ?_, ?_, ?_⟩
  · intro j hj
    rw [sld j hj, slc j hj, slb j hj, sla j hj]
  · rw [d1, c1, b1]; exact a4
  · rw [d2, c2, ← sla _ hsrc]; exact b4
  · rw [d3, ← sla _ hsrc, ← slb _ hsrc]; exact c4
  · rw [← sla _ hsrc, ← slb _ hsrc, ← slc _ hsrc]; exact d4

theorem replicate_loop (w : World) (s0 : St) (K n : Nat) (hK : 0 < K)
    (hlen : s0.g.task.length = MAX_TASKS) (hun : slots_unused s0.g K)
    (hn : K + n ≤ MAX_TASKS) (s' : St)
    (h : for_tasks (replicate_task w K) (List.range' K n) s0 = Run.done (result.SUCCESS, s')) :
    (s'.g.ntasks = s0.g.ntasks ∧ s'.g.glob = s0.g.glob ∧ s'.g.task.length = MAX_TASKS
      ∧ (∀ j, j < K → s'.g.slot j = s0.g.slot j)
      ∧ (∀ j, K + n ≤ j → s'.g.slot j = s0.g.slot j)
      ∧ ∀ d, K ≤ d → d < K + n →
          file_replica (s'.g.slot d).inst (s0.g.slot (d % K)).inst
          ∧ file_replica (s'.g.slot d).unif (s0.g.slot (d % K)).unif
          ∧ file_replica (s'.g.slot d).rbuf (s0.g.slot (d % K)).rbuf
          ∧ buf_replica (s'.g.slot d).wbuf (s0.g.slot (d % K)).wbuf) := by
  refine for_tasks_range' (replicate_task w K)
    (fun m s => s.g.ntasks = s0.g.ntasks ∧ s.g.glob = s0.g.glob ∧ s.g.task.length = MAX_TASKS
      ∧ (∀ j, j < K → s.g.slot j = s0.g.slot j)
      ∧ (∀ j, m ≤ j → s.g.slot j = s0.g.slot j)
      ∧ ∀ d, K ≤ d → d < m →
          file_replica (s.g.slot d).inst (s0.g.slot (d % K)).inst
          ∧ file_replica (s.g.slot d).unif (s0.g.slot (d % K)).unif
          ∧ file_replica (s.g.slot d).rbuf (s0.g.slot (d % K)).rbuf
          ∧ buf_replica (s.g.slot d).wbuf (s0.g.slot (d % K)).wbuf) n K s0 s' ?_ ?_ h
  · intro m s s1 hm hm' ⟨i1, i2, i3, i4, i5, i6⟩ hb
    have hmod : m % K < K := Nat.mod_lt m hK
    have hunm := hun m (by omega) hm
    rw [← i5 m (le_refl m)] at hunm
    obtain ⟨fr, r1, r2, r3, r4⟩ := replicate_task_spec w K m s s1 hK hm (by omega) hunm hb
    obtain ⟨_, _, f3, _, f5, f6, _, f8⟩ := fr
    rw [i4 _ hmod] at r1 r2 r3 r4
    refine ⟨by omega, by rw [f5, i2], by omega, ?_, ?_, ?_⟩
    · intro j hj
      rw [f8 j (by omega), i4 j hj]
    · intro j hj
      rw [f8 j (by omega), i5 j (by omega)]
    · intro d hd hd'
      by_cases e : d = m
      · subst e
        exact ⟨r1, r2, r3, r4⟩
      · rw [f8 d e]
        exact i6 d hd (by omega)
  · exact ⟨rfl, rfl, hlen, fun _ _ => rfl, fun _ _ => rfl, fun d hd hd' => by omega⟩

/-- Replication without wrap-around: after a successful `gpu_replicate(M)` on
`K` tasks whose product `M × K` is below 2^32, every new slot `d` with
`K ≤ d < M × K` has, for each of instructions, uniforms, read buffer and write
buffer, the same active flag and, when declared, the same declared size as slot
`d mod K`; the slots `0..K-1` and the global resources are unchanged. -/
theorem gpu_replicate_copies (w : World) (mult : Nat) (s s' : St)
    (hlen : s.g.task.length = MAX_TASKS) (hun : slots_unused s.g s.g.ntasks)
    (hM : mult * s.g.ntasks < 4294967296)
    (h : gpu_replicate w mult s = Run.done (result.SUCCESS, s')) :
    (∀ d, s.g.ntasks ≤ d → d < mult * s.g.ntasks →
        file_replica (s'.g.slot d).inst (s'.g.slot (d % s.g.ntasks)).inst
        ∧ file_replica (s'.g.slot d).unif (s'.g.slot (d % s.g.ntasks)).unif
        ∧ file_replica (s'.g.slot d).rbuf (s'.g.slot (d % s.g.ntasks)).rbuf
        ∧ buf_replica (s'.g.slot d).wbuf (s'.g.slot (d % s.g.ntasks)).wbuf)
      ∧ (∀ d, d < s.g.ntasks → s'.g.slot d = s.g.slot d)
      ∧ s'.g.glob = s.g.glob := by
  unfold gpu_replicate at h
  rw [u32_of_lt hM] at h
  split_ifs at h with c1 c2
  · simp at h
  · simp at h
  have hK : 0 < s.g.ntasks := by omega
  have hmult : 1 < mult := by omega
  have hle : s.g.ntasks ≤ mult * s.g.ntasks := Nat.le_mul_of_pos_left _ (by omega)
  have hb : mult * s.g.ntasks ≤ MAX_TASKS := by omega
  split at h
  · rename_i x sL hL
    simp only [Run.done.injEq, Prod.mk.injEq, true_and] at h
    obtain ⟨l1, l2, l3, l4, l5, l6⟩ := replicate_loop w s s.g.ntasks
      (mult * s.g.ntasks - s.g.ntasks) hK hlen hun (by omega) sL hL
    subst h
    refine ⟨?_, ?_, ?_⟩
    · intro d hd hd'
      have hmod : d % s.g.ntasks < s.g.ntasks := Nat.mod_lt d hK
      have := l6 d hd (by omega)
      rw [← l4 _ hmod] at this
      exact this
    · intro d hd
      exact l4 d hd
    · exact l2
  · rename_i x hx
    exfalso
    cases hr : for_tasks (replicate_task w s.g.ntasks)
        (List.range' s.g.ntasks (mult * s.g.ntasks - s.g.ntasks)) s with
    | done a =>
      rw [hr] at h
      obtain ⟨r, sx⟩ := a
      simp only [Run.done.injEq, Prod.mk.injEq] at h
      obtain ⟨h1, h2⟩ := h
      subst h1
      exact hx sx hr
    | abort => rw [hr] at h; cases h
    | spin => rw [hr] at h; cases h

/-- The replicas `gpu_replicate(3)` makes of one task with all four resources. -/
theorem gpu_replicate_copies_full :
    (s_full.g.task.length = MAX_TASKS ∧ slots_unused s_full.g s_full.g.ntasks
        ∧ 3 * s_full.g.ntasks < 4294967296
        ∧ gpu_replicate (world_ok files_zero) 3 s_full = Run.done (result.SUCCESS, s_full3))
      ∧ ((∀ d, s_full.g.ntasks ≤ d → d < 3 * s_full.g.ntasks →
          file_replica (s_full3.g.slot d).inst (s_full3.g.slot (d % s_full.g.ntasks)).inst
          ∧ file_replica (s_full3.g.slot d).unif (s_full3.g.slot (d % s_full.g.ntasks)).unif
          ∧ file_replica (s_full3.g.slot d).rbuf (s_full3.g.slot (d % s_full.g.ntasks)).rbuf
          ∧ buf_replica (s_full3.g.slot d).wbuf (s_full3.g.slot (d % s_full.g.ntasks)).wbuf)
        ∧ (∀ d, d < s_full.g.ntasks → s_full3.g.slot d = s_full.g.slot d)
        ∧ s_full3.g.glob = s_full.g.glob) :=
  ⟨⟨by decide, by unfold slots_unused; decide, by decide, rfl⟩,
    gpu_replicate_copies (world_ok files_zero) 3 s_full s_full3 (by decide)
      (by unfold slots_unused; decide) (by decide) rfl⟩

/-- A successful `dup_file` requested one `dup` of the descriptor of the source
and returns the source with the descriptor the request answered. -/
theorem dup_file_handle (w : World) (dst src f : gpu_file) (log log' : List Call)
    (h : dup_file w dst src log = Run.done (result.SUCCESS, f, log')) :
    log' = log ++ [Call.dup src.fd]
      ∧ ∃ fd, w.dup log' = some fd ∧ f = { src with fd := u32 fd } := by
  unfold dup_file at h
  split_ifs at h with c
  cases hd : w.dup (log ++ [Call.dup src.fd]) with
  | none =>
    simp only [hd] at h
    cases h
  | some fd =>
    simp only [hd, Run.done.injEq, Prod.mk.injEq, true_and] at h
    obtain ⟨h1, h2⟩ := h
    subst h2
    exact ⟨rfl, fd, hd, h1.symm⟩

/-- C11 (divergence): with two tasks, `gpu_replicate(2147483650)` returns
`SUCCESS` with four tasks, for the `u32` product `2147483650 × 2` is 4 while
`M × K` is 4294967300. The slots 4 and 11 lie in `K ≤ d < M × K` and hold no
instructions, while the slots `4 mod 2` and `11 mod 2` do: the new slots from
the wrapped product on are no replicas. -/
theorem replicate_wrap_leaves_slots :
    (gpu_replicate (world_ok files_zero) 2147483650 s_two).get?.map
        (fun x => (x.1, x.2.g.ntasks, (x.2.g.slot 4).inst.active,
          (x.2.g.slot (4 % 2)).inst.active, (x.2.g.slot 11).inst.active,
          (x.2.g.slot (11 % 2)).inst.active))
      = some (result.SUCCESS, 4, false, true, false, true)
      ∧ s_two.g.ntasks = 2 ∧ 2 ≤ 4 ∧ 11 < 2147483650 * 2 := by
  decide

/-- C9 (divergence): with two tasks, `gpu_replicate(2147483650)` returns
`SUCCESS` and leaves four tasks, although the product `2147483650 × 2` is
4294967300. -/
theorem gpu_replicate_wraps :
    (gpu_replicate (world_ok files_zero) 2147483650 s_two).get?.map
        (fun x => (x.1, x.2.g.ntasks)) = some (result.SUCCESS, 4)
      ∧ s_two.g.ntasks = 2 ∧ 2147483650 * 2 = 4294967300 := by
  decide

/-- C10 (divergence): with two tasks, `gpu_replicate(2147483650)`, whose product
4294967300 exceeds 12, does not return `FAILURE` and changes the state: slots 2
and 3 receive instructions and the task count becomes 4. -/
theorem gpu_replicate_accepts_overflow :
    (gpu_replicate (world_ok files_zero) 2147483650 s_two).get?.map
        (fun x => (x.1, decide (x.2.g = s_two.g), (x.2.g.slot 2).inst, (x.2.g.slot 3).inst))
      = some (result.SUCCESS, false, { active := true, fd := 9, size := 8 },
          { active := true, fd := 9, size := 8 })
      ∧ 12 < 2147483650 * s_two.g.ntasks := by
  decide

theorem andThen_done {σ : Type} (x : Run (result × σ)) (k : σ → Run (result × σ))
    (r : result) (s' : σ) (h : x.andThen k = Run.done (r, s')) :
    (∃ s1, x = Run.done (result.SUCCESS, s1) ∧ k s1 = Run.done (r, s'))
      ∨ (∃ r1, r1 ≠ result.SUCCESS ∧ x = Run.done (r1, s') ∧ r = result.FAILURE) := by
  cases x with
  | done a =>
    obtain ⟨r1, s1⟩ := a
    cases r1 <;> simp [Run.andThen] at h
    · exact Or.inl ⟨s1, rfl, h⟩
    · exact Or.inr ⟨result.FAILURE, by simp, by simp [h.2], h.1.symm⟩
    · exact Or.inr ⟨result.ABORT, by simp, by simp [h.2], h.1.symm⟩
  | abort => simp [Run.andThen] at h
  | spin => simp [Run.andThen] at h

theorem andThen_rel {σ : Type} (R : σ → σ → Prop) (htrans : ∀ a b c, R a b → R b c → R a c)
    (x : Run (result × σ)) (k : σ → Run (result × σ)) (s0 : σ)
    (hx : ∀ r s1, x = Run.done (r, s1) → R s0 s1)
    (hk : ∀ s1 r s2, k s1 = Run.done (r, s2) → R s1 s2)
    (r : result) (s' : σ) (h : x.andThen k = Run.done (r, s')) : R s0 s' := by
  rcases andThen_done x k r s' h with ⟨s1, h1, h2⟩ | ⟨r1, _, h1, _⟩
  · exact htrans _ _ _ (hx _ _ h1) (hk _ _ _ h2)
  · exact hx _ _ h1

theorem for_tasks_rel (R : St → St → Prop) (hrefl : ∀ a, R a a)
    (htrans : ∀ a b c, R a b → R b c → R a c) (body : Nat → St → Run (result × St))
    (hbody : ∀ i s r s1, body i s = Run.done (r, s1) → R s s1) (l : List Nat) :
    ∀ s r s', for_tasks body l s = Run.done (r, s') → R s s' := by
  induction l with
  | nil =>
    intro s r s' h
    simp [for_tasks] at h
    rw [← h.2]
    exact hrefl s
  | cons i rest ih =>
    intro s r s' h
    rw [for_tasks] at h
    exact andThen_rel R htrans _ _ s (fun r s1 h1 => hbody i s r s1 h1) ih r s' h

theorem stage_rel_refl (s : St) : stage_rel s s :=
  ⟨rfl, rfl, rfl, rfl, [], by simp, by simp⟩

theorem stage_rel_trans (a b c : St) (h1 : stage_rel a b) (h2 : stage_rel b c) :
    stage_rel a c := by
  obtain ⟨a1, a2, a3, a4, e1, a5, a6⟩ := h1
  obtain ⟨b1, b2, b3, b4, e2, b5, b6⟩ := h2
  refine ⟨by omega, by omega, by omega, ?_, e1 ++ e2, ?_, ?_⟩
  · rw [b4, a4]
  · rw [b5, a5, List.append_assoc]
  · intro c hc
    rcases List.mem_append.1 hc with h | h
    · exact a6 c h
    · exact b6 c h

theorem init_file_rel (w : World) (mem : gpu_mem) (file : gpu_file) (ram : Nat → Nat)
    (log : List Call) (r : result) (mem' : gpu_mem) (file' : gpu_file) (ram' : Nat → Nat)
    (log' : List Call)
    (h : init_file w mem file ram log = Run.done (r, mem', file', ram', log')) :
    mem' = { mem with used_sz := mem'.used_sz }
      ∧ (∃ ext, log' = log ++ ext ∧ ∀ c ∈ ext, c.is_file = true) := by
  unfold init_file at h
  by_cases c1 : u32 (mem.data_sz + 4294967296 - mem.used_sz) < file.size
  · simp [c1] at h
  · simp only [c1, if_false] at h
    cases hl : w.lseek (log ++ [Call.lseek file.fd])
    · simp only [hl, Bool.false_eq_true, if_false, Run.done.injEq, Prod.mk.injEq] at h
      obtain ⟨_, h2, _, _, h5⟩ := h
      subst h2 h5
      exact ⟨rfl, [Call.lseek file.fd], by simp, by simp [Call.is_file]⟩
    · simp only [hl, if_true] at h
      cases hr : w.read (log ++ [Call.lseek file.fd]
          ++ [Call.read file.fd mem.used_sz file.size]) with
      | none =>
        simp only [hr, Run.done.injEq, Prod.mk.injEq] at h
        obtain ⟨_, h2, _, _, h5⟩ := h
        subst h2 h5
        exact ⟨rfl, [Call.lseek file.fd, Call.read file.fd mem.used_sz file.size],
          by simp, by simp [Call.is_file]⟩
      | some bytes =>
        simp only [hr, Run.done.injEq, Prod.mk.injEq] at h
        obtain ⟨_, h2, _, _, h5⟩ := h
        subst h2 h5
        exact ⟨rfl, [Call.lseek file.fd, Call.read file.fd mem.used_sz file.size],
          by simp, by simp [Call.is_file]⟩

theorem stage_task_inst_rel (w : World) (i : Nat) (s : St) (r : result) (s1 : St)
    (h : stage_task_inst w i s = Run.done (r, s1)) : stage_rel s s1 := by
  unfold stage_task_inst at h
  by_cases ha : (s.g.slot i).inst.active = true
  · simp only [ha, if_true] at h
    cases hf : init_file w s.g.mem (s.g.slot i).inst s.ram s.log with
    | done a =>
      obtain ⟨r', mem', file', ram', log'⟩ := a
      rw [hf] at h
      simp only [Run.done.injEq, Prod.mk.injEq] at h
      obtain ⟨_, h2⟩ := h
      subst h2
      obtain ⟨e1, e2⟩ := init_file_rel _ _ _ _ _ _ _ _ _ _ hf
      exact ⟨rfl, rfl, rfl, e1, e2⟩
    | abort => rw [hf] at h; cases h
    | spin => rw [hf] at h; cases h
  · simp only [ha] at h
    simp only [Bool.false_eq_true, if_false, Run.done.injEq, Prod.mk.injEq] at h
    rw [← h.2]
    exact stage_rel_refl s

theorem stage_task_unif_rel (w : World) (i : Nat) (s : St) (r : result) (s1 : St)
    (h : stage_task_unif w i s = Run.done (r, s1)) : stage_rel s s1 := by
  unfold stage_task_unif at h
  by_cases ha : (s.g.slot i).unif.active = true
  · simp only [ha, if_true] at h
    cases hf : init_file w s.g.mem (s.g.slot i).unif s.ram s.log with
    | done a =>
      obtain ⟨r', mem', file', ram', log'⟩ := a
      rw [hf] at h
      simp only [Run.done.injEq, Prod.mk.injEq] at h
      obtain ⟨_, h2⟩ := h
      subst h2
      obtain ⟨e1, e2⟩ := init_file_rel _ _ _ _ _ _ _ _ _ _ hf
      exact ⟨rfl, rfl, rfl, e1, e2⟩
    | abort => rw [hf] at h; cases h
    | spin => rw [hf] at h; cases h
  · simp only [ha] at h
    simp only [Bool.false_eq_true, if_false, Run.done.injEq, Prod.mk.injEq] at h
    rw [← h.2]
    exact stage_rel_refl s

theorem stage_task_rbuf_rel (w : World) (i : Nat) (s : St) (r : result) (s1 : St)
    (h : stage_task_rbuf w i s = Run.done (r, s1)) : stage_rel s s1 := by
  unfold stage_task_rbuf at h
  by_cases ha : (s.g.slot i).rbuf.active = true
  · simp only [ha, if_true] at h
    cases hf : init_file w s.g.mem (s.g.slot i).rbuf s.ram s.log with
    | done a =>
      obtain ⟨r', mem', file', ram', log'⟩ := a
      rw [hf] at h
      simp only [Run.done.injEq, Prod.mk.injEq] at h
      obtain ⟨_, h2⟩ := h
      subst h2
      obtain ⟨e1, e2⟩ := init_file_rel _ _ _ _ _ _ _ _ _ _ hf
      exact ⟨rfl, rfl, rfl, e1, e2⟩
    | abort => rw [hf] at h; cases h
    | spin => rw [hf] at h; cases h
  · simp only [ha] at h
    simp only [Bool.false_eq_true, if_false, Run.done.injEq, Prod.mk.injEq] at h
    rw [← h.2]
    exact stage_rel_refl s

theorem stage_glob_unif_rel (w : World) (s : St) (r : result) (s1 : St)
    (h : stage_glob_unif w s = Run.done (r, s1)) : stage_rel s s1 := by
  unfold stage_glob_unif at h
  by_cases ha : s.g.glob.unif.active = true
  · simp only [ha, if_true] at h
    cases hf : init_file w s.g.mem s.g.glob.unif s.ram s.log with
    | done a =>
      obtain ⟨r', mem', file', ram', log'⟩ := a
      rw [hf] at h
      simp only [Run.done.injEq, Prod.mk.injEq] at h
      obtain ⟨_, h2⟩ := h
      subst h2
      obtain ⟨e1, e2⟩ := init_file_rel _ _ _ _ _ _ _ _ _ _ hf
      exact ⟨rfl, rfl, rfl, e1, e2⟩
    | abort => rw [hf] at h; cases h
    | spin => rw [hf] at h; cases h
  · simp only [ha] at h
    simp only [Bool.false_eq_true, if_false, Run.done.injEq, Prod.mk.injEq] at h
    rw [← h.2]
    exact stage_rel_refl s

theorem stage_glob_rbuf_rel (w : World) (s : St) (r : result) (s1 : St)
    (h : stage_glob_rbuf w s = Run.done (r, s1)) : stage_rel s s1 := by
  unfold stage_glob_rbuf at h
  by_cases ha : s.g.glob.rbuf.active = true
  · simp only [ha, if_true] at h
    cases hf : init_file w s.g.mem s.g.glob.rbuf s.ram s.log with
    | done a =>
      obtain ⟨r', mem', file', ram', log'⟩ := a
      rw [hf] at h
      simp only [Run.done.injEq, Prod.mk.injEq] at h
      obtain ⟨_, h2⟩ := h
      subst h2
      obtain ⟨e1, e2⟩ := init_file_rel _ _ _ _ _ _ _ _ _ _ hf
      exact ⟨rfl, rfl, rfl, e1, e2⟩
    | abort => rw [hf] at h; cases h
    | spin => rw [hf] at h; cases h
  · simp only [ha] at h
    simp only [Bool.false_eq_true, if_false, Run.done.injEq, Prod.mk.injEq] at h
    rw [← h.2]
    exact stage_rel_refl s

theorem stage_task_wbuf_rel (i : Nat) (s : St) (r : result) (s1 : St)
    (h : stage_task_wbuf i s = Run.done (r, s1)) : stage_rel s s1 := by
  unfold stage_task_wbuf at h
  by_cases ha : (s.g.slot i).wbuf.active = true
  · simp only [ha, if_true, init_buf] at h
    split_ifs at h
    simp only [Run.done.injEq, Prod.mk.injEq] at h
    obtain ⟨_, h2⟩ := h
    subst h2
    exact ⟨rfl, rfl, rfl, rfl, [], by simp, by simp⟩
  · simp only [ha] at h
    simp only [Bool.false_eq_true, if_false, Run.done.injEq, Prod.mk.injEq] at h
    rw [← h.2]
    exact stage_rel_refl s

theorem stage_glob_wbuf_rel (s : St) (r : result) (s1 : St)
    (h : stage_glob_wbuf s = Run.done (r, s1)) : stage_rel s s1 := by
  unfold stage_glob_wbuf at h
  by_cases ha : s.g.glob.wbuf.active = true
  · simp only [ha, if_true, init_buf] at h
    split_ifs at h
    simp only [Run.done.injEq, Prod.mk.injEq] at h
    obtain ⟨_, h2⟩ := h
    subst h2
    exact ⟨rfl, rfl, rfl, rfl, [], by simp, by simp⟩
  · simp only [ha] at h
    simp only [Bool.false_eq_true, if_false, Run.done.injEq, Prod.mk.injEq] at h
    rw [← h.2]
    exact stage_rel_refl s

theorem stage_all_rel (w : World) (s : St) (r : result) (s1 : St)
    (h : stage_all w s = Run.done (r, s1)) : stage_rel s s1 := by
  unfold stage_all at h
  refine andThen_rel stage_rel stage_rel_trans _ _ s ?_ ?_ r s1 h
  · refine andThen_rel stage_rel stage_rel_trans _ _ s ?_ ?_
    · refine andThen_rel stage_rel stage_rel_trans _ _ s ?_ ?_
      · refine andThen_rel stage_rel stage_rel_trans _ _ s ?_ ?_
        · refine andThen_rel stage_rel stage_rel_trans _ _ s ?_ ?_
          · refine andThen_rel stage_rel stage_rel_trans _ _ s ?_ ?_
            · exact for_tasks_rel stage_rel stage_rel_refl stage_rel_trans _
                (stage_task_inst_rel w) _ s
            · exact stage_glob_unif_rel w
          · exact for_tasks_rel stage_rel stage_rel_refl stage_rel_trans _
              (stage_task_unif_rel w) _
        · exact stage_glob_rbuf_rel w
      · exact for_tasks_rel stage_rel stage_rel_refl stage_rel_trans _
          (stage_task_rbuf_rel w) _
    · exact stage_glob_wbuf_rel
  · exact for_tasks_rel stage_rel stage_rel_refl stage_rel_trans _ stage_task_wbuf_rel _

theorem init_mem_acquired (w : World) (s : St) (h b v : Nat)
    (hflags : s.g.mem.flags.alloc = false ∧ s.g.mem.flags.lock = false
      ∧ s.g.mem.flags.map = false)
    (h1 : w.mbox_alloc (log_alloc s.g.page_sz (mem_size s.g) s.log) = some h)
    (h2 : w.mbox_lock (log_lock s.g.page_sz (mem_size s.g) s.log h) = some b)
    (h3 : w.mem_map (log_map s.g.page_sz (mem_size s.g) s.log h b) = some v) :
    init_mem w s
      = match stage_all w (acquired s h b v) with
        | Run.done (result.SUCCESS, s) =>
          if s.g.mem.used_sz ≠ s.g.mem.data_sz then
            Run.done (result.FAILURE, { s with ram := memcpy_control s.ram (control_block s.g) })
          else
            Run.done (result.SUCCESS, { s with ram := memcpy_control s.ram (control_block s.g) })
        | r => r := by
  unfold init_mem
  simp only [mem_alloc_ok w _ _ _ _ h b v hflags h1 h2 h3]
  rfl

theorem init_mem_acquired_rel (w : World) (s : St) (h b v : Nat)
    (hflags : s.g.mem.flags.alloc = false ∧ s.g.mem.flags.lock = false
      ∧ s.g.mem.flags.map = false)
    (h1 : w.mbox_alloc (log_alloc s.g.page_sz (mem_size s.g) s.log) = some h)
    (h2 : w.mbox_lock (log_lock s.g.page_sz (mem_size s.g) s.log h) = some b)
    (h3 : w.mem_map (log_map s.g.page_sz (mem_size s.g) s.log h b) = some v)
    (r : result) (s' : St) (hrun : init_mem w s = Run.done (r, s')) :
    stage_rel (acquired s h b v) s' := by
  rw [init_mem_acquired w s h b v hflags h1 h2 h3] at hrun
  cases hs : stage_all w (acquired s h b v) with
  | done a =>
    obtain ⟨r1, s1⟩ := a
    have hrel := stage_all_rel w _ _ _ hs
    rw [hs] at hrun
    cases r1
    · simp only at hrun
      split_ifs at hrun <;>
      · simp only [Run.done.injEq, Prod.mk.injEq] at hrun
        rw [← hrun.2]
        exact hrel
    · simp only [Run.done.injEq, Prod.mk.injEq] at hrun
      rw [← hrun.2]
      exact hrel
    · simp only [Run.done.injEq, Prod.mk.injEq] at hrun
      rw [← hrun.2]
      exact hrel
  | abort => rw [hs] at hrun; cases hrun
  | spin => rw [hs] at hrun; cases hrun

theorem init_mem_success (w : World) (s s1 : St)
    (hrun : init_mem w s = Run.done (result.SUCCESS, s1)) :
    ∃ h b v,
      (s.g.mem.flags.alloc = false ∧ s.g.mem.flags.lock = false ∧ s.g.mem.flags.map = false)
      ∧ w.mbox_alloc (log_alloc s.g.page_sz (mem_size s.g) s.log) = some h
      ∧ w.mbox_lock (log_lock s.g.page_sz (mem_size s.g) s.log h) = some b
      ∧ w.mem_map (log_map s.g.page_sz (mem_size s.g) s.log h b) = some v
      ∧ stage_rel (acquired s h b v) s1 := by
  have hflags : s.g.mem.flags.alloc = false ∧ s.g.mem.flags.lock = false
      ∧ s.g.mem.flags.map = false := by
    by_contra hc
    have : s.g.mem.flags.alloc = true ∨ s.g.mem.flags.lock = true
        ∨ s.g.mem.flags.map = true := by
      revert hc
      cases s.g.mem.flags.alloc <;> cases s.g.mem.flags.lock <;> cases s.g.mem.flags.map <;>
        simp
    simp [init_mem, mem_alloc, this] at hrun
  cases h1 : w.mbox_alloc (log_alloc s.g.page_sz (mem_size s.g) s.log) with
  | none =>
    simp [init_mem, mem_alloc_no_alloc w _ _ _ _ hflags h1] at hrun
  | some h =>
    cases h2 : w.mbox_lock (log_lock s.g.page_sz (mem_size s.g) s.log h) with
    | none =>
      simp [init_mem, mem_alloc_no_lock w _ _ _ _ h hflags h1 h2] at hrun
    | some b =>
      cases h3 : w.mem_map (log_map s.g.page_sz (mem_size s.g) s.log h b) with
      | none =>
        simp [init_mem, mem_alloc_no_map w _ _ _ _ h b hflags h1 h2 h3] at hrun
      | some v =>
        exact ⟨h, b, v, hflags, rfl, h2, h3,
          init_mem_acquired_rel w s h b v hflags h1 h2 h3 _ _ hrun⟩

theorem diag_rel_refl (s : St) : diag_rel s s := ⟨rfl, [], by simp, by simp⟩

theorem diag_rel_trans (a b c : St) (h1 : diag_rel a b) (h2 : diag_rel b c) : diag_rel a c := by
  obtain ⟨a1, e1, a2, a3⟩ := h1
  obtain ⟨b1, e2, b2, b3⟩ := h2
  refine ⟨by rw [b1, a1], e1 ++ e2, by rw [b2, a2, List.append_assoc], ?_⟩
  intro c hc
  rcases List.mem_append.1 hc with h | h
  · exact a3 c h
  · exact b3 c h

theorem diag_rel_emit (s : St) (c : Call) (hc : c.is_diag = true) : diag_rel s (s.emit c) :=
  ⟨rfl, [c], rfl, by simpa using hc⟩

theorem diag_rel_emitIf (s : St) (b : Bool) (c : Call) (hc : c.is_diag = true) :
    diag_rel s (s.emitIf b c) := by
  unfold St.emitIf
  split_ifs
  · exact diag_rel_emit s c hc
  · exact diag_rel_refl s

theorem diag_rel_dump_all (s : St) : diag_rel s (dump_all s) :=
  diag_rel_emit s _ rfl

theorem diag_rel_foldl (f : St → Nat → St) (hf : ∀ s i, diag_rel s (f s i)) (l : List Nat) :
    ∀ s, diag_rel s (l.foldl f s) := by
  induction l with
  | nil => intro s; exact diag_rel_refl s
  | cons i rest ih =>
    intro s
    exact diag_rel_trans _ _ _ (hf s i) (ih (f s i))

theorem diag_rel_dump_wbufs (s : St) : diag_rel s (dump_wbufs s) := by
  unfold dump_wbufs
  refine diag_rel_trans _ _ _ ?_ (diag_rel_foldl _ ?_ _ _)
  · split_ifs
    · exact diag_rel_emit s _ rfl
    · exact diag_rel_refl s
  · intro s i
    dsimp only
    split_ifs
    · exact diag_rel_emit s _ rfl
    · exact diag_rel_refl s

theorem diag_rel_ite (s : St) (b : Bool) (f : St → St) (hf : diag_rel s (f s)) :
    diag_rel s (if b = true then f s else s) := by
  split_ifs
  · exact hf
  · exact diag_rel_refl s

theorem diag_rel_before (o : opt) (s : St) : diag_rel s (exec_before o s) := by
  simp only [exec_before]
  refine diag_rel_trans _ _ _ ?_ (diag_rel_emitIf _ _ Call.clock_gettime rfl)
  refine diag_rel_trans _ _ _ ?_ (diag_rel_emitIf _ _ Call.reg_perf_before rfl)
  refine diag_rel_trans _ _ _ ?_ (diag_rel_emitIf _ _ Call.reg_init_pctr rfl)
  exact diag_rel_emitIf _ _ Call.reg_debug_before rfl

theorem diag_rel_after (o : opt) (s : St) : diag_rel s (exec_after o s) := by
  simp only [exec_after]
  refine diag_rel_trans _ _ _ ?_ (diag_rel_emitIf _ _ Call.print_time rfl)
  refine diag_rel_trans _ _ _ ?_ (diag_rel_emitIf _ _ Call.reg_perf_print rfl)
  refine diag_rel_trans _ _ _ ?_ (diag_rel_emitIf _ _ Call.reg_debug_print rfl)
  refine diag_rel_trans _ _ _ ?_ (diag_rel_ite _ _ dump_wbufs (diag_rel_dump_wbufs _))
  refine diag_rel_trans _ _ _ ?_ (diag_rel_ite _ _ dump_all (diag_rel_dump_all _))
  refine diag_rel_trans _ _ _ ?_ (diag_rel_emitIf _ _ Call.reg_debug_after rfl)
  refine diag_rel_trans _ _ _ ?_ (diag_rel_emitIf _ _ Call.reg_perf_after rfl)
  exact diag_rel_emitIf _ _ Call.clock_gettime rfl

/-- The requests of the enabled part of a dispatch: diagnostics, the execute
request with the task count, the bus address and the timeout, diagnostics and
dumps, the disable request. -/
theorem exec_enabled_log (w : World) (o : opt) (t : Nat) (s : St) :
    (exec_enabled w o t s).2.g = s.g
      ∧ ∃ pre mid, (exec_enabled w o t s).2.log
          = s.log ++ pre ++ [Call.mbox_exec_qpu s.g.ntasks s.g.mem.bus false t] ++ mid
            ++ [Call.mbox_disable]
        ∧ (∀ c ∈ pre, c.is_diag = true) ∧ ∀ c ∈ mid, c.is_diag = true := by
  obtain ⟨g1, pre, l1, p1⟩ := diag_rel_before o s
  obtain ⟨g2, mid, l2, p2⟩ := diag_rel_after o
    { (exec_before o s).emit (Call.mbox_exec_qpu (exec_before o s).g.ntasks
        (exec_before o s).g.mem.bus false t) with
      ram := w.gpu_ram ((exec_before o s).emit (Call.mbox_exec_qpu (exec_before o s).g.ntasks
        (exec_before o s).g.mem.bus false t)).log (exec_before o s).ram }
  refine ⟨?_, pre, mid, ?_, p1, p2⟩
  · simp only [exec_enabled, St.emit]
    simp only [St.emit] at g2
    rw [g2]
    exact g1
  · simp only [exec_enabled, St.emit]
    simp only [St.emit] at l2
    rw [l2, l1, g1]

theorem ext_all_refl (P : Call → Prop) (l : List Call) : ext_all P l l :=
  ⟨[], by simp, by simp⟩

theorem ext_all_trans (P : Call → Prop) (a b c : List Call) (h1 : ext_all P a b)
    (h2 : ext_all P b c) : ext_all P a c := by
  obtain ⟨e1, a1, a2⟩ := h1
  obtain ⟨e2, b1, b2⟩ := h2
  refine ⟨e1 ++ e2, by rw [b1, a1, List.append_assoc], ?_⟩
  intro c hc
  rcases List.mem_append.1 hc with h | h
  · exact a2 c h
  · exact b2 c h

theorem ext_all_mono (P Q : Call → Prop) (hPQ : ∀ c, P c → Q c) (a b : List Call)
    (h : ext_all P a b) : ext_all Q a b := by
  obtain ⟨e, h1, h2⟩ := h
  exact ⟨e, h1, fun c hc => hPQ c (h2 c hc)⟩

theorem ext_all_one (P : Call → Prop) (l : List Call) (c : Call) (hc : P c) :
    ext_all P l (l ++ [c]) :=
  ⟨[c], rfl, by simpa using hc⟩

theorem ext_all_append (P : Call → Prop) (l e : List Call) (he : ∀ c ∈ e, P c) :
    ext_all P l (l ++ e) :=
  ⟨e, rfl, he⟩

theorem ext_all_filter (p : Call → Bool) (a b : List Call)
    (h : ext_all (fun c => p c = false) a b) : b.filter p = a.filter p := by
  obtain ⟨e, h1, h2⟩ := h
  rw [h1, List.filter_append]
  have : e.filter p = [] := by
    rw [List.filter_eq_nil_iff]
    intro c hc
    simp [h2 c hc]
  rw [this, List.append_nil]

theorem link_mem_frame (fuel : Nat) (s : St) (r : result) (s' : St)
    (h : link_mem fuel s = Run.done (r, s')) : s'.g = s.g ∧ s'.log = s.log := by
  unfold link_mem at h
  split at h
  · simp only [Run.done.injEq, Prod.mk.injEq] at h
    rw [← h.2]
    exact ⟨rfl, rfl⟩
  · cases h
  · cases h

theorem init_mem_ext (w : World) (s : St) (r : result) (s1 : St)
    (hrun : init_mem w s = Run.done (r, s1)) :
    ext_all (fun c => c.is_staging = true) s.log s1.log := by
  have hflags : s.g.mem.flags.alloc = false ∧ s.g.mem.flags.lock = false
      ∧ s.g.mem.flags.map = false := by
    by_contra hc
    have : s.g.mem.flags.alloc = true ∨ s.g.mem.flags.lock = true
        ∨ s.g.mem.flags.map = true := by
      revert hc
      cases s.g.mem.flags.alloc <;> cases s.g.mem.flags.lock <;> cases s.g.mem.flags.map <;>
        simp
    simp [init_mem, mem_alloc, this] at hrun
  cases h1 : w.mbox_alloc (log_alloc s.g.page_sz (mem_size s.g) s.log) with
  | none =>
    simp only [init_mem, mem_alloc_no_alloc w _ _ _ _ hflags h1, Run.done.injEq,
      Prod.mk.injEq] at hrun
    rw [← hrun.2]
    exact ext_all_one _ _ _ rfl
  | some h =>
    cases h2 : w.mbox_lock (log_lock s.g.page_sz (mem_size s.g) s.log h) with
    | none =>
      simp only [init_mem, mem_alloc_no_lock w _ _ _ _ h hflags h1 h2, Run.done.injEq,
        Prod.mk.injEq] at hrun
      rw [← hrun.2]
      refine ⟨[Call.mbox_alloc (ROUNDUP (mem_size s.g) s.g.page_sz) s.g.page_sz,
        Call.mbox_lock (u32 h), Call.mbox_free (u32 h)], by simp [log_lock, log_alloc], ?_⟩
      intro c hc
      simp only [List.mem_cons, List.mem_singleton, List.mem_nil_iff, or_false] at hc
      rcases hc with hc | hc | hc <;> subst hc <;> rfl
    | some b =>
      cases h3 : w.mem_map (log_map s.g.page_sz (mem_size s.g) s.log h b) with
      | none =>
        simp only [init_mem, mem_alloc_no_map w _ _ _ _ h b hflags h1 h2 h3, Run.done.injEq,
          Prod.mk.injEq] at hrun
        rw [← hrun.2]
        refine ⟨[Call.mbox_alloc (ROUNDUP (mem_size s.g) s.g.page_sz) s.g.page_sz,
          Call.mbox_lock (u32 h),
          Call.mem_map (u32 b % 1073741824) (ROUNDUP (mem_size s.g) s.g.page_sz),
          Call.mbox_unlock (u32 h)]
          ++ (if w.mbox_unlock (log_map s.g.page_sz (mem_size s.g) s.log h b
                ++ [Call.mbox_unlock (u32 h)]) then [Call.mbox_free (u32 h)] else []),
          by simp [log_map, log_lock, log_alloc], ?_⟩
        intro c hc
        split_ifs at hc <;>
          simp only [List.mem_append, List.mem_cons, List.mem_singleton, List.mem_nil_iff,
            or_false] at hc
        · rcases hc with (hc | hc | hc | hc) | hc <;> subst hc <;> rfl
        · rcases hc with hc | hc | hc | hc <;> subst hc <;> rfl
      | some v =>
        obtain ⟨_, _, _, _, e, he, hP⟩ := init_mem_acquired_rel w s h b v hflags h1 h2 h3 _ _ hrun
        refine ⟨[Call.mbox_alloc (ROUNDUP (mem_size s.g) s.g.page_sz) s.g.page_sz,
          Call.mbox_lock (u32 h),
          Call.mem_map (u32 b % 1073741824) (ROUNDUP (mem_size s.g) s.g.page_sz)] ++ e,
          by rw [he]; simp [acquired, log_map, log_lock, log_alloc], ?_⟩
        intro c hc
        simp only [List.mem_append, List.mem_cons, List.mem_singleton, List.mem_nil_iff,
          or_false] at hc
        rcases hc with (hc | hc | hc) | hc
        · subst hc; rfl
        · subst hc; rfl
        · subst hc; rfl
        · have := hP c hc
          cases c <;> simp [Call.is_file] at this <;> rfl

theorem exec_trace (w : World) (fuel : Nat) (o : opt) (s : St) (r : result) (s' : St)
    (hnt : s.g.ntasks ≠ 0) (hrun : gpu_exec_via_mbox w fuel o s = Run.done (r, s')) :
    (∃ r1, r1 ≠ result.SUCCESS ∧ init_mem w s = Run.done (r1, s') ∧ r = result.FAILURE)
      ∨ ∃ s1, init_mem w s = Run.done (result.SUCCESS, s1)
        ∧ ((∃ r2, r2 ≠ result.SUCCESS ∧ link_mem fuel s1 = Run.done (r2, s')
              ∧ r = result.FAILURE)
          ∨ ∃ s2, link_mem fuel s1 = Run.done (result.SUCCESS, s2)
            ∧ (r, s') = exec_linked w o (exec_timeout s.g) s2) := by
  unfold gpu_exec_via_mbox at hrun
  simp only [hnt, if_false] at hrun
  rcases andThen_done _ _ _ _ hrun with ⟨s1, h1, h2⟩ | ⟨r1, hr1, h1, hr⟩
  · refine Or.inr ⟨s1, h1, ?_⟩
    rcases andThen_done _ _ _ _ h2 with ⟨s2, h3, h4⟩ | ⟨r2, hr2, h3, hr⟩
    · refine Or.inr ⟨s2, h3, ?_⟩
      simp only [Run.done.injEq] at h4
      rw [← h4]
      rfl
    · exact Or.inl ⟨r2, hr2, h3, hr⟩
  · exact Or.inl ⟨r1, hr1, h1, hr⟩

/-- A dry run appends dumps only. -/
theorem exec_linked_dry (w : World) (o : opt) (t : Nat) (s : St) (hdry : o.dry = true) :
    (exec_linked w o t s).1 = result.SUCCESS ∧ diag_rel s (exec_linked w o t s).2 := by
  have hd := diag_rel_ite s (!o.isatty && o.dump0) dump_all (diag_rel_dump_all s)
  simp only [exec_linked, hdry, if_true]
  exact ⟨trivial, hd⟩

/-- What `exec_linked` appends to the log: dumps and diagnostics, the enable
request and, when that succeeded, one execute request with the given timeout
and the disable request. -/
theorem exec_linked_log (w : World) (o : opt) (t : Nat) (s : St) :
    (exec_linked w o t s).2.g = s.g
      ∧ ext_all (fun c => c.is_diag = true ∨ c = Call.mbox_enable
          ∨ c = Call.mbox_exec_qpu s.g.ntasks s.g.mem.bus false t ∨ c = Call.mbox_disable)
          s.log (exec_linked w o t s).2.log := by
  have hd := diag_rel_ite s (!o.isatty && o.dump0) dump_all (diag_rel_dump_all s)
  obtain ⟨g1, e1, l1, p1⟩ := hd
  unfold exec_linked
  simp only
  by_cases hdry : o.dry = true
  · rw [if_pos hdry]
    exact ⟨g1, e1, l1, fun c hc => Or.inl (p1 c hc)⟩
  · rw [if_neg hdry]
    by_cases hen : w.mbox_enable
        ((if (!o.isatty && o.dump0) = true then dump_all s else s).emit Call.mbox_enable).log = true
    · rw [if_pos hen]
      obtain ⟨g2, pre, mid, l2, p2, p3⟩ := exec_enabled_log w o t
        ((if (!o.isatty && o.dump0) = true then dump_all s else s).emit Call.mbox_enable)
      refine ⟨by rw [g2]; exact g1, e1 ++ [Call.mbox_enable] ++ pre
        ++ [Call.mbox_exec_qpu s.g.ntasks s.g.mem.bus false t] ++ mid ++ [Call.mbox_disable],
        ?_, ?_⟩
      · rw [l2]
        simp only [St.emit, l1, g1, List.append_assoc]
      · intro c hc
        simp only [List.mem_append, List.mem_singleton] at hc
        rcases hc with ((((hc | hc) | hc) | hc) | hc) | hc
        · exact Or.inl (p1 c hc)
        · exact Or.inr (Or.inl hc)
        · exact Or.inl (p2 c hc)
        · exact Or.inr (Or.inr (Or.inl hc))
        · exact Or.inl (p3 c hc)
        · exact Or.inr (Or.inr (Or.inr hc))
    · rw [if_neg hen]
      refine ⟨g1, e1 ++ [Call.mbox_enable], by simp only [St.emit, l1, List.append_assoc], ?_⟩
      intro c hc
      simp only [List.mem_append, List.mem_singleton] at hc
      rcases hc with hc | hc
      · exact Or.inl (p1 c hc)
      · exact Or.inr (Or.inl hc)

theorem staging_not_dispatch (c : Call) (h : c.is_staging = true) : c.is_dispatch = false := by
  cases c <;> first | rfl | cases h

theorem diag_not_dispatch (c : Call) (h : c.is_diag = true) : c.is_dispatch = false := by
  cases c <;> first | rfl | cases h

theorem exec_wet (w : World) (fuel : Nat) (o : opt) (s s1 s2 : St) (hnt : s.g.ntasks ≠ 0)
    (hinit : init_mem w s = Run.done (result.SUCCESS, s1))
    (hlink : link_mem fuel s1 = Run.done (result.SUCCESS, s2)) :
    gpu_exec_via_mbox w fuel o s = Run.done (exec_linked w o (exec_timeout s.g) s2) := by
  simp only [gpu_exec_via_mbox, hnt, if_false, hinit, hlink, Run.andThen]
  rfl

theorem filter_diag_nil (p : Call → Bool) (hp : ∀ c, c.is_diag = true → p c = false)
    (l : List Call) (hl : ∀ c ∈ l, c.is_diag = true) : l.filter p = [] := by
  rw [List.filter_eq_nil_iff]
  intro c hc
  simp [hp c (hl c hc)]

/-- A dispatch that is not a dry run and whose enable request succeeds issues
exactly one execute request: for the task count, with the bus address of the
region and the timeout computed on entry. -/
theorem exec_wet_request (w : World) (fuel : Nat) (o : opt) (s s1 s2 : St)
    (hnt : s.g.ntasks ≠ 0)
    (hinit : init_mem w s = Run.done (result.SUCCESS, s1))
    (hlink : link_mem fuel s1 = Run.done (result.SUCCESS, s2))
    (hdry : o.dry = false)
    (hen : w.mbox_enable
      ((if (!o.isatty && o.dump0) = true then dump_all s2 else s2).emit Call.mbox_enable).log
        = true) :
    ∃ r s', gpu_exec_via_mbox w fuel o s = Run.done (r, s')
      ∧ s'.log.filter Call.is_exec
        = s.log.filter Call.is_exec
          ++ [Call.mbox_exec_qpu s.g.ntasks s1.g.mem.bus false (exec_timeout s.g)] := by
  refine ⟨(exec_linked w o (exec_timeout s.g) s2).1, (exec_linked w o (exec_timeout s.g) s2).2,
    exec_wet w fuel o s s1 s2 hnt hinit hlink, ?_⟩
  obtain ⟨hg2, hl2⟩ := link_mem_frame fuel s1 _ s2 hlink
  obtain ⟨h, b, v, _, _, _, _, hrel⟩ := init_mem_success w s s1 hinit
  obtain ⟨_, _, hn1, _, _⟩ := hrel
  have hl1 := ext_all_filter Call.is_exec _ _
    (ext_all_mono (fun c => c.is_staging = true) (fun c => c.is_exec = false)
      (fun c hc => by cases c <;> first | rfl | cases hc) _ _
      (init_mem_ext w s _ s1 hinit))
  obtain ⟨gd, e1, ld, pd⟩ := diag_rel_ite s2 (!o.isatty && o.dump0) dump_all (diag_rel_dump_all s2)
  obtain ⟨_, pre, mid, l3, p2, p3⟩ := exec_enabled_log w o (exec_timeout s.g)
    ((if (!o.isatty && o.dump0) = true then dump_all s2 else s2).emit Call.mbox_enable)
  have hd : ∀ c : Call, c.is_diag = true → c.is_exec = false := by
    intro c hc
    cases c <;> first | rfl | cases hc
  simp only [exec_linked, hdry, Bool.false_eq_true, if_false, hen, if_true]
  rw [l3]
  simp only [St.emit, ld, gd, hg2, hl2, List.filter_append, filter_diag_nil _ hd _ pd,
    filter_diag_nil _ hd _ p2, filter_diag_nil _ hd _ p3, hl1]
  simp [Call.is_exec, acquired] at hn1 ⊢
  exact hn1

/-- The dispatch does not read the field `timeout_s` of its options. -/
theorem gpu_exec_ignores_timeout_s (w : World) (fuel : Nat) (o : opt) (sec : Nat) (s : St) :
    gpu_exec_via_mbox w fuel { o with timeout_s := sec } s = gpu_exec_via_mbox w fuel o s :=
  rfl

/-- C18 (divergence): the option `-g 5` is recorded as `timeout_s = 5`, and the
dispatch of one task run with these options hands the firmware the timeout
10000, not 5000: nothing passes `timeout_s` to `gpu_set_timeout`, and
`gpu_exec_via_mbox` does not read it. -/
theorem option_g_ignored :
    parse_timeout {} 5 = (result.SUCCESS, { timeout_s := 5 })
      ∧ ∃ r s', gpu_exec_via_mbox (world_ok files_zero) 2 (parse_timeout {} 5).2 s_one
          = Run.done (r, s')
        ∧ s'.log.filter Call.is_exec = [Call.mbox_exec_qpu 1 3221229568 false 10000] :=
  ⟨by decide,
    exec_wet_request (world_ok files_zero) 2 (parse_timeout {} 5).2 s_one
      (staged (world_ok files_zero) s_one) (linked 2 (staged (world_ok files_zero) s_one))
      (by decide) rfl rfl rfl rfl⟩

/-- C19: in every state with at least one task in which acquisition and staging
(`init_mem`) and linking (`link_mem`) succeed, `gpu_exec_via_mbox` with the
dry-run option returns `SUCCESS`, and the log holds no enable, execute or
disable request that it did not hold before. -/
theorem dry_run_no_dispatch (w : World) (fuel : Nat) (o : opt) (s s1 s2 : St)
    (hnt : 0 < s.g.ntasks) (hdry : o.dry = true)
    (hinit : init_mem w s = Run.done (result.SUCCESS, s1))
    (hlink : link_mem fuel s1 = Run.done (result.SUCCESS, s2)) :
    ∃ s', gpu_exec_via_mbox w fuel o s = Run.done (result.SUCCESS, s')
      ∧ s'.log.filter Call.is_dispatch = s.log.filter Call.is_dispatch := by
  obtain ⟨hr, _, e, hl, hp⟩ := exec_linked_dry w o (exec_timeout s.g) s2 hdry
  refine ⟨(exec_linked w o (exec_timeout s.g) s2).2, ?_, ?_⟩
  · rw [exec_wet w fuel o s s1 s2 (by omega) hinit hlink, ← hr]
  · rw [hl, List.filter_append, filter_diag_nil _ diag_not_dispatch _ hp, List.append_nil,
      (link_mem_frame fuel s1 _ s2 hlink).2]
    exact ext_all_filter Call.is_dispatch _ _
      (ext_all_mono (fun c => c.is_staging = true) (fun c => c.is_dispatch = false)
        staging_not_dispatch _ _ (init_mem_ext w s _ s1 hinit))

/-- C19 (witness): the dry run of one task with eight bytes of instructions. -/
theorem dry_run_no_dispatch_witness :
    (0 < s_one.g.ntasks ∧ ({ dry := true } : opt).dry = true
        ∧ init_mem (world_ok files_zero) s_one
          = Run.done (result.SUCCESS, staged (world_ok files_zero) s_one)
        ∧ link_mem 2 (staged (world_ok files_zero) s_one)
          = Run.done (result.SUCCESS, linked 2 (staged (world_ok files_zero) s_one)))
      ∧ ∃ s', gpu_exec_via_mbox (world_ok files_zero) 2 { dry := true } s_one
          = Run.done (result.SUCCESS, s')
        ∧ s'.log.filter Call.is_dispatch = s_one.log.filter Call.is_dispatch :=
  ⟨⟨by decide, rfl, rfl, rfl⟩,
    dry_run_no_dispatch (world_ok files_zero) 2 { dry := true } s_one
      (staged (world_ok files_zero) s_one) (linked 2 (staged (world_ok files_zero) s_one))
      (by decide) rfl rfl rfl⟩

theorem close_rel_refl (s : St) : close_rel s s := ⟨rfl, ext_all_refl _ _⟩

theorem close_rel_trans (a b c : St) (h1 : close_rel a b) (h2 : close_rel b c) :
    close_rel a c :=
  ⟨by rw [h2.1, h1.1], ext_all_trans _ _ _ _ h1.2 h2.2⟩

theorem cleanup_file_log (w : World) (file : gpu_file) (error : Bool) (log : List Call) :
    ext_all (fun c => c.is_close = true) log (cleanup_file w file error log).2.2 := by
  unfold cleanup_file
  split_ifs
  · exact ext_all_one _ _ _ rfl
  · exact ext_all_refl _ _

theorem cleanup_task_rel (w : World) (st : St × Bool) (i : Nat) :
    close_rel st.1 (cleanup_task w st i).1 := by
  refine ⟨rfl, ?_⟩
  simp only [cleanup_task]
  refine ext_all_trans _ _ _ _ ?_ (cleanup_file_log w _ _ _)
  refine ext_all_trans _ _ _ _ ?_ (cleanup_file_log w _ _ _)
  exact cleanup_file_log w _ _ _

theorem cleanup_fold_rel (w : World) (l : List Nat) :
    ∀ st : St × Bool, close_rel st.1 (l.foldl (cleanup_task w) st).1 := by
  induction l with
  | nil => intro st; exact close_rel_refl _
  | cons i rest ih =>
    intro st
    exact close_rel_trans _ _ _ (cleanup_task_rel w st i) (ih _)

theorem cleanup_files_rel (w : World) (s : St) : close_rel s (cleanup_files w s).1 := by
  simp only [cleanup_files]
  refine close_rel_trans _ _ _ ?_ (cleanup_fold_rel w _ _)
  refine ⟨rfl, ?_⟩
  refine ext_all_trans _ _ _ _ ?_ (cleanup_file_log w _ _ _)
  exact cleanup_file_log w _ _ _

/-- With reference count 1, `gpu_cleanup` closes the files and then releases
the region. -/
theorem gpu_cleanup_release (w : World) (s : St) (hr : s.g.mem.refct = 1) :
    ∃ r, gpu_cleanup w s
        = Run.done (r,
            { (cleanup_files w s).1 with
              g := { (cleanup_files w s).1.g with
                mem := (run_release w release_steps { s.g.mem with refct := 0 }
                  (cleanup_files w s).1.log).2.1 },
              log := (run_release w release_steps { s.g.mem with refct := 0 }
                  (cleanup_files w s).1.log).2.2 }) := by
  have hm := (cleanup_files_rel w s).1
  have hr' : (cleanup_files w s).1.g.mem.refct = 1 := by rw [hm]; exact hr
  simp only [gpu_cleanup]
  rw [if_pos (by rw [hr']; decide), mem_free_one w _ _ hr', hm]
  exact ⟨_, rfl⟩

theorem init_mem_flags (w : World) (s : St) (r : result) (s1 : St)
    (hrun : init_mem w s = Run.done (r, s1)) :
    s.g.mem.flags.alloc = false ∧ s.g.mem.flags.lock = false ∧ s.g.mem.flags.map = false := by
  by_contra hc
  have : s.g.mem.flags.alloc = true ∨ s.g.mem.flags.lock = true
      ∨ s.g.mem.flags.map = true := by
    revert hc
    cases s.g.mem.flags.alloc <;> cases s.g.mem.flags.lock <;> cases s.g.mem.flags.map <;>
      simp
  simp [init_mem, mem_alloc, this] at hrun

/-- A dispatch whose acquisition succeeded returns with the handle fully
acquired, reference count 1, and has issued no release request. -/
theorem gpu_exec_acquired (w : World) (fuel : Nat) (o : opt) (s : St) (r : result) (s1 : St)
    (h b v : Nat) (hnt : s.g.ntasks ≠ 0)
    (h1 : w.mbox_alloc (log_alloc s.g.page_sz (mem_size s.g) s.log) = some h)
    (h2 : w.mbox_lock (log_lock s.g.page_sz (mem_size s.g) s.log h) = some b)
    (h3 : w.mem_map (log_map s.g.page_sz (mem_size s.g) s.log h b) = some v)
    (hrun : gpu_exec_via_mbox w fuel o s = Run.done (r, s1)) :
    s1.g.mem = { (acquired s h b v).g.mem with used_sz := s1.g.mem.used_sz }
      ∧ ext_all (fun c => c.is_release = false) s.log s1.log := by
  have hI : ∀ rI sI, init_mem w s = Run.done (rI, sI) →
      sI.g.mem = { (acquired s h b v).g.mem with used_sz := sI.g.mem.used_sz }
        ∧ ext_all (fun c => c.is_release = false) s.log sI.log := by
    intro rI sI hi
    have hflags := init_mem_flags w s rI sI hi
    obtain ⟨_, _, _, hm, e, he, hp⟩ := init_mem_acquired_rel w s h b v hflags h1 h2 h3 rI sI hi
    refine ⟨hm, [Call.mbox_alloc (ROUNDUP (mem_size s.g) s.g.page_sz) s.g.page_sz,
          Call.mbox_lock (u32 h),
          Call.mem_map (u32 b % 1073741824) (ROUNDUP (mem_size s.g) s.g.page_sz)] ++ e,
          by rw [he]; simp [acquired, log_map, log_lock, log_alloc], ?_⟩
    intro c hc
    simp only [List.mem_append, List.mem_cons, List.mem_singleton, List.mem_nil_iff,
      or_false] at hc
    rcases hc with (hc | hc | hc) | hc
    · subst hc; rfl
    · subst hc; rfl
    · subst hc; rfl
    · have := hp c hc
      cases c <;> first | rfl | cases this
  rcases exec_trace w fuel o s r s1 hnt hrun with ⟨r1, _, hi, _⟩ | ⟨sI, hi, hrest⟩
  · exact hI _ _ hi
  · obtain ⟨hm, hl⟩ := hI _ _ hi
    rcases hrest with ⟨r2, _, hk, _⟩ | ⟨s2, hk, hx⟩
    · obtain ⟨g2, l2⟩ := link_mem_frame fuel sI _ s1 hk
      rw [g2, l2]
      exact ⟨hm, hl⟩
    · obtain ⟨g2, l2⟩ := link_mem_frame fuel sI _ s2 hk
      obtain ⟨g3, l3⟩ := exec_linked_log w o (exec_timeout s.g) s2
      rw [← hx] at g3 l3
      simp only at g3 l3
      rw [g3, g2]
      refine ⟨hm, ext_all_trans _ _ _ _ hl ?_⟩
      rw [← l2]
      refine ext_all_mono _ _ ?_ _ _ l3
      intro c hc
      rcases hc with hc | hc | hc | hc
      · cases c <;> first | rfl | cases hc
      · subst hc; rfl
      · subst hc; rfl
      · subst hc; rfl

theorem ext_all_length (p : Call → Bool) (q : Call → Prop) (hq : ∀ c, q c → p c = false)
    (a b : List Call) (h : ext_all q a b) : (b.filter p).length = (a.filter p).length := by
  rw [ext_all_filter p a b (ext_all_mono _ _ hq _ _ h)]

theorem release_all_counts (w : World) (mem : gpu_mem) (L : List Call)
    (hf : mem.flags = { alloc := true, lock := true, map := true }) :
    ((run_release w release_steps mem L).2.2.filter Call.is_unmap).length
        = (L.filter Call.is_unmap).length + 1
      ∧ ((run_release w release_steps mem L).2.2.filter Call.is_unlock).length
        = (L.filter Call.is_unlock).length
          + (if (run_release w release_steps mem L).2.1.flags.map then 0 else 1)
      ∧ ((run_release w release_steps mem L).2.2.filter Call.is_free).length
        = (L.filter Call.is_free).length
          + (if (run_release w release_steps mem L).2.1.flags.map
              || (run_release w release_steps mem L).2.1.flags.lock then 0 else 1)
      ∧ (run_release w release_steps mem L).2.1.flags.map
        = !w.mem_unmap (L ++ [Call.mem_unmap mem.virt mem.alloc_sz]) := by
  obtain ⟨fl, bus, virt, refct, handle, alloc_sz, data_sz, used_sz⟩ := mem
  simp only at hf
  subst hf
  simp only [release_steps, run_release, if_true]
  cases h1 : w.mem_unmap (L ++ [Call.mem_unmap virt alloc_sz])
  · simp [List.filter_append, Call.is_unmap, Call.is_unlock, Call.is_free]
  · cases h2 : w.mbox_unlock (L ++ [Call.mem_unmap virt alloc_sz] ++ [Call.mbox_unlock handle])
    · simp [List.filter_append, Call.is_unmap, Call.is_unlock, Call.is_free]
    · cases h3 : w.mbox_free (L ++ [Call.mem_unmap virt alloc_sz] ++ [Call.mbox_unlock handle]
          ++ [Call.mbox_free handle]) <;>
        simp [List.filter_append, Call.is_unmap, Call.is_unlock, Call.is_free]

theorem main_dispatch_split (w : World) (fuel : Nat) (o : opt) (s : St) (r : result × result)
    (s' : St) (hrun : main_dispatch w fuel o s = Run.done (r, s')) :
    ∃ s1, gpu_exec_via_mbox w fuel o s = Run.done (r.1, s1)
      ∧ gpu_cleanup w s1 = Run.done (r.2, s') := by
  unfold main_dispatch at hrun
  cases he : gpu_exec_via_mbox w fuel o s with
  | done a =>
    obtain ⟨r1, s1⟩ := a
    rw [he] at hrun
    simp only at hrun
    cases hc : gpu_cleanup w s1 with
    | done c =>
      obtain ⟨r2, s2⟩ := c
      rw [hc] at hrun
      simp only [Run.done.injEq, Prod.mk.injEq] at hrun
      obtain ⟨h1, h2⟩ := hrun
      subst h1 h2
      exact ⟨s1, rfl, hc⟩
    | abort => rw [hc] at hrun; cases hrun
    | spin => rw [hc] at hrun; cases hrun
  | abort => rw [he] at hrun; cases hrun
  | spin => rw [he] at hrun; cases hrun

/-- The release at the end of a run whose acquisition succeeded: the final
handle and log are those of the release, as the specification words it, of the
fully acquired handle, started from a log that holds no release request
besides those of the initial log. -/
theorem main_release_shape (w : World) (fuel : Nat) (o : opt) (s : St) (r : result × result)
    (s' : St) (h b v : Nat) (hnt : s.g.ntasks ≠ 0)
    (h1 : w.mbox_alloc (log_alloc s.g.page_sz (mem_size s.g) s.log) = some h)
    (h2 : w.mbox_lock (log_lock s.g.page_sz (mem_size s.g) s.log h) = some b)
    (h3 : w.mem_map (log_map s.g.page_sz (mem_size s.g) s.log h b) = some v)
    (hrun : main_dispatch w fuel o s = Run.done (r, s')) :
    ∃ (mem : gpu_mem) (L : List Call),
      mem.flags = { alloc := true, lock := true, map := true }
        ∧ ext_all (fun c => c.is_release = false ∨ c.is_close = true) s.log L
        ∧ s'.g.mem = (run_release w release_steps mem L).2.1
        ∧ s'.log = (run_release w release_steps mem L).2.2 := by
  obtain ⟨s1, he, hc⟩ := main_dispatch_split w fuel o s r s' hrun
  obtain ⟨hm, hl⟩ := gpu_exec_acquired w fuel o s _ s1 h b v hnt h1 h2 h3 he
  have hr : s1.g.mem.refct = 1 := by rw [hm]; rfl
  obtain ⟨r', hc'⟩ := gpu_cleanup_release w s1 hr
  rw [hc] at hc'
  simp only [Run.done.injEq, Prod.mk.injEq] at hc'
  obtain ⟨_, hs'⟩ := hc'
  subst hs'
  refine ⟨{ s1.g.mem with refct := 0 }, (cleanup_files w s1).1.log, ?_, ?_, rfl, rfl⟩
  · rw [hm]; rfl
  · refine ext_all_trans _ _ _ _ (ext_all_mono _ _ (fun c hc => Or.inl hc) _ _ hl)
      (ext_all_mono _ _ (fun c hc => Or.inr hc) _ _ (cleanup_files_rel w s1).2)

/-- Counts of the release requests in a run whose acquisition succeeded. -/
theorem main_release_counts (w : World) (fuel : Nat) (o : opt) (s : St) (r : result × result)
    (s' : St) (h b v : Nat) (hnt : 0 < s.g.ntasks)
    (h1 : w.mbox_alloc (log_alloc s.g.page_sz (mem_size s.g) s.log) = some h)
    (h2 : w.mbox_lock (log_lock s.g.page_sz (mem_size s.g) s.log h) = some b)
    (h3 : w.mem_map (log_map s.g.page_sz (mem_size s.g) s.log h b) = some v)
    (hrun : main_dispatch w fuel o s = Run.done (r, s')) :
    (s'.log.filter Call.is_unmap).length = (s.log.filter Call.is_unmap).length + 1
      ∧ (s'.log.filter Call.is_unlock).length
        = (s.log.filter Call.is_unlock).length + (if s'.g.mem.flags.map then 0 else 1)
      ∧ (s'.log.filter Call.is_free).length
        = (s.log.filter Call.is_free).length
          + (if s'.g.mem.flags.map || s'.g.mem.flags.lock then 0 else 1) := by
  obtain ⟨mem, L, hf, hL, hm, hl⟩ :=
    main_release_shape w fuel o s r s' h b v (by omega) h1 h2 h3 hrun
  obtain ⟨c1, c2, c3, _⟩ := release_all_counts w mem L hf
  have q : ∀ (p : Call → Bool), (∀ c : Call, p c = true → c.is_release = true) →
      (∀ c : Call, c.is_close = true → p c = false) →
      (L.filter p).length = (s.log.filter p).length := by
    intro p hp hq
    refine ext_all_length p _ ?_ _ _ hL
    intro c hc
    rcases hc with hc | hc
    · cases hpc : p c
      · rfl
      · rw [hp c hpc] at hc; cases hc
    · exact hq c hc
  rw [hl, hm, c1, c2, c3,
    q Call.is_unmap (fun c hc => by cases c <;> first | rfl | cases hc)
      (fun c hc => by cases c <;> first | rfl | cases hc),
    q Call.is_unlock (fun c hc => by cases c <;> first | rfl | cases hc)
      (fun c hc => by cases c <;> first | rfl | cases hc),
    q Call.is_free (fun c hc => by cases c <;> first | rfl | cases hc)
      (fun c hc => by cases c <;> first | rfl | cases hc)]
  exact ⟨rfl, rfl, rfl⟩

theorem gpu_cleanup_returns (w : World) (s : St) :
    ∃ r s', gpu_cleanup w s = Run.done (r, s') := by
  unfold gpu_cleanup
  simp only
  by_cases h : (cleanup_files w s).1.g.mem.refct > 0
  · rw [if_pos h, mem_free_runs w _ _ h]
    exact ⟨_, _, rfl⟩
  · rw [if_neg h]
    exact ⟨_, _, rfl⟩

theorem main_dispatch_returns (w : World) (fuel : Nat) (o : opt) (s : St) (x : result × St)
    (he : gpu_exec_via_mbox w fuel o s = Run.done x) :
    ∃ r s', main_dispatch w fuel o s = Run.done (r, s') := by
  obtain ⟨r', s', hc⟩ := gpu_cleanup_returns w x.2
  refine ⟨(x.1, r'), s', ?_⟩
  simp only [main_dispatch, he, hc]

/-- C16 (amended): in every run (`gpu_exec_via_mbox` followed by `gpu_cleanup`)
that returns and in which the region was acquired, whatever the outcome of the
dispatch, unmap is requested exactly once; unlock is requested once when the
unmap succeeded (the flag `map` ends cleared) and not at all otherwise; free is
requested once when unmap and unlock succeeded and not at all otherwise. -/
theorem main_release (w : World) (fuel : Nat) (o : opt) (s : St) (r : result × result)
    (s' : St) (h b v : Nat) (hnt : 0 < s.g.ntasks)
    (h1 : w.mbox_alloc (log_alloc s.g.page_sz (mem_size s.g) s.log) = some h)
    (h2 : w.mbox_lock (log_lock s.g.page_sz (mem_size s.g) s.log h) = some b)
    (h3 : w.mem_map (log_map s.g.page_sz (mem_size s.g) s.log h b) = some v)
    (hrun : main_dispatch w fuel o s = Run.done (r, s')) :
    (s'.log.filter Call.is_unmap).length = (s.log.filter Call.is_unmap).length + 1
      ∧ (s'.log.filter Call.is_unlock).length
        = (s.log.filter Call.is_unlock).length + (if s'.g.mem.flags.map then 0 else 1)
      ∧ (s'.log.filter Call.is_free).length
        = (s.log.filter Call.is_free).length
          + (if s'.g.mem.flags.map || s'.g.mem.flags.lock then 0 else 1) :=
  main_release_counts w fuel o s r s' h b v hnt h1 h2 h3 hrun

/-- C16 (witness): the run of one task with every request succeeding. -/
theorem main_release_witness :
    (0 < s_one.g.ntasks
        ∧ (world_ok files_zero).mbox_alloc
            (log_alloc s_one.g.page_sz (mem_size s_one.g) s_one.log) = some 7
        ∧ (world_ok files_zero).mbox_lock
            (log_lock s_one.g.page_sz (mem_size s_one.g) s_one.log 7) = some 3221229568
        ∧ (world_ok files_zero).mem_map
            (log_map s_one.g.page_sz (mem_size s_one.g) s_one.log 7 3221229568)
          = some 1995440128)
      ∧ ∃ r s', main_dispatch (world_ok files_zero) 2 {} s_one = Run.done (r, s')
        ∧ (s'.log.filter Call.is_unmap).length = (s_one.log.filter Call.is_unmap).length + 1
        ∧ (s'.log.filter Call.is_unlock).length
          = (s_one.log.filter Call.is_unlock).length + (if s'.g.mem.flags.map then 0 else 1)
        ∧ (s'.log.filter Call.is_free).length
          = (s_one.log.filter Call.is_free).length
            + (if s'.g.mem.flags.map || s'.g.mem.flags.lock then 0 else 1) :=
  ⟨⟨by decide, rfl, rfl, rfl⟩,
    (main_dispatch_returns (world_ok files_zero) 2 {} s_one _
      (exec_wet (world_ok files_zero) 2 {} s_one (staged (world_ok files_zero) s_one)
        (linked 2 (staged (world_ok files_zero) s_one)) (by decide) rfl rfl)).elim
      fun r hr => hr.elim fun s' hs' =>
        ⟨r, s', hs', main_release (world_ok files_zero) 2 {} s_one r s' 7 3221229568 1995440128
          (by decide) rfl rfl rfl hs'⟩⟩

/-- C16 (counterexample): in the run of one task in which every request
succeeds except the unmap of the final release, the region is acquired, unmap
is requested once, and unlock and free are never requested. -/
theorem main_release_stops :
    ∃ r s', main_dispatch world_no_unmap 2 {} s_one = Run.done (r, s')
      ∧ (s'.log.filter Call.is_unmap).length = 1
      ∧ (s'.log.filter Call.is_unlock).length = 0
      ∧ (s'.log.filter Call.is_free).length = 0 := by
  obtain ⟨r, s', hs'⟩ := main_dispatch_returns world_no_unmap 2 {} s_one _
    (exec_wet world_no_unmap 2 {} s_one (staged world_no_unmap s_one)
      (linked 2 (staged world_no_unmap s_one)) (by decide) rfl rfl)
  obtain ⟨mem, L, hf, _, hm, _⟩ := main_release_shape world_no_unmap 2 {} s_one r s'
    7 3221229568 1995440128 (by decide) rfl rfl rfl hs'
  obtain ⟨_, _, _, c4⟩ := release_all_counts world_no_unmap mem L hf
  obtain ⟨d1, d2, d3⟩ := main_release_counts world_no_unmap 2 {} s_one r s' 7 3221229568 1995440128
    (by decide) rfl rfl rfl hs'
  have hmap : s'.g.mem.flags.map = true := by rw [hm, c4]; rfl
  rw [hmap] at d2 d3
  exact ⟨r, s', hs', d1, d2, d3⟩

theorem load32_lt (m : Nat → Nat) (a : Nat) : load32 m a < 4294967296 := by
  unfold load32
  omega

theorem load32_congr (m m' : Nat → Nat) (a : Nat)
    (h : ∀ x, a ≤ x → x < a + 4 → m' x = m x) : load32 m' a = load32 m a := by
  unfold load32
  rw [h a (by omega) (by omega), h (a + 1) (by omega) (by omega),
    h (a + 2) (by omega) (by omega), h (a + 3) (by omega) (by omega)]

theorem store32_other (m : Nat → Nat) (a v x : Nat) (h : x < a ∨ a + 4 ≤ x) :
    store32 m a v x = m x := by
  unfold store32
  rw [if_neg (by omega), if_neg (by omega), if_neg (by omega), if_neg (by omega)]

theorem load32_store32_same (m : Nat → Nat) (a v : Nat) :
    load32 (store32 m a v) a = u32 v := by
  unfold load32 store32 u32
  simp only [if_true, if_neg (show ¬ a + 1 = a by omega), if_neg (show ¬ a + 2 = a by omega),
    if_neg (show ¬ a + 3 = a by omega), if_neg (show ¬ a + 2 = a + 1 by omega),
    if_neg (show ¬ a + 3 = a + 1 by omega), if_neg (show ¬ a + 3 = a + 2 by omega)]
  omega

theorem link_pair_other (g : G) (i p j : Nat) (st : (Nat → Nat) × link_flags) (x : Nat)
    (h : x < p + 4 * j ∨ p + 4 * j + 4 ≤ x) : (link_pair g i p j st).1 x = st.1 x := by
  unfold link_pair
  split_ifs <;> first | rfl | exact store32_other _ _ _ _ h

theorem link_pair_word (g : G) (i p j : Nat) (st : (Nat → Nat) × link_flags) :
    load32 (link_pair g i p j st).1 (p + 4 * j)
      = patched g i (load32 st.1 (p + 4 * j)) (load32 st.1 (p + 4 * (j + 1))) := by
  unfold link_pair patched
  split_ifs <;> first | rfl | (simp only [load32_store32_same, u32_u32_add]; unfold u32; omega)

theorem link_pair_flags (g : G) (i p j : Nat) (st : (Nat → Nat) × link_flags) :
    ((link_pair g i p j st).2.glob_rbuf = true ↔
        (st.2.glob_rbuf = true ∨ (load32 st.1 (p + 4 * j) = GLOB_RBUF
          ∧ is_link_inst (load32 st.1 (p + 4 * (j + 1))) = true)))
      ∧ ((link_pair g i p j st).2.glob_wbuf = true ↔
        (st.2.glob_wbuf = true ∨ (load32 st.1 (p + 4 * j) = GLOB_WBUF
          ∧ is_link_inst (load32 st.1 (p + 4 * (j + 1))) = true)))
      ∧ ((link_pair g i p j st).2.task_rbuf = true ↔
        (st.2.task_rbuf = true ∨ (load32 st.1 (p + 4 * j) = TASK_RBUF
          ∧ is_link_inst (load32 st.1 (p + 4 * (j + 1))) = true)))
      ∧ ((link_pair g i p j st).2.task_wbuf = true ↔
        (st.2.task_wbuf = true ∨ (load32 st.1 (p + 4 * j) = TASK_WBUF
          ∧ is_link_inst (load32 st.1 (p + 4 * (j + 1))) = true))) := by
  unfold link_pair
  split_ifs with h1 h2 h3 h4 h5 <;>
    simp_all [GLOB_RBUF, GLOB_WBUF, TASK_RBUF, TASK_WBUF]

theorem link_pair_get (g : G) (i p j : Nat) (st : (Nat → Nat) × link_flags) (ph : Nat)
    (hph : ph ∈ placeholders) :
    (link_pair g i p j st).2.get ph = true ↔
      (st.2.get ph = true ∨ (load32 st.1 (p + 4 * j) = ph
        ∧ is_link_inst (load32 st.1 (p + 4 * (j + 1))) = true)) := by
  obtain ⟨h1, h2, h3, h4⟩ := link_pair_flags g i p j st
  simp only [placeholders, List.mem_cons, List.mem_singleton, List.mem_nil_iff, or_false] at hph
  rcases hph with h | h | h | h <;> subst h
  · simpa [link_flags.get] using h1
  · simpa [link_flags.get, GLOB_RBUF, GLOB_WBUF] using h2
  · simpa [link_flags.get, GLOB_RBUF, GLOB_WBUF, TASK_RBUF] using h3
  · simpa [link_flags.get, GLOB_RBUF, GLOB_WBUF, TASK_RBUF, TASK_WBUF] using h4

/-- The scan loop entered at pair `k` with `m` pairs left and a budget of more
than `m` iterations returns; it patches the pairs `k .. k + m - 1` and records
the placeholders they hold. -/
theorem link_scan_spec (g : G) (i p nwords : Nat) (hn1 : 1 ≤ nwords)
    (hn2 : nwords < 4294967296) (m : Nat) :
    ∀ (k fuel : Nat) (st : (Nat → Nat) × link_flags), k + m = nwords / 2 → m < fuel →
      ∃ ram' f', link_scan g i p nwords fuel (2 * k) st = Run.done (ram', f')
        ∧ (∀ x, (∀ k', k ≤ k' → k' < k + m → x < p + 8 * k' ∨ p + 8 * k' + 4 ≤ x) →
            ram' x = st.1 x)
        ∧ (∀ k', k ≤ k' → k' < k + m →
            load32 ram' (p + 8 * k')
              = patched g i (load32 st.1 (p + 8 * k')) (load32 st.1 (p + 8 * k' + 4)))
        ∧ ∀ ph, ph ∈ placeholders →
            (f'.get ph = true ↔
              (st.2.get ph = true ∨ ∃ k', k ≤ k' ∧ k' < k + m ∧ load32 st.1 (p + 8 * k') = ph
                ∧ is_link_inst (load32 st.1 (p + 8 * k' + 4)) = true)) := by
  have hsub : u32 (nwords + 4294967295) = nwords - 1 := by
    unfold u32
    omega
  induction m with
  | zero =>
    intro k fuel st hk hf
    obtain ⟨fuel, rfl⟩ : ∃ f, fuel = f + 1 := ⟨fuel - 1, by omega⟩
    refine ⟨st.1, st.2, ?_, fun _ _ => rfl, fun k' h1 h2 => by omega, fun ph _ => ?_⟩
    · rw [link_scan, hsub, if_neg (by omega)]
    · constructor
      · intro h; exact Or.inl h
      · rintro (h | ⟨k', h1, h2, _⟩)
        · exact h
        · omega
  | succ m ih =>
    intro k fuel st hk hf
    obtain ⟨fuel, rfl⟩ : ∃ f, fuel = f + 1 := ⟨fuel - 1, by omega⟩
    have hj : u32 (2 * k + 2) = 2 * (k + 1) := by
      unfold u32
      omega
    obtain ⟨ram', f', hrun, ha, hb, hc⟩ :=
      ih (k + 1) fuel (link_pair g i p (2 * k) st) (by omega) (by omega)
    have e8 : p + 4 * (2 * k) = p + 8 * k := by omega
    have e84 : p + 4 * (2 * k + 1) = p + 8 * k + 4 := by omega
    have hst : ∀ x, x < p + 8 * k ∨ p + 8 * k + 4 ≤ x →
        (link_pair g i p (2 * k) st).1 x = st.1 x := by
      intro x hx
      exact link_pair_other g i p (2 * k) st x (by omega)
    have hld : ∀ a, a + 4 ≤ p + 8 * k ∨ p + 8 * k + 4 ≤ a →
        load32 (link_pair g i p (2 * k) st).1 a = load32 st.1 a := by
      intro a hx
      exact load32_congr _ _ _ (fun x h1 h2 => hst x (by omega))
    refine ⟨ram', f', ?_, ?_, ?_, ?_⟩
    · rw [link_scan, hsub, if_pos (by omega), hj]
      exact hrun
    · intro x hx
      rw [ha x (fun k' h1 h2 => hx k' (by omega) (by omega))]
      exact hst x (hx k (le_refl k) (by omega))
    · intro k' h1 h2
      by_cases e : k' = k
      · subst e
        rw [load32_congr (link_pair g i p (2 * k') st).1 ram' (p + 8 * k')
            (fun x h1 h2 => ha x (fun k'' h3 h4 => by omega))]
        have := link_pair_word g i p (2 * k') st
        rw [e8, e84] at this
        exact this
      · rw [hb k' (by omega) (by omega), hld _ (by omega), hld _ (by omega)]
    · intro ph hph
      rw [hc ph hph, link_pair_get g i p (2 * k) st ph hph, e8, e84]
      constructor
      · rintro ((h | ⟨h1, h2⟩) | ⟨k', h1, h2, h3, h4⟩)
        · exact Or.inl h
        · exact Or.inr ⟨k, le_refl k, by omega, h1, h2⟩
        · rw [hld _ (by omega)] at h3 h4
          exact Or.inr ⟨k', by omega, by omega, h3, h4⟩
      · rintro (h | ⟨k', h1, h2, h3, h4⟩)
        · exact Or.inl (Or.inl h)
        · by_cases e : k' = k
          · subst e
            exact Or.inl (Or.inr ⟨h3, h4⟩)
          · refine Or.inr ⟨k', by omega, by omega, ?_, ?_⟩
            · rw [hld _ (by omega)]; exact h3
            · rw [hld _ (by omega)]; exact h4

theorem has_pair_congr (ram ram' : Nat → Nat) (p size ph : Nat)
    (h : ∀ x, p ≤ x → x < p + size → ram' x = ram x) :
    has_pair ram' p size ph ↔ has_pair ram p size ph := by
  have hl : ∀ k, k < size / 8 →
      load32 ram' (p + 8 * k) = load32 ram (p + 8 * k)
        ∧ load32 ram' (p + 8 * k + 4) = load32 ram (p + 8 * k + 4) := by
    intro k hk
    have : 8 * k + 8 ≤ size := by omega
    exact ⟨load32_congr _ _ _ (fun x h1 h2 => h x (by omega) (by omega)),
      load32_congr _ _ _ (fun x h1 h2 => h x (by omega) (by omega))⟩
  unfold has_pair
  constructor
  · rintro ⟨k, hk, h1, h2⟩
    rw [(hl k hk).1] at h1
    rw [(hl k hk).2] at h2
    exact ⟨k, hk, h1, h2⟩
  · rintro ⟨k, hk, h1, h2⟩
    rw [← (hl k hk).1] at h1
    rw [← (hl k hk).2] at h2
    exact ⟨k, hk, h1, h2⟩

theorem mismatch_congr (g : G) (ram ram' : Nat → Nat) (i : Nat)
    (h : ∀ x, (g.slot i).inst.offset ≤ x → x < (g.slot i).inst.offset + (g.slot i).inst.size →
      ram' x = ram x) :
    mismatch g ram' i ↔ mismatch g ram i := by
  unfold mismatch
  rw [has_pair_congr ram ram' _ _ GLOB_RBUF h, has_pair_congr ram ram' _ _ GLOB_WBUF h,
    has_pair_congr ram ram' _ _ TASK_RBUF h, has_pair_congr ram ram' _ _ TASK_WBUF h]

theorem link_check_iff (g : G) (i : Nat) (f : link_flags) (ram : Nat → Nat)
    (hf : ∀ ph, ph ∈ placeholders →
      (f.get ph = true ↔ has_pair ram (g.slot i).inst.offset (g.slot i).inst.size ph)) :
    link_check g i f = true ↔ mismatch g ram i := by
  have h1 := hf GLOB_RBUF (by simp [placeholders])
  have h2 := hf GLOB_WBUF (by simp [placeholders])
  have h3 := hf TASK_RBUF (by simp [placeholders])
  have h4 := hf TASK_WBUF (by simp [placeholders])
  simp only [link_flags.get, GLOB_RBUF, GLOB_WBUF, TASK_RBUF, TASK_WBUF, if_true,
    show ¬ (4294967282 = 4294967281) by decide, show ¬ (4294967290 = 4294967281) by decide,
    show ¬ (4294967290 = 4294967282) by decide, show ¬ (4294967291 = 4294967281) by decide,
    show ¬ (4294967291 = 4294967282) by decide, show ¬ (4294967291 = 4294967290) by decide,
    if_false] at h1 h2 h3 h4
  unfold mismatch link_check
  simp only [GLOB_RBUF, GLOB_WBUF, TASK_RBUF, TASK_WBUF]
  rw [← h1, ← h2, ← h3, ← h4]
  cases f.glob_rbuf <;> cases f.glob_wbuf <;> cases f.task_rbuf <;> cases f.task_wbuf <;>
    cases g.glob.rbuf.active <;> cases g.glob.wbuf.active <;>
    cases (g.slot i).rbuf.active <;> cases (g.slot i).wbuf.active <;> simp

theorem link_task_spec (g : G) (i fuel : Nat) (ram : Nat → Nat)
    (h4 : 4 ≤ (g.slot i).inst.size) (hlt : (g.slot i).inst.size < 4294967296)
    (hfuel : (g.slot i).inst.size / 8 < fuel) :
    ∃ ram' f, link_scan g i (g.slot i).inst.offset ((g.slot i).inst.size / 4) fuel 0 (ram, {})
        = Run.done (ram', f)
      ∧ (∀ x, (∀ k, k < (g.slot i).inst.size / 8 →
            x < (g.slot i).inst.offset + 8 * k ∨ (g.slot i).inst.offset + 8 * k + 4 ≤ x) →
          ram' x = ram x)
      ∧ (∀ k, k < (g.slot i).inst.size / 8 →
          load32 ram' ((g.slot i).inst.offset + 8 * k)
            = patched g i (load32 ram ((g.slot i).inst.offset + 8 * k))
                (load32 ram ((g.slot i).inst.offset + 8 * k + 4)))
      ∧ (link_check g i f = true ↔ mismatch g ram i) := by
  have hdiv : (g.slot i).inst.size / 4 / 2 = (g.slot i).inst.size / 8 := by omega
  obtain ⟨ram', f, hrun, ha, hb, hc⟩ :=
    link_scan_spec g i (g.slot i).inst.offset ((g.slot i).inst.size / 4) (by omega) (by omega)
      ((g.slot i).inst.size / 8) 0 fuel (ram, {}) (by omega) hfuel
  refine ⟨ram', f, by simpa using hrun, ?_, ?_, ?_⟩
  · intro x hx
    exact ha x (fun k _ hk => hx k (by omega))
  · intro k hk
    exact hb k (Nat.zero_le k) (by omega)
  · refine link_check_iff g i f ram (fun ph hph => ?_)
    rw [hc ph hph]
    have e : ({} : link_flags).get ph = false := by
      simp only [link_flags.get]
      split_ifs <;> rfl
    simp only [e, Bool.false_eq_true, false_or, has_pair, zero_add, Nat.zero_le, true_and]

theorem link_tasks_spec (fuel : Nat) (g : G) (m : Nat) :
    ∀ (a : Nat) (ram : Nat → Nat) (err : Bool),
      (∀ i, a ≤ i → i < a + m →
        (g.slot i).inst.active = true ∧ 4 ≤ (g.slot i).inst.size
          ∧ (g.slot i).inst.size < 4294967296 ∧ (g.slot i).inst.size / 8 < fuel) →
      (∀ i j, a ≤ i → i < j → j < a + m →
        (g.slot i).inst.offset + (g.slot i).inst.size ≤ (g.slot j).inst.offset
          ∨ (g.slot j).inst.offset + (g.slot j).inst.size ≤ (g.slot i).inst.offset) →
      ∃ ram' err', link_tasks fuel g (List.range' a m) (ram, err) = Run.done (ram', err')
        ∧ (err' = true ↔ (err = true ∨ ∃ i, a ≤ i ∧ i < a + m ∧ mismatch g ram i))
        ∧ (∀ x, (∀ i, a ≤ i → i < a + m → ∀ k, k < (g.slot i).inst.size / 8 →
              x < (g.slot i).inst.offset + 8 * k ∨ (g.slot i).inst.offset + 8 * k + 4 ≤ x) →
            ram' x = ram x)
        ∧ ∀ i, a ≤ i → i < a + m → ∀ k, k < (g.slot i).inst.size / 8 →
            load32 ram' ((g.slot i).inst.offset + 8 * k)
              = patched g i (load32 ram ((g.slot i).inst.offset + 8 * k))
                  (load32 ram ((g.slot i).inst.offset + 8 * k + 4)) := by
  induction m with
  | zero =>
    intro a ram err _ _
    refine ⟨ram, err, rfl, ?_, fun _ _ => rfl, fun i h1 h2 => by omega⟩
    constructor
    · intro h; exact Or.inl h
    · rintro (h | ⟨i, h1, h2, _⟩)
      · exact h
      · omega
  | succ m ih =>
    intro a ram err hwf hdis
    obtain ⟨hact, h4, hlt, hfuel⟩ := hwf a (le_refl a) (by omega)
    obtain ⟨ram1, f, hscan, ha1, hb1, hc1⟩ := link_task_spec g a fuel ram h4 hlt hfuel
    obtain ⟨ram', err', hrun, he, ha, hb⟩ := ih (a + 1) ram1 (err || link_check g a f)
      (fun i h1 h2 => hwf i (by omega) (by omega))
      (fun i j h1 h2 h3 => hdis i j (by omega) h2 (by omega))
    -- the bytes of the later tasks are not touched by task `a`
    have hlater : ∀ i, a < i → i < a + (m + 1) → ∀ x, (g.slot i).inst.offset ≤ x →
        x < (g.slot i).inst.offset + (g.slot i).inst.size → ram1 x = ram x := by
      intro i h1 h2 x hx1 hx2
      refine ha1 x (fun k hk => ?_)
      have := hdis a i (le_refl a) h1 h2
      omega
    have hdiv : ∀ i k, k < (g.slot i).inst.size / 8 → 8 * k + 8 ≤ (g.slot i).inst.size := by
      intro i k hk
      omega
    refine ⟨ram', err', ?_, ?_, ?_, ?_⟩
    · rw [List.range'_succ, link_tasks, if_pos hact, hscan]
      exact hrun
    · rw [he, Bool.or_eq_true, hc1]
      constructor
      · rintro ((h | h) | ⟨i, h1, h2, h3⟩)
        · exact Or.inl h
        · exact Or.inr ⟨a, le_refl a, by omega, h⟩
        · refine Or.inr ⟨i, by omega, by omega, ?_⟩
          exact (mismatch_congr g ram ram1 i (hlater i (by omega) (by omega))).1 h3
      · rintro (h | ⟨i, h1, h2, h3⟩)
        · exact Or.inl (Or.inl h)
        · by_cases e : i = a
          · subst e
            exact Or.inl (Or.inr h3)
          · refine Or.inr ⟨i, by omega, by omega, ?_⟩
            exact (mismatch_congr g ram ram1 i (hlater i (by omega) (by omega))).2 h3
    · intro x hx
      rw [ha x (fun i h1 h2 k hk => hx i (by omega) (by omega) k hk)]
      exact ha1 x (fun k hk => hx a (le_refl a) (by omega) k hk)
    · intro i h1 h2 k hk
      by_cases e : i = a
      · subst e
        rw [← hb1 k hk]
        refine load32_congr _ _ _ (fun x hx1 hx2 => ha x (fun j hj1 hj2 k' hk' => ?_))
        have := hdis i j (le_refl i) (by omega) (by omega)
        have := hdiv i k hk
        have := hdiv j k' hk'
        omega
      · have hk8 := hdiv i k hk
        rw [hb i (by omega) (by omega) k hk,
          load32_congr ram ram1 _ (fun x hx1 hx2 =>
            hlater i (by omega) h2 x (by omega) (by omega)),
          load32_congr ram ram1 _ (fun x hx1 hx2 =>
            hlater i (by omega) h2 x (by omega) (by omega))]

/-- What `link_mem` does in a state whose instructions are well formed, with
an iteration budget above the number of pairs of every task: it returns, the
globals and the log are unchanged, the result is `FAILURE` exactly when some
task has a mismatch, every pair of every task is patched, and no other byte of
the region changes. -/
theorem link_mem_spec (fuel : Nat) (s : St) (hok : code_ok s.g)
    (hfuel : ∀ i, i < s.g.ntasks → (s.g.slot i).inst.size / 8 < fuel) :
    ∃ ram' r, link_mem fuel s = Run.done (r, { s with ram := ram' })
      ∧ (r = result.FAILURE ↔ ∃ i, i < s.g.ntasks ∧ mismatch s.g s.ram i)
      ∧ (r = result.SUCCESS ↔ ∀ i, i < s.g.ntasks → ¬ mismatch s.g s.ram i)
      ∧ (∀ x, (∀ i, i < s.g.ntasks → ∀ k, k < (s.g.slot i).inst.size / 8 →
            x < (s.g.slot i).inst.offset + 8 * k ∨ (s.g.slot i).inst.offset + 8 * k + 4 ≤ x) →
          ram' x = s.ram x)
      ∧ ∀ i, i < s.g.ntasks → ∀ k, k < (s.g.slot i).inst.size / 8 →
          load32 ram' ((s.g.slot i).inst.offset + 8 * k)
            = patched s.g i (load32 s.ram ((s.g.slot i).inst.offset + 8 * k))
                (load32 s.ram ((s.g.slot i).inst.offset + 8 * k + 4)) := by
  obtain ⟨hwf, hdis⟩ := hok
  obtain ⟨ram', err', hrun, he, ha, hb⟩ := link_tasks_spec fuel s.g s.g.ntasks 0 s.ram false
    (fun i _ h2 => by
      have h := hwf i (by omega)
      exact ⟨h.1, h.2.1, h.2.2, hfuel i (by omega)⟩)
    (fun i j _ h2 h3 => hdis i (by omega) j (by omega) h2)
  rw [← List.range_eq_range'] at hrun
  have key : err' = true ↔ ∃ i, i < s.g.ntasks ∧ mismatch s.g s.ram i := by
    rw [he]
    constructor
    · rintro (h | ⟨i, _, h2, h3⟩)
      · cases h
      · exact ⟨i, by omega, h3⟩
    · rintro ⟨i, h1, h2⟩
      exact Or.inr ⟨i, Nat.zero_le i, by omega, h2⟩
  refine ⟨ram', if err' = true then result.FAILURE else result.SUCCESS, ?_, ?_, ?_, ?_, ?_⟩
  · simp only [link_mem, hrun]
  · rw [← key]
    cases err' <;> simp
  · have : (∀ i, i < s.g.ntasks → ¬ mismatch s.g s.ram i)
        ↔ ¬ ∃ i, i < s.g.ntasks ∧ mismatch s.g s.ram i := by
      constructor
      · rintro h ⟨i, h1, h2⟩
        exact h i h1 h2
      · intro h i h1 h2
        exact h ⟨i, h1, h2⟩
    rw [this, ← key]
    cases err' <;> simp
  · intro x hx
    exact ha x (fun i _ h2 k hk => hx i (by omega) k hk)
  · intro i hi k hk
    exact hb i (Nat.zero_le i) (by omega) k hk

/-- C4: in a state whose instructions are well formed (declared, at least one
word, staged in pairwise disjoint ranges), with an iteration budget above the
number of pairs of every task, `link_mem` returns and, for every task
`i < ntasks` and every pair `k < size / 8`, the first word of the pair becomes
`(bus + offset) mod 2^32` of the buffer its placeholder names when the second
word is a load-immediate opcode (`patched`), else stays; the second word of
every pair and every byte outside the first words of the pairs are unchanged. -/
theorem link_mem_patches (fuel : Nat) (s : St) (hok : code_ok s.g)
    (hfuel : ∀ i, i < s.g.ntasks → (s.g.slot i).inst.size / 8 < fuel) :
    ∃ r s', link_mem fuel s = Run.done (r, s') ∧ s'.g = s.g
      ∧ (∀ i, i < s.g.ntasks → ∀ k, k < (s.g.slot i).inst.size / 8 →
          load32 s'.ram ((s.g.slot i).inst.offset + 8 * k)
              = patched s.g i (load32 s.ram ((s.g.slot i).inst.offset + 8 * k))
                  (load32 s.ram ((s.g.slot i).inst.offset + 8 * k + 4))
            ∧ load32 s'.ram ((s.g.slot i).inst.offset + 8 * k + 4)
              = load32 s.ram ((s.g.slot i).inst.offset + 8 * k + 4))
      ∧ ∀ x, (∀ i, i < s.g.ntasks → ∀ k, k < (s.g.slot i).inst.size / 8 →
            x < (s.g.slot i).inst.offset + 8 * k ∨ (s.g.slot i).inst.offset + 8 * k + 4 ≤ x) →
          s'.ram x = s.ram x := by
  obtain ⟨ram', r, hrun, _, _, ha, hb⟩ := link_mem_spec fuel s hok hfuel
  refine ⟨r, _, hrun, rfl, ?_, ha⟩
  intro i hi k hk
  refine ⟨hb i hi k hk, ?_⟩
  refine load32_congr _ _ _ (fun x hx1 hx2 => ha x (fun j hj k' hk' => ?_))
  have h8 : 8 * k + 8 ≤ (s.g.slot i).inst.size := by omega
  have h8' : 8 * k' + 8 ≤ (s.g.slot j).inst.size := by omega
  rcases Nat.lt_trichotomy i j with h | h | h
  · have := hok.2 i hi j hj h
    omega
  · subst h
    omega
  · have := hok.2 j hj i hi h
    omega

/-- C4 (witness): one task whose single instruction holds the placeholder of
its read buffer. -/
theorem link_mem_patches_witness :
    (code_ok (staged (world_ok files_link) s_bound).g
        ∧ ∀ i, i < (staged (world_ok files_link) s_bound).g.ntasks →
            ((staged (world_ok files_link) s_bound).g.slot i).inst.size / 8 < 2)
      ∧ load32 (staged (world_ok files_link) s_bound).ram 96 = 4294967290
      ∧ load32 (linked 2 (staged (world_ok files_link) s_bound)).ram 96 = 3221229672
      ∧ ∃ r s', link_mem 2 (staged (world_ok files_link) s_bound) = Run.done (r, s')
        ∧ s'.g = (staged (world_ok files_link) s_bound).g
        ∧ (∀ i, i < (staged (world_ok files_link) s_bound).g.ntasks →
            ∀ k, k < ((staged (world_ok files_link) s_bound).g.slot i).inst.size / 8 →
            load32 s'.ram (((staged (world_ok files_link) s_bound).g.slot i).inst.offset + 8 * k)
                = patched (staged (world_ok files_link) s_bound).g i
                    (load32 (staged (world_ok files_link) s_bound).ram
                      (((staged (world_ok files_link) s_bound).g.slot i).inst.offset + 8 * k))
                    (load32 (staged (world_ok files_link) s_bound).ram
                      (((staged (world_ok files_link) s_bound).g.slot i).inst.offset + 8 * k + 4))
              ∧ load32 s'.ram
                  (((staged (world_ok files_link) s_bound).g.slot i).inst.offset + 8 * k + 4)
                = load32 (staged (world_ok files_link) s_bound).ram
                    (((staged (world_ok files_link) s_bound).g.slot i).inst.offset + 8 * k + 4))
        ∧ ∀ x, (∀ i, i < (staged (world_ok files_link) s_bound).g.ntasks →
              ∀ k, k < ((staged (world_ok files_link) s_bound).g.slot i).inst.size / 8 →
              x < ((staged (world_ok files_link) s_bound).g.slot i).inst.offset + 8 * k
                ∨ ((staged (world_ok files_link) s_bound).g.slot i).inst.offset + 8 * k + 4 ≤ x) →
            s'.ram x = (staged (world_ok files_link) s_bound).ram x :=
  ⟨⟨by unfold code_ok; decide, by decide⟩, by decide, by decide,
    link_mem_patches 2 (staged (world_ok files_link) s_bound) (by unfold code_ok; decide)
      (by decide)⟩

theorem mismatch_iff (g : G) (ram : Nat → Nat) (i : Nat) :
    mismatch g ram i ↔ (unbound g ram i ∨ unreferenced g ram i) := by
  unfold mismatch unbound unreferenced
  tauto

/-- C5: in a state whose instructions are well formed, with an iteration
budget above the number of pairs of every task, `link_mem` returns `SUCCESS`
if and only if no task `i < ntasks` has a mismatch, and `FAILURE` if and only
if some task has one; whatever the result, the pairs of every task are
patched, so a mismatch in one task does not stop the scan. -/
theorem link_mem_result (fuel : Nat) (s : St) (hok : code_ok s.g)
    (hfuel : ∀ i, i < s.g.ntasks → (s.g.slot i).inst.size / 8 < fuel) :
    ∃ r s', link_mem fuel s = Run.done (r, s')
      ∧ (r = result.SUCCESS ↔ ∀ i, i < s.g.ntasks → ¬ mismatch s.g s.ram i)
      ∧ (r = result.FAILURE ↔ ∃ i, i < s.g.ntasks ∧ mismatch s.g s.ram i)
      ∧ ∀ i, i < s.g.ntasks → ∀ k, k < (s.g.slot i).inst.size / 8 →
          load32 s'.ram ((s.g.slot i).inst.offset + 8 * k)
            = patched s.g i (load32 s.ram ((s.g.slot i).inst.offset + 8 * k))
                (load32 s.ram ((s.g.slot i).inst.offset + 8 * k + 4)) := by
  obtain ⟨ram', r, hrun, h1, h2, _, hb⟩ := link_mem_spec fuel s hok hfuel
  exact ⟨r, _, hrun, h2, h1, hb⟩

/-- C5 (witness): one task whose instruction references its declared read
buffer: no mismatch, `SUCCESS`. -/
theorem link_mem_result_witness :
    (code_ok (staged (world_ok files_link) s_bound).g
        ∧ ∀ i, i < (staged (world_ok files_link) s_bound).g.ntasks →
            ((staged (world_ok files_link) s_bound).g.slot i).inst.size / 8 < 2)
      ∧ (link_mem 2 (staged (world_ok files_link) s_bound)).get?.map Prod.fst
        = some result.SUCCESS
      ∧ ∃ r s', link_mem 2 (staged (world_ok files_link) s_bound) = Run.done (r, s')
        ∧ (r = result.SUCCESS ↔ ∀ i, i < (staged (world_ok files_link) s_bound).g.ntasks →
            ¬ mismatch (staged (world_ok files_link) s_bound).g
                (staged (world_ok files_link) s_bound).ram i)
        ∧ (r = result.FAILURE ↔ ∃ i, i < (staged (world_ok files_link) s_bound).g.ntasks
            ∧ mismatch (staged (world_ok files_link) s_bound).g
                (staged (world_ok files_link) s_bound).ram i)
        ∧ ∀ i, i < (staged (world_ok files_link) s_bound).g.ntasks →
            ∀ k, k < ((staged (world_ok files_link) s_bound).g.slot i).inst.size / 8 →
            load32 s'.ram (((staged (world_ok files_link) s_bound).g.slot i).inst.offset + 8 * k)
              = patched (staged (world_ok files_link) s_bound).g i
                  (load32 (staged (world_ok files_link) s_bound).ram
                    (((staged (world_ok files_link) s_bound).g.slot i).inst.offset + 8 * k))
                  (load32 (staged (world_ok files_link) s_bound).ram
                    (((staged (world_ok files_link) s_bound).g.slot i).inst.offset + 8 * k + 4)) :=
  ⟨⟨by unfold code_ok; decide, by decide⟩, by decide,
    link_mem_result 2 (staged (world_ok files_link) s_bound) (by unfold code_ok; decide)
      (by decide)⟩

theorem exec_link_fail (w : World) (fuel : Nat) (o : opt) (s s1 s2 : St) (hnt : s.g.ntasks ≠ 0)
    (hinit : init_mem w s = Run.done (result.SUCCESS, s1))
    (hlink : link_mem fuel s1 = Run.done (result.FAILURE, s2)) :
    gpu_exec_via_mbox w fuel o s = Run.done (result.FAILURE, s2)
      ∧ s2.log.filter Call.is_dispatch = s.log.filter Call.is_dispatch := by
  refine ⟨by simp only [gpu_exec_via_mbox, hnt, if_false, hinit, hlink, Run.andThen], ?_⟩
  rw [(link_mem_frame fuel s1 _ s2 hlink).2]
  exact ext_all_filter Call.is_dispatch _ _
    (ext_all_mono (fun c => c.is_staging = true) (fun c => c.is_dispatch = false)
      staging_not_dispatch _ _ (init_mem_ext w s _ s1 hinit))

/-- A dispatch whose staging succeeds and whose staged code has a mismatch
returns `FAILURE` and issues no enable, execute or disable request. -/
theorem exec_mismatch (w : World) (fuel : Nat) (o : opt) (s s1 : St)
    (hnt : 0 < s.g.ntasks) (hinit : init_mem w s = Run.done (result.SUCCESS, s1))
    (hok : code_ok s1.g)
    (hfuel : ∀ i, i < s1.g.ntasks → (s1.g.slot i).inst.size / 8 < fuel)
    (hbad : ∃ i, i < s1.g.ntasks ∧ mismatch s1.g s1.ram i) :
    ∃ s', gpu_exec_via_mbox w fuel o s = Run.done (result.FAILURE, s')
      ∧ s'.log.filter Call.is_dispatch = s.log.filter Call.is_dispatch := by
  obtain ⟨ram', r, hrun, h1, _, _, _⟩ := link_mem_spec fuel s1 hok hfuel
  have hr : r = result.FAILURE := h1.2 hbad
  subst hr
  exact ⟨_, exec_link_fail w fuel o s s1 _ (by omega) hinit hrun⟩

/-- C6: whenever staging succeeds and the staged code of some task (well
formed, within the iteration budget) contains a placeholder pair of one of the
four kinds whose buffer is not declared, `gpu_exec_via_mbox` returns `FAILURE`
and issues no enable and no execute (and no disable) request. -/
theorem undeclared_buffer_fails (w : World) (fuel : Nat) (o : opt) (s s1 : St)
    (hnt : 0 < s.g.ntasks) (hinit : init_mem w s = Run.done (result.SUCCESS, s1))
    (hok : code_ok s1.g)
    (hfuel : ∀ i, i < s1.g.ntasks → (s1.g.slot i).inst.size / 8 < fuel)
    (hbad : ∃ i, i < s1.g.ntasks ∧ unbound s1.g s1.ram i) :
    ∃ s', gpu_exec_via_mbox w fuel o s = Run.done (result.FAILURE, s')
      ∧ s'.log.filter Call.is_dispatch = s.log.filter Call.is_dispatch := by
  obtain ⟨i, hi, hb⟩ := hbad
  exact exec_mismatch w fuel o s s1 hnt hinit hok hfuel
    ⟨i, hi, (mismatch_iff _ _ _).2 (Or.inl hb)⟩

/-- C6 (witness): one task whose eight bytes of instructions are the words
`0xfffffffa`, `0xe0020827` and which has no read buffer. -/
theorem undeclared_buffer_fails_witness :
    (0 < s_unbound.g.ntasks
        ∧ init_mem (world_ok files_link) s_unbound
          = Run.done (result.SUCCESS, staged (world_ok files_link) s_unbound)
        ∧ code_ok (staged (world_ok files_link) s_unbound).g
        ∧ (∀ i, i < (staged (world_ok files_link) s_unbound).g.ntasks →
            ((staged (world_ok files_link) s_unbound).g.slot i).inst.size / 8 < 2)
        ∧ ∃ i, i < (staged (world_ok files_link) s_unbound).g.ntasks
            ∧ unbound (staged (world_ok files_link) s_unbound).g
                (staged (world_ok files_link) s_unbound).ram i)
      ∧ ∃ s', gpu_exec_via_mbox (world_ok files_link) 2 {} s_unbound
          = Run.done (result.FAILURE, s')
        ∧ s'.log.filter Call.is_dispatch = s_unbound.log.filter Call.is_dispatch :=
  ⟨⟨by decide, rfl, by unfold code_ok; decide, by decide,
      ⟨0, by decide, Or.inr (Or.inr (Or.inl ⟨⟨0, by decide, by decide, by decide⟩, by decide⟩))⟩⟩,
    undeclared_buffer_fails (world_ok files_link) 2 {} s_unbound
      (staged (world_ok files_link) s_unbound) (by decide) rfl (by unfold code_ok; decide)
      (by decide)
      ⟨0, by decide, Or.inr (Or.inr (Or.inl ⟨⟨0, by decide, by decide, by decide⟩, by decide⟩))⟩⟩

/-- C7 (counterexample): a global read buffer is declared, the code of the only
task holds no placeholder pair for it, and `link_mem` returns `SUCCESS`. -/
theorem link_mem_unreferenced_global :
    (staged (world_ok files_zero) s_glob).g.glob.rbuf.active = true
      ∧ (staged (world_ok files_zero) s_glob).g.ntasks = 1
      ∧ ((staged (world_ok files_zero) s_glob).g.slot 0).inst.offset = 96
      ∧ ((staged (world_ok files_zero) s_glob).g.slot 0).inst.size = 8
      ∧ load32 (staged (world_ok files_zero) s_glob).ram 96 = 0
      ∧ load32 (staged (world_ok files_zero) s_glob).ram 100 = 0
      ∧ (link_mem 2 (staged (world_ok files_zero) s_glob)).get?.map Prod.fst
        = some result.SUCCESS := by
  decide

/-- C7 (amended): in a state whose instructions are well formed, with an
iteration budget above the number of pairs of every task, `link_mem` returns
`FAILURE` whenever the code of some task holds a placeholder pair whose buffer
is not declared, and whenever some task has a declared read or write buffer of
its own that its code does not reference; in every other case it returns
`SUCCESS`, so a declared global buffer need not be referenced. -/
theorem link_mem_binding (fuel : Nat) (s : St) (hok : code_ok s.g)
    (hfuel : ∀ i, i < s.g.ntasks → (s.g.slot i).inst.size / 8 < fuel) :
    ∃ r s', link_mem fuel s = Run.done (r, s')
      ∧ ((∃ i, i < s.g.ntasks ∧ unbound s.g s.ram i) → r = result.FAILURE)
      ∧ ((∃ i, i < s.g.ntasks ∧ unreferenced s.g s.ram i) → r = result.FAILURE)
      ∧ ((∀ i, i < s.g.ntasks → ¬ unbound s.g s.ram i ∧ ¬ unreferenced s.g s.ram i) →
          r = result.SUCCESS) := by
  obtain ⟨ram', r, hrun, h1, h2, _, _⟩ := link_mem_spec fuel s hok hfuel
  refine ⟨r, _, hrun, ?_, ?_, ?_⟩
  · rintro ⟨i, hi, hb⟩
    exact h1.2 ⟨i, hi, (mismatch_iff _ _ _).2 (Or.inl hb)⟩
  · rintro ⟨i, hi, hb⟩
    exact h1.2 ⟨i, hi, (mismatch_iff _ _ _).2 (Or.inr hb)⟩
  · intro h
    refine h2.2 (fun i hi hm => ?_)
    rcases (mismatch_iff _ _ _).1 hm with hb | hb
    · exact (h i hi).1 hb
    · exact (h i hi).2 hb

/-- C7 (witness): the state of the counterexample; the declared global read
buffer is not referenced and `link_mem` succeeds. -/
theorem link_mem_binding_witness :
    (code_ok (staged (world_ok files_zero) s_glob).g
        ∧ ∀ i, i < (staged (world_ok files_zero) s_glob).g.ntasks →
            ((staged (world_ok files_zero) s_glob).g.slot i).inst.size / 8 < 2)
      ∧ ∃ r s', link_mem 2 (staged (world_ok files_zero) s_glob) = Run.done (r, s')
        ∧ ((∃ i, i < (staged (world_ok files_zero) s_glob).g.ntasks
              ∧ unbound (staged (world_ok files_zero) s_glob).g
                  (staged (world_ok files_zero) s_glob).ram i) → r = result.FAILURE)
        ∧ ((∃ i, i < (staged (world_ok files_zero) s_glob).g.ntasks
              ∧ unreferenced (staged (world_ok files_zero) s_glob).g
                  (staged (world_ok files_zero) s_glob).ram i) → r = result.FAILURE)
        ∧ ((∀ i, i < (staged (world_ok files_zero) s_glob).g.ntasks →
              ¬ unbound (staged (world_ok files_zero) s_glob).g
                  (staged (world_ok files_zero) s_glob).ram i
                ∧ ¬ unreferenced (staged (world_ok files_zero) s_glob).g
                  (staged (world_ok files_zero) s_glob).ram i) → r = result.SUCCESS) :=
  ⟨⟨by unfold code_ok; decide, by decide⟩,
    link_mem_binding 2 (staged (world_ok files_zero) s_glob) (by unfold code_ok; decide)
      (by decide)⟩

theorem load32_store32_other (m : Nat → Nat) (a v b : Nat) (h : b + 4 ≤ a ∨ a + 4 ≤ b) :
    load32 (store32 m a v) b = load32 m b :=
  load32_congr _ _ _ (fun x h1 h2 => store32_other m a v x (by omega))

theorem u32_idem (n : Nat) : u32 (u32 n) = u32 n := by
  unfold u32
  omega

theorem memcpy_fold (ram : Nat → Nat) (cntl : List (Nat × Nat)) (n : Nat) :
    (∀ i, i < n →
        load32 ((List.range n).foldl
            (fun m i => store32 (store32 m (8 * i) (cntl.getD i (0, 0)).1) (8 * i + 4)
              (cntl.getD i (0, 0)).2) ram) (8 * i) = u32 (cntl.getD i (0, 0)).1
          ∧ load32 ((List.range n).foldl
            (fun m i => store32 (store32 m (8 * i) (cntl.getD i (0, 0)).1) (8 * i + 4)
              (cntl.getD i (0, 0)).2) ram) (8 * i + 4) = u32 (cntl.getD i (0, 0)).2)
      ∧ ∀ x, 8 * n ≤ x →
          (List.range n).foldl
            (fun m i => store32 (store32 m (8 * i) (cntl.getD i (0, 0)).1) (8 * i + 4)
              (cntl.getD i (0, 0)).2) ram x = ram x := by
  induction n with
  | zero => exact ⟨fun i h => by omega, fun x _ => rfl⟩
  | succ n ih =>
    obtain ⟨ih1, ih2⟩ := ih
    rw [List.range_succ, List.foldl_append]
    simp only [List.foldl_cons, List.foldl_nil]
    refine ⟨fun i hi => ?_, fun x hx => ?_⟩
    · by_cases e : i = n
      · subst e
        refine ⟨?_, ?_⟩
        · rw [load32_store32_other _ _ _ _ (by omega), load32_store32_same]
        · rw [load32_store32_same]
      · have hlt : i < n := by omega
        rw [load32_store32_other _ _ _ _ (by omega), load32_store32_other _ _ _ _ (by omega),
          load32_store32_other _ _ _ _ (by omega), load32_store32_other _ _ _ _ (by omega)]
        exact ih1 i hlt
    · rw [store32_other _ _ _ _ (by omega), store32_other _ _ _ _ (by omega)]
      exact ih2 x (by omega)

theorem control_fold (g : G) (n : Nat) (hn : n ≤ 12) :
    ((List.range n).foldl (fun (cntl : List (Nat × Nat)) i => cntl.set i (control_entry g i))
        (List.replicate 12 (0, 0))).length = 12
      ∧ ∀ i, ((List.range n).foldl
          (fun (cntl : List (Nat × Nat)) i => cntl.set i (control_entry g i))
          (List.replicate 12 (0, 0))).getD i (0, 0)
            = if i < n then control_entry g i else (0, 0) := by
  induction n with
  | zero =>
    refine ⟨List.length_replicate 12 _, fun i => ?_⟩
    rw [List.range_zero, List.foldl_nil, if_neg (Nat.not_lt_zero i),
      List.getD_eq_getElem?_getD, List.getElem?_replicate]
    split_ifs <;> rfl
  | succ n ih =>
    obtain ⟨ih1, ih2⟩ := ih (by omega)
    rw [List.range_succ, List.foldl_append]
    simp only [List.foldl_cons, List.foldl_nil]
    refine ⟨by rw [List.length_set]; exact ih1, fun i => ?_⟩
    have := ih2 i
    rw [List.getD_eq_getElem?_getD] at this ⊢
    rw [List.getElem?_set]
    by_cases e : n = i
    · subst e
      rw [if_pos rfl, if_pos (by rw [ih1]; omega), if_pos (by omega)]
      rfl
    · rw [if_neg e, this]
      by_cases h : i < n
      · rw [if_pos h, if_pos (by omega)]
      · rw [if_neg h, if_neg (by omega)]

theorem init_mem_control (w : World) (s s' : St)
    (hrun : init_mem w s = Run.done (result.SUCCESS, s')) :
    ∃ ram0, s'.ram = memcpy_control ram0 (control_block s'.g) := by
  obtain ⟨h, b, v, hflags, h1, h2, h3, _⟩ := init_mem_success w s s' hrun
  rw [init_mem_acquired w s h b v hflags h1 h2 h3] at hrun
  cases hs : stage_all w (acquired s h b v) with
  | done a =>
    obtain ⟨r1, s2⟩ := a
    rw [hs] at hrun
    cases r1
    · simp only at hrun
      split_ifs at hrun
      · simp at hrun
      · simp only [Run.done.injEq, Prod.mk.injEq, true_and] at hrun
        rw [← hrun]
        exact ⟨s2.ram, rfl⟩
    · simp at hrun
    · simp at hrun
  | abort => rw [hs] at hrun; cases hrun
  | spin => rw [hs] at hrun; cases hrun

/-- C8: after `init_mem` succeeds in a state with at most 12 tasks, all with
instructions, the first 96 bytes of the region are 12 entries of two 32-bit
words in slot order: for `i < ntasks` the first word is `bus + offset` (as a
32-bit address) of the uniforms of task `i` if it has its own, else of the
global uniforms if declared, else 0, and the second word is `bus + offset` of
the instructions of task `i`; for `ntasks ≤ i < 12` both words are 0. -/
theorem control_block_layout (w : World) (s s' : St)
    (hrun : init_mem w s = Run.done (result.SUCCESS, s'))
    (hn : s'.g.ntasks ≤ MAX_TASKS)
    (hinst : ∀ i, i < s'.g.ntasks → (s'.g.slot i).inst.active = true) :
    ∀ i, i < MAX_TASKS →
      load32 s'.ram (8 * i)
          = (if i < s'.g.ntasks then
              (if (s'.g.slot i).unif.active = true then
                u32 (s'.g.mem.bus + (s'.g.slot i).unif.offset)
              else if s'.g.glob.unif.active = true then
                u32 (s'.g.mem.bus + s'.g.glob.unif.offset)
              else 0)
            else 0)
        ∧ load32 s'.ram (8 * i + 4)
          = (if i < s'.g.ntasks then u32 (s'.g.mem.bus + (s'.g.slot i).inst.offset) else 0) := by
  intro i hi
  obtain ⟨ram0, hram⟩ := init_mem_control w s s' hrun
  obtain ⟨hm, _⟩ := memcpy_fold ram0 (control_block s'.g) 12
  obtain ⟨_, hc⟩ := control_fold s'.g s'.g.ntasks hn
  have h1 := hm i hi
  rw [hram]
  unfold memcpy_control
  rw [h1.1, h1.2]
  unfold control_block
  rw [hc i]
  by_cases hlt : i < s'.g.ntasks
  · rw [if_pos hlt, if_pos hlt, if_pos hlt]
    simp only [control_entry, hinst i hlt, if_true]
    refine ⟨?_, u32_idem _⟩
    split_ifs
    · exact u32_idem _
    · exact u32_idem _
    · rfl
  · rw [if_neg hlt, if_neg hlt, if_neg hlt]
    exact ⟨rfl, rfl⟩

/-- C8 (witness): one task with instructions and no uniforms: entry 0 is
`(0, bus + 96)` and the other entries are zero. -/
theorem control_block_layout_witness :
    (init_mem (world_ok files_zero) s_one
          = Run.done (result.SUCCESS, staged (world_ok files_zero) s_one)
        ∧ (staged (world_ok files_zero) s_one).g.ntasks ≤ MAX_TASKS
        ∧ ∀ i, i < (staged (world_ok files_zero) s_one).g.ntasks →
            ((staged (world_ok files_zero) s_one).g.slot i).inst.active = true)
      ∧ (load32 (staged (world_ok files_zero) s_one).ram (8 * 0)
            = (if 0 < (staged (world_ok files_zero) s_one).g.ntasks then
                (if ((staged (world_ok files_zero) s_one).g.slot 0).unif.active = true then
                  u32 ((staged (world_ok files_zero) s_one).g.mem.bus
                    + ((staged (world_ok files_zero) s_one).g.slot 0).unif.offset)
                else if (staged (world_ok files_zero) s_one).g.glob.unif.active = true then
                  u32 ((staged (world_ok files_zero) s_one).g.mem.bus
                    + (staged (world_ok files_zero) s_one).g.glob.unif.offset)
                else 0)
              else 0)
          ∧ load32 (staged (world_ok files_zero) s_one).ram (8 * 0 + 4)
            = (if 0 < (staged (world_ok files_zero) s_one).g.ntasks then
                u32 ((staged (world_ok files_zero) s_one).g.mem.bus
                  + ((staged (world_ok files_zero) s_one).g.slot 0).inst.offset)
              else 0))
      ∧ load32 (staged (world_ok files_zero) s_one).ram 4 = 3221229664 :=
  ⟨⟨rfl, by decide, by decide⟩,
    control_block_layout (world_ok files_zero) s_one (staged (world_ok files_zero) s_one) rfl
      (by decide) (by decide) 0 (by decide),
    by decide⟩

theorem file_decl_refl (a : gpu_file) : file_decl a a := ⟨rfl, rfl, rfl⟩

theorem buf_decl_refl (a : gpu_buf) : buf_decl a a := ⟨rfl, rfl⟩

theorem file_decl_trans (a b c : gpu_file) (h1 : file_decl b a) (h2 : file_decl c b) :
    file_decl c a :=
  ⟨h2.1.trans h1.1, h2.2.1.trans h1.2.1, h2.2.2.trans h1.2.2⟩

theorem buf_decl_trans (a b c : gpu_buf) (h1 : buf_decl b a) (h2 : buf_decl c b) :
    buf_decl c a :=
  ⟨h2.1.trans h1.1, h2.2.trans h1.2⟩

theorem decl_rel_refl (s : St) : decl_rel s s :=
  ⟨rfl, file_decl_refl _, file_decl_refl _, buf_decl_refl _,
    fun _ => ⟨file_decl_refl _, file_decl_refl _, file_decl_refl _, buf_decl_refl _⟩⟩

theorem decl_rel_trans (a b c : St) (h1 : decl_rel a b) (h2 : decl_rel b c) : decl_rel a c := by
  obtain ⟨a1, a2, a3, a4, a5⟩ := h1
  obtain ⟨b1, b2, b3, b4, b5⟩ := h2
  refine ⟨b1.trans a1, file_decl_trans _ _ _ a2 b2, file_decl_trans _ _ _ a3 b3,
    buf_decl_trans _ _ _ a4 b4, fun i => ?_⟩
  obtain ⟨c1, c2, c3, c4⟩ := a5 i
  obtain ⟨d1, d2, d3, d4⟩ := b5 i
  exact ⟨file_decl_trans _ _ _ c1 d1, file_decl_trans _ _ _ c2 d2, file_decl_trans _ _ _ c3 d3,
    buf_decl_trans _ _ _ c4 d4⟩

theorem init_file_decl (w : World) (mem : gpu_mem) (file : gpu_file) (ram : Nat → Nat)
    (log : List Call) (r : result) (mem' : gpu_mem) (file' : gpu_file) (ram' : Nat → Nat)
    (log' : List Call)
    (h : init_file w mem file ram log = Run.done (r, mem', file', ram', log')) :
    file_decl file' file := by
  unfold init_file at h
  by_cases c1 : u32 (mem.data_sz + 4294967296 - mem.used_sz) < file.size
  · simp [c1] at h
  · simp only [c1, if_false] at h
    cases hl : w.lseek (log ++ [Call.lseek file.fd])
    · simp only [hl, Bool.false_eq_true, if_false, Run.done.injEq, Prod.mk.injEq] at h
      obtain ⟨_, _, h3, _, _⟩ := h
      subst h3
      exact file_decl_refl _
    · simp only [hl, if_true] at h
      cases hr : w.read (log ++ [Call.lseek file.fd]
          ++ [Call.read file.fd mem.used_sz file.size]) with
      | none =>
        simp only [hr, Run.done.injEq, Prod.mk.injEq] at h
        obtain ⟨_, _, h3, _, _⟩ := h
        subst h3
        exact file_decl_refl _
      | some bytes =>
        simp only [hr, Run.done.injEq, Prod.mk.injEq] at h
        obtain ⟨_, _, h3, _, _⟩ := h
        subst h3
        exact ⟨rfl, rfl, rfl⟩

theorem decl_rel_slot (s : St) (g1 : G) (i : Nat) (t : task_slot) (ram : Nat → Nat)
    (log : List Call) (hl : g1.task.length = s.g.task.length)
    (hg : g1.glob = s.g.glob) (hs : ∀ j, g1.slot j = s.g.slot j)
    (h1 : file_decl t.inst (s.g.slot i).inst) (h2 : file_decl t.unif (s.g.slot i).unif)
    (h3 : file_decl t.rbuf (s.g.slot i).rbuf) (h4 : buf_decl t.wbuf (s.g.slot i).wbuf) :
    decl_rel s { g := g1.setSlot i t, ram := ram, log := log } := by
  refine ⟨by rw [setSlot_length]; exact hl, ?_, ?_, ?_, fun j => ?_⟩
  · rw [setSlot_glob, hg]; exact file_decl_refl _
  · rw [setSlot_glob, hg]; exact file_decl_refl _
  · rw [setSlot_glob, hg]; exact buf_decl_refl _
  · simp only [slot_setSlot]
    split_ifs with c
    · obtain ⟨c1, _⟩ := c
      subst c1
      exact ⟨h1, h2, h3, h4⟩
    · rw [hs j]
      exact ⟨file_decl_refl _, file_decl_refl _, file_decl_refl _, buf_decl_refl _⟩

theorem stage_task_inst_decl (w : World) (i : Nat) (s : St) (r : result) (s1 : St)
    (h : stage_task_inst w i s = Run.done (r, s1)) : decl_rel s s1 := by
  unfold stage_task_inst at h
  by_cases ha : (s.g.slot i).inst.active = true
  · simp only [ha, if_true] at h
    cases hf : init_file w s.g.mem (s.g.slot i).inst s.ram s.log with
    | done a =>
      obtain ⟨r', mem', file', ram', log'⟩ := a
      rw [hf] at h
      simp only [Run.done.injEq, Prod.mk.injEq] at h
      obtain ⟨_, h2⟩ := h
      subst h2
      have hd := init_file_decl _ _ _ _ _ _ _ _ _ _ hf
      exact decl_rel_slot s _ i _ _ _ rfl rfl (fun _ => rfl) hd (file_decl_refl _) (file_decl_refl _) (buf_decl_refl _)
    | abort => rw [hf] at h; cases h
    | spin => rw [hf] at h; cases h
  · simp only [ha] at h
    simp only [Bool.false_eq_true, if_false, Run.done.injEq, Prod.mk.injEq] at h
    rw [← h.2]
    exact decl_rel_refl s

theorem stage_task_unif_decl (w : World) (i : Nat) (s : St) (r : result) (s1 : St)
    (h : stage_task_unif w i s = Run.done (r, s1)) : decl_rel s s1 := by
  unfold stage_task_unif at h
  by_cases ha : (s.g.slot i).unif.active = true
  · simp only [ha, if_true] at h
    cases hf : init_file w s.g.mem (s.g.slot i).unif s.ram s.log with
    | done a =>
      obtain ⟨r', mem', file', ram', log'⟩ := a
      rw [hf] at h
      simp only [Run.done.injEq, Prod.mk.injEq] at h
      obtain ⟨_, h2⟩ := h
      subst h2
      have hd := init_file_decl _ _ _ _ _ _ _ _ _ _ hf
      exact decl_rel_slot s _ i _ _ _ rfl rfl (fun _ => rfl) (file_decl_refl _) hd (file_decl_refl _) (buf_decl_refl _)
    | abort => rw [hf] at h; cases h
    | spin => rw [hf] at h; cases h
  · simp only [ha] at h
    simp only [Bool.false_eq_true, if_false, Run.done.injEq, Prod.mk.injEq] at h
    rw [← h.2]
    exact decl_rel_refl s

theorem stage_task_rbuf_decl (w : World) (i : Nat) (s : St) (r : result) (s1 : St)
    (h : stage_task_rbuf w i s = Run.done (r, s1)) : decl_rel s s1 := by
  unfold stage_task_rbuf at h
  by_cases ha : (s.g.slot i).rbuf.active = true
  · simp only [ha, if_true] at h
    cases hf : init_file w s.g.mem (s.g.slot i).rbuf s.ram s.log with
    | done a =>
      obtain ⟨r', mem', file', ram', log'⟩ := a
      rw [hf] at h
      simp only [Run.done.injEq, Prod.mk.injEq] at h
      obtain ⟨_, h2⟩ := h
      subst h2
      have hd := init_file_decl _ _ _ _ _ _ _ _ _ _ hf
      exact decl_rel_slot s _ i _ _ _ rfl rfl (fun _ => rfl) (file_decl_refl _) (file_decl_refl _) hd (buf_decl_refl _)
    | abort => rw [hf] at h; cases h
    | spin => rw [hf] at h; cases h
  · simp only [ha] at h
    simp only [Bool.false_eq_true, if_false, Run.done.injEq, Prod.mk.injEq] at h
    rw [← h.2]
    exact decl_rel_refl s

theorem stage_glob_unif_decl (w : World) (s : St) (r : result) (s1 : St)
    (h : stage_glob_unif w s = Run.done (r, s1)) : decl_rel s s1 := by
  unfold stage_glob_unif at h
  by_cases ha : s.g.glob.unif.active = true
  · simp only [ha, if_true] at h
    cases hf : init_file w s.g.mem s.g.glob.unif s.ram s.log with
    | done a =>
      obtain ⟨r', mem', file', ram', log'⟩ := a
      rw [hf] at h
      simp only [Run.done.injEq, Prod.mk.injEq] at h
      obtain ⟨_, h2⟩ := h
      subst h2
      have hd := init_file_decl _ _ _ _ _ _ _ _ _ _ hf
      exact ⟨rfl, hd, (file_decl_refl _), buf_decl_refl _,
        fun _ => ⟨file_decl_refl _, file_decl_refl _, file_decl_refl _, buf_decl_refl _⟩⟩
    | abort => rw [hf] at h; cases h
    | spin => rw [hf] at h; cases h
  · simp only [ha] at h
    simp only [Bool.false_eq_true, if_false, Run.done.injEq, Prod.mk.injEq] at h
    rw [← h.2]
    exact decl_rel_refl s

theorem stage_glob_rbuf_decl (w : World) (s : St) (r : result) (s1 : St)
    (h : stage_glob_rbuf w s = Run.done (r, s1)) : decl_rel s s1 := by
  unfold stage_glob_rbuf at h
  by_cases ha : s.g.glob.rbuf.active = true
  · simp only [ha, if_true] at h
    cases hf : init_file w s.g.mem s.g.glob.rbuf s.ram s.log with
    | done a =>
      obtain ⟨r', mem', file', ram', log'⟩ := a
      rw [hf] at h
      simp only [Run.done.injEq, Prod.mk.injEq] at h
      obtain ⟨_, h2⟩ := h
      subst h2
      have hd := init_file_decl _ _ _ _ _ _ _ _ _ _ hf
      exact ⟨rfl, (file_decl_refl _), hd, buf_decl_refl _,
        fun _ => ⟨file_decl_refl _, file_decl_refl _, file_decl_refl _, buf_decl_refl _⟩⟩
    | abort => rw [hf] at h; cases h
    | spin => rw [hf] at h; cases h
  · simp only [ha] at h
    simp only [Bool.false_eq_true, if_false, Run.done.injEq, Prod.mk.injEq] at h
    rw [← h.2]
    exact decl_rel_refl s

theorem stage_task_wbuf_decl (i : Nat) (s : St) (r : result) (s1 : St)
    (h : stage_task_wbuf i s = Run.done (r, s1)) : decl_rel s s1 := by
  unfold stage_task_wbuf at h
  by_cases ha : (s.g.slot i).wbuf.active = true
  · simp only [ha, if_true, init_buf] at h
    split_ifs at h
    simp only [Run.done.injEq, Prod.mk.injEq] at h
    obtain ⟨_, h2⟩ := h
    subst h2
    exact decl_rel_slot s _ i _ _ _ rfl rfl (fun _ => rfl) (file_decl_refl _)
      (file_decl_refl _) (file_decl_refl _) ⟨ha.symm, rfl⟩
  · simp only [ha] at h
    simp only [Bool.false_eq_true, if_false, Run.done.injEq, Prod.mk.injEq] at h
    rw [← h.2]
    exact decl_rel_refl s

theorem stage_glob_wbuf_decl (s : St) (r : result) (s1 : St)
    (h : stage_glob_wbuf s = Run.done (r, s1)) : decl_rel s s1 := by
  unfold stage_glob_wbuf at h
  by_cases ha : s.g.glob.wbuf.active = true
  · simp only [ha, if_true, init_buf] at h
    split_ifs at h
    simp only [Run.done.injEq, Prod.mk.injEq] at h
    obtain ⟨_, h2⟩ := h
    subst h2
    exact ⟨rfl, file_decl_refl _, file_decl_refl _, ⟨ha.symm, rfl⟩,
      fun _ => ⟨file_decl_refl _, file_decl_refl _, file_decl_refl _, buf_decl_refl _⟩⟩
  · simp only [ha] at h
    simp only [Bool.false_eq_true, if_false, Run.done.injEq, Prod.mk.injEq] at h
    rw [← h.2]
    exact decl_rel_refl s

theorem stage_all_decl (w : World) (s : St) (r : result) (s1 : St)
    (h : stage_all w s = Run.done (r, s1)) : decl_rel s s1 := by
  unfold stage_all at h
  refine andThen_rel decl_rel decl_rel_trans _ _ s ?_ ?_ r s1 h
  · refine andThen_rel decl_rel decl_rel_trans _ _ s ?_ ?_
    · refine andThen_rel decl_rel decl_rel_trans _ _ s ?_ ?_
      · refine andThen_rel decl_rel decl_rel_trans _ _ s ?_ ?_
        · refine andThen_rel decl_rel decl_rel_trans _ _ s ?_ ?_
          · refine andThen_rel decl_rel decl_rel_trans _ _ s ?_ ?_
            · exact for_tasks_rel decl_rel decl_rel_refl decl_rel_trans _
                (stage_task_inst_decl w) _ s
            · exact stage_glob_unif_decl w
          · exact for_tasks_rel decl_rel decl_rel_refl decl_rel_trans _
              (stage_task_unif_decl w) _
        · exact stage_glob_rbuf_decl w
      · exact for_tasks_rel decl_rel decl_rel_refl decl_rel_trans _
          (stage_task_rbuf_decl w) _
    · exact stage_glob_wbuf_decl
  · exact for_tasks_rel decl_rel decl_rel_refl decl_rel_trans _ stage_task_wbuf_decl _

/-- A successful `init_mem` keeps every declaration and the task count. -/
theorem init_mem_decl (w : World) (s s' : St)
    (hrun : init_mem w s = Run.done (result.SUCCESS, s')) :
    decl_rel s s' ∧ s'.g.ntasks = s.g.ntasks := by
  obtain ⟨h, b, v, hflags, h1, h2, h3, hrel⟩ := init_mem_success w s s' hrun
  refine ⟨?_, hrel.2.2.1⟩
  rw [init_mem_acquired w s h b v hflags h1 h2 h3] at hrun
  cases hs : stage_all w (acquired s h b v) with
  | done a =>
    obtain ⟨r1, s2⟩ := a
    have hd := stage_all_decl w _ _ _ hs
    rw [hs] at hrun
    cases r1
    · simp only at hrun
      split_ifs at hrun
      · simp at hrun
      · simp only [Run.done.injEq, Prod.mk.injEq, true_and] at hrun
        rw [← hrun]
        exact hd
    · simp at hrun
    · simp at hrun
  | abort => rw [hs] at hrun; cases hrun
  | spin => rw [hs] at hrun; cases hrun

/-- C20 (as stated, refuted): for the configuration with global uniforms of 4
bytes and one task with 16 bytes of instructions without placeholder pair and a
write buffer of 64 bytes, `mem_size` is 180, yet `gpu_exec_via_mbox` with
`dry` set returns `FAILURE`: `link_mem` rejects a declared task write buffer
that no placeholder pair of the task refers to. -/
theorem scenario_dry_run_fails :
    mem_size g_scenario = 180
      ∧ gpu_exec_via_mbox (world_ok files_scenario) 3 { dry := true } s_scenario
          = Run.done (result.FAILURE,
              linked 3 (staged (world_ok files_scenario) s_scenario)) :=
  ⟨by decide,
    (exec_link_fail (world_ok files_scenario) 3 { dry := true } s_scenario
      (staged (world_ok files_scenario) s_scenario)
      (linked 3 (staged (world_ok files_scenario) s_scenario)) (by decide) rfl rfl).1⟩

/-- C20 (amended): for the configuration with global uniforms of 4 bytes and
one task with 16 bytes of instructions and a write buffer of 64 bytes,
`mem_size` is 96 + 4 + 16 + 64 = 180; and whenever staging succeeds and the
staged instructions hold no pair with the placeholder `TASK_WBUF`,
`gpu_exec_via_mbox` returns `FAILURE`, with or without `dry`, and issues no
enable, execute or disable request. -/
theorem scenario_links_fail (w : World) (fuel : Nat) (o : opt) (ram : Nat → Nat)
    (log : List Call) (s1 : St) (hfuel : 2 < fuel)
    (hinit : init_mem w { g := g_scenario, ram := ram, log := log }
      = Run.done (result.SUCCESS, s1))
    (hcode : ¬ has_pair s1.ram (s1.g.slot 0).inst.offset 16 TASK_WBUF) :
    mem_size g_scenario = 180
      ∧ ∃ s', gpu_exec_via_mbox w fuel o { g := g_scenario, ram := ram, log := log }
            = Run.done (result.FAILURE, s')
          ∧ s'.log.filter Call.is_dispatch = log.filter Call.is_dispatch := by
  refine ⟨by decide, ?_⟩
  obtain ⟨hd, hn⟩ := init_mem_decl w _ s1 hinit
  obtain ⟨_, _, _, _, hslot⟩ := hd
  obtain ⟨⟨hia, _, his⟩, _, _, ⟨hwa, _⟩⟩ := hslot 0
  have hn1 : s1.g.ntasks = 1 := hn
  have hia' : (s1.g.slot 0).inst.active = true := hia
  have his' : (s1.g.slot 0).inst.size = 16 := his
  have hwa' : (s1.g.slot 0).wbuf.active = true := hwa
  refine exec_mismatch w fuel o _ s1 (show 0 < g_scenario.ntasks by decide) hinit ?_ ?_ ?_
  · refine ⟨fun i hi => ?_, fun i hi j hj hij => ?_⟩
    · have : i = 0 := by omega
      subst this
      rw [his']
      exact ⟨hia', by omega, by omega⟩
    · omega
  · intro i hi
    have : i = 0 := by omega
    subst this
    rw [his']
    omega
  · refine ⟨0, by omega, ?_⟩
    right; right; right; right; right
    rw [his']
    exact ⟨hcode, hwa'⟩

theorem scenario_links_fail_witness :
    mem_size g_scenario = 180
      ∧ ∃ s', gpu_exec_via_mbox (world_ok files_scenario) 3 { dry := true }
            { g := g_scenario, ram := fun _ => 0, log := [] }
            = Run.done (result.FAILURE, s')
          ∧ s'.log.filter Call.is_dispatch = ([] : List Call).filter Call.is_dispatch :=
  scenario_links_fail (world_ok files_scenario) 3 { dry := true } (fun _ => 0) []
    (staged (world_ok files_scenario) s_scenario) (by decide) rfl
    (by
      rintro ⟨k, hk, h1, _⟩
      have hk2 : k < 2 := hk
      interval_cases k
      · revert h1; decide
      · revert h1; decide)

theorem ROUNDUP_exact (size p : Nat) (hp : 0 < p) (h : size + p - 1 < 4294967296) :
    ROUNDUP size p = (size + p - 1) / p * p := by
  have h1 : u32 (u32 (p + size) + 4294967295) = size + p - 1 := by
    unfold u32
    omega
  have h2 : (size + p - 1) / p * p ≤ size + p - 1 := Nat.div_mul_le_self _ _
  unfold ROUNDUP
  rw [h1]
  unfold u32
  omega

theorem ROUNDUP_least (size p : Nat) (hp : 0 < p) (h : size + p - 1 < 4294967296) :
    p ∣ ROUNDUP size p ∧ size ≤ ROUNDUP size p ∧ ROUNDUP size p < size + p
      ∧ ∀ m, p ∣ m → size ≤ m → ROUNDUP size p ≤ m := by
  rw [ROUNDUP_exact size p hp h]
  have h2 : (size + p - 1) / p * p ≤ size + p - 1 := Nat.div_mul_le_self _ _
  have h3 : size + p - 1 < ((size + p - 1) / p + 1) * p := by
    rw [Nat.mul_comm]
    exact Nat.lt_mul_div_succ _ hp
  have h4 : ((size + p - 1) / p + 1) * p = (size + p - 1) / p * p + p := by ring
  refine ⟨Dvd.intro_left _ rfl, by omega, by omega, ?_⟩
  rintro m ⟨k, rfl⟩ hm
  rw [Nat.mul_comm p k]
  refine Nat.mul_le_mul_right p ?_
  rw [Nat.div_le_iff_le_mul_add_pred hp]
  have : p * k = k * p := Nat.mul_comm _ _
  rw [Nat.mul_comm p k]
  omega

theorem mem_free_map_flags (w : World) (m : gpu_mem) (l : List Call) :
    (mem_free_map w m l).2.1.flags.alloc = m.flags.alloc
      ∧ (mem_free_map w m l).2.1.flags.lock = m.flags.lock
      ∧ ((mem_free_map w m l).1 = result.SUCCESS → (mem_free_map w m l).2.1.flags.map = false)
      ∧ ((mem_free_map w m l).2.1.flags.map = true → m.flags.map = true) := by
  unfold mem_free_map
  by_cases c : m.flags.map = true
  · rw [if_pos c]
    simp only
    cases hu : w.mem_unmap (l ++ [Call.mem_unmap m.virt m.alloc_sz]) <;> simp [c]
  · rw [if_neg c]
    simp at c
    simp [c]

theorem mem_free_lock_flags (w : World) (m : gpu_mem) (l : List Call) :
    (mem_free_lock w m l).2.1.flags.alloc = m.flags.alloc
      ∧ (mem_free_lock w m l).2.1.flags.map = m.flags.map
      ∧ ((mem_free_lock w m l).1 = result.SUCCESS → (mem_free_lock w m l).2.1.flags.lock = false)
      ∧ ((mem_free_lock w m l).2.1.flags.lock = true → m.flags.lock = true) := by
  unfold mem_free_lock
  by_cases c : m.flags.lock = true
  · rw [if_pos c]
    simp only
    cases hu : w.mbox_unlock (l ++ [Call.mbox_unlock m.handle]) <;> simp [c]
  · rw [if_neg c]
    simp at c
    simp [c]

theorem mem_free_alloc_flags (w : World) (m : gpu_mem) (l : List Call) :
    (mem_free_alloc w m l).2.1.flags.lock = m.flags.lock
      ∧ (mem_free_alloc w m l).2.1.flags.map = m.flags.map := by
  unfold mem_free_alloc
  by_cases c : m.flags.alloc = true
  · rw [if_pos c]
    simp only
    cases hu : w.mbox_free (l ++ [Call.mbox_free m.handle]) <;> simp
  · rw [if_neg c]
    simp

theorem mem_free_ordered (w : World) (mem : gpu_mem) (log : List Call) (r : result)
    (mem' : gpu_mem) (log' : List Call) (ho : flags_ordered mem.flags)
    (h : mem_free w mem log = Run.done (r, mem', log')) : flags_ordered mem'.flags := by
  unfold mem_free at h
  by_cases c1 : mem.refct ≤ 0
  · rw [if_pos c1] at h; cases h
  · rw [if_neg c1] at h
    simp only at h
    by_cases c2 : mem.refct - 1 > 0
    · rw [if_pos c2] at h
      simp only [Run.done.injEq, Prod.mk.injEq] at h
      rw [← h.2.1]
      exact ho
    · rw [if_neg c2] at h
      generalize hm0 : ({ mem with refct := mem.refct - 1 } : gpu_mem) = m0 at h
      have ho0 : flags_ordered m0.flags := by rw [← hm0]; exact ho
      obtain ⟨a1, a2, a3, a4⟩ := mem_free_map_flags w m0 log
      obtain ⟨b1, b2, b3, b4⟩ := mem_free_lock_flags w (mem_free_map w m0 log).2.1
        (mem_free_map w m0 log).2.2
      obtain ⟨d1, d2⟩ := mem_free_alloc_flags w
        (mem_free_lock w (mem_free_map w m0 log).2.1 (mem_free_map w m0 log).2.2).2.1
        (mem_free_lock w (mem_free_map w m0 log).2.1 (mem_free_map w m0 log).2.2).2.2
      obtain ⟨o1, o2⟩ := ho0
      by_cases c3 : (mem_free_map w m0 log).1 = result.SUCCESS
      · rw [if_pos c3] at h
        by_cases c4 : (mem_free_lock w (mem_free_map w m0 log).2.1
            (mem_free_map w m0 log).2.2).1 = result.SUCCESS
        · rw [if_pos c4] at h
          simp only [Run.done.injEq] at h
          have e : mem' = (mem_free_alloc w
              (mem_free_lock w (mem_free_map w m0 log).2.1 (mem_free_map w m0 log).2.2).2.1
              (mem_free_lock w (mem_free_map w m0 log).2.1
                (mem_free_map w m0 log).2.2).2.2).2.1 := by rw [h]
          rw [e]
          refine ⟨fun hx => ?_, fun hx => ?_⟩
          · rw [d2, b2, a3 c3] at hx; cases hx
          · rw [d1, b3 c4] at hx; cases hx
        · rw [if_neg c4] at h
          simp only [Run.done.injEq, Prod.mk.injEq] at h
          have e : mem' = (mem_free_lock w (mem_free_map w m0 log).2.1
              (mem_free_map w m0 log).2.2).2.1 := by rw [h.2]
          rw [e]
          refine ⟨fun hx => ?_, fun hx => ?_⟩
          · rw [b2, a3 c3] at hx; cases hx
          · rw [b1, a1]; exact o2 (a2 ▸ b4 hx)
      · rw [if_neg c3] at h
        simp only [Run.done.injEq, Prod.mk.injEq] at h
        have e : mem' = (mem_free_map w m0 log).2.1 := by rw [h.2]
        rw [e]
        refine ⟨fun hx => ?_, fun hx => ?_⟩
        · rw [a2]; exact o1 (a4 hx)
        · rw [a1]; rw [a2] at hx; exact o2 hx

theorem mem_alloc_error_ordered (w : World) (mem : gpu_mem) (log : List Call) (r : result)
    (mem' : gpu_mem) (log' : List Call) (ho : flags_ordered mem.flags)
    (h : mem_alloc_error w mem log = Run.done (r, mem', log')) : flags_ordered mem'.flags := by
  unfold mem_alloc_error at h
  cases hf : mem_free w mem log with
  | done a =>
    obtain ⟨r1, m1, l1⟩ := a
    rw [hf] at h
    simp only [Run.done.injEq, Prod.mk.injEq] at h
    rw [← h.2.1]
    exact mem_free_ordered w mem log r1 m1 l1 ho hf
  | abort => rw [hf] at h; cases h
  | spin => rw [hf] at h; cases h

theorem mem_alloc_ordered (w : World) (page_sz size : Nat) (mem : gpu_mem) (log : List Call)
    (r : result) (mem' : gpu_mem) (log' : List Call)
    (h : mem_alloc w page_sz mem size log = Run.done (r, mem', log')) :
    flags_ordered mem'.flags := by
  unfold mem_alloc at h
  split_ifs at h
  simp only at h
  split at h
  · exact mem_alloc_error_ordered w _ _ r mem' log' ⟨by simp, by simp⟩ h
  · split at h
    · exact mem_alloc_error_ordered w _ _ r mem' log' ⟨by simp, by simp⟩ h
    · split at h
      · exact mem_alloc_error_ordered w _ _ r mem' log' ⟨by simp, by simp⟩ h
      · simp only [Run.done.injEq, Prod.mk.injEq] at h
        rw [← h.2.1]
        exact ⟨fun _ => rfl, fun _ => rfl⟩

theorem run_mem_ops_ordered (ops : List mem_op) :
    ∀ (mem : gpu_mem) (log : List Call) (mem' : gpu_mem) (log' : List Call),
      flags_ordered mem.flags → run_mem_ops ops mem log = Run.done (mem', log') →
      flags_ordered mem'.flags := by
  induction ops with
  | nil =>
    intro mem log mem' log' ho h
    simp only [run_mem_ops, Run.done.injEq, Prod.mk.injEq] at h
    rw [← h.1]
    exact ho
  | cons op rest ih =>
    intro mem log mem' log' ho h
    cases op with
    | alloc w p size =>
      simp only [run_mem_ops] at h
      cases ha : mem_alloc w p mem size log with
      | done a =>
        obtain ⟨r1, m1, l1⟩ := a
        rw [ha] at h
        exact ih m1 l1 mem' log' (mem_alloc_ordered w p size mem log r1 m1 l1 ha) h
      | abort => rw [ha] at h; cases h
      | spin => rw [ha] at h; cases h
    | free w =>
      simp only [run_mem_ops] at h
      cases ha : mem_free w mem log with
      | done a =>
        obtain ⟨r1, m1, l1⟩ := a
        rw [ha] at h
        exact ih m1 l1 mem' log' (mem_free_ordered w mem log r1 m1 l1 ho ha) h
      | abort => rw [ha] at h; cases h
      | spin => rw [ha] at h; cases h

theorem mem_alloc_sizes (w : World) (page_sz size : Nat) (mem : gpu_mem) (log : List Call)
    (hflags : mem.flags.alloc = false ∧ mem.flags.lock = false ∧ mem.flags.map = false) :
    ∃ r mem' log', mem_alloc w page_sz mem size log = Run.done (r, mem', log')
      ∧ mem'.alloc_sz = ROUNDUP size page_sz ∧ mem'.data_sz = size := by
  cases h1 : w.mbox_alloc (log_alloc page_sz size log) with
  | none => exact ⟨_, _, _, mem_alloc_no_alloc w page_sz size mem log hflags h1, rfl, rfl⟩
  | some h =>
    cases h2 : w.mbox_lock (log_lock page_sz size log h) with
    | none => exact ⟨_, _, _, mem_alloc_no_lock w page_sz size mem log h hflags h1 h2, rfl, rfl⟩
    | some b =>
      cases h3 : w.mem_map (log_map page_sz size log h b) with
      | none =>
        exact ⟨_, _, _, mem_alloc_no_map w page_sz size mem log h b hflags h1 h2 h3, rfl, rfl⟩
      | some v =>
        exact ⟨_, _, _, mem_alloc_ok w page_sz size mem log h b v hflags h1 h2 h3, rfl, rfl⟩

/-- C26: for every requested size and every page size `p > 0` with
`size + p - 1 < 2^32`, `mem_alloc` on a quiescent handle returns, whatever the
requests answer, with `data_sz` the unrounded size and `alloc_sz` the least
multiple of `p` that is at least `size`, so `size ≤ alloc_sz < size + p`. -/
theorem mem_alloc_rounds (w : World) (page_sz size : Nat) (mem : gpu_mem) (log : List Call)
    (hp : 0 < page_sz) (hsz : size + page_sz - 1 < 4294967296)
    (hflags : mem.flags.alloc = false ∧ mem.flags.lock = false ∧ mem.flags.map = false) :
    ∃ r mem' log', mem_alloc w page_sz mem size log = Run.done (r, mem', log')
      ∧ mem'.data_sz = size
      ∧ page_sz ∣ mem'.alloc_sz ∧ size ≤ mem'.alloc_sz ∧ mem'.alloc_sz < size + page_sz
      ∧ ∀ m, page_sz ∣ m → size ≤ m → mem'.alloc_sz ≤ m := by
  obtain ⟨r, mem', log', hrun, ha, hd⟩ := mem_alloc_sizes w page_sz size mem log hflags
  refine ⟨r, mem', log', hrun, hd, ?_⟩
  rw [ha]
  exact ROUNDUP_least size page_sz hp hsz

/-- C26 (witness): 4097 bytes under a page size of 4096 are allocated as 8192. -/
theorem mem_alloc_rounds_witness :
    ((0 < 4096 ∧ 4097 + 4096 - 1 < 4294967296)
      ∧ (({} : gpu_mem).flags.alloc = false ∧ ({} : gpu_mem).flags.lock = false
        ∧ ({} : gpu_mem).flags.map = false))
      ∧ ∃ r mem' log', mem_alloc (world_ok files_zero) 4096 {} 4097 [] = Run.done (r, mem', log')
        ∧ mem'.data_sz = 4097
        ∧ 4096 ∣ mem'.alloc_sz ∧ 4097 ≤ mem'.alloc_sz ∧ mem'.alloc_sz < 4097 + 4096
        ∧ ∀ m, 4096 ∣ m → 4097 ≤ m → mem'.alloc_sz ≤ m :=
  ⟨⟨⟨by decide, by decide⟩, rfl, rfl, rfl⟩,
    mem_alloc_rounds (world_ok files_zero) 4096 4097 {} [] (by decide) (by decide)
      ⟨rfl, rfl, rfl⟩⟩

/-- C27: in every state reached from the quiescent handle by a sequence of
`mem_alloc` and `mem_free` calls that return, whatever each allocate, lock,
map, unmap, unlock and free request answers, the flags respect the lifecycle
order: mapped implies locked, and locked implies allocated. -/
theorem flags_lifecycle (ops : List mem_op) (log : List Call) (mem' : gpu_mem)
    (log' : List Call) (h : run_mem_ops ops {} log = Run.done (mem', log')) :
    (mem'.flags.map = true → mem'.flags.lock = true)
      ∧ (mem'.flags.lock = true → mem'.flags.alloc = true) :=
  run_mem_ops_ordered ops {} log mem' log' ⟨by simp, by simp⟩ h

/-- C27 (witness): an acquisition whose map request fails and whose unlock
request in the teardown fails too leaves the handle allocated and locked, not
mapped. -/
theorem flags_lifecycle_witness :
    ∃ mem' log', run_mem_ops [mem_op.alloc world_no_map_unlock 4096 100] {} []
          = Run.done (mem', log')
      ∧ mem'.flags = { alloc := true, lock := true, map := false }
      ∧ (mem'.flags.map = true → mem'.flags.lock = true)
      ∧ (mem'.flags.lock = true → mem'.flags.alloc = true) :=
  ⟨{ flags := { alloc := true, lock := true, map := false }, bus := 3221229568,
     refct := 0, handle := 7, alloc_sz := 4096, data_sz := 100 },
   [Call.mbox_alloc 4096 4096, Call.mbox_lock 7, Call.mem_map 4096 4096, Call.mbox_unlock 7],
   rfl, rfl,
   flags_lifecycle [mem_op.alloc world_no_map_unlock 4096 100] []
     { flags := { alloc := true, lock := true, map := false }, bus := 3221229568,
       refct := 0, handle := 7, alloc_sz := 4096, data_sz := 100 }
     [Call.mbox_alloc 4096 4096, Call.mbox_lock 7, Call.mem_map 4096 4096,
      Call.mbox_unlock 7] rfl⟩

theorem cleanup_file_closed (w : World) (file : gpu_file) (e : Bool) (log : List Call)
    (h : file.active = false) : cleanup_file w file e log = (file, e, log) := by
  simp [cleanup_file, h]

theorem cleanup_file_active (w : World) (file : gpu_file) (e : Bool) (log : List Call) :
    (cleanup_file w file e log).1.active = false := by
  unfold cleanup_file
  by_cases h : file.active = true
  · rw [if_pos h]
  · rw [if_neg h]
    simpa using h

theorem setSlot_self (g : G) (i : Nat) : g.setSlot i (g.slot i) = g := by
  unfold G.setSlot G.slot
  have : g.task.set i (g.task.getD i default) = g.task := by
    apply List.ext_getElem?
    intro j
    rw [List.getElem?_set]
    by_cases h : i = j
    · subst h
      by_cases h2 : i < g.task.length
      · simp [h2, List.getD_eq_getElem?_getD, List.getElem?_eq_getElem h2]
      · simp [h2, List.getElem?_eq_none (Nat.le_of_not_lt h2)]
    · simp [h]
  rw [this]

theorem setSlot_eta (g : G) (i : Nat) :
    g.setSlot i { inst := (g.slot i).inst, unif := (g.slot i).unif, rbuf := (g.slot i).rbuf,
                  wbuf := (g.slot i).wbuf } = g :=
  setSlot_self g i

theorem cleanup_task_closed (w : World) (s : St) (e : Bool) (i : Nat)
    (h : slot_closed (s.g.slot i)) : cleanup_task w (s, e) i = (s, e) := by
  obtain ⟨h1, h2, h3⟩ := h
  have a1 := cleanup_file_closed w (s.g.slot i).inst e s.log h1
  have a2 := cleanup_file_closed w (s.g.slot i).unif e s.log h2
  have a3 := cleanup_file_closed w (s.g.slot i).rbuf e s.log h3
  simp only [cleanup_task, a1, setSlot_eta, a2, a3]

theorem cleanup_fold_closed (w : World) (l : List Nat) (s : St) (e : Bool)
    (h : ∀ i ∈ l, slot_closed (s.g.slot i)) : l.foldl (cleanup_task w) (s, e) = (s, e) := by
  induction l with
  | nil => rfl
  | cons i rest ih =>
    rw [List.foldl_cons, cleanup_task_closed w s e i (h i (List.mem_cons_self _ _))]
    exact ih (fun j hj => h j (List.mem_cons_of_mem _ hj))

theorem cleanup_files_closed (w : World) (s : St) (h1 : s.g.glob.unif.active = false)
    (h2 : s.g.glob.rbuf.active = false) (hs : ∀ i, i < MAX_TASKS → slot_closed (s.g.slot i)) :
    cleanup_files w s = (s, false) := by
  simp only [cleanup_files]
  rw [cleanup_file_closed w _ _ _ h1]
  simp only
  rw [cleanup_file_closed w _ _ _ h2]
  simp only
  exact cleanup_fold_closed w _ s false (fun i hi => hs i (List.mem_range.1 hi))

theorem slot_closed_default : slot_closed (default : task_slot) := ⟨rfl, rfl, rfl⟩

theorem cleanup_task_slot (w : World) (st : St × Bool) (i j : Nat) :
    (cleanup_task w st i).1.g.glob = st.1.g.glob
      ∧ (j ≠ i → (cleanup_task w st i).1.g.slot j = st.1.g.slot j)
      ∧ slot_closed ((cleanup_task w st i).1.g.slot i) := by
  refine ⟨rfl, fun hj => ?_, ?_⟩
  · simp only [cleanup_task, slot_setSlot, setSlot_length]
    have : ¬ (i = j ∧ i < st.1.g.task.length) := fun h => hj h.1.symm
    simp only [this, if_false]
  · simp only [cleanup_task, slot_setSlot, setSlot_length]
    by_cases hl : i < st.1.g.task.length
    · simp only [hl, and_self, if_true]
      exact ⟨cleanup_file_active _ _ _ _, cleanup_file_active _ _ _ _,
        cleanup_file_active _ _ _ _⟩
    · simp only [hl, and_false, if_false]
      unfold G.slot
      rw [List.getD_eq_getElem?_getD, List.getElem?_eq_none (Nat.le_of_not_lt hl)]
      exact slot_closed_default

theorem cleanup_fold_slots (w : World) (l : List Nat) :
    ∀ st : St × Bool, (l.foldl (cleanup_task w) st).1.g.glob = st.1.g.glob
      ∧ ∀ j, (j ∈ l ∨ slot_closed (st.1.g.slot j)) →
          slot_closed ((l.foldl (cleanup_task w) st).1.g.slot j) := by
  induction l with
  | nil =>
    intro st
    refine ⟨rfl, fun j hj => ?_⟩
    rcases hj with hj | hj
    · cases hj
    · exact hj
  | cons i rest ih =>
    intro st
    obtain ⟨g1, g2⟩ := ih (cleanup_task w st i)
    obtain ⟨c1, _, c3⟩ := cleanup_task_slot w st i i
    rw [List.foldl_cons]
    refine ⟨g1.trans c1, fun j hj => g2 j ?_⟩
    by_cases hji : j = i
    · subst hji
      exact Or.inr c3
    · rcases hj with hj | hj
      · rcases List.mem_cons.1 hj with h | h
        · exact absurd h hji
        · exact Or.inl h
      · right
        rw [(cleanup_task_slot w st i j).2.1 hji]
        exact hj

theorem cleanup_files_eq (w : World) (s : St) :
    cleanup_files w s
      = (List.range MAX_TASKS).foldl (cleanup_task w)
          ({ g := { s.g with
                    glob := { unif := (cleanup_file w s.g.glob.unif false s.log).1,
                              rbuf := (cleanup_file w s.g.glob.rbuf
                                (cleanup_file w s.g.glob.unif false s.log).2.1
                                (cleanup_file w s.g.glob.unif false s.log).2.2).1,
                              wbuf := s.g.glob.wbuf } },
             ram := s.ram,
             log := (cleanup_file w s.g.glob.rbuf
                      (cleanup_file w s.g.glob.unif false s.log).2.1
                      (cleanup_file w s.g.glob.unif false s.log).2.2).2.2 },
           (cleanup_file w s.g.glob.rbuf (cleanup_file w s.g.glob.unif false s.log).2.1
              (cleanup_file w s.g.glob.unif false s.log).2.2).2.1) := rfl

theorem cleanup_fold_all_closed (w : World) (s0 : St) (e0 : Bool)
    (h1 : s0.g.glob.unif.active = false) (h2 : s0.g.glob.rbuf.active = false) :
    ((List.range MAX_TASKS).foldl (cleanup_task w) (s0, e0)).1.g.glob.unif.active = false
      ∧ ((List.range MAX_TASKS).foldl (cleanup_task w) (s0, e0)).1.g.glob.rbuf.active = false
      ∧ ∀ i, i < MAX_TASKS →
          slot_closed (((List.range MAX_TASKS).foldl (cleanup_task w) (s0, e0)).1.g.slot i) := by
  obtain ⟨g1, g2⟩ := cleanup_fold_slots w (List.range MAX_TASKS) (s0, e0)
  exact ⟨by rw [g1]; exact h1, by rw [g1]; exact h2,
    fun i hi => g2 i (Or.inl (List.mem_range.2 hi))⟩

theorem cleanup_files_all_closed (w : World) (s : St) :
    (cleanup_files w s).1.g.glob.unif.active = false
      ∧ (cleanup_files w s).1.g.glob.rbuf.active = false
      ∧ ∀ i, i < MAX_TASKS → slot_closed ((cleanup_files w s).1.g.slot i) := by
  rw [cleanup_files_eq]
  refine cleanup_fold_all_closed w _ _ ?_ ?_
  · exact cleanup_file_active w s.g.glob.unif false s.log
  · exact cleanup_file_active w s.g.glob.rbuf _ _

theorem close_not_release (c : Call) (h : c.is_close = true) : c.is_release = false := by
  cases c <;> first | rfl | cases h

theorem cleanup_file_err (w : World) (hw : ∀ l, w.close l = true) (file : gpu_file) (e : Bool)
    (log : List Call) : (cleanup_file w file e log).2.1 = e := by
  unfold cleanup_file
  by_cases h : file.active = true
  · rw [if_pos h]
    simp [hw]
  · rw [if_neg h]

theorem cleanup_task_err (w : World) (hw : ∀ l, w.close l = true) (st : St × Bool) (i : Nat) :
    (cleanup_task w st i).2 = st.2 := by
  simp only [cleanup_task, cleanup_file_err w hw]

theorem cleanup_fold_err (w : World) (hw : ∀ l, w.close l = true) (l : List Nat) :
    ∀ st : St × Bool, (l.foldl (cleanup_task w) st).2 = st.2 := by
  induction l with
  | nil => intro st; rfl
  | cons i rest ih =>
    intro st
    rw [List.foldl_cons, ih, cleanup_task_err w hw]

theorem cleanup_files_err (w : World) (hw : ∀ l, w.close l = true) (s : St) :
    (cleanup_files w s).2 = false := by
  rw [cleanup_files_eq, cleanup_fold_err w hw]
  simp only [cleanup_file_err w hw]

theorem mem_free_refct (w : World) (mem : gpu_mem) (log : List Call) (r : result)
    (mem' : gpu_mem) (log' : List Call)
    (h : mem_free w mem log = Run.done (r, mem', log')) : mem'.refct = mem.refct - 1 := by
  have a : ∀ m l, (mem_free_map w m l).2.1.refct = m.refct := by
    intro m l
    simp only [mem_free_map]
    split_ifs <;> rfl
  have b : ∀ m l, (mem_free_lock w m l).2.1.refct = m.refct := by
    intro m l
    simp only [mem_free_lock]
    split_ifs <;> rfl
  have c : ∀ m l, (mem_free_alloc w m l).2.1.refct = m.refct := by
    intro m l
    simp only [mem_free_alloc]
    split_ifs <;> rfl
  unfold mem_free at h
  by_cases c1 : mem.refct ≤ 0
  · rw [if_pos c1] at h; cases h
  · rw [if_neg c1] at h
    simp only at h
    by_cases c2 : mem.refct - 1 > 0
    · rw [if_pos c2] at h
      simp only [Run.done.injEq, Prod.mk.injEq] at h
      rw [← h.2.1]
    · rw [if_neg c2] at h
      generalize hm0 : ({ mem with refct := mem.refct - 1 } : gpu_mem) = m0 at h
      have hr0 : m0.refct = mem.refct - 1 := by rw [← hm0]
      rw [← hr0]
      by_cases c3 : (mem_free_map w m0 log).1 = result.SUCCESS
      · rw [if_pos c3] at h
        by_cases c4 : (mem_free_lock w (mem_free_map w m0 log).2.1
            (mem_free_map w m0 log).2.2).1 = result.SUCCESS
        · rw [if_pos c4] at h
          simp only [Run.done.injEq] at h
          have e : mem' = (mem_free_alloc w
              (mem_free_lock w (mem_free_map w m0 log).2.1 (mem_free_map w m0 log).2.2).2.1
              (mem_free_lock w (mem_free_map w m0 log).2.1
                (mem_free_map w m0 log).2.2).2.2).2.1 := by rw [h]
          rw [e, c, b, a]
        · rw [if_neg c4] at h
          simp only [Run.done.injEq, Prod.mk.injEq] at h
          have e : mem' = (mem_free_lock w (mem_free_map w m0 log).2.1
              (mem_free_map w m0 log).2.2).2.1 := by rw [h.2]
          rw [e, b, a]
      · rw [if_neg c3] at h
        simp only [Run.done.injEq, Prod.mk.injEq] at h
        have e : mem' = (mem_free_map w m0 log).2.1 := by rw [h.2]
        rw [e, a]

theorem gpu_cleanup_of (w : World) (s : St) (st : St × Bool) (hst : cleanup_files w s = st) :
    gpu_cleanup w s
      = if st.1.g.mem.refct > 0 then
          match mem_free w st.1.g.mem st.1.log with
          | Run.done (r, mem, log) =>
            Run.done (if st.2 || r != result.SUCCESS then result.FAILURE else result.SUCCESS,
              { st.1 with g := { st.1.g with mem := mem }, log := log })
          | Run.abort => Run.abort
          | Run.spin => Run.spin
        else Run.done (if st.2 then result.FAILURE else result.SUCCESS, st.1) := by
  subst hst
  rfl

/-- A state without active file-backed resource and with reference count at
most 0 is left as it is by `gpu_cleanup`, which returns `SUCCESS`. -/
theorem gpu_cleanup_quiet (w : World) (s : St) (h1 : s.g.glob.unif.active = false)
    (h2 : s.g.glob.rbuf.active = false) (hs : ∀ i, i < MAX_TASKS → slot_closed (s.g.slot i))
    (hr : ¬ s.g.mem.refct > 0) : gpu_cleanup w s = Run.done (result.SUCCESS, s) := by
  rw [gpu_cleanup_of w s (s, false) (cleanup_files_closed w s h1 h2 hs)]
  simp only
  rw [if_neg hr]
  rfl

/-- C23: `gpu_cleanup` on a state whose reference count is at most 1 returns.
When the count is 0 (no handle was acquired) it issues no unmap, unlock or free
request and, the closes succeeding, returns `SUCCESS`. When it returned
`SUCCESS`, a second call right after it, whatever the environment answers,
returns `SUCCESS` with the very same state: nothing is changed and no request
is issued. -/
theorem gpu_cleanup_idempotent (w w' : World) (s : St) (hr : s.g.mem.refct ≤ 1) :
    ∃ r s', gpu_cleanup w s = Run.done (r, s')
      ∧ (s.g.mem.refct = 0 →
          s'.log.filter Call.is_release = s.log.filter Call.is_release
            ∧ ((∀ l, w.close l = true) → r = result.SUCCESS))
      ∧ (r = result.SUCCESS → gpu_cleanup w' s' = Run.done (result.SUCCESS, s')) := by
  obtain ⟨hm, hl⟩ := cleanup_files_rel w s
  obtain ⟨k1, k2, k3⟩ := cleanup_files_all_closed w s
  have herr := fun hw => cleanup_files_err w hw s
  rw [gpu_cleanup_of w s _ rfl]
  generalize cleanup_files w s = st at hm hl k1 k2 k3 herr ⊢
  by_cases h0 : st.1.g.mem.refct > 0
  · have h1 : s.g.mem.refct = 1 := by rw [hm] at h0; omega
    rw [if_pos h0]
    cases hf : mem_free w st.1.g.mem st.1.log with
    | done a =>
      obtain ⟨r1, m1, l1⟩ := a
      have hr1 : m1.refct = 0 := by
        rw [mem_free_refct w _ _ r1 m1 l1 hf, hm, h1]
        decide
      refine ⟨_, _, rfl, ?_, ?_⟩
      · intro hz
        rw [hz] at h1
        cases h1
      · intro _
        refine gpu_cleanup_quiet w' _ k1 k2 k3 ?_
        show ¬ m1.refct > 0
        rw [hr1]
        decide
    | abort =>
      rw [mem_free_runs w _ _ h0] at hf
      cases hf
    | spin =>
      rw [mem_free_runs w _ _ h0] at hf
      cases hf
  · rw [if_neg h0]
    refine ⟨_, _, rfl, ?_, ?_⟩
    · intro _
      refine ⟨ext_all_filter Call.is_release _ _
        (ext_all_mono _ _ close_not_release _ _ hl), fun hw => ?_⟩
      rw [herr hw]
      rfl
    · intro _
      exact gpu_cleanup_quiet w' st.1 k1 k2 k3 h0

/-- C23 (witness): the state left by `execute u unif.bin i prog.bin` before any
acquisition; its two files are closed by the first call. -/
theorem gpu_cleanup_idempotent_witness :
    s_declared.g.mem.refct ≤ 1
      ∧ ∃ r s', gpu_cleanup (world_ok files_zero) s_declared = Run.done (r, s')
        ∧ (s_declared.g.mem.refct = 0 →
            s'.log.filter Call.is_release = s_declared.log.filter Call.is_release
              ∧ ((∀ l, (world_ok files_zero).close l = true) → r = result.SUCCESS))
        ∧ (r = result.SUCCESS →
            gpu_cleanup world_no_unmap s' = Run.done (result.SUCCESS, s')) :=
  ⟨by decide,
    gpu_cleanup_idempotent (world_ok files_zero) world_no_unmap s_declared (by decide)⟩

/-- The scan loop runs its body at the indices `scan_indices` lists, in order. -/
theorem link_scan_trace (g : G) (i p nwords : Nat) :
    ∀ (fuel j : Nat) (st : (Nat → Nat) × link_flags),
      link_scan g i p nwords fuel j st
        = match scan_indices nwords fuel j with
          | some js => Run.done (js.foldl (fun st j => link_pair g i p j st) st)
          | none => Run.spin := by
  intro fuel
  induction fuel with
  | zero =>
    intro j st
    rw [link_scan, scan_indices]
  | succ fuel ih =>
    intro j st
    rw [link_scan, scan_indices]
    by_cases h : j < u32 (nwords + 4294967295)
    · rw [if_pos h, if_pos h, ih]
      cases hs : scan_indices nwords fuel (u32 (j + 2)) with
      | none => simp only [Option.map]
      | some js => simp only [Option.map, List.foldl_cons]
    · rw [if_neg h, if_neg h]
      simp only [List.foldl_nil]

theorem scan_indices_spec (K : Nat) (hK1 : 1 ≤ K) (hK2 : 2 * K < 4294967296) (m : Nat) :
    ∀ (k fuel : Nat), k + m = K → m < fuel →
      scan_indices (2 * K) fuel (2 * k) = some ((List.range' k m).map (fun x => 2 * x)) := by
  have hsub : u32 (2 * K + 4294967295) = 2 * K - 1 := by
    unfold u32
    omega
  induction m with
  | zero =>
    intro k fuel hk hf
    obtain ⟨f, rfl⟩ : ∃ f, fuel = f + 1 := ⟨fuel - 1, by omega⟩
    simp only [scan_indices, hsub]
    rw [if_neg (by omega)]
    rfl
  | succ m ih =>
    intro k fuel hk hf
    obtain ⟨f, rfl⟩ : ∃ f, fuel = f + 1 := ⟨fuel - 1, by omega⟩
    have hnext : u32 (2 * k + 2) = 2 * (k + 1) := by
      unfold u32
      omega
    simp only [scan_indices, hsub]
    rw [if_pos (by omega), hnext, ih (k + 1) f (by omega) (by omega)]
    rfl

theorem link_flags_ext (a b : link_flags)
    (h : ∀ ph, ph ∈ placeholders → (a.get ph = true ↔ b.get ph = true)) : a = b := by
  have h1 := h GLOB_RBUF (by simp [placeholders])
  have h2 := h GLOB_WBUF (by simp [placeholders])
  have h3 := h TASK_RBUF (by simp [placeholders])
  have h4 := h TASK_WBUF (by simp [placeholders])
  simp only [link_flags.get, GLOB_RBUF, GLOB_WBUF, TASK_RBUF, TASK_WBUF, if_true,
    if_neg (show ¬ (0xfffffff2 : Nat) = 0xfffffff1 by decide),
    if_neg (show ¬ (0xfffffffa : Nat) = 0xfffffff1 by decide),
    if_neg (show ¬ (0xfffffffa : Nat) = 0xfffffff2 by decide),
    if_neg (show ¬ (0xfffffffb : Nat) = 0xfffffff1 by decide),
    if_neg (show ¬ (0xfffffffb : Nat) = 0xfffffff2 by decide),
    if_neg (show ¬ (0xfffffffb : Nat) = 0xfffffffa by decide)] at h1 h2 h3 h4
  cases a with
  | mk a1 a2 a3 a4 =>
  cases b with
  | mk b1 b2 b3 b4 =>
  simp only at h1 h2 h3 h4
  have e1 : a1 = b1 := Bool.eq_iff_iff.2 h1
  have e2 : a2 = b2 := Bool.eq_iff_iff.2 h2
  have e3 : a3 = b3 := Bool.eq_iff_iff.2 h3
  have e4 : a4 = b4 := Bool.eq_iff_iff.2 h4
  rw [e1, e2, e3, e4]

theorem link_flags_get_empty (ph : Nat) : ({} : link_flags).get ph = false := by
  unfold link_flags.get
  split_ifs <;> rfl

/-- The scan of `size / 8` pairs from the start, on a region `ram` and with no
flag set. -/
theorem link_scan_whole (g : G) (i p size fuel : Nat) (ram : Nat → Nat)
    (hpos : 0 < size) (hmul : size % 8 = 0) (hu32 : size < 4294967296)
    (hfuel : size / 8 < fuel) :
    ∃ ram' f', link_scan g i p (size / 4) fuel 0 (ram, {}) = Run.done (ram', f')
      ∧ (∀ k, k < size / 8 →
          load32 ram' (p + 8 * k)
              = patched g i (load32 ram (p + 8 * k)) (load32 ram (p + 8 * k + 4))
            ∧ load32 ram' (p + 8 * k + 4) = load32 ram (p + 8 * k + 4))
      ∧ (∀ ph, ph ∈ placeholders →
          (f'.get ph = true ↔ ∃ k, k < size / 8 ∧ load32 ram (p + 8 * k) = ph
            ∧ is_link_inst (load32 ram (p + 8 * k + 4)) = true))
      ∧ ∀ x, (x < p ∨ p + size ≤ x) → ram' x = ram x := by
  obtain ⟨ram', f', hrun, hout, hin, hfl⟩ :=
    link_scan_spec g i p (size / 4) (by omega) (by omega) (size / 8) 0 fuel (ram, {})
      (by omega) hfuel
  simp only [Nat.mul_zero, Nat.zero_add] at hrun hout hin hfl
  refine ⟨ram', f', hrun, ?_, ?_, ?_⟩
  · intro k hk
    refine ⟨hin k (Nat.zero_le _) (by omega), ?_⟩
    apply load32_congr
    intro x hx1 hx2
    apply hout
    intro k' _ hk'
    omega
  · intro ph hph
    rw [hfl ph hph]
    constructor
    · rintro (h | ⟨k, _, hk, h1, h2⟩)
      · rw [link_flags_get_empty] at h
        exact absurd h (by decide)
      · exact ⟨k, by omega, h1, h2⟩
    · rintro ⟨k, hk, h1, h2⟩
      exact Or.inr ⟨k, Nat.zero_le _, by omega, h1, h2⟩
  · intro x hx
    apply hout
    intro k' _ hk'
    omega

/-- C28: for instructions of a size that is a positive multiple of 8 (and a
`u32`) staged at offset `p`, the scan loop of `link_mem`, entered as `link_mem`
enters it (index 0, no flag set) with an iteration budget above `size / 8`,
terminates. Its body is run at the word indices `0, 2, ..., 2 * (size / 8 - 1)`,
once each and in this order. Every one of the `size / 8` pairs is examined
exactly once: the first word of pair `k` ends as the patch of the two words the
pair held at the start, the second word is as it was, and a placeholder flag is
set exactly when some pair `k < size / 8` holds that placeholder under a
load-immediate opcode, so no pair is skipped. Nothing outside the `size` bytes
is written, and no word of index `size / 4` or more is read: on any other
region holding the same `size / 4` words the scan returns the same flags and
the same `size / 4` words. -/
theorem link_scan_covers (g : G) (i p size fuel : Nat) (ram : Nat → Nat)
    (hpos : 0 < size) (hmul : size % 8 = 0) (hu32 : size < 4294967296)
    (hfuel : size / 8 < fuel) :
    ∃ ram' f', link_scan g i p (size / 4) fuel 0 (ram, {}) = Run.done (ram', f')
      ∧ scan_indices (size / 4) fuel 0 = some ((List.range (size / 8)).map (fun k => 2 * k))
      ∧ (∀ k, k < size / 8 →
          load32 ram' (p + 4 * (2 * k))
              = patched g i (load32 ram (p + 4 * (2 * k))) (load32 ram (p + 4 * (2 * k + 1)))
            ∧ load32 ram' (p + 4 * (2 * k + 1)) = load32 ram (p + 4 * (2 * k + 1)))
      ∧ (∀ ph, ph ∈ placeholders →
          (f'.get ph = true ↔ ∃ k, k < size / 8 ∧ load32 ram (p + 4 * (2 * k)) = ph
            ∧ is_link_inst (load32 ram (p + 4 * (2 * k + 1))) = true))
      ∧ (∀ x, (x < p ∨ p + size ≤ x) → ram' x = ram x)
      ∧ ∀ ram2 : Nat → Nat,
          (∀ m, m < size / 4 → load32 ram2 (p + 4 * m) = load32 ram (p + 4 * m)) →
          ∃ ram2', link_scan g i p (size / 4) fuel 0 (ram2, {}) = Run.done (ram2', f')
            ∧ ∀ m, m < size / 4 → load32 ram2' (p + 4 * m) = load32 ram' (p + 4 * m) := by
  have h4 : size / 4 = 2 * (size / 8) := by omega
  have hidx := scan_indices_spec (size / 8) (by omega) (by omega) (size / 8) 0 fuel
    (by omega) hfuel
  rw [← h4, ← List.range_eq_range'] at hidx
  have e0 : ∀ k, p + 4 * (2 * k) = p + 8 * k := fun k => by omega
  have e1 : ∀ k, p + 4 * (2 * k + 1) = p + 8 * k + 4 := fun k => by omega
  simp only [e0, e1]
  obtain ⟨ram', f', hrun, hw, hfl, hout⟩ :=
    link_scan_whole g i p size fuel ram hpos hmul hu32 hfuel
  refine ⟨ram', f', hrun, hidx, hw, hfl, hout, ?_⟩
  intro ram2 hsame
  obtain ⟨ram2', f2', hrun2, hw2, hfl2, _⟩ :=
    link_scan_whole g i p size fuel ram2 hpos hmul hu32 hfuel
  have s0 : ∀ k, k < size / 8 → load32 ram2 (p + 8 * k) = load32 ram (p + 8 * k) := by
    intro k hk
    have := hsame (2 * k) (by omega)
    rwa [e0] at this
  have s1 : ∀ k, k < size / 8 → load32 ram2 (p + 8 * k + 4) = load32 ram (p + 8 * k + 4) := by
    intro k hk
    have := hsame (2 * k + 1) (by omega)
    rwa [e1] at this
  have hf : f2' = f' := by
    apply link_flags_ext
    intro ph hph
    rw [hfl2 ph hph, hfl ph hph]
    constructor
    · rintro ⟨k, hk, a, b⟩
      exact ⟨k, hk, by rw [← s0 k hk]; exact a, by rw [← s1 k hk]; exact b⟩
    · rintro ⟨k, hk, a, b⟩
      exact ⟨k, hk, by rw [s0 k hk]; exact a, by rw [s1 k hk]; exact b⟩
  refine ⟨ram2', by rw [hrun2, hf], ?_⟩
  intro m hm
  rcases Nat.even_or_odd' m with ⟨k, rfl | rfl⟩
  · rw [e0, (hw2 k (by omega)).1, (hw k (by omega)).1, s0 k (by omega), s1 k (by omega)]
  · rw [e1, (hw2 k (by omega)).2, (hw k (by omega)).2, s1 k (by omega)]

/-- C28 (witness): sixteen bytes, two instructions, a budget of three. -/
theorem link_scan_covers_witness :
    (0 < 16 ∧ 16 % 8 = 0 ∧ 16 < 4294967296 ∧ 16 / 8 < 3)
      ∧ ∃ ram' f', link_scan g_scenario 0 96 (16 / 4) 3 0 (fun _ => 0, {})
            = Run.done (ram', f')
          ∧ scan_indices (16 / 4) 3 0 = some ((List.range (16 / 8)).map (fun k => 2 * k))
          ∧ (∀ k, k < 16 / 8 →
              load32 ram' (96 + 4 * (2 * k))
                  = patched g_scenario 0 (load32 (fun _ => 0) (96 + 4 * (2 * k)))
                      (load32 (fun _ => 0) (96 + 4 * (2 * k + 1)))
                ∧ load32 ram' (96 + 4 * (2 * k + 1))
                    = load32 (fun _ => 0) (96 + 4 * (2 * k + 1)))
          ∧ (∀ ph, ph ∈ placeholders →
              (f'.get ph = true ↔ ∃ k, k < 16 / 8
                ∧ load32 (fun _ => 0) (96 + 4 * (2 * k)) = ph
                ∧ is_link_inst (load32 (fun _ => 0) (96 + 4 * (2 * k + 1))) = true))
          ∧ (∀ x, (x < 96 ∨ 96 + 16 ≤ x) → ram' x = (fun _ => 0) x)
          ∧ ∀ ram2 : Nat → Nat,
              (∀ m, m < 16 / 4 →
                load32 ram2 (96 + 4 * m) = load32 (fun _ => 0) (96 + 4 * m)) →
              ∃ ram2', link_scan g_scenario 0 96 (16 / 4) 3 0 (ram2, {})
                  = Run.done (ram2', f')
                ∧ ∀ m, m < 16 / 4 → load32 ram2' (96 + 4 * m) = load32 ram' (96 + 4 * m) :=
  ⟨by decide,
    link_scan_covers g_scenario 0 96 16 3 (fun _ => 0) (by decide) (by decide) (by decide)
      (by decide)⟩

/-- C21: a rejected declaration returns `FAILURE` and leaves the state as it
was, the log of requests included: `gpu_glob_unif`, `gpu_glob_rbuf` and
`gpu_glob_wbuf` when the global resource is already declared; `gpu_task_inst`,
`gpu_task_unif`, `gpu_task_rbuf` and `gpu_task_wbuf` when the resource of the
current task (slot `ntasks - 1`) is already declared; `gpu_next_task` when
`MAX_TASKS` = 12 tasks (or more) are declared. -/
theorem rejected_declarations (f : file_stat) (size : Nat) (s : St) :
    (s.g.glob.unif.active = true → gpu_glob_unif f s = (result.FAILURE, s))
      ∧ (s.g.glob.rbuf.active = true → gpu_glob_rbuf f s = (result.FAILURE, s))
      ∧ (s.g.glob.wbuf.active = true → gpu_glob_wbuf size s = (result.FAILURE, s))
      ∧ (1 ≤ s.g.ntasks → (s.g.slot (s.g.ntasks - 1)).inst.active = true →
          gpu_task_inst f s = some (result.FAILURE, s))
      ∧ (1 ≤ s.g.ntasks → (s.g.slot (s.g.ntasks - 1)).unif.active = true →
          gpu_task_unif f s = some (result.FAILURE, s))
      ∧ (1 ≤ s.g.ntasks → (s.g.slot (s.g.ntasks - 1)).rbuf.active = true →
          gpu_task_rbuf f s = some (result.FAILURE, s))
      ∧ (1 ≤ s.g.ntasks → (s.g.slot (s.g.ntasks - 1)).wbuf.active = true →
          gpu_task_wbuf size s = some (result.FAILURE, s))
      ∧ (MAX_TASKS ≤ s.g.ntasks → gpu_next_task s = (result.FAILURE, s)) := by
  have hidx : 1 ≤ s.g.ntasks → ¬ s.g.ntasks > MAX_TASKS →
      task_index s.g = s.g.ntasks - 1 ∧ task_index s.g < MAX_TASKS := by
    intro h1 h2
    unfold task_index u32 MAX_TASKS at *
    omega
  refine ⟨fun h => ?_, fun h => ?_, fun h => ?_, fun h1 h => ?_, fun h1 h => ?_,
    fun h1 h => ?_, fun h1 h => ?_, fun h => ?_⟩
  · simp only [gpu_glob_unif, h, if_true]
  · simp only [gpu_glob_rbuf, h, if_true]
  · simp only [gpu_glob_wbuf, h, if_true]
  · unfold gpu_task_inst
    by_cases hm : s.g.ntasks > MAX_TASKS
    · rw [if_pos hm]
    · obtain ⟨e1, e2⟩ := hidx h1 hm
      rw [if_neg hm, if_pos e2, e1, if_pos h]
  · unfold gpu_task_unif
    by_cases hm : s.g.ntasks > MAX_TASKS
    · rw [if_pos hm]
    · obtain ⟨e1, e2⟩ := hidx h1 hm
      rw [if_neg hm, if_pos e2, e1, if_pos h]
  · unfold gpu_task_rbuf
    by_cases hm : s.g.ntasks > MAX_TASKS
    · rw [if_pos hm]
    · obtain ⟨e1, e2⟩ := hidx h1 hm
      rw [if_neg hm, if_pos e2, e1, if_pos h]
  · unfold gpu_task_wbuf
    by_cases hm : s.g.ntasks > MAX_TASKS
    · rw [if_pos hm]
    · obtain ⟨e1, e2⟩ := hidx h1 hm
      rw [if_neg hm, if_pos e2, e1, if_pos h]
  · unfold gpu_next_task
    rw [if_pos h]

/-- C21 (witness): in the state with twelve tasks and every resource declared,
each of the eight declarations is rejected and leaves the state as it was. -/
theorem rejected_declarations_witness :
    gpu_glob_unif file_eight s_all = (result.FAILURE, s_all)
      ∧ gpu_glob_rbuf file_eight s_all = (result.FAILURE, s_all)
      ∧ gpu_glob_wbuf 4 s_all = (result.FAILURE, s_all)
      ∧ gpu_task_inst file_eight s_all = some (result.FAILURE, s_all)
      ∧ gpu_task_unif file_eight s_all = some (result.FAILURE, s_all)
      ∧ gpu_task_rbuf file_eight s_all = some (result.FAILURE, s_all)
      ∧ gpu_task_wbuf 4 s_all = some (result.FAILURE, s_all)
      ∧ gpu_next_task s_all = (result.FAILURE, s_all) :=
  ⟨(rejected_declarations file_eight 4 s_all).1 rfl,
    (rejected_declarations file_eight 4 s_all).2.1 rfl,
    (rejected_declarations file_eight 4 s_all).2.2.1 rfl,
    (rejected_declarations file_eight 4 s_all).2.2.2.1 (by decide) rfl,
    (rejected_declarations file_eight 4 s_all).2.2.2.2.1 (by decide) rfl,
    (rejected_declarations file_eight 4 s_all).2.2.2.2.2.1 (by decide) rfl,
    (rejected_declarations file_eight 4 s_all).2.2.2.2.2.2.1 (by decide) rfl,
    (rejected_declarations file_eight 4 s_all).2.2.2.2.2.2.2 (by decide)⟩

theorem u32_of_int_exact (x : Int) (h0 : 0 ≤ x) (h : x < 4294967296) :
    (u32_of_int x : Int) = x := by
  unfold u32_of_int
  rw [Int.emod_eq_of_lt h0 h]
  exact Int.toNat_of_nonneg h0

/-- When `open_file` returns `SUCCESS`, the status was delivered, the file is a
regular file, its length is positive and a multiple of `factor`, the size
handed back is the length converted to `u32`, and nothing was closed. -/
theorem open_file_success (f : file_stat) (factor : Nat) (log : List Call) (fd size : Nat)
    (log' : List Call) (h : open_file f factor log = (some (fd, size), log')) :
    f.fstat_ok = true ∧ f.is_reg = true ∧ 0 < f.st_size ∧ f.st_size % (factor : Int) = 0
      ∧ size = u32_of_int f.st_size ∧ log' = log := by
  unfold open_file at h
  cases ho : f.open_fd with
  | none => rw [ho] at h; simp at h
  | some fd0 =>
    rw [ho] at h
    simp only at h
    by_cases c1 : f.fstat_ok = true
    · by_cases c2 : f.is_reg = true
      · by_cases c3 : f.st_size ≤ 0
        · simp [c1, c2, c3] at h
        · by_cases c4 : f.st_size % (factor : Int) = 0
          · simp [c1, c2, c3, c4] at h
            exact ⟨c1, c2, by omega, c4, h.1.2.symm, h.2.symm⟩
          · simp [c1, c2, c3, c4] at h
      · simp [c1, c2] at h
    · simp [c1] at h

/-- When `gpu_task_inst` returns `SUCCESS`, the file is a regular file whose length
is a positive multiple of 8, and the slot `G.ntasks - 1` holds the resource as
active with the length converted to `u32` as size. -/
theorem gpu_task_inst_success (f : file_stat) (s s' : St) (hl : s.g.task.length = MAX_TASKS)
    (h : gpu_task_inst f s = some (result.SUCCESS, s')) :
    f.is_reg = true ∧ 0 < f.st_size ∧ f.st_size % 8 = 0
      ∧ (s'.g.slot (task_index s.g)).inst.active = true
      ∧ (s'.g.slot (task_index s.g)).inst.size = u32_of_int f.st_size := by
  unfold gpu_task_inst at h
  by_cases c1 : s.g.ntasks > MAX_TASKS
  · rw [if_pos c1] at h
    simp at h
  · rw [if_neg c1] at h
    by_cases c2 : task_index s.g < MAX_TASKS
    · rw [if_pos c2] at h
      by_cases c3 : (s.g.slot (task_index s.g)).inst.active = true
      · rw [if_pos c3] at h
        simp at h
      · rw [if_neg c3] at h
        cases ho : open_file f 8 s.log with
        | mk a log =>
          cases a with
          | none =>
            rw [ho] at h
            simp at h
          | some x =>
            obtain ⟨fd, size⟩ := x
            obtain ⟨_, h2, h3, h4, h5, _⟩ := open_file_success f 8 s.log fd size log ho
            rw [ho] at h
            simp only [Option.some.injEq, Prod.mk.injEq, true_and] at h
            rw [← h]
            simp only [slot_setSlot, hl, c2, and_self, if_true]
            exact ⟨h2, h3, h4, trivial, h5⟩
    · rw [if_neg c2] at h
      cases h

/-- When `gpu_task_unif` returns `SUCCESS`, the file is a regular file whose length
is a positive multiple of 4, and the slot `G.ntasks - 1` holds the resource as
active with the length converted to `u32` as size. -/
theorem gpu_task_unif_success (f : file_stat) (s s' : St) (hl : s.g.task.length = MAX_TASKS)
    (h : gpu_task_unif f s = some (result.SUCCESS, s')) :
    f.is_reg = true ∧ 0 < f.st_size ∧ f.st_size % 4 = 0
      ∧ (s'.g.slot (task_index s.g)).unif.active = true
      ∧ (s'.g.slot (task_index s.g)).unif.size = u32_of_int f.st_size := by
  unfold gpu_task_unif at h
  by_cases c1 : s.g.ntasks > MAX_TASKS
  · rw [if_pos c1] at h
    simp at h
  · rw [if_neg c1] at h
    by_cases c2 : task_index s.g < MAX_TASKS
    · rw [if_pos c2] at h
      by_cases c3 : (s.g.slot (task_index s.g)).unif.active = true
      · rw [if_pos c3] at h
        simp at h
      · rw [if_neg c3] at h
        cases ho : open_file f 4 s.log with
        | mk a log =>
          cases a with
          | none =>
            rw [ho] at h
            simp at h
          | some x =>
            obtain ⟨fd, size⟩ := x
            obtain ⟨_, h2, h3, h4, h5, _⟩ := open_file_success f 4 s.log fd size log ho
            rw [ho] at h
            simp only [Option.some.injEq, Prod.mk.injEq, true_and] at h
            rw [← h]
            simp only [slot_setSlot, hl, c2, and_self, if_true]
            exact ⟨h2, h3, h4, trivial, h5⟩
    · rw [if_neg c2] at h
      cases h

/-- When `gpu_task_rbuf` returns `SUCCESS`, the file is a regular file whose length
is a positive multiple of 4, and the slot `G.ntasks - 1` holds the resource as
active with the length converted to `u32` as size. -/
theorem gpu_task_rbuf_success (f : file_stat) (s s' : St) (hl : s.g.task.length = MAX_TASKS)
    (h : gpu_task_rbuf f s = some (result.SUCCESS, s')) :
    f.is_reg = true ∧ 0 < f.st_size ∧ f.st_size % 4 = 0
      ∧ (s'.g.slot (task_index s.g)).rbuf.active = true
      ∧ (s'.g.slot (task_index s.g)).rbuf.size = u32_of_int f.st_size := by
  unfold gpu_task_rbuf at h
  by_cases c1 : s.g.ntasks > MAX_TASKS
  · rw [if_pos c1] at h
    simp at h
  · rw [if_neg c1] at h
    by_cases c2 : task_index s.g < MAX_TASKS
    · rw [if_pos c2] at h
      by_cases c3 : (s.g.slot (task_index s.g)).rbuf.active = true
      · rw [if_pos c3] at h
        simp at h
      · rw [if_neg c3] at h
        cases ho : open_file f 4 s.log with
        | mk a log =>
          cases a with
          | none =>
            rw [ho] at h
            simp at h
          | some x =>
            obtain ⟨fd, size⟩ := x
            obtain ⟨_, h2, h3, h4, h5, _⟩ := open_file_success f 4 s.log fd size log ho
            rw [ho] at h
            simp only [Option.some.injEq, Prod.mk.injEq, true_and] at h
            rw [← h]
            simp only [slot_setSlot, hl, c2, and_self, if_true]
            exact ⟨h2, h3, h4, trivial, h5⟩
    · rw [if_neg c2] at h
      cases h

/-- When `gpu_glob_unif` returns `SUCCESS`, the file is a regular file whose length
is a positive multiple of 4, and the global resource is active with the length
converted to `u32` as size. -/
theorem gpu_glob_unif_success (f : file_stat) (s s' : St)
    (h : gpu_glob_unif f s = (result.SUCCESS, s')) :
    f.is_reg = true ∧ 0 < f.st_size ∧ f.st_size % 4 = 0
      ∧ s'.g.glob.unif.active = true
      ∧ s'.g.glob.unif.size = u32_of_int f.st_size := by
  unfold gpu_glob_unif at h
  by_cases c3 : s.g.glob.unif.active = true
  · rw [if_pos c3] at h
    simp at h
  · rw [if_neg c3] at h
    cases ho : open_file f 4 s.log with
    | mk a log =>
      cases a with
      | none =>
        rw [ho] at h
        simp at h
      | some x =>
        obtain ⟨fd, size⟩ := x
        obtain ⟨_, h2, h3, h4, h5, _⟩ := open_file_success f 4 s.log fd size log ho
        rw [ho] at h
        simp only [Prod.mk.injEq, true_and] at h
        rw [← h]
        exact ⟨h2, h3, h4, rfl, h5⟩

/-- When `gpu_glob_rbuf` returns `SUCCESS`, the file is a regular file whose length
is a positive multiple of 4, and the global resource is active with the length
converted to `u32` as size. -/
theorem gpu_glob_rbuf_success (f : file_stat) (s s' : St)
    (h : gpu_glob_rbuf f s = (result.SUCCESS, s')) :
    f.is_reg = true ∧ 0 < f.st_size ∧ f.st_size % 4 = 0
      ∧ s'.g.glob.rbuf.active = true
      ∧ s'.g.glob.rbuf.size = u32_of_int f.st_size := by
  unfold gpu_glob_rbuf at h
  by_cases c3 : s.g.glob.rbuf.active = true
  · rw [if_pos c3] at h
    simp at h
  · rw [if_neg c3] at h
    cases ho : open_file f 4 s.log with
    | mk a log =>
      cases a with
      | none =>
        rw [ho] at h
        simp at h
      | some x =>
        obtain ⟨fd, size⟩ := x
        obtain ⟨_, h2, h3, h4, h5, _⟩ := open_file_success f 4 s.log fd size log ho
        rw [ho] at h
        simp only [Prod.mk.injEq, true_and] at h
        rw [← h]
        exact ⟨h2, h3, h4, rfl, h5⟩

/-- C22 (divergence): `execute i big.bin` with a regular file of 4294967296
bytes: `handle_i` returns `SUCCESS` and the instructions of task 0 are active
with the recorded size 0, which is neither the length of the file nor a
positive multiple of 8. -/
theorem inst_size_truncated :
    (handle_i (some file_huge) s_init).map
        (fun x => (x.1, (x.2.g.slot 0).inst.active, (x.2.g.slot 0).inst.size))
      = some (result.SUCCESS, true, 0)
      ∧ file_huge.is_reg = true ∧ file_huge.st_size = 4294967296
      ∧ file_huge.st_size % 8 = 0 := by
  decide

theorem task_index_valid (g : G) (h : g.ntasks < 4294967296) :
    task_index g < MAX_TASKS ↔ (1 ≤ g.ntasks ∧ g.ntasks ≤ MAX_TASKS) := by
  unfold task_index u32 MAX_TASKS
  omega

theorem handled_state (x : result × St) : (handled x).2 = x.2 := rfl

theorem gpu_task_inst_ntasks (f : file_stat) (s : St) (h : 0 < s.g.ntasks) :
    ∃ r s', gpu_task_inst f s = some (r, s') ∧ s'.g.ntasks = s.g.ntasks := by
  unfold gpu_task_inst
  by_cases c1 : s.g.ntasks > MAX_TASKS
  · rw [if_pos c1]
    exact ⟨_, _, rfl, rfl⟩
  · have c2 : task_index s.g < MAX_TASKS := by
      unfold task_index u32 MAX_TASKS at *
      omega
    rw [if_neg c1, if_pos c2]
    by_cases c3 : (s.g.slot (task_index s.g)).inst.active = true
    · rw [if_pos c3]
      exact ⟨_, _, rfl, rfl⟩
    · rw [if_neg c3]
      cases ho : open_file f 8 s.log with
      | mk a log =>
        cases a with
        | none => exact ⟨_, _, rfl, rfl⟩
        | some x => exact ⟨_, _, rfl, rfl⟩

theorem gpu_task_unif_ntasks (f : file_stat) (s : St) (h : 0 < s.g.ntasks) :
    ∃ r s', gpu_task_unif f s = some (r, s') ∧ s'.g.ntasks = s.g.ntasks := by
  unfold gpu_task_unif
  by_cases c1 : s.g.ntasks > MAX_TASKS
  · rw [if_pos c1]
    exact ⟨_, _, rfl, rfl⟩
  · have c2 : task_index s.g < MAX_TASKS := by
      unfold task_index u32 MAX_TASKS at *
      omega
    rw [if_neg c1, if_pos c2]
    by_cases c3 : (s.g.slot (task_index s.g)).unif.active = true
    · rw [if_pos c3]
      exact ⟨_, _, rfl, rfl⟩
    · rw [if_neg c3]
      cases ho : open_file f 4 s.log with
      | mk a log =>
        cases a with
        | none => exact ⟨_, _, rfl, rfl⟩
        | some x => exact ⟨_, _, rfl, rfl⟩

theorem gpu_task_rbuf_ntasks (f : file_stat) (s : St) (h : 0 < s.g.ntasks) :
    ∃ r s', gpu_task_rbuf f s = some (r, s') ∧ s'.g.ntasks = s.g.ntasks := by
  unfold gpu_task_rbuf
  by_cases c1 : s.g.ntasks > MAX_TASKS
  · rw [if_pos c1]
    exact ⟨_, _, rfl, rfl⟩
  · have c2 : task_index s.g < MAX_TASKS := by
      unfold task_index u32 MAX_TASKS at *
      omega
    rw [if_neg c1, if_pos c2]
    by_cases c3 : (s.g.slot (task_index s.g)).rbuf.active = true
    · rw [if_pos c3]
      exact ⟨_, _, rfl, rfl⟩
    · rw [if_neg c3]
      cases ho : open_file f 4 s.log with
      | mk a log =>
        cases a with
        | none => exact ⟨_, _, rfl, rfl⟩
        | some x => exact ⟨_, _, rfl, rfl⟩

theorem gpu_glob_unif_ntasks (f : file_stat) (s : St) : (gpu_glob_unif f s).2.g.ntasks = s.g.ntasks := by
  unfold gpu_glob_unif
  by_cases c3 : s.g.glob.unif.active = true
  · rw [if_pos c3]
  · rw [if_neg c3]
    cases ho : open_file f 4 s.log with
    | mk a log =>
      cases a with
      | none => rfl
      | some x => rfl

theorem gpu_glob_rbuf_ntasks (f : file_stat) (s : St) : (gpu_glob_rbuf f s).2.g.ntasks = s.g.ntasks := by
  unfold gpu_glob_rbuf
  by_cases c3 : s.g.glob.rbuf.active = true
  · rw [if_pos c3]
  · rw [if_neg c3]
    cases ho : open_file f 4 s.log with
    | mk a log =>
      cases a with
      | none => rfl
      | some x => rfl

theorem replicate_inst_ntasks (w : World) (src dst : Nat) (s : St) (r : result) (s1 : St)
    (h : replicate_inst w src dst s = Run.done (r, s1)) : s1.g.ntasks = s.g.ntasks := by
  unfold replicate_inst at h
  by_cases ha : (s.g.slot src).inst.active = true
  · rw [if_pos ha] at h
    cases hd : dup_file w (s.g.slot dst).inst (s.g.slot src).inst s.log with
    | done a =>
      obtain ⟨r1, file, log⟩ := a
      rw [hd] at h
      simp only [Run.done.injEq, Prod.mk.injEq] at h
      rw [← h.2]
      rfl
    | abort => rw [hd] at h; cases h
    | spin => rw [hd] at h; cases h
  · rw [if_neg ha] at h
    simp only [Run.done.injEq, Prod.mk.injEq] at h
    rw [← h.2]

theorem replicate_unif_ntasks (w : World) (src dst : Nat) (s : St) (r : result) (s1 : St)
    (h : replicate_unif w src dst s = Run.done (r, s1)) : s1.g.ntasks = s.g.ntasks := by
  unfold replicate_unif at h
  by_cases ha : (s.g.slot src).unif.active = true
  · rw [if_pos ha] at h
    cases hd : dup_file w (s.g.slot dst).unif (s.g.slot src).unif s.log with
    | done a =>
      obtain ⟨r1, file, log⟩ := a
      rw [hd] at h
      simp only [Run.done.injEq, Prod.mk.injEq] at h
      rw [← h.2]
      rfl
    | abort => rw [hd] at h; cases h
    | spin => rw [hd] at h; cases h
  · rw [if_neg ha] at h
    simp only [Run.done.injEq, Prod.mk.injEq] at h
    rw [← h.2]

theorem replicate_rbuf_ntasks (w : World) (src dst : Nat) (s : St) (r : result) (s1 : St)
    (h : replicate_rbuf w src dst s = Run.done (r, s1)) : s1.g.ntasks = s.g.ntasks := by
  unfold replicate_rbuf at h
  by_cases ha : (s.g.slot src).rbuf.active = true
  · rw [if_pos ha] at h
    cases hd : dup_file w (s.g.slot dst).rbuf (s.g.slot src).rbuf s.log with
    | done a =>
      obtain ⟨r1, file, log⟩ := a
      rw [hd] at h
      simp only [Run.done.injEq, Prod.mk.injEq] at h
      rw [← h.2]
      rfl
    | abort => rw [hd] at h; cases h
    | spin => rw [hd] at h; cases h
  · rw [if_neg ha] at h
    simp only [Run.done.injEq, Prod.mk.injEq] at h
    rw [← h.2]

theorem gpu_task_wbuf_ntasks (size : Nat) (s : St) (h : 0 < s.g.ntasks) :
    ∃ r s', gpu_task_wbuf size s = some (r, s') ∧ s'.g.ntasks = s.g.ntasks := by
  unfold gpu_task_wbuf
  by_cases c1 : s.g.ntasks > MAX_TASKS
  · rw [if_pos c1]
    exact ⟨_, _, rfl, rfl⟩
  · have c2 : task_index s.g < MAX_TASKS := by
      unfold task_index u32 MAX_TASKS at *
      omega
    rw [if_neg c1, if_pos c2]
    by_cases c3 : (s.g.slot (task_index s.g)).wbuf.active = true
    · rw [if_pos c3]
      exact ⟨_, _, rfl, rfl⟩
    · rw [if_neg c3]
      exact ⟨_, _, rfl, rfl⟩

theorem gpu_glob_wbuf_ntasks (size : Nat) (s : St) :
    (gpu_glob_wbuf size s).2.g.ntasks = s.g.ntasks := by
  unfold gpu_glob_wbuf
  by_cases c3 : s.g.glob.wbuf.active = true
  · rw [if_pos c3]
  · rw [if_neg c3]

theorem replicate_wbuf_ntasks (src dst : Nat) (s : St) (r : result) (s1 : St)
    (h : replicate_wbuf src dst s = Run.done (r, s1)) : s1.g.ntasks = s.g.ntasks := by
  unfold replicate_wbuf at h
  by_cases ha : (s.g.slot src).wbuf.active = true
  · rw [if_pos ha] at h
    cases hd : dup_buf (s.g.slot dst).wbuf (s.g.slot src).wbuf with
    | done a =>
      obtain ⟨r1, buf⟩ := a
      rw [hd] at h
      simp only [Run.done.injEq, Prod.mk.injEq] at h
      rw [← h.2]
      rfl
    | abort => rw [hd] at h; cases h
    | spin => rw [hd] at h; cases h
  · rw [if_neg ha] at h
    simp only [Run.done.injEq, Prod.mk.injEq] at h
    rw [← h.2]

theorem replicate_task_ntasks (w : World) (K dst : Nat) (s : St) (r : result) (s1 : St)
    (h : replicate_task w K dst s = Run.done (r, s1)) : s1.g.ntasks = s.g.ntasks := by
  unfold replicate_task at h
  have tr : ∀ a b c : St, b.g.ntasks = a.g.ntasks → c.g.ntasks = b.g.ntasks →
      c.g.ntasks = a.g.ntasks := fun a b c h1 h2 => h2.trans h1
  refine andThen_rel (fun a b => b.g.ntasks = a.g.ntasks) tr _ _ s ?_ ?_ r s1 h
  · refine andThen_rel (fun a b => b.g.ntasks = a.g.ntasks) tr _ _ s ?_ ?_
    · refine andThen_rel (fun a b => b.g.ntasks = a.g.ntasks) tr _ _ s ?_ ?_
      · exact fun r s1 h => replicate_inst_ntasks w _ _ s r s1 h
      · exact fun s1 r s2 h => replicate_unif_ntasks w _ _ s1 r s2 h
    · exact fun s1 r s2 h => replicate_rbuf_ntasks w _ _ s1 r s2 h
  · exact fun s1 r s2 h => replicate_wbuf_ntasks _ _ s1 r s2 h

theorem gpu_replicate_ntasks (w : World) (mult : Nat) (s : St) (r : result) (s' : St)
    (hn : s.g.ntasks ≤ MAX_TASKS) (h : gpu_replicate w mult s = Run.done (r, s')) :
    s'.g.ntasks ≤ MAX_TASKS := by
  unfold gpu_replicate at h
  by_cases c1 : mult ≤ 1 ∨ s.g.ntasks = 0
  · rw [if_pos c1] at h
    simp only [Run.done.injEq, Prod.mk.injEq] at h
    rw [← h.2]
    exact hn
  · rw [if_neg c1] at h
    by_cases c2 : u32 (mult * s.g.ntasks) > MAX_TASKS
    · rw [if_pos c2] at h
      simp only [Run.done.injEq, Prod.mk.injEq] at h
      rw [← h.2]
      exact hn
    · rw [if_neg c2] at h
      cases hf : for_tasks (replicate_task w s.g.ntasks)
          (List.range' s.g.ntasks (u32 (mult * s.g.ntasks) - s.g.ntasks)) s with
      | done a =>
        obtain ⟨r1, s2⟩ := a
        have hk : s2.g.ntasks = s.g.ntasks :=
          for_tasks_rel (fun a b => b.g.ntasks = a.g.ntasks) (fun _ => rfl)
            (fun a b c h1 h2 => h2.trans h1) _
            (fun i s r s1 h => replicate_task_ntasks w _ i s r s1 h) _ s r1 s2 hf
        rw [hf] at h
        cases r1
        · simp only [Run.done.injEq, Prod.mk.injEq] at h
          rw [← h.2]
          show u32 (s2.g.ntasks * mult) ≤ MAX_TASKS
          rw [hk, Nat.mul_comm]
          omega
        · simp only [Run.done.injEq, Prod.mk.injEq] at h
          rw [← h.2, hk]
          exact hn
        · simp only [Run.done.injEq, Prod.mk.injEq] at h
          rw [← h.2, hk]
          exact hn
      | abort => rw [hf] at h; cases h
      | spin => rw [hf] at h; cases h

theorem handle_x_ntasks (wd : World) (num : Option Int) (s : St) (r : result) (s' : St)
    (hn : s.g.ntasks ≤ MAX_TASKS) (h : handle_x wd num s = Run.done (r, s')) :
    s'.g.ntasks ≤ MAX_TASKS := by
  unfold handle_x at h
  by_cases c1 : (!gpu_has_task s.g) = true
  · rw [if_pos c1] at h
    simp only [Run.done.injEq, Prod.mk.injEq] at h
    rw [← h.2]
    exact hn
  · rw [if_neg c1] at h
    cases num with
    | none =>
      simp only [Run.done.injEq, Prod.mk.injEq] at h
      rw [← h.2]
      exact hn
    | some mult =>
      simp only at h
      by_cases c2 : mult ≤ 1
      · rw [if_pos c2] at h
        simp only [Run.done.injEq, Prod.mk.injEq] at h
        rw [← h.2]
        exact hn
      · rw [if_neg c2] at h
        rcases andThen_done _ _ r s' h with ⟨s1, h1, h2⟩ | ⟨r1, _, h1, _⟩
        · simp only [Run.done.injEq, Prod.mk.injEq] at h2
          rw [← h2.2]
          exact gpu_replicate_ntasks wd _ s _ s1 hn h1
        · exact gpu_replicate_ntasks wd _ s _ s' hn h1

theorem has_task_pos (g : G) (h : gpu_has_task g = true) : 0 < g.ntasks := by
  simpa [gpu_has_task] using h

theorem handle_w_ntasks (num : Option Int) (s : St) :
    ∃ r s', handle_w num s = some (r, s') ∧ s'.g.ntasks = s.g.ntasks := by
  unfold handle_w
  cases num with
  | none => exact ⟨_, _, rfl, rfl⟩
  | some size =>
    simp only
    by_cases c1 : size ≤ 0
    · rw [if_pos c1]
      exact ⟨_, _, rfl, rfl⟩
    · rw [if_neg c1]
      by_cases c2 : gpu_has_task s.g = true
      · rw [if_pos c2]
        obtain ⟨r, s', e1, e2⟩ := gpu_task_wbuf_ntasks (u32_of_int size) s (has_task_pos _ c2)
        rw [e1]
        exact ⟨_, _, rfl, e2⟩
      · rw [if_neg c2]
        exact ⟨_, _, rfl, gpu_glob_wbuf_ntasks _ s⟩

theorem handle_r_ntasks (file : Option file_stat) (s : St) :
    ∃ r s', handle_r file s = some (r, s') ∧ s'.g.ntasks = s.g.ntasks := by
  unfold handle_r
  cases file with
  | none => exact ⟨_, _, rfl, rfl⟩
  | some f =>
    simp only
    by_cases c2 : gpu_has_task s.g = true
    · rw [if_pos c2]
      obtain ⟨r, s', e1, e2⟩ := gpu_task_rbuf_ntasks f s (has_task_pos _ c2)
      rw [e1]
      exact ⟨_, _, rfl, e2⟩
    · rw [if_neg c2]
      exact ⟨_, _, rfl, gpu_glob_rbuf_ntasks _ s⟩

theorem handle_u_ntasks (file : Option file_stat) (s : St) :
    ∃ r s', handle_u file s = some (r, s') ∧ s'.g.ntasks = s.g.ntasks := by
  unfold handle_u
  cases file with
  | none => exact ⟨_, _, rfl, rfl⟩
  | some f =>
    simp only
    by_cases c2 : gpu_has_task s.g = true
    · rw [if_pos c2]
      obtain ⟨r, s', e1, e2⟩ := gpu_task_unif_ntasks f s (has_task_pos _ c2)
      rw [e1]
      exact ⟨_, _, rfl, e2⟩
    · rw [if_neg c2]
      exact ⟨_, _, rfl, gpu_glob_unif_ntasks _ s⟩

theorem gpu_next_task_index (s s1 : St) (h : gpu_next_task s = (result.SUCCESS, s1)) :
    s1.g.ntasks = s.g.ntasks + 1 ∧ s1.g.ntasks ≤ MAX_TASKS ∧ task_index s1.g < MAX_TASKS := by
  unfold gpu_next_task at h
  by_cases c : s.g.ntasks ≥ MAX_TASKS
  · rw [if_pos c] at h
    simp at h
  · rw [if_neg c] at h
    simp only [Prod.mk.injEq, true_and] at h
    rw [← h]
    unfold task_index
    simp only
    unfold u32 MAX_TASKS at *
    omega

theorem handle_i_ntasks (file : Option file_stat) (s : St) (hn : s.g.ntasks ≤ MAX_TASKS) :
    ∃ r s', handle_i file s = some (r, s') ∧ s'.g.ntasks ≤ MAX_TASKS := by
  unfold handle_i
  cases file with
  | none => exact ⟨_, _, rfl, hn⟩
  | some f =>
    simp only
    cases hnx : gpu_next_task s with
    | mk r1 s1 =>
      cases r1
      · obtain ⟨e1, e2, _⟩ := gpu_next_task_index s s1 hnx
        obtain ⟨r, s', e3, e4⟩ := gpu_task_inst_ntasks f s1 (by omega)
        simp only
        rw [e3]
        exact ⟨_, _, rfl, by show s'.g.ntasks ≤ MAX_TASKS; omega⟩
      · refine ⟨_, _, rfl, ?_⟩
        unfold gpu_next_task at hnx
        split_ifs at hnx
        · simp only [Prod.mk.injEq] at hnx
          rw [← hnx.2]
          exact hn
        · simp at hnx
      · refine ⟨_, _, rfl, ?_⟩
        unfold gpu_next_task at hnx
        split_ifs at hnx
        · simp at hnx
        · simp at hnx

/-- No handler of the command `execute` accesses the task array out of range,
and none raises the task count above `MAX_TASKS`. -/
theorem HANDLE_EXECUTE_defined (wd : World) (a : exec_arg) (s : St)
    (hn : s.g.ntasks ≤ MAX_TASKS) :
    ∃ x, HANDLE_EXECUTE wd a s = some x
      ∧ ∀ r s', x = Run.done (r, s') → s'.g.ntasks ≤ MAX_TASKS := by
  cases a with
  | i file =>
    obtain ⟨r, s', e1, e2⟩ := handle_i_ntasks file s hn
    refine ⟨Run.done (r, s'), by simp only [HANDLE_EXECUTE, e1, Option.map], ?_⟩
    intro r2 s2 h
    simp only [Run.done.injEq, Prod.mk.injEq] at h
    rw [← h.2]
    exact e2
  | u file =>
    obtain ⟨r, s', e1, e2⟩ := handle_u_ntasks file s
    refine ⟨Run.done (r, s'), by simp only [HANDLE_EXECUTE, e1, Option.map], ?_⟩
    intro r2 s2 h
    simp only [Run.done.injEq, Prod.mk.injEq] at h
    rw [← h.2, e2]
    exact hn
  | r file =>
    obtain ⟨r, s', e1, e2⟩ := handle_r_ntasks file s
    refine ⟨Run.done (r, s'), by simp only [HANDLE_EXECUTE, e1, Option.map], ?_⟩
    intro r2 s2 h
    simp only [Run.done.injEq, Prod.mk.injEq] at h
    rw [← h.2, e2]
    exact hn
  | w num =>
    obtain ⟨r, s', e1, e2⟩ := handle_w_ntasks num s
    refine ⟨Run.done (r, s'), by simp only [HANDLE_EXECUTE, e1, Option.map], ?_⟩
    intro r2 s2 h
    simp only [Run.done.injEq, Prod.mk.injEq] at h
    rw [← h.2, e2]
    exact hn
  | x num =>
    exact ⟨handle_x wd num s, rfl, fun r s' h => handle_x_ntasks wd num s r s' hn h⟩
  | other =>
    refine ⟨Run.done (result.FAILURE, s), rfl, ?_⟩
    intro r2 s2 h
    simp only [Run.done.injEq, Prod.mk.injEq] at h
    rw [← h.2]
    exact hn

/-- The loop of `command_execute` never accesses the task array out of range
and keeps the task count at most `MAX_TASKS`. -/
theorem execute_loop_defined (wd : World) (args : List exec_arg) :
    ∀ s : St, s.g.ntasks ≤ MAX_TASKS →
      ∃ x, execute_loop wd args s = some x
        ∧ ∀ r s', x = Run.done (r, s') → s'.g.ntasks ≤ MAX_TASKS := by
  induction args with
  | nil =>
    intro s hn
    refine ⟨_, rfl, ?_⟩
    intro r s' h
    simp only [Run.done.injEq, Prod.mk.injEq] at h
    rw [← h.2]
    exact hn
  | cons a rest ih =>
    intro s hn
    obtain ⟨x, e1, e2⟩ := HANDLE_EXECUTE_defined wd a s hn
    rw [execute_loop, e1]
    cases x with
    | done y =>
      obtain ⟨r1, s1⟩ := y
      have h1 := e2 r1 s1 rfl
      cases r1
      · exact ih s1 h1
      · refine ⟨_, rfl, ?_⟩
        intro r s' h
        simp only [Run.done.injEq, Prod.mk.injEq] at h
        rw [← h.2]
        exact h1
      · refine ⟨_, rfl, ?_⟩
        intro r s' h
        simp only [Run.done.injEq, Prod.mk.injEq] at h
        rw [← h.2]
        exact h1
    | abort => exact ⟨_, rfl, fun r s' h => by cases h⟩
    | spin => exact ⟨_, rfl, fun r s' h => by cases h⟩

/-- C30: the per-task declarations access slot `G.ntasks - 1` (`task_index`),
which for a `u32` task count lies inside the array of `MAX_TASKS` = 12 slots
exactly when `1 ≤ ntasks ≤ 12`. In every state reached from the initial state
by successful handlers of the command `execute`, the task count is at most 12;
`handle_u`, `handle_r` and `handle_w` use the per-task declaration only when
`gpu_has_task` holds, and then the index is in range, and use the global
declaration otherwise; `handle_i` calls `gpu_task_inst` only after a successful
`gpu_next_task`, and then the index is in range; so no handler run in such a
state accesses the array out of range (the result is never `none`). -/
theorem task_slot_in_range (wd : World) (args : List exec_arg) (a : exec_arg) (s : St)
    (hreach : execute_loop wd args s_init = some (Run.done (result.SUCCESS, s))) :
    (∀ g : G, g.ntasks < 4294967296 →
        (task_index g < MAX_TASKS ↔ (1 ≤ g.ntasks ∧ g.ntasks ≤ MAX_TASKS)))
      ∧ s.g.ntasks ≤ MAX_TASKS
      ∧ (gpu_has_task s.g = true → task_index s.g < MAX_TASKS)
      ∧ (gpu_has_task s.g = false → ∀ (f : file_stat) (size : Int), 0 < size →
          handle_u (some f) s = some (handled (gpu_glob_unif f s))
            ∧ handle_r (some f) s = some (handled (gpu_glob_rbuf f s))
            ∧ handle_w (some size) s = some (handled (gpu_glob_wbuf (u32_of_int size) s)))
      ∧ (∀ s1, gpu_next_task s = (result.SUCCESS, s1) → task_index s1.g < MAX_TASKS)
      ∧ ∃ x, HANDLE_EXECUTE wd a s = some x := by
  obtain ⟨x, e1, e2⟩ := execute_loop_defined wd args s_init (by decide)
  rw [hreach] at e1
  have hn : s.g.ntasks ≤ MAX_TASKS := e2 result.SUCCESS s (Option.some.inj e1).symm
  refine ⟨task_index_valid, hn, ?_, ?_, ?_, ?_⟩
  · intro h
    have := has_task_pos _ h
    exact (task_index_valid s.g (by unfold MAX_TASKS at hn; omega)).2 ⟨this, hn⟩
  · intro h f size hsz
    have hsz' : ¬ size ≤ 0 := by omega
    refine ⟨?_, ?_, ?_⟩
    · simp only [handle_u, h, Bool.false_eq_true, if_false]
    · simp only [handle_r, h, Bool.false_eq_true, if_false]
    · simp only [handle_w, h, hsz', Bool.false_eq_true, if_false]
  · intro s1 h
    exact (gpu_next_task_index s s1 h).2.2
  · obtain ⟨y, e3, _⟩ := HANDLE_EXECUTE_defined wd a s hn
    exact ⟨y, e3⟩

/-- C30 (witness): the state reached by `execute i prog.bin w 64`, in which a
uniforms file is declared next. -/
theorem task_slot_in_range_witness :
    execute_loop (world_ok files_zero) [exec_arg.i (some file_eight), exec_arg.w (some 64)]
        s_init
      = some (Run.done (result.SUCCESS,
          { g := { page_sz := 4096, ntasks := 1,
                   task := [{ inst := { active := true, fd := 3, size := 8 },
                              wbuf := { active := true, size := 64 } }]
                     ++ List.replicate 11 {} },
            ram := fun _ => 0, log := [] }))
      ∧ ∃ x, HANDLE_EXECUTE (world_ok files_zero) (exec_arg.u (some file_eight))
          { g := { page_sz := 4096, ntasks := 1,
                   task := [{ inst := { active := true, fd := 3, size := 8 },
                              wbuf := { active := true, size := 64 } }]
                     ++ List.replicate 11 {} },
            ram := fun _ => 0, log := [] } = some x :=
  ⟨rfl,
    (task_slot_in_range (world_ok files_zero)
      [exec_arg.i (some file_eight), exec_arg.w (some 64)] (exec_arg.u (some file_eight))
      { g := { page_sz := 4096, ntasks := 1,
               task := [{ inst := { active := true, fd := 3, size := 8 },
                          wbuf := { active := true, size := 64 } }]
                 ++ List.replicate 11 {} },
        ram := fun _ => 0, log := [] } rfl).2.2.2.2.2⟩

/-- C29 (divergence): `execute i a.bin i b.bin i c.bin x 2863311531` succeeds
and leaves the task count 1 (the `u32` product `3 * 2863311531` is 1) while
slots 1 and 2 still hold active instructions; a following `x 2` then fails the
assertion of `dup_file` on slot 1. -/
theorem replicate_wrap_breaks_slots :
    (execute_loop (world_ok files_zero)
        [exec_arg.i (some { open_fd := some 3, st_size := 8 }),
         exec_arg.i (some { open_fd := some 4, st_size := 8 }),
         exec_arg.i (some { open_fd := some 5, st_size := 8 }),
         exec_arg.x (some 2863311531)] s_init).map
        (fun x => x.get?.map
          (fun y => (y.1, y.2.g.ntasks, (y.2.g.slot 1).inst.active, (y.2.g.slot 2).inst.active)))
      = some (some (result.SUCCESS, 1, true, true))
      ∧ (execute_loop (world_ok files_zero)
          [exec_arg.i (some { open_fd := some 3, st_size := 8 }),
           exec_arg.i (some { open_fd := some 4, st_size := 8 }),
           exec_arg.i (some { open_fd := some 5, st_size := 8 }),
           exec_arg.x (some 2863311531), exec_arg.x (some 2)] s_init).map Run.aborted
        = some true := by
  decide

/-- C2 (divergence): in the state left by `execute w 4294967280 i prog.bin w 4`
`init_mem` succeeds with a region of 92 bytes; the instructions are staged at
96, the global write buffer at 104, and the write buffer of the task, which
follows 96 + 8 + 4294967280 = 4294967384 bytes in the fixed order, at 88. -/
theorem staged_offsets_wrap :
    (init_mem (world_ok files_zero) s_wrap).get?.map
        (fun x => (x.1, (x.2.g.slot 0).inst.offset, x.2.g.glob.wbuf.offset,
          (x.2.g.slot 0).wbuf.offset, x.2.g.mem.data_sz))
      = some (result.SUCCESS, 96, 104, 88, 92)
      ∧ 96 + 8 + 4294967280 = 4294967384 := by
  decide

/-- C3 (divergence): in the state left by `execute w 4294967280 i prog.bin w 4`
`init_mem` succeeds, the range of the global write buffer does not end within
the region size, and the write buffer of the task starts inside the control
block. -/
theorem wbuf_range_wraps :
    (init_mem (world_ok files_zero) s_wrap).get?.map
        (fun x => (x.1,
          decide (x.2.g.glob.wbuf.offset + x.2.g.glob.wbuf.size ≤ x.2.g.mem.data_sz),
          decide ((x.2.g.slot 0).wbuf.offset < sizeof_control)))
      = some (result.SUCCESS, false, true) := by
  decide

/-- C24 (divergence): in the state left by `execute w 4294967280 i prog.bin w 32`
the acquisition succeeds and no read fails, yet `init_mem` does not return: the
assertion of `init_buf` fails at the global write buffer, the region size
`mem_size` being 120 for a planned total of 4294967416. -/
theorem init_mem_aborts :
    (init_mem (world_ok files_zero) s_narrow).aborted = true
      ∧ (mem_alloc (world_ok files_zero) 4096 {} (mem_size s_narrow.g) []).get?.map
          (fun x => x.1) = some result.SUCCESS
      ∧ mem_size s_narrow.g = 120 ∧ plan_total s_narrow.g = 4294967416 := by
  decide

/-- C25 (divergence): the instructions of the task are declared with eight
bytes and the read of eight bytes at offset 96 delivers four. `init_file`
compares the return value of `read` with -1 only, so `init_mem` succeeds with
the instructions staged at offset 96 with size 8: the range `[96, 104)` holds
the four bytes delivered (byte 99 is 4) followed by what the region held before
(byte 100 is 170), not the first eight bytes of the backing file. -/
theorem short_read_accepted :
    (init_mem world_short s_stale).get?.map
        (fun x => (x.1, (x.2.g.slot 0).inst.offset, (x.2.g.slot 0).inst.size,
          x.2.ram 99, x.2.ram 100,
          decide (x.2.log.getLast? = some (Call.read 3 96 8))))
      = some (result.SUCCESS, 96, 8, 4, 170, true) := by
  decide

/-- A successful `init_file` read the answer of the read request into the
region at the cursor, recorded the cursor as offset and advanced it. -/
theorem init_file_ok (w : World) (mem : gpu_mem) (file : gpu_file) (ram : Nat → Nat)
    (log : List Call) (mem' : gpu_mem) (file' : gpu_file) (ram' : Nat → Nat)
    (log' : List Call)
    (h : init_file w mem file ram log = Run.done (result.SUCCESS, mem', file', ram', log')) :
    ∃ bytes, w.read (log ++ [Call.lseek file.fd, Call.read file.fd mem.used_sz file.size])
          = some bytes
      ∧ mem' = { mem with used_sz := u32 (mem.used_sz + file.size) }
      ∧ file' = { file with offset := mem.used_sz }
      ∧ ram' = write_bytes ram mem.used_sz (bytes.take file.size)
      ∧ log' = log ++ [Call.lseek file.fd, Call.read file.fd mem.used_sz file.size] := by
  unfold init_file at h
  by_cases c1 : u32 (mem.data_sz + 4294967296 - mem.used_sz) < file.size
  · simp [c1] at h
  · simp only [c1, if_false] at h
    cases hl : w.lseek (log ++ [Call.lseek file.fd])
    · simp [hl] at h
    · simp only [hl, if_true] at h
      simp only [List.append_assoc, List.singleton_append] at h
      cases hr : w.read (log ++ [Call.lseek file.fd,
          Call.read file.fd mem.used_sz file.size]) with
      | none => simp [hr] at h
      | some bytes =>
        simp only [hr, Run.done.injEq, Prod.mk.injEq, true_and] at h
        obtain ⟨h1, h2, h3, h4⟩ := h
        exact ⟨bytes, rfl, h1.symm, h2.symm, h3.symm, h4.symm⟩

theorem stage_task_inst_ok (w : World) (i : Nat) (s s1 : St)
    (ha : (s.g.slot i).inst.active = true)
    (h : stage_task_inst w i s = Run.done (result.SUCCESS, s1)) :
    ∃ bytes, w.read (s.log ++ [Call.lseek (s.g.slot i).inst.fd,
            Call.read (s.g.slot i).inst.fd s.g.mem.used_sz (s.g.slot i).inst.size])
          = some bytes
      ∧ s1.g = ({ s.g with mem := { s.g.mem with
                    used_sz := u32 (s.g.mem.used_sz + (s.g.slot i).inst.size) } }).setSlot i
                { s.g.slot i with inst := { (s.g.slot i).inst with offset := s.g.mem.used_sz } }
      ∧ s1.ram = write_bytes s.ram s.g.mem.used_sz (bytes.take (s.g.slot i).inst.size)
      ∧ s1.log = s.log ++ [Call.lseek (s.g.slot i).inst.fd,
            Call.read (s.g.slot i).inst.fd s.g.mem.used_sz (s.g.slot i).inst.size] := by
  unfold stage_task_inst at h
  rw [if_pos ha] at h
  cases hf : init_file w s.g.mem (s.g.slot i).inst s.ram s.log with
  | done a =>
    obtain ⟨r', mem', file', ram', log'⟩ := a
    rw [hf] at h
    simp only [Run.done.injEq, Prod.mk.injEq] at h
    obtain ⟨hr, hs⟩ := h
    subst hr
    obtain ⟨bytes, e1, e2, e3, e4, e5⟩ := init_file_ok w _ _ _ _ _ _ _ _ hf
    subst hs
    exact ⟨bytes, e1, by rw [e2, e3], e4, e5⟩
  | abort => rw [hf] at h; cases h
  | spin => rw [hf] at h; cases h

theorem stage_task_inst_step (w : World) (i : Nat) (s s1 : St) (hi : i < s.g.task.length)
    (ha : (s.g.slot i).inst.active = true)
    (h : stage_task_inst w i s = Run.done (result.SUCCESS, s1)) :
    step_ok w (Res.inst i) s s1 := by
  obtain ⟨bytes, hb, hg, hram, hlog⟩ := stage_task_inst_ok w i s s1 ha h
  have hi' : i < ({ s.g with mem := { s.g.mem with
      used_sz := u32 (s.g.mem.used_sz + (s.g.slot i).inst.size) } } : G).task.length := hi
  refine ⟨?_, ?_, ?_, ?_⟩
  · rw [hg]; rfl
  · rw [hg]
    simp only [Res.offset, slot_setSlot, hi', and_self, if_true]
  · intro r' hne
    rw [hg]
    cases r' <;> simp only [Res.offset, slot_setSlot, setSlot_glob] <;>
      (try split_ifs with hc) <;>
      first
        | rfl
        | (obtain ⟨hc1, _⟩ := hc; subst hc1; first | rfl | exact absurd rfl hne)
  · exact ⟨bytes, hb, hram, hlog⟩

theorem stage_task_unif_ok (w : World) (i : Nat) (s s1 : St)
    (ha : (s.g.slot i).unif.active = true)
    (h : stage_task_unif w i s = Run.done (result.SUCCESS, s1)) :
    ∃ bytes, w.read (s.log ++ [Call.lseek (s.g.slot i).unif.fd,
            Call.read (s.g.slot i).unif.fd s.g.mem.used_sz (s.g.slot i).unif.size])
          = some bytes
      ∧ s1.g = ({ s.g with mem := { s.g.mem with
                    used_sz := u32 (s.g.mem.used_sz + (s.g.slot i).unif.size) } }).setSlot i
                { s.g.slot i with unif := { (s.g.slot i).unif with offset := s.g.mem.used_sz } }
      ∧ s1.ram = write_bytes s.ram s.g.mem.used_sz (bytes.take (s.g.slot i).unif.size)
      ∧ s1.log = s.log ++ [Call.lseek (s.g.slot i).unif.fd,
            Call.read (s.g.slot i).unif.fd s.g.mem.used_sz (s.g.slot i).unif.size] := by
  unfold stage_task_unif at h
  rw [if_pos ha] at h
  cases hf : init_file w s.g.mem (s.g.slot i).unif s.ram s.log with
  | done a =>
    obtain ⟨r', mem', file', ram', log'⟩ := a
    rw [hf] at h
    simp only [Run.done.injEq, Prod.mk.injEq] at h
    obtain ⟨hr, hs⟩ := h
    subst hr
    obtain ⟨bytes, e1, e2, e3, e4, e5⟩ := init_file_ok w _ _ _ _ _ _ _ _ hf
    subst hs
    exact ⟨bytes, e1, by rw [e2, e3], e4, e5⟩
  | abort => rw [hf] at h; cases h
  | spin => rw [hf] at h; cases h

theorem stage_task_unif_step (w : World) (i : Nat) (s s1 : St) (hi : i < s.g.task.length)
    (ha : (s.g.slot i).unif.active = true)
    (h : stage_task_unif w i s = Run.done (result.SUCCESS, s1)) :
    step_ok w (Res.unif i) s s1 := by
  obtain ⟨bytes, hb, hg, hram, hlog⟩ := stage_task_unif_ok w i s s1 ha h
  have hi' : i < ({ s.g with mem := { s.g.mem with
      used_sz := u32 (s.g.mem.used_sz + (s.g.slot i).unif.size) } } : G).task.length := hi
  refine ⟨?_, ?_, ?_, ?_⟩
  · rw [hg]; rfl
  · rw [hg]
    simp only [Res.offset, slot_setSlot, hi', and_self, if_true]
  · intro r' hne
    rw [hg]
    cases r' <;> simp only [Res.offset, slot_setSlot, setSlot_glob] <;>
      (try split_ifs with hc) <;>
      first
        | rfl
        | (obtain ⟨hc1, _⟩ := hc; subst hc1; first | rfl | exact absurd rfl hne)
  · exact ⟨bytes, hb, hram, hlog⟩

theorem stage_task_rbuf_ok (w : World) (i : Nat) (s s1 : St)
    (ha : (s.g.slot i).rbuf.active = true)
    (h : stage_task_rbuf w i s = Run.done (result.SUCCESS, s1)) :
    ∃ bytes, w.read (s.log ++ [Call.lseek (s.g.slot i).rbuf.fd,
            Call.read (s.g.slot i).rbuf.fd s.g.mem.used_sz (s.g.slot i).rbuf.size])
          = some bytes
      ∧ s1.g = ({ s.g with mem := { s.g.mem with
                    used_sz := u32 (s.g.mem.used_sz + (s.g.slot i).rbuf.size) } }).setSlot i
                { s.g.slot i with rbuf := { (s.g.slot i).rbuf with offset := s.g.mem.used_sz } }
      ∧ s1.ram = write_bytes s.ram s.g.mem.used_sz (bytes.take (s.g.slot i).rbuf.size)
      ∧ s1.log = s.log ++ [Call.lseek (s.g.slot i).rbuf.fd,
            Call.read (s.g.slot i).rbuf.fd s.g.mem.used_sz (s.g.slot i).rbuf.size] := by
  unfold stage_task_rbuf at h
  rw [if_pos ha] at h
  cases hf : init_file w s.g.mem (s.g.slot i).rbuf s.ram s.log with
  | done a =>
    obtain ⟨r', mem', file', ram', log'⟩ := a
    rw [hf] at h
    simp only [Run.done.injEq, Prod.mk.injEq] at h
    obtain ⟨hr, hs⟩ := h
    subst hr
    obtain ⟨bytes, e1, e2, e3, e4, e5⟩ := init_file_ok w _ _ _ _ _ _ _ _ hf
    subst hs
    exact ⟨bytes, e1, by rw [e2, e3], e4, e5⟩
  | abort => rw [hf] at h; cases h
  | spin => rw [hf] at h; cases h

theorem stage_task_rbuf_step (w : World) (i : Nat) (s s1 : St) (hi : i < s.g.task.length)
    (ha : (s.g.slot i).rbuf.active = true)
    (h : stage_task_rbuf w i s = Run.done (result.SUCCESS, s1)) :
    step_ok w (Res.rbuf i) s s1 := by
  obtain ⟨bytes, hb, hg, hram, hlog⟩ := stage_task_rbuf_ok w i s s1 ha h
  have hi' : i < ({ s.g with mem := { s.g.mem with
      used_sz := u32 (s.g.mem.used_sz + (s.g.slot i).rbuf.size) } } : G).task.length := hi
  refine ⟨?_, ?_, ?_, ?_⟩
  · rw [hg]; rfl
  · rw [hg]
    simp only [Res.offset, slot_setSlot, hi', and_self, if_true]
  · intro r' hne
    rw [hg]
    cases r' <;> simp only [Res.offset, slot_setSlot, setSlot_glob] <;>
      (try split_ifs with hc) <;>
      first
        | rfl
        | (obtain ⟨hc1, _⟩ := hc; subst hc1; first | rfl | exact absurd rfl hne)
  · exact ⟨bytes, hb, hram, hlog⟩

theorem stage_glob_unif_ok (w : World) (s s1 : St)
    (ha : s.g.glob.unif.active = true)
    (h : stage_glob_unif w s = Run.done (result.SUCCESS, s1)) :
    ∃ bytes, w.read (s.log ++ [Call.lseek s.g.glob.unif.fd,
            Call.read s.g.glob.unif.fd s.g.mem.used_sz s.g.glob.unif.size])
          = some bytes
      ∧ s1.g = { s.g with
                 mem := { s.g.mem with used_sz := u32 (s.g.mem.used_sz + s.g.glob.unif.size) },
                 glob := { s.g.glob with
                           unif := { s.g.glob.unif with offset := s.g.mem.used_sz } } }
      ∧ s1.ram = write_bytes s.ram s.g.mem.used_sz (bytes.take s.g.glob.unif.size)
      ∧ s1.log = s.log ++ [Call.lseek s.g.glob.unif.fd,
            Call.read s.g.glob.unif.fd s.g.mem.used_sz s.g.glob.unif.size] := by
  unfold stage_glob_unif at h
  rw [if_pos ha] at h
  cases hf : init_file w s.g.mem s.g.glob.unif s.ram s.log with
  | done a =>
    obtain ⟨r', mem', file', ram', log'⟩ := a
    rw [hf] at h
    simp only [Run.done.injEq, Prod.mk.injEq] at h
    obtain ⟨hr, hs⟩ := h
    subst hr
    obtain ⟨bytes, e1, e2, e3, e4, e5⟩ := init_file_ok w _ _ _ _ _ _ _ _ hf
    subst hs
    exact ⟨bytes, e1, by rw [e2, e3], e4, e5⟩
  | abort => rw [hf] at h; cases h
  | spin => rw [hf] at h; cases h

theorem stage_glob_unif_step (w : World) (s s1 : St)
    (ha : s.g.glob.unif.active = true)
    (h : stage_glob_unif w s = Run.done (result.SUCCESS, s1)) :
    step_ok w Res.glob_unif s s1 := by
  obtain ⟨bytes, hb, hg, hram, hlog⟩ := stage_glob_unif_ok w s s1 ha h
  refine ⟨?_, ?_, ?_, ?_⟩
  · rw [hg]; rfl
  · rw [hg]; rfl
  · intro r' hne
    rw [hg]
    cases r' <;> first | rfl | exact absurd rfl hne
  · exact ⟨bytes, hb, hram, hlog⟩

theorem stage_glob_rbuf_ok (w : World) (s s1 : St)
    (ha : s.g.glob.rbuf.active = true)
    (h : stage_glob_rbuf w s = Run.done (result.SUCCESS, s1)) :
    ∃ bytes, w.read (s.log ++ [Call.lseek s.g.glob.rbuf.fd,
            Call.read s.g.glob.rbuf.fd s.g.mem.used_sz s.g.glob.rbuf.size])
          = some bytes
      ∧ s1.g = { s.g with
                 mem := { s.g.mem with used_sz := u32 (s.g.mem.used_sz + s.g.glob.rbuf.size) },
                 glob := { s.g.glob with
                           rbuf := { s.g.glob.rbuf with offset := s.g.mem.used_sz } } }
      ∧ s1.ram = write_bytes s.ram s.g.mem.used_sz (bytes.take s.g.glob.rbuf.size)
      ∧ s1.log = s.log ++ [Call.lseek s.g.glob.rbuf.fd,
            Call.read s.g.glob.rbuf.fd s.g.mem.used_sz s.g.glob.rbuf.size] := by
  unfold stage_glob_rbuf at h
  rw [if_pos ha] at h
  cases hf : init_file w s.g.mem s.g.glob.rbuf s.ram s.log with
  | done a =>
    obtain ⟨r', mem', file', ram', log'⟩ := a
    rw [hf] at h
    simp only [Run.done.injEq, Prod.mk.injEq] at h
    obtain ⟨hr, hs⟩ := h
    subst hr
    obtain ⟨bytes, e1, e2, e3, e4, e5⟩ := init_file_ok w _ _ _ _ _ _ _ _ hf
    subst hs
    exact ⟨bytes, e1, by rw [e2, e3], e4, e5⟩
  | abort => rw [hf] at h; cases h
  | spin => rw [hf] at h; cases h

theorem stage_glob_rbuf_step (w : World) (s s1 : St)
    (ha : s.g.glob.rbuf.active = true)
    (h : stage_glob_rbuf w s = Run.done (result.SUCCESS, s1)) :
    step_ok w Res.glob_rbuf s s1 := by
  obtain ⟨bytes, hb, hg, hram, hlog⟩ := stage_glob_rbuf_ok w s s1 ha h
  refine ⟨?_, ?_, ?_, ?_⟩
  · rw [hg]; rfl
  · rw [hg]; rfl
  · intro r' hne
    rw [hg]
    cases r' <;> first | rfl | exact absurd rfl hne
  · exact ⟨bytes, hb, hram, hlog⟩

theorem init_buf_ok (mem : gpu_mem) (buf : gpu_buf) (r : result) (mem' : gpu_mem)
    (buf' : gpu_buf) (h : init_buf mem buf = Run.done (r, mem', buf')) :
    r = result.SUCCESS ∧ mem' = { mem with used_sz := u32 (mem.used_sz + buf.size) }
      ∧ buf' = { buf with offset := mem.used_sz } := by
  unfold init_buf at h
  split_ifs at h
  simp only [Run.done.injEq, Prod.mk.injEq] at h
  exact ⟨h.1.symm, h.2.1.symm, h.2.2.symm⟩

theorem stage_task_wbuf_step (w : World) (i : Nat) (s s1 : St) (hi : i < s.g.task.length)
    (ha : (s.g.slot i).wbuf.active = true)
    (h : stage_task_wbuf i s = Run.done (result.SUCCESS, s1)) :
    step_ok w (Res.wbuf i) s s1 := by
  unfold stage_task_wbuf at h
  rw [if_pos ha] at h
  cases hf : init_buf s.g.mem (s.g.slot i).wbuf with
  | done a =>
    obtain ⟨r', mem', buf'⟩ := a
    obtain ⟨_, e2, e3⟩ := init_buf_ok _ _ _ _ _ hf
    rw [hf] at h
    simp only [Run.done.injEq, Prod.mk.injEq] at h
    obtain ⟨_, hs⟩ := h
    subst hs e2 e3
    have hi' : i < ({ s.g with mem := { s.g.mem with
        used_sz := u32 (s.g.mem.used_sz + (s.g.slot i).wbuf.size) } } : G).task.length := hi
    refine ⟨rfl, ?_, ?_, rfl, rfl⟩
    · simp only [Res.offset, slot_setSlot, hi', and_self, if_true]
    · intro r' hne
      cases r' <;> simp only [Res.offset, slot_setSlot, setSlot_glob] <;>
        (try split_ifs with hc) <;>
        first
          | rfl
          | (obtain ⟨hc1, _⟩ := hc; subst hc1; first | rfl | exact absurd rfl hne)
  | abort => rw [hf] at h; cases h
  | spin => rw [hf] at h; cases h

theorem stage_glob_wbuf_step (w : World) (s s1 : St)
    (ha : s.g.glob.wbuf.active = true)
    (h : stage_glob_wbuf s = Run.done (result.SUCCESS, s1)) :
    step_ok w Res.glob_wbuf s s1 := by
  unfold stage_glob_wbuf at h
  rw [if_pos ha] at h
  cases hf : init_buf s.g.mem s.g.glob.wbuf with
  | done a =>
    obtain ⟨r', mem', buf'⟩ := a
    obtain ⟨_, e2, e3⟩ := init_buf_ok _ _ _ _ _ hf
    rw [hf] at h
    simp only [Run.done.injEq, Prod.mk.injEq] at h
    obtain ⟨_, hs⟩ := h
    subst hs e2 e3
    refine ⟨rfl, rfl, ?_, rfl, rfl⟩
    intro r' hne
    cases r' <;> first | rfl | exact absurd rfl hne
  | abort => rw [hf] at h; cases h
  | spin => rw [hf] at h; cases h

/-- One staging statement on an active resource of the table that succeeds. -/
theorem stage_res_step (w : World) (r : Res) (s s1 : St) (hr : r.in_table s.g)
    (ha : r.active s.g = true) (h : stage_res w r s = Run.done (result.SUCCESS, s1)) :
    step_ok w r s s1 := by
  cases r with
  | inst i => exact stage_task_inst_step w i s s1 hr ha h
  | glob_unif => exact stage_glob_unif_step w s s1 ha h
  | unif i => exact stage_task_unif_step w i s s1 hr ha h
  | glob_rbuf => exact stage_glob_rbuf_step w s s1 ha h
  | rbuf i => exact stage_task_rbuf_step w i s s1 hr ha h
  | glob_wbuf => exact stage_glob_wbuf_step w s s1 ha h
  | wbuf i => exact stage_task_wbuf_step w i s s1 hr ha h

/-- One staging statement on an inactive resource does nothing. -/
theorem stage_res_skip (w : World) (r : Res) (s : St) (ha : r.active s.g = false) :
    stage_res w r s = Run.done (result.SUCCESS, s) := by
  cases r <;>
    simp only [stage_res, stage_task_inst, stage_task_unif, stage_task_rbuf, stage_task_wbuf,
      stage_glob_unif, stage_glob_rbuf, stage_glob_wbuf] <;>
    simp only [Res.active] at ha <;>
    simp only [ha, Bool.false_eq_true, if_false]

theorem stage_res_decl (w : World) (r : Res) (s : St) (r0 : result) (s1 : St)
    (h : stage_res w r s = Run.done (r0, s1)) : decl_rel s s1 := by
  cases r with
  | inst i => exact stage_task_inst_decl w i s r0 s1 h
  | glob_unif => exact stage_glob_unif_decl w s r0 s1 h
  | unif i => exact stage_task_unif_decl w i s r0 s1 h
  | glob_rbuf => exact stage_glob_rbuf_decl w s r0 s1 h
  | rbuf i => exact stage_task_rbuf_decl w i s r0 s1 h
  | glob_wbuf => exact stage_glob_wbuf_decl s r0 s1 h
  | wbuf i => exact stage_task_wbuf_decl i s r0 s1 h

/-- States with the same declarations agree on the declaration of every
resource. -/
theorem decl_rel_res (s s1 : St) (h : decl_rel s s1) (r : Res) :
    r.active s1.g = r.active s.g ∧ r.size s1.g = r.size s.g ∧ r.fd s1.g = r.fd s.g
      ∧ (r.in_table s.g → r.in_table s1.g) := by
  obtain ⟨hl, ⟨a1, a2, a3⟩, ⟨b1, b2, b3⟩, ⟨c1, c2⟩, hs⟩ := h
  cases r with
  | inst i =>
    obtain ⟨⟨d1, d2, d3⟩, _⟩ := hs i
    exact ⟨d1, d3, by simp only [Res.fd, d2], fun h => by simp only [Res.in_table] at h ⊢; omega⟩
  | glob_unif => exact ⟨a1, a3, by simp only [Res.fd, a2], fun h => h⟩
  | unif i =>
    obtain ⟨_, ⟨d1, d2, d3⟩, _⟩ := hs i
    exact ⟨d1, d3, by simp only [Res.fd, d2], fun h => by simp only [Res.in_table] at h ⊢; omega⟩
  | glob_rbuf => exact ⟨b1, b3, by simp only [Res.fd, b2], fun h => h⟩
  | rbuf i =>
    obtain ⟨_, _, ⟨d1, d2, d3⟩, _⟩ := hs i
    exact ⟨d1, d3, by simp only [Res.fd, d2], fun h => by simp only [Res.in_table] at h ⊢; omega⟩
  | glob_wbuf => exact ⟨c1, c2, rfl, fun h => h⟩
  | wbuf i =>
    obtain ⟨_, _, _, ⟨d1, d2⟩⟩ := hs i
    exact ⟨d1, d2, rfl, fun h => by simp only [Res.in_table] at h ⊢; omega⟩

theorem sizes_decl (s s1 : St) (h : decl_rel s s1) (l : List Res) :
    sizes s1.g l = sizes s.g l := by
  induction l with
  | nil => rfl
  | cons r rest ih =>
    obtain ⟨e1, e2, _⟩ := decl_rel_res s s1 h r
    simp only [sizes, e1, e2, ih]

theorem andThen_assoc {σ : Type} (x : Run (result × σ)) (k1 k2 : σ → Run (result × σ)) :
    (x.andThen k1).andThen k2 = x.andThen (fun s => (k1 s).andThen k2) := by
  cases x with
  | done a =>
    obtain ⟨r, s⟩ := a
    cases r <;> rfl
  | abort => rfl
  | spin => rfl

theorem andThen_unit {σ : Type} (y : Run (result × σ)) (k : σ → Run (result × σ)) :
    (y.andThen (fun s => Run.done (result.SUCCESS, s))).andThen k = y.andThen k := by
  cases y with
  | done a =>
    obtain ⟨r, s⟩ := a
    cases r <;> rfl
  | abort => rfl
  | spin => rfl

theorem stage_list_append (w : World) (l1 l2 : List Res) :
    ∀ s, stage_list w (l1 ++ l2) s = (stage_list w l1 s).andThen (stage_list w l2) := by
  induction l1 with
  | nil => intro s; rfl
  | cons r rest ih =>
    intro s
    rw [List.cons_append, stage_list, stage_list, andThen_assoc]
    congr 1
    funext s1
    exact ih s1

theorem stage_list_map (w : World) (body : Nat → St → Run (result × St)) (c : Nat → Res)
    (hc : ∀ i s, stage_res w (c i) s = body i s) (l : List Nat) :
    ∀ s, stage_list w (l.map c) s = for_tasks body l s := by
  induction l with
  | nil => intro s; rfl
  | cons i rest ih =>
    intro s
    rw [List.map_cons, stage_list, for_tasks, hc]
    congr 1
    funext s1
    exact ih s1

theorem andThen_single (w : World) (r : Res) (x : Run (result × St))
    (k : St → Run (result × St)) :
    (x.andThen (stage_list w [r])).andThen k = (x.andThen (stage_res w r)).andThen k := by
  rw [andThen_assoc, andThen_assoc]
  congr 1
  funext s1
  exact andThen_unit (stage_res w r s1) k

theorem stage_list_map_fun (w : World) (body : Nat → St → Run (result × St)) (c : Nat → Res)
    (hc : ∀ i s, stage_res w (c i) s = body i s) (l : List Nat) :
    stage_list w (l.map c) = for_tasks body l := by
  funext s
  exact stage_list_map w body c hc l s

/-- The staging part of `init_mem` runs the staging statements in the fixed
order. -/
theorem stage_all_eq (w : World) (s : St) :
    stage_all w s = stage_list w (stage_order s.g.ntasks) s := by
  have g1 : stage_res w Res.glob_unif = stage_glob_unif w := by funext s; rfl
  have g2 : stage_res w Res.glob_rbuf = stage_glob_rbuf w := by funext s; rfl
  have g3 : stage_res w Res.glob_wbuf = stage_glob_wbuf := by funext s; rfl
  unfold stage_all stage_order
  simp only [stage_list_append, andThen_single]
  rw [stage_list_map_fun w (stage_task_inst w) Res.inst (fun _ _ => rfl),
    stage_list_map_fun w (stage_task_unif w) Res.unif (fun _ _ => rfl),
    stage_list_map_fun w (stage_task_rbuf w) Res.rbuf (fun _ _ => rfl),
    stage_list_map_fun w stage_task_wbuf Res.wbuf (fun _ _ => rfl), g1, g2, g3]

theorem write_bytes_out (m : Nat → Nat) (a : Nat) (bs : List Nat) (x : Nat)
    (h : x < a ∨ a + bs.length ≤ x) : write_bytes m a bs x = m x := by
  unfold write_bytes
  rw [if_neg (by omega)]

theorem write_bytes_in (m : Nat → Nat) (a : Nat) (bs : List Nat) (j : Nat)
    (h : j < bs.length) : write_bytes m a bs (a + j) = bs.getD j 0 % 256 := by
  unfold write_bytes
  rw [if_pos (by omega), Nat.add_sub_cancel_left]

theorem sizes_append (g : G) (l1 l2 : List Res) :
    sizes g (l1 ++ l2) = sizes g l1 + sizes g l2 := by
  induction l1 with
  | nil => simp [sizes]
  | cons r rest ih =>
    show act (r.active g) (r.size g) + sizes g (rest ++ l2) = _
    rw [ih]
    simp only [sizes, Nat.add_assoc]

/-- The effect of one staging statement on the region: outside the range of
the resource nothing changes; inside it a file-backed resource holds the bytes
the read delivered. -/
theorem step_ok_ram (w : World) (r : Res) (s s1 : St) (h : step_ok w r s s1) :
    (∀ x, x < s.g.mem.used_sz ∨ s.g.mem.used_sz + r.size s.g ≤ x → s1.ram x = s.ram x)
      ∧ ∀ fd, r.fd s.g = some fd →
          ∃ L bytes, w.read (L ++ [Call.lseek fd, Call.read fd s.g.mem.used_sz (r.size s.g)])
                = some bytes
            ∧ ∀ j, j < r.size s.g → j < bytes.length →
                s1.ram (s.g.mem.used_sz + j) = bytes.getD j 0 % 256 := by
  obtain ⟨_, _, _, hio⟩ := h
  cases hfd : r.fd s.g with
  | none =>
    rw [hfd] at hio
    simp only at hio
    exact ⟨fun x _ => by rw [hio.1], fun fd hc => by cases hc⟩
  | some fd0 =>
    rw [hfd] at hio
    simp only at hio
    obtain ⟨bytes, hb, hram, _⟩ := hio
    refine ⟨fun x hx => ?_, fun fd hc => ?_⟩
    · rw [hram]
      refine write_bytes_out _ _ _ _ ?_
      have := List.length_take_le (r.size s.g) bytes
      omega
    · have e : fd0 = fd := Option.some.inj hc
      subst e
      refine ⟨s.log, bytes, hb, fun j hj1 hj2 => ?_⟩
      rw [hram, write_bytes_in _ _ _ _ (by rw [List.length_take]; omega)]
      rw [List.getD_eq_getElem?_getD, List.getD_eq_getElem?_getD, List.getElem?_take_of_lt hj1]

/-- Staging a list of distinct resources of the table without wrap-around: the
declarations stay, the cursor advances by the sum of the active sizes, every
active resource receives as offset the cursor plus the active sizes that
precede it in the list, offsets of other resources and the region outside the
staged range stay, and the range of a file-backed resource holds the bytes its
read delivered. -/
theorem stage_list_spec (w : World) (l : List Res) :
    ∀ s s' : St, (∀ r ∈ l, r.in_table s.g) → l.Nodup →
      s.g.mem.used_sz + sizes s.g l < 4294967296 →
      stage_list w l s = Run.done (result.SUCCESS, s') →
      decl_rel s s'
        ∧ s'.g.mem.used_sz = s.g.mem.used_sz + sizes s.g l
        ∧ (∀ r : Res, r ∉ l → r.offset s'.g = r.offset s.g)
        ∧ (∀ x, x < s.g.mem.used_sz ∨ s.g.mem.used_sz + sizes s.g l ≤ x → s'.ram x = s.ram x)
        ∧ ∀ pre r post, l = pre ++ r :: post → r.active s.g = true →
            r.offset s'.g = s.g.mem.used_sz + sizes s.g pre
              ∧ ∀ fd, r.fd s.g = some fd →
                  ∃ L bytes,
                    w.read (L ++ [Call.lseek fd, Call.read fd (r.offset s'.g) (r.size s.g)])
                        = some bytes
                      ∧ ∀ j, j < r.size s.g → j < bytes.length →
                          s'.ram (r.offset s'.g + j) = bytes.getD j 0 % 256 := by
  induction l with
  | nil =>
    intro s s' _ _ _ h
    simp only [stage_list, Run.done.injEq, Prod.mk.injEq, true_and] at h
    subst h
    refine ⟨decl_rel_refl _, by simp [sizes], fun _ _ => rfl, fun _ _ => rfl, ?_⟩
    intro pre r post hl
    exact absurd hl (by simp)
  | cons r0 rest ih =>
    intro s s' htab hnd hfit h
    rw [stage_list] at h
    obtain ⟨s1, h1, h2⟩ := andThen_success _ _ _ h
    have hd1 := stage_res_decl w r0 s _ s1 h1
    have hsz : ∀ l', sizes s1.g l' = sizes s.g l' := sizes_decl s s1 hd1
    have htab1 : ∀ r ∈ rest, r.in_table s1.g := fun r hr =>
      (decl_rel_res s s1 hd1 r).2.2.2 (htab r (List.mem_cons_of_mem _ hr))
    obtain ⟨hnot, hnd1⟩ := List.nodup_cons.1 hnd
    by_cases ha : r0.active s.g = true
    · obtain ⟨hm, ho, hoth, hio⟩ := stage_res_step w r0 s s1 (htab r0 (List.mem_cons_self _ _)) ha h1
      obtain ⟨hfr, hby⟩ := step_ok_ram w r0 s s1 ⟨hm, ho, hoth, hio⟩
      have hl0 : sizes s.g (r0 :: rest) = r0.size s.g + sizes s.g rest := by
        simp only [sizes, act, ha, if_true]
      rw [hl0] at hfit ⊢
      have hused1 : s1.g.mem.used_sz = s.g.mem.used_sz + r0.size s.g := by
        rw [hm]
        exact u32_of_lt (by omega)
      obtain ⟨i1, i2, i3, i4, i5⟩ := ih s1 s' htab1 hnd1 (by rw [hused1, hsz]; omega) h2
      rw [hused1, hsz] at i2 i4
      refine ⟨decl_rel_trans _ _ _ hd1 i1, by rw [i2]; omega, ?_, ?_, ?_⟩
      · intro r hr
        have hr0 : r ≠ r0 := fun e => hr (e ▸ List.mem_cons_self _ _)
        rw [i3 r (fun hc => hr (List.mem_cons_of_mem _ hc)), hoth r hr0]
      · intro x hx
        rw [i4 x (by omega), hfr x (by omega)]
      · intro pre r post hl hra
        cases pre with
        | nil =>
          simp only [List.nil_append, List.cons.injEq] at hl
          obtain ⟨e1, e2⟩ := hl
          subst e1
          have hoff : r0.offset s'.g = s.g.mem.used_sz := by rw [i3 r0 hnot, ho]
          refine ⟨by rw [hoff]; simp [sizes], fun fd hfd => ?_⟩
          obtain ⟨L, bytes, hb, hbytes⟩ := hby fd hfd
          refine ⟨L, bytes, by rw [hoff]; exact hb, fun j hj1 hj2 => ?_⟩
          rw [hoff, i4 _ (by omega)]
          exact hbytes j hj1 hj2
        | cons p pre' =>
          simp only [List.cons_append, List.cons.injEq] at hl
          obtain ⟨e1, e2⟩ := hl
          subst e1
          obtain ⟨d1, d2, d3, _⟩ := decl_rel_res s s1 hd1 r
          obtain ⟨j1, j2⟩ := i5 pre' r post e2 (by rw [d1]; exact hra)
          rw [hused1, hsz] at j1
          refine ⟨by rw [j1]; simp only [sizes, act, ha, if_true]; omega, fun fd hfd => ?_⟩
          obtain ⟨L, bytes, hb, hbytes⟩ := j2 fd (by rw [d3]; exact hfd)
          rw [d2] at hb hbytes
          exact ⟨L, bytes, hb, hbytes⟩
    · have ha' : r0.active s.g = false := by simpa using ha
      rw [stage_res_skip w r0 s ha'] at h1
      simp only [Run.done.injEq, Prod.mk.injEq, true_and] at h1
      subst h1
      have hl0 : sizes s.g (r0 :: rest) = sizes s.g rest := by
        simp only [sizes, act, ha', Bool.false_eq_true, if_false, Nat.zero_add]
      rw [hl0] at hfit ⊢
      obtain ⟨i1, i2, i3, i4, i5⟩ := ih s s' htab1 hnd1 hfit h2
      refine ⟨i1, i2, fun r hr => i3 r (fun hc => hr (List.mem_cons_of_mem _ hc)), i4, ?_⟩
      intro pre r post hl hra
      cases pre with
      | nil =>
        simp only [List.nil_append, List.cons.injEq] at hl
        obtain ⟨e1, e2⟩ := hl
        subst e1
        rw [ha'] at hra
        cases hra
      | cons p pre' =>
        simp only [List.cons_append, List.cons.injEq] at hl
        obtain ⟨e1, e2⟩ := hl
        subst e1
        obtain ⟨j1, j2⟩ := i5 pre' r post e2 hra
        refine ⟨by rw [j1]; simp only [sizes, act, ha', Bool.false_eq_true, if_false, Nat.zero_add],
          j2⟩

theorem stage_order_nodup (n : Nat) : (stage_order n).Nodup := by
  have hi : ∀ c : Nat → Res, Function.Injective c → ((List.range n).map c).Nodup :=
    fun c hc => (List.nodup_range n).map hc
  unfold stage_order
  simp only [List.nodup_append, List.nodup_cons, List.nodup_nil, List.not_mem_nil,
    not_false_eq_true, and_true, List.mem_append, List.mem_map, List.mem_singleton,
    List.mem_range, List.Disjoint, true_and]
  refine ⟨⟨⟨⟨⟨⟨hi _ (fun a b h => by injection h), ?_⟩, hi _ (fun a b h => by injection h), ?_⟩,
    ?_⟩, hi _ (fun a b h => by injection h), ?_⟩, ?_⟩, hi _ (fun a b h => by injection h), ?_⟩
  all_goals
    intro a ha hb
    cases a <;> ((try simp at hb); (try simp at ha))

theorem stage_order_in_table (g : G) (n : Nat) (hn : n ≤ g.task.length) :
    ∀ r ∈ stage_order n, r.in_table g := by
  intro r hr
  unfold stage_order at hr
  simp only [List.mem_append, List.mem_map, List.mem_singleton, List.mem_range] at hr
  rcases hr with (((((⟨i, hi, rfl⟩ | rfl) | ⟨i, hi, rfl⟩) | rfl) | ⟨i, hi, rfl⟩) | rfl)
    | ⟨i, hi, rfl⟩ <;>
    first
      | trivial
      | (show i < g.task.length; omega)

theorem sizes_range_succ (g : G) (c : Nat → Res) (n : Nat) :
    sizes g ((List.range (n + 1)).map c)
      = sizes g ((List.range n).map c) + act ((c n).active g) ((c n).size g) := by
  rw [List.range_succ, List.map_append, sizes_append]
  simp [sizes]

theorem sizes_tasks (g : G) (n : Nat) :
    sizes g ((List.range n).map Res.inst) + sizes g ((List.range n).map Res.unif)
        + sizes g ((List.range n).map Res.rbuf) + sizes g ((List.range n).map Res.wbuf)
      = tasks_total g n := by
  induction n with
  | zero => rfl
  | succ n ih =>
    simp only [sizes_range_succ, tasks_total, ← ih, Res.active, Res.size]
    omega

/-- The planned total is the control block plus the active sizes in the fixed
order. -/
theorem sizes_stage_order (g : G) (n : Nat) :
    sizeof_control + sizes g (stage_order n)
      = sizeof_control + act g.glob.unif.active g.glob.unif.size
        + act g.glob.rbuf.active g.glob.rbuf.size + act g.glob.wbuf.active g.glob.wbuf.size
        + tasks_total g n := by
  unfold stage_order
  simp only [sizes_append, sizes, Res.active, Res.size, ← sizes_tasks]
  omega

theorem memcpy_control_out (ram : Nat → Nat) (cntl : List (Nat × Nat)) (x : Nat)
    (hx : sizeof_control ≤ x) : memcpy_control ram cntl x = ram x :=
  (memcpy_fold ram cntl 12).2 x hx

/-- A successful `init_mem` staged the fixed order from the acquired state and
then copied the control block. -/
theorem init_mem_staged (w : World) (s s' : St)
    (hrun : init_mem w s = Run.done (result.SUCCESS, s')) :
    ∃ h b v s2, stage_list w (stage_order s.g.ntasks) (acquired s h b v)
          = Run.done (result.SUCCESS, s2)
      ∧ s'.g = s2.g ∧ s'.ram = memcpy_control s2.ram (control_block s2.g)
      ∧ s'.log = s2.log ∧ s2.g.mem.used_sz = s2.g.mem.data_sz := by
  obtain ⟨h, b, v, hflags, h1, h2, h3, _⟩ := init_mem_success w s s' hrun
  rw [init_mem_acquired w s h b v hflags h1 h2 h3] at hrun
  refine ⟨h, b, v, ?_⟩
  have hn : (acquired s h b v).g.ntasks = s.g.ntasks := rfl
  rw [← hn, ← stage_all_eq]
  cases hs : stage_all w (acquired s h b v) with
  | done a =>
    obtain ⟨r1, s2⟩ := a
    rw [hs] at hrun
    cases r1
    · simp only at hrun
      by_cases hc : s2.g.mem.used_sz ≠ s2.g.mem.data_sz
      · rw [if_pos hc] at hrun
        simp at hrun
      · rw [if_neg hc] at hrun
        simp only [Run.done.injEq, Prod.mk.injEq, true_and] at hrun
        refine ⟨s2, rfl, ?_, ?_, ?_, by simpa using hc⟩
        · rw [← hrun]
        · rw [← hrun]
        · rw [← hrun]
    · simp at hrun
    · simp at hrun
  | abort => rw [hs] at hrun; cases hrun
  | spin => rw [hs] at hrun; cases hrun

theorem decl_rel_acquired (s : St) (h b v : Nat) : decl_rel s (acquired s h b v) :=
  ⟨rfl, file_decl_refl _, file_decl_refl _, buf_decl_refl _,
    fun _ => ⟨file_decl_refl _, file_decl_refl _, file_decl_refl _, buf_decl_refl _⟩⟩

/-- The layout a successful `init_mem` leaves when the planned total is a
`u32`: the declarations are kept, the region size is the planned total, every
active resource of the fixed order lies at the control block size plus the
active sizes that precede it and ends within the region, and the range of a
file-backed resource holds the bytes its read delivered. -/
theorem init_mem_layout (w : World) (s s' : St)
    (hrun : init_mem w s = Run.done (result.SUCCESS, s'))
    (hlen : s.g.task.length = MAX_TASKS) (hn : s.g.ntasks ≤ MAX_TASKS)
    (hfit : plan_total s.g < 4294967296) :
    decl_rel s s' ∧ s'.g.mem.data_sz = plan_total s.g
      ∧ ∀ pre r post, stage_order s.g.ntasks = pre ++ r :: post → r.active s.g = true →
          r.offset s'.g = sizeof_control + sizes s.g pre
            ∧ r.offset s'.g + r.size s.g ≤ plan_total s.g
            ∧ ∀ fd, r.fd s.g = some fd →
                ∃ L bytes,
                  w.read (L ++ [Call.lseek fd, Call.read fd (r.offset s'.g) (r.size s.g)])
                      = some bytes
                    ∧ ∀ j, j < r.size s.g → j < bytes.length →
                        s'.ram (r.offset s'.g + j) = bytes.getD j 0 % 256 := by
  obtain ⟨h, b, v, s2, hst, hg, hram, _, hcur⟩ := init_mem_staged w s s' hrun
  have hdA := decl_rel_acquired s h b v
  have hszA : ∀ l, sizes (acquired s h b v).g l = sizes s.g l := sizes_decl s _ hdA
  have hplan : sizeof_control + sizes s.g (stage_order s.g.ntasks) = plan_total s.g := by
    rw [sizes_stage_order]
    rfl
  have hused : (acquired s h b v).g.mem.used_sz = sizeof_control := rfl
  obtain ⟨i1, i2, _, _, i5⟩ := stage_list_spec w (stage_order s.g.ntasks) (acquired s h b v) s2
    (stage_order_in_table _ _ (by show s.g.ntasks ≤ s.g.task.length; omega))
    (stage_order_nodup _) (by rw [hused, hszA, hplan]; exact hfit) hst
  rw [hused, hszA, hplan] at i2
  have i1' : decl_rel (acquired s h b v) s' := by
    unfold decl_rel at i1 ⊢
    rw [hg]
    exact i1
  rw [hg]
  refine ⟨decl_rel_trans _ _ _ hdA i1', by rw [← hcur, i2], ?_⟩
  intro pre r post hl hra
  obtain ⟨d1, d2, d3, _⟩ := decl_rel_res s _ hdA r
  obtain ⟨j1, j2⟩ := i5 pre r post hl (by rw [d1]; exact hra)
  rw [hused, hszA] at j1
  have hsum : sizes s.g (stage_order s.g.ntasks)
      = sizes s.g pre + (r.size s.g + sizes s.g post) := by
    rw [hl, sizes_append]
    simp only [sizes, act, hra, if_true]
  refine ⟨j1, by rw [j1, ← hplan, hsum]; omega, fun fd hfd => ?_⟩
  obtain ⟨L, bytes, hb, hbytes⟩ := j2 fd (by rw [d3]; exact hfd)
  rw [d2] at hb hbytes
  refine ⟨L, bytes, hb, fun j hj1 hj2 => ?_⟩
  rw [hram, memcpy_control_out _ _ _ (by rw [j1]; omega)]
  exact hbytes j hj1 hj2

/-- Staged bytes: after `init_mem` succeeds on a state with the twelve slots,
at most twelve tasks and a planned total below 2^32, every active file-backed
resource of the fixed order, with staged offset `o`, declared size `n` and
descriptor `fd`, was read by a seek followed by a read request of exactly `n`
bytes at `o`, lies behind the control block, and the region holds at `o + j`
the byte `j` of the answer for every `j < n` the answer delivered; when the
answer has at least `n` bytes the whole range `[o, o + n)` holds its first `n`
bytes. -/
theorem staged_file_bytes (w : World) (s s' : St) (r : Res) (fd : Nat)
    (hrun : init_mem w s = Run.done (result.SUCCESS, s'))
    (hlen : s.g.task.length = MAX_TASKS) (hn : s.g.ntasks ≤ MAX_TASKS)
    (hfit : plan_total s.g < 4294967296)
    (hr : r ∈ stage_order s.g.ntasks) (ha : r.active s.g = true) (hfd : r.fd s.g = some fd) :
    sizeof_control ≤ r.offset s'.g ∧ r.size s'.g = r.size s.g
      ∧ ∃ L bytes,
          w.read (L ++ [Call.lseek fd, Call.read fd (r.offset s'.g) (r.size s.g)]) = some bytes
            ∧ (∀ j, j < r.size s.g → j < bytes.length →
                s'.ram (r.offset s'.g + j) = bytes.getD j 0 % 256)
            ∧ (r.size s.g ≤ bytes.length →
                ∀ j, j < r.size s.g → s'.ram (r.offset s'.g + j) = bytes.getD j 0 % 256) := by
  obtain ⟨hd, _, hall⟩ := init_mem_layout w s s' hrun hlen hn hfit
  obtain ⟨pre, post, hl⟩ := List.append_of_mem hr
  obtain ⟨j1, _, j3⟩ := hall pre r post hl ha
  obtain ⟨L, bytes, hb, hbytes⟩ := j3 fd hfd
  exact ⟨by rw [j1]; omega, (decl_rel_res s s' hd r).2.1, L, bytes, hb, hbytes,
    fun hlenb j hj => hbytes j hj (by omega)⟩

/-- Staged bytes of one task with eight bytes of instructions, every request
succeeding. -/
theorem staged_file_bytes_one :
    (s_one.g.task.length = MAX_TASKS ∧ s_one.g.ntasks ≤ MAX_TASKS
        ∧ plan_total s_one.g < 4294967296 ∧ Res.inst 0 ∈ stage_order s_one.g.ntasks
        ∧ (Res.inst 0).active s_one.g = true ∧ (Res.inst 0).fd s_one.g = some 3)
      ∧ sizeof_control ≤ (Res.inst 0).offset (staged (world_ok files_zero) s_one).g
      ∧ (Res.inst 0).size (staged (world_ok files_zero) s_one).g = (Res.inst 0).size s_one.g
      ∧ ∃ L bytes,
          (world_ok files_zero).read (L ++ [Call.lseek 3,
              Call.read 3 ((Res.inst 0).offset (staged (world_ok files_zero) s_one).g)
                ((Res.inst 0).size s_one.g)]) = some bytes
            ∧ (∀ j, j < (Res.inst 0).size s_one.g → j < bytes.length →
                (staged (world_ok files_zero) s_one).ram
                    ((Res.inst 0).offset (staged (world_ok files_zero) s_one).g + j)
                  = bytes.getD j 0 % 256)
            ∧ ((Res.inst 0).size s_one.g ≤ bytes.length →
                ∀ j, j < (Res.inst 0).size s_one.g →
                  (staged (world_ok files_zero) s_one).ram
                      ((Res.inst 0).offset (staged (world_ok files_zero) s_one).g + j)
                    = bytes.getD j 0 % 256) :=
  ⟨⟨by decide, by decide, by decide, by decide, rfl, rfl⟩,
    staged_file_bytes (world_ok files_zero) s_one (staged (world_ok files_zero) s_one)
      (Res.inst 0) 3 rfl (by decide) (by decide) (by decide) (by decide) rfl rfl⟩

theorem init_file_returns (w : World) (hw : reads_ok w) (mem : gpu_mem) (file : gpu_file)
    (ram : Nat → Nat) (log : List Call) (hfit : mem.used_sz + file.size ≤ mem.data_sz)
    (hd : mem.data_sz < 4294967296) :
    ∃ x, init_file w mem file ram log = Run.done (result.SUCCESS, x) := by
  have c1 : ¬ u32 (mem.data_sz + 4294967296 - mem.used_sz) < file.size := by
    unfold u32
    omega
  obtain ⟨bytes, hb⟩ := (hw (log ++ [Call.lseek file.fd]
    ++ [Call.read file.fd mem.used_sz file.size])).2
  have hl := (hw (log ++ [Call.lseek file.fd])).1
  unfold init_file
  rw [if_neg c1]
  simp only [hl, if_true, hb]
  exact ⟨_, rfl⟩

theorem init_buf_returns (mem : gpu_mem) (buf : gpu_buf)
    (hfit : mem.used_sz + buf.size ≤ mem.data_sz) (hd : mem.data_sz < 4294967296) :
    ∃ x, init_buf mem buf = Run.done (result.SUCCESS, x) := by
  have c1 : ¬ u32 (mem.data_sz + 4294967296 - mem.used_sz) < buf.size := by
    unfold u32
    omega
  unfold init_buf
  rw [if_neg c1]
  exact ⟨_, rfl⟩

theorem stage_task_inst_returns (w : World) (hw : reads_ok w) (i : Nat) (s : St)
    (hfit : s.g.mem.used_sz + act (s.g.slot i).inst.active (s.g.slot i).inst.size
      ≤ s.g.mem.data_sz)
    (hd : s.g.mem.data_sz < 4294967296) :
    ∃ s1, stage_task_inst w i s = Run.done (result.SUCCESS, s1) := by
  unfold stage_task_inst
  by_cases ha : (s.g.slot i).inst.active = true
  · rw [if_pos ha]
    simp only [act, ha, if_true] at hfit
    obtain ⟨x, hx⟩ := init_file_returns w hw s.g.mem (s.g.slot i).inst s.ram s.log hfit hd
    rw [hx]
    exact ⟨_, rfl⟩
  · rw [if_neg ha]
    exact ⟨_, rfl⟩

theorem stage_task_unif_returns (w : World) (hw : reads_ok w) (i : Nat) (s : St)
    (hfit : s.g.mem.used_sz + act (s.g.slot i).unif.active (s.g.slot i).unif.size
      ≤ s.g.mem.data_sz)
    (hd : s.g.mem.data_sz < 4294967296) :
    ∃ s1, stage_task_unif w i s = Run.done (result.SUCCESS, s1) := by
  unfold stage_task_unif
  by_cases ha : (s.g.slot i).unif.active = true
  · rw [if_pos ha]
    simp only [act, ha, if_true] at hfit
    obtain ⟨x, hx⟩ := init_file_returns w hw s.g.mem (s.g.slot i).unif s.ram s.log hfit hd
    rw [hx]
    exact ⟨_, rfl⟩
  · rw [if_neg ha]
    exact ⟨_, rfl⟩

theorem stage_task_rbuf_returns (w : World) (hw : reads_ok w) (i : Nat) (s : St)
    (hfit : s.g.mem.used_sz + act (s.g.slot i).rbuf.active (s.g.slot i).rbuf.size
      ≤ s.g.mem.data_sz)
    (hd : s.g.mem.data_sz < 4294967296) :
    ∃ s1, stage_task_rbuf w i s = Run.done (result.SUCCESS, s1) := by
  unfold stage_task_rbuf
  by_cases ha : (s.g.slot i).rbuf.active = true
  · rw [if_pos ha]
    simp only [act, ha, if_true] at hfit
    obtain ⟨x, hx⟩ := init_file_returns w hw s.g.mem (s.g.slot i).rbuf s.ram s.log hfit hd
    rw [hx]
    exact ⟨_, rfl⟩
  · rw [if_neg ha]
    exact ⟨_, rfl⟩

theorem stage_glob_unif_returns (w : World) (hw : reads_ok w) (s : St)
    (hfit : s.g.mem.used_sz + act s.g.glob.unif.active s.g.glob.unif.size ≤ s.g.mem.data_sz)
    (hd : s.g.mem.data_sz < 4294967296) :
    ∃ s1, stage_glob_unif w s = Run.done (result.SUCCESS, s1) := by
  unfold stage_glob_unif
  by_cases ha : s.g.glob.unif.active = true
  · rw [if_pos ha]
    simp only [act, ha, if_true] at hfit
    obtain ⟨x, hx⟩ := init_file_returns w hw s.g.mem s.g.glob.unif s.ram s.log hfit hd
    rw [hx]
    exact ⟨_, rfl⟩
  · rw [if_neg ha]
    exact ⟨_, rfl⟩

theorem stage_glob_rbuf_returns (w : World) (hw : reads_ok w) (s : St)
    (hfit : s.g.mem.used_sz + act s.g.glob.rbuf.active s.g.glob.rbuf.size ≤ s.g.mem.data_sz)
    (hd : s.g.mem.data_sz < 4294967296) :
    ∃ s1, stage_glob_rbuf w s = Run.done (result.SUCCESS, s1) := by
  unfold stage_glob_rbuf
  by_cases ha : s.g.glob.rbuf.active = true
  · rw [if_pos ha]
    simp only [act, ha, if_true] at hfit
    obtain ⟨x, hx⟩ := init_file_returns w hw s.g.mem s.g.glob.rbuf s.ram s.log hfit hd
    rw [hx]
    exact ⟨_, rfl⟩
  · rw [if_neg ha]
    exact ⟨_, rfl⟩

theorem stage_task_wbuf_returns (i : Nat) (s : St)
    (hfit : s.g.mem.used_sz + act (s.g.slot i).wbuf.active (s.g.slot i).wbuf.size
      ≤ s.g.mem.data_sz)
    (hd : s.g.mem.data_sz < 4294967296) :
    ∃ s1, stage_task_wbuf i s = Run.done (result.SUCCESS, s1) := by
  unfold stage_task_wbuf
  by_cases ha : (s.g.slot i).wbuf.active = true
  · rw [if_pos ha]
    simp only [act, ha, if_true] at hfit
    obtain ⟨x, hx⟩ := init_buf_returns s.g.mem (s.g.slot i).wbuf hfit hd
    rw [hx]
    exact ⟨_, rfl⟩
  · rw [if_neg ha]
    exact ⟨_, rfl⟩

theorem stage_glob_wbuf_returns (s : St)
    (hfit : s.g.mem.used_sz + act s.g.glob.wbuf.active s.g.glob.wbuf.size ≤ s.g.mem.data_sz)
    (hd : s.g.mem.data_sz < 4294967296) :
    ∃ s1, stage_glob_wbuf s = Run.done (result.SUCCESS, s1) := by
  unfold stage_glob_wbuf
  by_cases ha : s.g.glob.wbuf.active = true
  · rw [if_pos ha]
    simp only [act, ha, if_true] at hfit
    obtain ⟨x, hx⟩ := init_buf_returns s.g.mem s.g.glob.wbuf hfit hd
    rw [hx]
    exact ⟨_, rfl⟩
  · rw [if_neg ha]
    exact ⟨_, rfl⟩

/-- One staging statement returns `SUCCESS` when the resource fits between the
cursor and the region size and the file requests succeed. -/
theorem stage_res_returns (w : World) (hw : reads_ok w) (r : Res) (s : St)
    (hfit : s.g.mem.used_sz + act (r.active s.g) (r.size s.g) ≤ s.g.mem.data_sz)
    (hd : s.g.mem.data_sz < 4294967296) :
    ∃ s1, stage_res w r s = Run.done (result.SUCCESS, s1) := by
  cases r with
  | inst i => exact stage_task_inst_returns w hw i s hfit hd
  | glob_unif => exact stage_glob_unif_returns w hw s hfit hd
  | unif i => exact stage_task_unif_returns w hw i s hfit hd
  | glob_rbuf => exact stage_glob_rbuf_returns w hw s hfit hd
  | rbuf i => exact stage_task_rbuf_returns w hw i s hfit hd
  | glob_wbuf => exact stage_glob_wbuf_returns s hfit hd
  | wbuf i => exact stage_task_wbuf_returns i s hfit hd

/-- Staging a list of resources of the table returns `SUCCESS` when the active
sizes fit between the cursor and the region size and the file requests
succeed. -/
theorem stage_list_returns (w : World) (hw : reads_ok w) (l : List Res) :
    ∀ s : St, (∀ r ∈ l, r.in_table s.g) →
      s.g.mem.used_sz + sizes s.g l ≤ s.g.mem.data_sz → s.g.mem.data_sz < 4294967296 →
      ∃ s', stage_list w l s = Run.done (result.SUCCESS, s') := by
  induction l with
  | nil => intro s _ _ _; exact ⟨s, rfl⟩
  | cons r0 rest ih =>
    intro s htab hfit hd
    simp only [sizes] at hfit
    obtain ⟨s1, h1⟩ := stage_res_returns w hw r0 s (by omega) hd
    have hd1 := stage_res_decl w r0 s _ s1 h1
    have hsz : sizes s1.g rest = sizes s.g rest := sizes_decl s s1 hd1 rest
    have htab1 : ∀ r ∈ rest, r.in_table s1.g := fun r hr =>
      (decl_rel_res s s1 hd1 r).2.2.2 (htab r (List.mem_cons_of_mem _ hr))
    have hmem : s1.g.mem.data_sz = s.g.mem.data_sz
        ∧ s1.g.mem.used_sz = s.g.mem.used_sz + act (r0.active s.g) (r0.size s.g) := by
      by_cases ha : r0.active s.g = true
      · obtain ⟨hm, _⟩ := stage_res_step w r0 s s1 (htab r0 (List.mem_cons_self _ _)) ha h1
        rw [hm]
        simp only [act, ha, if_true] at hfit ⊢
        exact ⟨trivial, u32_of_lt (by omega)⟩
      · have ha' : r0.active s.g = false := by simpa using ha
        rw [stage_res_skip w r0 s ha'] at h1
        simp only [Run.done.injEq, Prod.mk.injEq, true_and] at h1
        subst h1
        simp [act, ha']
    obtain ⟨s', h2⟩ := ih s1 htab1 (by rw [hmem.1, hmem.2, hsz]; omega) (by rw [hmem.1]; exact hd)
    refine ⟨s', ?_⟩
    rw [stage_list, h1]
    exact h2

/-- When the acquisition and every file request succeed and the planned total
is below 2^32, `init_mem` returns `SUCCESS`. -/
theorem init_mem_returns (w : World) (hw : reads_ok w) (s : St) (h b v : Nat)
    (hflags : s.g.mem.flags.alloc = false ∧ s.g.mem.flags.lock = false
      ∧ s.g.mem.flags.map = false)
    (h1 : w.mbox_alloc (log_alloc s.g.page_sz (mem_size s.g) s.log) = some h)
    (h2 : w.mbox_lock (log_lock s.g.page_sz (mem_size s.g) s.log h) = some b)
    (h3 : w.mem_map (log_map s.g.page_sz (mem_size s.g) s.log h b) = some v)
    (hlen : s.g.task.length = MAX_TASKS) (hn : s.g.ntasks ≤ MAX_TASKS)
    (hfit : plan_total s.g < 4294967296) :
    ∃ s', init_mem w s = Run.done (result.SUCCESS, s')
      ∧ s'.g.mem.used_sz = s'.g.mem.data_sz ∧ s'.g.mem.data_sz = mem_size s.g
      ∧ mem_size s.g = plan_total s.g := by
  have hdA := decl_rel_acquired s h b v
  have hszA : ∀ l, sizes (acquired s h b v).g l = sizes s.g l := sizes_decl s _ hdA
  have hplan : sizeof_control + sizes s.g (stage_order s.g.ntasks) = plan_total s.g := by
    rw [sizes_stage_order]
    rfl
  have hused : (acquired s h b v).g.mem.used_sz = sizeof_control := rfl
  have hdata : (acquired s h b v).g.mem.data_sz = mem_size s.g := rfl
  have hms := mem_size_exact s.g hfit
  have htab := stage_order_in_table (acquired s h b v).g s.g.ntasks
    (by show s.g.ntasks ≤ s.g.task.length; omega)
  obtain ⟨s2, hst⟩ := stage_list_returns w hw (stage_order s.g.ntasks) (acquired s h b v) htab
    (by rw [hused, hszA, hplan, hdata, hms]) (by rw [hdata, hms]; exact hfit)
  obtain ⟨_, i2, _⟩ := stage_list_spec w (stage_order s.g.ntasks) (acquired s h b v) s2 htab
    (stage_order_nodup _) (by rw [hused, hszA, hplan]; exact hfit) hst
  rw [hused, hszA, hplan] at i2
  have hrel := stage_all_rel w (acquired s h b v) result.SUCCESS s2
    (by rw [stage_all_eq]; exact hst)
  have hd2 : s2.g.mem.data_sz = mem_size s.g := by
    rw [hrel.2.2.2.1]
    rfl
  have hcur : ¬ (s2.g.mem.used_sz ≠ s2.g.mem.data_sz) := by
    rw [hd2, i2, hms]
    simp
  have hall : stage_all w (acquired s h b v) = Run.done (result.SUCCESS, s2) := by
    rw [stage_all_eq]
    exact hst
  refine ⟨{ s2 with ram := memcpy_control s2.ram (control_block s2.g) }, ?_, ?_, hd2, hms⟩
  · rw [init_mem_acquired w s h b v hflags h1 h2 h3, hall]
    simp only
    rw [if_neg hcur]
  · show s2.g.mem.used_sz = s2.g.mem.data_sz
    rw [hd2, i2, hms]

/-- After a successful `init_mem` with a planned total below 2^32, the ranges
of two active resources follow one another in the fixed order: the earlier one
ends where or before the later one starts, none starts inside the control
block and each ends within the region size. -/
theorem staged_ranges_ordered (w : World) (s s' : St)
    (hrun : init_mem w s = Run.done (result.SUCCESS, s'))
    (hlen : s.g.task.length = MAX_TASKS) (hn : s.g.ntasks ≤ MAX_TASKS)
    (hfit : plan_total s.g < 4294967296) (pre mid post : List Res) (r1 r2 : Res)
    (hl : stage_order s.g.ntasks = pre ++ r1 :: (mid ++ r2 :: post))
    (h1 : r1.active s.g = true) (h2 : r2.active s.g = true) :
    sizeof_control ≤ r1.offset s'.g
      ∧ r1.offset s'.g + r1.size s.g ≤ r2.offset s'.g
      ∧ r2.offset s'.g + r2.size s.g ≤ s'.g.mem.data_sz := by
  obtain ⟨_, hdata, hall⟩ := init_mem_layout w s s' hrun hlen hn hfit
  obtain ⟨a1, _, _⟩ := hall pre r1 (mid ++ r2 :: post) hl h1
  obtain ⟨b1, b2, _⟩ := hall (pre ++ r1 :: mid) r2 post
    (by rw [hl]; simp only [List.append_assoc, List.cons_append]) h2
  have e : sizes s.g (pre ++ r1 :: mid) = sizes s.g pre + (r1.size s.g + sizes s.g mid) := by
    rw [sizes_append]
    simp only [sizes, act, h1, if_true]
  rw [hdata]
  refine ⟨by rw [a1]; omega, by rw [a1, b1, e]; omega, b2⟩

end QPU
